import Mathlib

/-!
DVDVideoCodecIMX: decode buffers, frame buffer pool and decode loop

A shallow embedding of `xbmc/cores/VideoPlayer/DVDCodecs/Video/DVDVideoCodecIMX.cpp`.

* Objects of class `CDVDVideoCodecIMXBuffer` live in a heap (a list); a pointer to
  a buffer is its index, a null pointer is `none`.
* Calls into the VPU library are recorded in a log; what the library answers is
  given by an oracle, a function of the position of the call in the log.
* `unsigned int` arithmetic is arithmetic modulo `2 ^ 32`.
-/

namespace IMX

/-! ## Constants -/

/-- Modelled from the spec: the no-timestamp value `DVD_NOPTS_VALUE` of `DVDClock.h`,
which is not part of the sources at hand. Timestamps are only stored and compared for
equality, so they are represented by integers. -/
def DVD_NOPTS_VALUE : Int := -4503599627370496

/-- The macro `FRAME_ALIGN`. -/
def FRAME_ALIGN : Nat := 16

/-- The macro `RENDER_QUEUE_SIZE`. -/
def RENDER_QUEUE_SIZE : Nat := 3

/-- The constant `CDVDVideoCodecIMX::m_extraVpuBuffers`. -/
def m_extraVpuBuffers : Nat := 1 + RENDER_QUEUE_SIZE + 2

/-- The constant `CDVDVideoCodecIMX::m_maxVpuDecodeLoops`. -/
def m_maxVpuDecodeLoops : Nat := 5

/-! ## Hardware frame descriptors -/

/-- The `VpuFrameBuffer` descriptor of the VPU library: strides and plane addresses. -/
structure VpuFrameBuffer where
  nStrideY : Nat
  nStrideC : Nat
  pbufY : Nat
  pbufCb : Nat
  pbufCr : Nat
  pbufMvCol : Nat
  pbufVirtY : Nat
  pbufVirtCb : Nat
  pbufVirtCr : Nat
  pbufVirtMvCol : Nat
  pbufY_tilebot : Nat
  pbufCb_tilebot : Nat
  pbufVirtY_tilebot : Nat
  pbufVirtCb_tilebot : Nat
deriving DecidableEq, Repr, Inhabited

/-- The return codes of the VPU library. -/
inductive VpuDecRetCode where
  | VPU_DEC_RET_SUCCESS
  | VPU_DEC_RET_FAILURE
  | VPU_DEC_RET_INVALID_PARAM
  | VPU_DEC_RET_INVALID_HANDLE
  | VPU_DEC_RET_INVALID_FRAME_BUFFER
  | VPU_DEC_RET_INSUFFICIENT_FRAME_BUFFERS
  | VPU_DEC_RET_INVALID_STRIDE
  | VPU_DEC_RET_WRONG_CALL_SEQUENCE
  | VPU_DEC_RET_FAILURE_TIMEOUT
deriving DecidableEq, Repr, Inhabited

open VpuDecRetCode

/-- The `VpuMemDesc` descriptor of a block of physically contiguous memory. -/
structure VpuMemDesc where
  nSize : Int
  nPhyAddr : Nat
  nVirtAddr : Nat
  nCpuAddr : Nat
deriving DecidableEq, Repr, Inhabited

/-- The calls into the VPU library and the C allocator, as they are logged. -/
inductive VpuCall where
  | DecLoad
  | DecGetVersionInfo
  | DecQueryMem
  | malloc (size : Int)
  | free (ptr : Nat)
  | DecGetMem (size : Int)
  | DecFreeMem (desc : VpuMemDesc)
  | DecOpen
  | DecConfig (handle : Nat)
  | DecGetCapability (handle : Nat)
  | DecDecodeBuf (handle : Nat) (nSize : Int)
  | DecGetInitialInfo (handle : Nat)
  | DecRegisterFrameBuffer (handle : Nat) (frames : List VpuFrameBuffer) (num : Nat)
  | DecGetConsumedFrameInfo (handle : Nat)
  | DecGetOutputFrame (handle : Nat)
  | DecOutFrameDisplayed (handle : Nat) (frame : VpuFrameBuffer)
  | DecFlushAll (handle : Nat)
  | DecClose (handle : Nat)
  | DecUnLoad
deriving DecidableEq, Repr

/-! ## Decode buffers -/

/-- The state of one `CDVDVideoCodecIMXBuffer` object. The field `destroyed` is a
ghost field: it counts how often `delete this` ran on the object. -/
structure CDVDVideoCodecIMXBuffer where
  m_iRefs : Int
  m_pts : Int
  m_dts : Int
  m_frameBuffer : Option VpuFrameBuffer
  m_rendered : Bool
  m_previousBuffer : Option Nat
  iWidth : Int
  iHeight : Int
  pVirtAddr : Nat
  pPhysAddr : Nat
  m_fieldType : Nat
  destroyed : Nat
deriving DecidableEq, Repr

/-- The constructor `CDVDVideoCodecIMXBuffer::CDVDVideoCodecIMXBuffer()`; the base class
starts the reference count at zero. -/
def CDVDVideoCodecIMXBuffer.new : CDVDVideoCodecIMXBuffer :=
  { m_iRefs := 0, m_pts := DVD_NOPTS_VALUE, m_dts := DVD_NOPTS_VALUE,
    m_frameBuffer := none, m_rendered := false, m_previousBuffer := none,
    iWidth := 0, iHeight := 0, pVirtAddr := 0, pPhysAddr := 0, m_fieldType := 0,
    destroyed := 0 }

instance : Inhabited CDVDVideoCodecIMXBuffer := ⟨CDVDVideoCodecIMXBuffer.new⟩

/-- The heap of decode buffer objects. -/
abbrev Heap := List CDVDVideoCodecIMXBuffer

/-- Read the object a pointer refers to. -/
def read (h : Heap) (p : Nat) : CDVDVideoCodecIMXBuffer := h.getD p CDVDVideoCodecIMXBuffer.new

/-- Overwrite the object a pointer refers to. -/
def write (h : Heap) (p : Nat) (b : CDVDVideoCodecIMXBuffer) : Heap := h.set p b

/-- The method `CDVDVideoCodecIMXBuffer::SetPts`. -/
def SetPts (h : Heap) (self : Nat) (pts : Int) : Heap :=
  write h self { read h self with m_pts := pts }

/-- The method `CDVDVideoCodecIMXBuffer::SetDts`. -/
def SetDts (h : Heap) (self : Nat) (dts : Int) : Heap :=
  write h self { read h self with m_dts := dts }

/-- The method `CDVDVideoCodecIMXBuffer::Lock`: `AtomicIncrement(&m_iRefs)`. -/
def Lock (h : Heap) (self : Nat) : Heap :=
  write h self { read h self with m_iRefs := (read h self).m_iRefs + 1 }

/-- The statement `SAFE_RELEASE(m_previousBuffer)` inside a buffer method, with the
method `Release` passed as `rel`: if the pointer is set, release it and clear it. -/
def safeReleasePrevious (rel : Heap → Nat → Option (Heap × Int)) (h : Heap) (self : Nat) :
    Option Heap :=
  match (read h self).m_previousBuffer with
  | none => some h
  | some p =>
    match rel h p with
    | none => none
    | some r => some (write r.1 self { read r.1 self with m_previousBuffer := none })

/-- The method `CDVDVideoCodecIMXBuffer::Release` with a bound on the depth of the
recursion through `SAFE_RELEASE(m_previousBuffer)`; `none` when the bound is hit. -/
def ReleaseAux : Nat → Heap → Nat → Option (Heap × Int)
  | 0, _, _ => none
  | fuel + 1, h, self =>
    let count := (read h self).m_iRefs - 1
    let h1 := write h self { read h self with m_iRefs := count }
    if count = 2 then
      (safeReleasePrevious (ReleaseAux fuel) h1 self).map (fun h2 => (h2, count))
    else if count = 1 then
      if (read h1 self).m_frameBuffer ≠ none then
        let h2 := write h1 self { read h1 self with m_rendered := true }
        (safeReleasePrevious (ReleaseAux fuel) h2 self).map (fun h3 => (h3, count))
      else
        some (h1, count)
    else if count = 0 then
      some (write h1 self { read h1 self with destroyed := (read h1 self).destroyed + 1 }, count)
    else
      some (h1, count)

/-- A recursion depth that `Release` never exceeds on the given heap. -/
def releaseFuel (h : Heap) : Nat := 2 * h.length + 1

/-- The method `CDVDVideoCodecIMXBuffer::Release`: the new heap and the returned count. -/
def Release (h : Heap) (self : Nat) : Heap × Int :=
  (ReleaseAux (releaseFuel h) h self).getD (h, 0)

/-- The macro `SAFE_RELEASE(p)` applied to a pointer variable `p`: the new heap; the
variable itself is null afterwards. -/
def SAFE_RELEASE (h : Heap) (p : Option Nat) : Heap :=
  match p with
  | none => h
  | some q => (Release h q).1

/-- The statement `SAFE_RELEASE(m_previousBuffer)` inside a buffer method. -/
def SAFE_RELEASE_previous (h : Heap) (self : Nat) : Heap :=
  match (read h self).m_previousBuffer with
  | none => h
  | some p =>
    let h1 := (Release h p).1
    write h1 self { read h1 self with m_previousBuffer := none }

/-- The method `CDVDVideoCodecIMXBuffer::IsValid`. -/
def IsValid (h : Heap) (self : Nat) : Bool := (read h self).m_frameBuffer ≠ none

/-- The method `CDVDVideoCodecIMXBuffer::Rendered`. -/
def Rendered (h : Heap) (self : Nat) : Bool := (read h self).m_rendered

/-- What lies outside the session object: the heap of decode buffers and the log of
hardware calls. The field `slotReturns` is a ghost field: for every
`VPU_DecOutFrameDisplayed` that `ReleaseFramebuffer` issued, the buffer it was
issued for and the reference count of that buffer at that moment. -/
structure World where
  heap : Heap
  calls : List VpuCall
  slotReturns : List (Nat × Int)
deriving DecidableEq, Repr

/-- The method `CDVDVideoCodecIMXBuffer::ReleaseFramebuffer`; `handle` is the value of
`*handle` and `hwRet` what `VPU_DecOutFrameDisplayed` returns if it is called. -/
def ReleaseFramebuffer (hwRet : VpuDecRetCode) (w : World) (self : Nat) (handle : Nat) :
    World × VpuDecRetCode :=
  let b := read w.heap self
  let called : Option VpuFrameBuffer :=
    match b.m_frameBuffer with
    | some frame => if handle ≠ 0 then some frame else none
    | none => none
  let ret := match called with
    | some _ => hwRet
    | none => VPU_DEC_RET_FAILURE
  let calls := match called with
    | some frame => w.calls ++ [VpuCall.DecOutFrameDisplayed handle frame]
    | none => w.calls
  let slotReturns := match called with
    | some _ => w.slotReturns ++ [(self, b.m_iRefs)]
    | none => w.slotReturns
  let h1 := write w.heap self { read w.heap self with m_rendered := false }
  let h2 := write h1 self { read h1 self with m_frameBuffer := none }
  let h3 := SetPts h2 self DVD_NOPTS_VALUE
  let h4 := SAFE_RELEASE_previous h3 self
  ({ heap := h4, calls := calls, slotReturns := slotReturns }, ret)

/-- One call on a decode buffer by a holder of a reference. -/
inductive BufferOp where
  | lock
  | release
deriving DecidableEq, Repr

/-- Perform a sequence of `Lock` and `Release` calls on one buffer. -/
def runOps (h : Heap) (self : Nat) : List BufferOp → Heap
  | [] => h
  | BufferOp.lock :: ops => runOps (Lock h self) self ops
  | BufferOp.release :: ops => runOps (Release h self).1 self ops

/-- The number of `Lock` calls in a sequence. -/
def countLock (ops : List BufferOp) : Nat := ops.count BufferOp.lock

/-- The number of `Release` calls in a sequence. -/
def countRelease (ops : List BufferOp) : Nat := ops.count BufferOp.release

/-- One call of a sequence: `Lock` or `Release` on the buffer. -/
def applyOp (h : Heap) (self : Nat) : BufferOp → Heap
  | BufferOp.lock => Lock h self
  | BufferOp.release => (Release h self).1

/-- The number of `Release` calls of a sequence that bring the reference count to zero,
for a buffer whose count is `r` before the sequence. -/
def zeroReleases (r : Int) : List BufferOp → Nat
  | [] => 0
  | BufferOp.lock :: ops => zeroReleases (r + 1) ops
  | BufferOp.release :: ops => (if r - 1 = 0 then 1 else 0) + zeroReleases (r - 1) ops

/-- The buffers met when following the chain of previous buffers from `self`, at most
`n` of them. -/
def chain : Nat → Heap → Nat → List Nat
  | 0, _, _ => []
  | n + 1, h, self =>
    self :: (match (read h self).m_previousBuffer with
      | none => []
      | some p => chain n h p)

/-- The chain of previous buffers that starts at `self` does not run into a cycle. -/
def chainAcyclic (h : Heap) (self : Nat) : Prop := (chain (releaseFuel h) h self).Nodup

instance (h : Heap) (self : Nat) : Decidable (chainAcyclic h self) := by
  unfold chainAcyclic; infer_instance

/-- The part of a buffer that `Release` never changes: the frame, the timestamps, and
the rendered flag as long as the buffer refers to no frame. -/
def stableView (b : CDVDVideoCodecIMXBuffer) : Option VpuFrameBuffer × Int × Int × Bool :=
  (b.m_frameBuffer, b.m_pts, b.m_dts, if b.m_frameBuffer = none then b.m_rendered else false)

/-! ## Machine arithmetic -/

/-- The value of an `unsigned int`: reduction modulo `2 ^ 32`. -/
def u32 (x : Nat) : Nat := x % 2 ^ 32

/-- The conversion of an `int` to `unsigned int`. -/
def toUnsigned (x : Int) : Nat := (x % 2 ^ 32).toNat

/-- The conversion of an `unsigned int` to `int` (two's complement). -/
def toInt32 (x : Nat) : Int := if u32 x < 2 ^ 31 then (u32 x : Int) else (u32 x : Int) - 2 ^ 32

/-- An `int` result, wrapped to 32 bits. -/
def wrapInt (x : Int) : Int := toInt32 (toUnsigned x)

/-- The macro `Align(ptr,align)`, `(((unsigned int)ptr + (align) - 1)/(align)*(align))`,
on the `unsigned int` values of its arguments. -/
def Align (ptr : Nat) (align : Nat) : Nat :=
  u32 (u32 (u32 (u32 ptr + u32 align) + (2 ^ 32 - 1)) / u32 align * u32 align)

/-- The macro `Align2(ptr,align)`, `(((unsigned int)ptr)/(align)*(align))`. -/
def Align2 (ptr : Nat) (align : Nat) : Nat := u32 (u32 ptr / u32 align * u32 align)

/-- Pointer arithmetic `ptr + n` on a 32-bit address. -/
def ptrAdd (ptr : Nat) (n : Int) : Nat := toUnsigned ((ptr : Int) + n)

/-! ## The session: types of the VPU library -/

/-- The event flags that `VPU_DecDecodeBuf` reports, one field per bit of the mask. -/
structure VpuDecBufRetCode where
  VPU_DEC_INPUT_USED : Bool
  VPU_DEC_OUTPUT_EOS : Bool
  VPU_DEC_OUTPUT_DIS : Bool
  VPU_DEC_OUTPUT_REPEAT : Bool
  VPU_DEC_OUTPUT_MOSAIC_DIS : Bool
  VPU_DEC_NO_ENOUGH_BUF : Bool
  VPU_DEC_NO_ENOUGH_INBUF : Bool
  VPU_DEC_INIT_OK : Bool
  VPU_DEC_SKIP : Bool
  VPU_DEC_ONE_FRM_CONSUMED : Bool
  VPU_DEC_RESOLUTION_CHANGED : Bool
  VPU_DEC_FLUSH : Bool
deriving DecidableEq, Repr, Inhabited

/-- The stream parameters that `VPU_DecGetInitialInfo` reports. -/
structure VpuDecInitInfo where
  nPicWidth : Int
  nPicHeight : Int
  nInterlace : Int
  nMinFrameBufferCount : Nat
  nAddressAlignment : Int
  nMjpgSourceFormat : Int
  nQ16ShiftWidthDivHeightRatio : Int
deriving DecidableEq, Repr, Inhabited

/-- A crop rectangle of the VPU library. -/
structure VpuRect where
  nLeft : Int
  nTop : Int
  nRight : Int
  nBottom : Int
deriving DecidableEq, Repr, Inhabited

/-- The extended frame information `VpuFrameExtInfo`. -/
structure VpuFrameExtInfo where
  nFrmWidth : Int
  nFrmHeight : Int
  FrmCropRect : VpuRect
  nQ16ShiftWidthDivHeightRatio : Int
deriving DecidableEq, Repr, Inhabited

/-- What `VPU_DecGetOutputFrame` reports. -/
structure VpuDecOutFrameInfo where
  pDisplayFrameBuf : VpuFrameBuffer
  pExtInfo : VpuFrameExtInfo
  eFieldType : Nat
deriving DecidableEq, Repr, Inhabited

/-- What `VPU_DecGetConsumedFrameInfo` reports; `pFrame` may be null. -/
structure VpuDecFrameLengthInfo where
  pFrame : Option VpuFrameBuffer
  nStuffLength : Int
  nFrameLength : Int
deriving DecidableEq, Repr, Inhabited

/-- One sub block of the memory request of the VPU library; `virt` is
`MemType == VPU_MEM_VIRT`. -/
structure VpuMemSubBlock where
  nAlignment : Int
  nSize : Int
  virt : Bool
deriving DecidableEq, Repr, Inhabited

/-- The codec formats that `Decode` tells apart. -/
inductive VpuCodStd where
  | VPU_V_MPEG2
  | VPU_V_VC1_AP
  | VPU_V_XVID
  | VPU_V_VP8
  | VPU_V_AVC
  | VPU_V_other
deriving DecidableEq, Repr, Inhabited

/-- The answers of the hardware and of the C allocator. The `k`-th logged call gets the
answers at index `k`; each call reads the fields that apply to it. -/
structure Vpu where
  ret : Nat → VpuDecRetCode
  decRet : Nat → VpuDecBufRetCode
  initInfo : Nat → VpuDecInitInfo
  memDesc : Nat → VpuMemDesc
  mallocPtr : Nat → Nat
  memInfo : Nat → List VpuMemSubBlock
  handle : Nat → Nat
  capability : Nat → Int
  frameLengthInfo : Nat → VpuDecFrameLengthInfo
  outFrameInfo : Nat → VpuDecOutFrameInfo

/-! ## The session object -/

/-- The bookkeeping of allocated memory, `m_decMemInfo`: the malloc-ed blocks and the
physically contiguous blocks, each an array (null or not) with its element count. -/
structure DecMemInfo where
  nVirtNum : Nat
  virtMem : Option (List Nat)
  nPhyNum : Nat
  phyMem : Option (List VpuMemDesc)
deriving DecidableEq, Repr, Inhabited

/-- The state of a `CDVDVideoCodecIMX` object together with the world around it.
`m_outputBuffers` is an array of pointers to decode buffers; an entry that is null or
was never assigned is `none`. The field `fault` is a ghost field: it is set when a loop
over the pool calls a method through such an entry, which the source does without a
test. From there on the behaviour of the source is undefined, and a state with `fault`
set stands for no state of the source. -/
structure CDVDVideoCodecIMX where
  world : World
  m_vpuHandle : Nat
  CodecFormat : VpuCodStd
  m_decMemInfo : DecMemInfo
  m_initInfo : VpuDecInitInfo
  m_frameInfo : VpuDecOutFrameInfo
  m_vpuFrameBufferNum : Nat
  m_vpuFrameBuffers : Option (List VpuFrameBuffer)
  m_outputBuffers : Option (List (Option Nat))
  m_lastBuffer : Option Nat
  m_currentBuffer : Option Nat
  m_dropState : Bool
  m_frameCounter : Int
  m_usePTS : Bool
  m_convert_bitstream : Bool
  m_converter : Bool
  m_bytesToBeConsumed : Int
  m_previousPts : Int
  m_frameReported : Bool
  m_warnOnce : Bool := false
  fault : Bool := false
deriving DecidableEq, Repr

/-- Log a call into the VPU library or the C allocator. -/
def logCall (s : CDVDVideoCodecIMX) (c : VpuCall) : CDVDVideoCodecIMX :=
  { s with world := { s.world with calls := s.world.calls ++ [c] } }

/-- Replace the heap of decode buffers. -/
def setHeap (s : CDVDVideoCodecIMX) (h : Heap) : CDVDVideoCodecIMX :=
  { s with world := { s.world with heap := h } }

/-- The C function `realloc` on an array that is to have `n` elements. -/
def realloc {α : Type} [Inhabited α] (old : Option (List α)) (n : Nat) : List α :=
  (old.getD []).take n ++ List.replicate (n - (old.getD []).length) default

/-- Record a physically contiguous block in `m_decMemInfo`: `nPhyNum++`, `realloc`, and
the assignment of the last element. -/
def recordPhyMem (m : DecMemInfo) (d : VpuMemDesc) : DecMemInfo :=
  { m with nPhyNum := m.nPhyNum + 1,
           phyMem := some ((realloc m.phyMem (m.nPhyNum + 1)).set m.nPhyNum d) }

/-- Record a malloc-ed block in `m_decMemInfo`. -/
def recordVirtMem (m : DecMemInfo) (ptr : Nat) : DecMemInfo :=
  { m with nVirtNum := m.nVirtNum + 1,
           virtMem := some ((realloc m.virtMem (m.nVirtNum + 1)).set m.nVirtNum ptr) }

/-- The loop of `VpuFreeBuffers` over the physically contiguous blocks: every block is
handed to `VPU_DecFreeMem`; a failure is logged and remembered, the loop goes on. -/
def freePhyLoop (o : Vpu) : List VpuMemDesc → World × Bool → World × Bool
  | [], r => r
  | d :: ds, (w, ok) =>
    let vpuRet := o.ret w.calls.length
    let w1 := { w with calls := w.calls ++ [VpuCall.DecFreeMem d] }
    freePhyLoop o ds (w1, if vpuRet ≠ VPU_DEC_RET_SUCCESS then false else ok)

/-- The method `CDVDVideoCodecIMX::VpuFreeBuffers`. -/
def VpuFreeBuffers (o : Vpu) (s : CDVDVideoCodecIMX) : CDVDVideoCodecIMX × Bool :=
  let s1 : CDVDVideoCodecIMX :=
    match s.m_decMemInfo.virtMem with
    | some virtMem =>
      let frees := ((virtMem.take s.m_decMemInfo.nVirtNum).filter (fun q => q ≠ 0)).map VpuCall.free
      { s with world := { s.world with calls := s.world.calls ++ frees },
               m_decMemInfo := { s.m_decMemInfo with virtMem := none, nVirtNum := 0 } }
    | none => s
  match s1.m_decMemInfo.phyMem with
  | some phyMem =>
    let r := freePhyLoop o (phyMem.take s1.m_decMemInfo.nPhyNum) (s1.world, true)
    ({ s1 with world := r.1,
               m_decMemInfo := { s1.m_decMemInfo with phyMem := none, nPhyNum := 0 } }, r.2)
  | none => (s1, true)

/-- The method `CDVDVideoCodecIMX::VpuFindBuffer`: the first pool slot whose luma address
is `frameAddr`, or `none` for the result -1. -/
def VpuFindBuffer (s : CDVDVideoCodecIMX) (frameAddr : Nat) : Option Nat :=
  (List.range s.m_vpuFrameBufferNum).find?
    (fun i => (((s.m_vpuFrameBuffers.getD []).getD i default).pbufY == frameAddr))

/-! ## The frame buffer pool -/

/-- The sizes and strides that `VpuAllocFrameBuffers` computes before its loop. -/
structure FrameLayout where
  yStride : Int
  uvStride : Int
  ySize : Int
  uSize : Int
  vSize : Int
  mvSize : Int
  nAlign : Int
deriving DecidableEq, Repr, Inhabited

/-- The sizes before the alignment to `nAddressAlignment`; `i420` tells whether the macro
`IMX_INPUT_FORMAT_I420` is defined, and `none` is the `default:` case of the switch. -/
def planeSizes (i420 : Bool) (info : VpuDecInitInfo) : Option FrameLayout :=
  let yStride := toInt32 (Align (toUnsigned info.nPicWidth) FRAME_ALIGN)
  let ySize :=
    if info.nInterlace ≠ 0 then
      toInt32 (u32 (Align (toUnsigned info.nPicWidth) FRAME_ALIGN
        * Align (toUnsigned info.nPicHeight) (2 * FRAME_ALIGN)))
    else
      toInt32 (u32 (Align (toUnsigned info.nPicWidth) FRAME_ALIGN
        * Align (toUnsigned info.nPicHeight) FRAME_ALIGN))
  if i420 then
    if info.nMjpgSourceFormat = 0 then
      some { yStride := yStride, uvStride := Int.tdiv yStride 2, ySize := ySize,
             uSize := Int.tdiv ySize 4, vSize := Int.tdiv ySize 4, mvSize := Int.tdiv ySize 4,
             nAlign := info.nAddressAlignment }
    else if info.nMjpgSourceFormat = 1 then
      some { yStride := yStride, uvStride := Int.tdiv yStride 2, ySize := ySize,
             uSize := Int.tdiv ySize 2, vSize := Int.tdiv ySize 2, mvSize := Int.tdiv ySize 2,
             nAlign := info.nAddressAlignment }
    else if info.nMjpgSourceFormat = 3 then
      some { yStride := yStride, uvStride := yStride, ySize := ySize,
             uSize := ySize, vSize := ySize, mvSize := ySize,
             nAlign := info.nAddressAlignment }
    else
      none
  else
    some { yStride := yStride, uvStride := yStride, ySize := ySize,
           uSize := Int.tdiv ySize 2, vSize := 0, mvSize := Int.tdiv (Int.tdiv ySize 2) 2,
           nAlign := info.nAddressAlignment }

/-- The step `if(nAlign>1)` that aligns the four sizes. -/
def alignSizes (l : FrameLayout) : FrameLayout :=
  if 1 < l.nAlign then
    { l with ySize := toInt32 (Align (toUnsigned l.ySize) (toUnsigned l.nAlign)),
             uSize := toInt32 (Align (toUnsigned l.uSize) (toUnsigned l.nAlign)),
             vSize := toInt32 (Align (toUnsigned l.vSize) (toUnsigned l.nAlign)),
             mvSize := toInt32 (Align (toUnsigned l.mvSize) (toUnsigned l.nAlign)) }
  else l

/-- The base address of a block after the step `//align the base address`. -/
def alignBase (l : FrameLayout) (addr : Nat) : Nat :=
  if 1 < l.nAlign then Align (u32 addr) (toUnsigned l.nAlign) else u32 addr

/-- The body of the loop of `VpuAllocFrameBuffers` that fills `m_vpuFrameBuffers[i]`
from the block the allocator returned. -/
def fillFrameBuffer (i420 : Bool) (l : FrameLayout) (vpuMem : VpuMemDesc) : VpuFrameBuffer :=
  let ptr := alignBase l vpuMem.nPhyAddr
  let ptrVirt := alignBase l vpuMem.nVirtAddr
  { nStrideY := toUnsigned l.yStride,
    nStrideC := toUnsigned l.uvStride,
    pbufY := ptr,
    pbufCb := ptrAdd ptr l.ySize,
    pbufCr := if i420 then ptrAdd (ptrAdd ptr l.ySize) l.uSize else 0,
    pbufMvCol := ptrAdd (ptrAdd (ptrAdd ptr l.ySize) l.uSize) l.vSize,
    pbufVirtY := ptrVirt,
    pbufVirtCb := ptrAdd ptrVirt l.ySize,
    pbufVirtCr := if i420 then ptrAdd (ptrAdd ptrVirt l.ySize) l.uSize else 0,
    pbufVirtMvCol := ptrAdd (ptrAdd (ptrAdd ptrVirt l.ySize) l.uSize) l.vSize,
    pbufY_tilebot := 0,
    pbufCb_tilebot := 0,
    pbufVirtY_tilebot := 0,
    pbufVirtCb_tilebot := 0 }

/-- The request size `totalSize` of one pass of the loop of `VpuAllocFrameBuffers`. -/
def totalSize (l : FrameLayout) : Int :=
  wrapInt (l.ySize + l.uSize + l.vSize + l.mvSize + l.nAlign)

/-- One pass of the loop of `VpuAllocFrameBuffers` in which `VPU_DecGetMem` succeeds:
the block is recorded, slot `i` is filled, and a new decode buffer is created, locked
and stored in `m_outputBuffers[i]`. -/
def allocFrameStep (o : Vpu) (i420 : Bool) (l : FrameLayout) (i : Nat)
    (s : CDVDVideoCodecIMX) : CDVDVideoCodecIMX :=
  let idx := s.world.calls.length
  let s1 := logCall s (VpuCall.DecGetMem (totalSize l))
  let vpuMem : VpuMemDesc := { o.memDesc idx with nSize := totalSize l }
  let s2 := { s1 with m_decMemInfo := recordPhyMem s1.m_decMemInfo vpuMem }
  let s3 := { s2 with m_vpuFrameBuffers :=
    s2.m_vpuFrameBuffers.map (fun a => a.set i (fillFrameBuffer i420 l vpuMem)) }
  let buffer := s3.world.heap.length
  let s4 := setHeap s3 (Lock (s3.world.heap ++ [CDVDVideoCodecIMXBuffer.new]) buffer)
  { s4 with m_outputBuffers := s4.m_outputBuffers.map (fun a => a.set i (some buffer)) }

/-- The loop `for (int i=0 ; i < m_vpuFrameBufferNum; i++)` of `VpuAllocFrameBuffers`,
with `k` passes left to go from index `i`; `false` when `VPU_DecGetMem` fails. -/
def allocFrameLoop (o : Vpu) (i420 : Bool) (l : FrameLayout) :
    Nat → Nat → CDVDVideoCodecIMX → CDVDVideoCodecIMX × Bool
  | 0, _, s => (s, true)
  | k + 1, i, s =>
    if o.ret s.world.calls.length ≠ VPU_DEC_RET_SUCCESS then
      (logCall s (VpuCall.DecGetMem (totalSize l)), false)
    else
      allocFrameLoop o i420 l k (i + 1) (allocFrameStep o i420 l i s)

/-- The method `CDVDVideoCodecIMX::VpuAllocFrameBuffers`. -/
def VpuAllocFrameBuffers (o : Vpu) (i420 : Bool) (s : CDVDVideoCodecIMX) :
    CDVDVideoCodecIMX × Bool :=
  let num := s.m_initInfo.nMinFrameBufferCount + m_extraVpuBuffers
  let s1 := { s with m_vpuFrameBufferNum := num,
                     m_vpuFrameBuffers := some (List.replicate num default) }
  match planeSizes i420 s1.m_initInfo with
  | none => (s1, false)
  | some l0 =>
    let l := alignSizes l0
    let s2 := { s1 with m_outputBuffers := some (List.replicate num none) }
    allocFrameLoop o i420 l num 0 s2

/-! ## Session operations -/

/-- The pointer `m_outputBuffers[i]`. -/
def poolEntry (s : CDVDVideoCodecIMX) (i : Nat) : Option Nat :=
  (s.m_outputBuffers.getD []).getD i none

/-- The call `buffer->ReleaseFramebuffer(&m_vpuHandle)` made by the session. -/
def releaseFramebufferOf (o : Vpu) (s : CDVDVideoCodecIMX) (buffer : Nat) :
    CDVDVideoCodecIMX × VpuDecRetCode :=
  let r := ReleaseFramebuffer (o.ret s.world.calls.length) s.world buffer s.m_vpuHandle
  ({ s with world := r.1 }, r.2)

/-- The statement `SAFE_RELEASE(m_lastBuffer)`. -/
def releaseLastBuffer (s : CDVDVideoCodecIMX) : CDVDVideoCodecIMX :=
  { setHeap s (SAFE_RELEASE s.world.heap s.m_lastBuffer) with m_lastBuffer := none }

/-- The statement `SAFE_RELEASE(m_currentBuffer)`. -/
def releaseCurrentBuffer (s : CDVDVideoCodecIMX) : CDVDVideoCodecIMX :=
  { setHeap s (SAFE_RELEASE s.world.heap s.m_currentBuffer) with m_currentBuffer := none }

/-- The loop of `Dispose` over the pool: `ReleaseFramebuffer` and `SAFE_RELEASE` on every
entry below `m_vpuFrameBufferNum`. The source calls `ReleaseFramebuffer` through the
entry without a test: at a null or unassigned entry `fault` is set. -/
def disposeLoop (o : Vpu) : Nat → Nat → CDVDVideoCodecIMX → CDVDVideoCodecIMX
  | 0, _, s => s
  | k + 1, i, s =>
    match poolEntry s i with
    | none => disposeLoop o k (i + 1) { s with fault := true }
    | some buffer =>
      let s1 := (releaseFramebufferOf o s buffer).1
      let s2 := setHeap s1 (SAFE_RELEASE s1.world.heap (some buffer))
      let s3 := { s2 with m_outputBuffers := s2.m_outputBuffers.map (fun a => a.set i none) }
      disposeLoop o k (i + 1) s3

/-- The method `CDVDVideoCodecIMX::Dispose` (without the call into the display context
`g_IMXContext.Clear()`). -/
def Dispose (o : Vpu) (s : CDVDVideoCodecIMX) : CDVDVideoCodecIMX :=
  let VPU_loaded := s.m_vpuHandle ≠ 0
  let s1 := releaseCurrentBuffer (releaseLastBuffer s)
  let s2 := disposeLoop o s1.m_vpuFrameBufferNum 0 s1
  let s3 :=
    if s2.m_vpuHandle ≠ 0 then
      { logCall (logCall s2 (VpuCall.DecFlushAll s2.m_vpuHandle)) (VpuCall.DecClose s2.m_vpuHandle)
        with m_vpuHandle := 0 }
    else s2
  let s4 := { s3 with m_frameCounter := 0, m_outputBuffers := none }
  let s5 := (VpuFreeBuffers o s4).1
  let s6 := { s5 with m_vpuFrameBufferNum := 0, m_vpuFrameBuffers := none }
  let s7 := if VPU_loaded then logCall s6 VpuCall.DecUnLoad else s6
  { s7 with m_converter := false }

/-- The loop of `Reset` over the pool: `ReleaseFramebuffer` on every entry below
`m_vpuFrameBufferNum`. The source calls it through the entry without a test: at a null
or unassigned entry `fault` is set. -/
def resetLoop (o : Vpu) : Nat → Nat → CDVDVideoCodecIMX → CDVDVideoCodecIMX
  | 0, _, s => s
  | k + 1, i, s =>
    match poolEntry s i with
    | none => resetLoop o k (i + 1) { s with fault := true }
    | some buffer => resetLoop o k (i + 1) (releaseFramebufferOf o s buffer).1

/-- The method `CDVDVideoCodecIMX::Reset`. -/
def Reset (o : Vpu) (s : CDVDVideoCodecIMX) : CDVDVideoCodecIMX :=
  let s1 := releaseCurrentBuffer (releaseLastBuffer s)
  let s2 := resetLoop o s1.m_vpuFrameBufferNum 0 s1
  let s3 := { s2 with m_frameCounter := 0, m_bytesToBeConsumed := 0,
                      m_previousPts := DVD_NOPTS_VALUE }
  logCall s3 (VpuCall.DecFlushAll s3.m_vpuHandle)

/-- The loop of `VpuAllocBuffers` over the sub blocks of the memory request; `false` is
the jump to `AllocFailure`. -/
def allocBuffersLoop (o : Vpu) : List VpuMemSubBlock → CDVDVideoCodecIMX → CDVDVideoCodecIMX × Bool
  | [], s => (s, true)
  | b :: bs, s =>
    let size := wrapInt (b.nAlignment + b.nSize)
    let idx := s.world.calls.length
    if b.virt then
      let s1 := logCall s (VpuCall.malloc size)
      if o.mallocPtr idx = 0 then (s1, false)
      else
        allocBuffersLoop o bs
          { s1 with m_decMemInfo := recordVirtMem s1.m_decMemInfo (o.mallocPtr idx) }
    else
      let s1 := logCall s (VpuCall.DecGetMem size)
      if o.ret idx ≠ VPU_DEC_RET_SUCCESS then (s1, false)
      else
        allocBuffersLoop o bs
          { s1 with m_decMemInfo :=
              recordPhyMem s1.m_decMemInfo { o.memDesc idx with nSize := size } }

/-- The method `CDVDVideoCodecIMX::VpuAllocBuffers`. -/
def VpuAllocBuffers (o : Vpu) (memInfo : List VpuMemSubBlock) (s : CDVDVideoCodecIMX) :
    CDVDVideoCodecIMX × Bool :=
  let r := allocBuffersLoop o memInfo s
  if r.2 then r else ((VpuFreeBuffers o r.1).1, false)

/-- One hardware call of `VpuOpen` that must succeed: the call is logged, and `none` is
the jump to `VpuOpenError`. -/
def mustSucceed (o : Vpu) (s : CDVDVideoCodecIMX) (c : VpuCall) : Option CDVDVideoCodecIMX :=
  if o.ret s.world.calls.length ≠ VPU_DEC_RET_SUCCESS then none else some (logCall s c)

/-- The method `CDVDVideoCodecIMX::VpuOpen`. -/
def VpuOpen (o : Vpu) (s : CDVDVideoCodecIMX) : CDVDVideoCodecIMX × Bool :=
  let fail (t : CDVDVideoCodecIMX) : CDVDVideoCodecIMX × Bool := (Dispose o t, false)
  match mustSucceed o s VpuCall.DecLoad with
  | none => fail (logCall s VpuCall.DecLoad)
  | some s1 =>
  match mustSucceed o s1 VpuCall.DecGetVersionInfo with
  | none => fail (logCall s1 VpuCall.DecGetVersionInfo)
  | some s2 =>
  let memInfo := o.memInfo s2.world.calls.length
  match mustSucceed o s2 VpuCall.DecQueryMem with
  | none => fail (logCall s2 VpuCall.DecQueryMem)
  | some s3 =>
  let r := VpuAllocBuffers o memInfo s3
  if r.2 = false then fail r.1 else
  let s4 := r.1
  let handle := o.handle s4.world.calls.length
  match mustSucceed o s4 VpuCall.DecOpen with
  | none => fail (logCall s4 VpuCall.DecOpen)
  | some s5 =>
  let s6 := { s5 with m_vpuHandle := handle }
  match mustSucceed o s6 (VpuCall.DecConfig s6.m_vpuHandle) with
  | none => fail (logCall s6 (VpuCall.DecConfig s6.m_vpuHandle))
  | some s7 =>
  match mustSucceed o s7 (VpuCall.DecConfig s7.m_vpuHandle) with
  | none => fail (logCall s7 (VpuCall.DecConfig s7.m_vpuHandle))
  | some s8 =>
  match mustSucceed o s8 (VpuCall.DecConfig s8.m_vpuHandle) with
  | none => fail (logCall s8 (VpuCall.DecConfig s8.m_vpuHandle))
  | some s9 =>
  let idx := s9.world.calls.length
  let s10 := logCall s9 (VpuCall.DecGetCapability s9.m_vpuHandle)
  ({ s10 with m_frameReported :=
      if o.ret idx ≠ VPU_DEC_RET_SUCCESS then false else decide (o.capability idx ≠ 0) }, true)

/-! ## Decode -/

/-- Modelled from the spec: the status bit "decode error" of `DVDVideoCodec.h`, which is
not part of the sources at hand. -/
def VC_ERROR : Nat := 1

/-- Modelled from the spec: the status bit "more input needed" of `DVDVideoCodec.h`. -/
def VC_BUFFER : Nat := 2

/-- Modelled from the spec: the status bit "picture ready" of `DVDVideoCodec.h`. -/
def VC_PICTURE : Nat := 4

/-- Modelled from the spec: the status bit "flushed" of `DVDVideoCodec.h`. -/
def VC_FLUSHED : Nat := 16

/-- The expression `((x) + 15) & ~15` on a 32-bit `int`. -/
def roundUp16 (x : Int) : Int := toInt32 (toUnsigned (x + 15) &&& (2 ^ 32 - 16))

/-- The method `CDVDVideoCodecIMXBuffer::Queue`. -/
def Queue (h : Heap) (self : Nat) (frameInfo : VpuDecOutFrameInfo) (previous : Option Nat) :
    Heap :=
  let h1 := write h self { read h self with
    m_frameBuffer := some frameInfo.pDisplayFrameBuf,
    m_rendered := false,
    m_previousBuffer := previous }
  let h2 := match previous with
    | some p => Lock h1 p
    | none => h1
  write h2 self { read h2 self with
    iWidth := frameInfo.pExtInfo.nFrmWidth,
    iHeight := frameInfo.pExtInfo.nFrmHeight,
    pVirtAddr := frameInfo.pDisplayFrameBuf.pbufVirtY,
    pPhysAddr := frameInfo.pDisplayFrameBuf.pbufY,
    m_fieldType := frameInfo.eFieldType }

/-- The recycle scan at the start of `Decode`: `ReleaseFramebuffer` on every pool buffer
below `m_vpuFrameBufferNum` that is marked rendered. The source calls `Rendered` through
the entry without a test: at a null or unassigned entry `fault` is set. -/
def recycleLoop (o : Vpu) : Nat → Nat → CDVDVideoCodecIMX → CDVDVideoCodecIMX
  | 0, _, s => s
  | k + 1, i, s =>
    match poolEntry s i with
    | none => recycleLoop o k (i + 1) { s with fault := true }
    | some buffer =>
      if Rendered s.world.heap buffer then
        recycleLoop o k (i + 1) (releaseFramebufferOf o s buffer).1
      else
        recycleLoop o k (i + 1) s

/-- The start of one pass of the decode loop: the outstanding bytes are counted, the
hardware decodes, and the return code is looked at. `false` is the jump to
`out_error`. -/
def decodeCall (o : Vpu) (s : CDVDVideoCodecIMX) (nSize : Int) :
    CDVDVideoCodecIMX × VpuDecBufRetCode × Bool :=
  let s1 := if s.m_frameReported then
      { s with m_bytesToBeConsumed := s.m_bytesToBeConsumed + nSize } else s
  let idx := s1.world.calls.length
  let ret := o.ret idx
  let decRet := o.decRet idx
  let s2 := logCall s1 (VpuCall.DecDecodeBuf s1.m_vpuHandle nSize)
  if ret = VPU_DEC_RET_WRONG_CALL_SEQUENCE ∧ decRet.VPU_DEC_RESOLUTION_CHANGED = true then
    ((VpuFreeBuffers o s2).1, decRet, true)
  else if ret ≠ VPU_DEC_RET_SUCCESS then
    (s2, decRet, false)
  else
    (s2, decRet, true)

/-- The branch `decRet & VPU_DEC_INIT_OK || decRet & VPU_DEC_RESOLUTION_CHANGED`: the
stream parameters are fetched and the frame buffer pool is allocated and registered.
`false` is the jump to `out_error`. -/
def handleInit (o : Vpu) (i420 : Bool) (s : CDVDVideoCodecIMX) (decRet : VpuDecBufRetCode) :
    CDVDVideoCodecIMX × Bool :=
  if decRet.VPU_DEC_INIT_OK = true ∨ decRet.VPU_DEC_RESOLUTION_CHANGED = true then
    let idx := s.world.calls.length
    let s1 := logCall s (VpuCall.DecGetInitialInfo s.m_vpuHandle)
    if o.ret idx = VPU_DEC_RET_SUCCESS then
      let s2 := { s1 with m_initInfo := o.initInfo idx }
      let r := VpuAllocFrameBuffers o i420 s2
      if r.2 then
        let s3 := r.1
        let idx2 := s3.world.calls.length
        let s4 := logCall s3 (VpuCall.DecRegisterFrameBuffer s3.m_vpuHandle
          (s3.m_vpuFrameBuffers.getD []) s3.m_vpuFrameBufferNum)
        if o.ret idx2 ≠ VPU_DEC_RET_SUCCESS then (s4, false) else (s4, true)
      else
        (r.1, false)
    else
      (s1, false)
  else
    (s, true)

/-- The branch `decRet & VPU_DEC_ONE_FRM_CONSUMED`. -/
def handleConsumed (o : Vpu) (s : CDVDVideoCodecIMX) (decRet : VpuDecBufRetCode) (pts : Int) :
    CDVDVideoCodecIMX :=
  if decRet.VPU_DEC_ONE_FRM_CONSUMED = true then
    let idx := s.world.calls.length
    let frameLengthInfo := o.frameLengthInfo idx
    let s1 := logCall s (VpuCall.DecGetConsumedFrameInfo s.m_vpuHandle)
    let s2 := { s1 with m_bytesToBeConsumed :=
      s1.m_bytesToBeConsumed - (frameLengthInfo.nFrameLength + frameLengthInfo.nStuffLength) }
    match frameLengthInfo.pFrame with
    | none => s2
    | some pFrame =>
      let found := VpuFindBuffer s2 pFrame.pbufY
      let s3 := if s2.m_bytesToBeConsumed < 50 then { s2 with m_bytesToBeConsumed := 0 } else s2
      match found with
      | none => s3
      | some i =>
        match poolEntry s3 i with
        | none => s3
        | some buffer =>
          if s3.m_previousPts ≠ DVD_NOPTS_VALUE then
            { setHeap s3 (SetPts s3.world.heap buffer s3.m_previousPts) with
              m_previousPts := DVD_NOPTS_VALUE }
          else
            setHeap s3 (SetPts s3.world.heap buffer pts)
  else
    s

/-- The branch `decRet & VPU_DEC_OUTPUT_DIS`: a frame is ready to be displayed. The
result is the state, the new `retStatus`, and `false` for the jump to `out_error`. -/
def handleDisplay (o : Vpu) (s : CDVDVideoCodecIMX) (retStatus : Nat) (dts pts : Int) :
    CDVDVideoCodecIMX × Nat × Bool :=
  let idx := s.world.calls.length
  let s1 := logCall s (VpuCall.DecGetOutputFrame s.m_vpuHandle)
  if o.ret idx ≠ VPU_DEC_RET_SUCCESS then (s1, retStatus, false)
  else
    let info := o.outFrameInfo idx
    let frameInfo : VpuDecOutFrameInfo := { info with pExtInfo := { info.pExtInfo with
      nFrmWidth := roundUp16 info.pExtInfo.nFrmWidth,
      nFrmHeight := roundUp16 info.pExtInfo.nFrmHeight } }
    let s2 := { s1 with m_frameInfo := frameInfo }
    match VpuFindBuffer s2 frameInfo.pDisplayFrameBuf.pbufY with
    | none => (s2, retStatus, true)
    | some i =>
      match poolEntry s2 i with
      | none => (s2, retStatus, true)
      | some buffer =>
        let h0 := s2.world.heap
        let h1 := if s2.CodecFormat = VpuCodStd.VPU_V_VP8 then SetPts h0 buffer pts else h0
        let h2 := Lock h1 buffer
        let h3 := SetDts h2 buffer dts
        let h4 := Queue h3 buffer frameInfo s2.m_lastBuffer
        let h5 := if s2.m_usePTS then h4
          else SetDts (SetPts h4 buffer DVD_NOPTS_VALUE) buffer DVD_NOPTS_VALUE
        let h6 := SAFE_RELEASE h5 s2.m_lastBuffer
        let h7 := Lock h6 buffer
        ({ setHeap s2 h7 with m_lastBuffer := some buffer, m_currentBuffer := some buffer },
          retStatus ||| VC_PICTURE, true)

/-- The branch `decRet & VPU_DEC_OUTPUT_MOSAIC_DIS`: the frame is fetched and handed back
at once. -/
def handleMosaic (o : Vpu) (s : CDVDVideoCodecIMX) : CDVDVideoCodecIMX × Bool :=
  let idx := s.world.calls.length
  let s1 := logCall s (VpuCall.DecGetOutputFrame s.m_vpuHandle)
  if o.ret idx ≠ VPU_DEC_RET_SUCCESS then (s1, false)
  else
    let s2 := { s1 with m_frameInfo := o.outFrameInfo idx }
    let idx2 := s2.world.calls.length
    let s3 := logCall s2
      (VpuCall.DecOutFrameDisplayed s2.m_vpuHandle s2.m_frameInfo.pDisplayFrameBuf)
    if o.ret idx2 ≠ VPU_DEC_RET_SUCCESS then (s3, false) else (s3, true)

/-- The chain `if (decRet & VPU_DEC_OUTPUT_DIS) ... else if ...` of the decode loop. -/
def handleOutput (o : Vpu) (s : CDVDVideoCodecIMX) (decRet : VpuDecBufRetCode)
    (retStatus : Nat) (dts pts : Int) : CDVDVideoCodecIMX × Nat × Bool :=
  if decRet.VPU_DEC_OUTPUT_DIS then handleDisplay o s retStatus dts pts
  else if decRet.VPU_DEC_OUTPUT_MOSAIC_DIS then
    let m := handleMosaic o s
    (m.1, retStatus, m.2)
  else if decRet.VPU_DEC_OUTPUT_REPEAT then ({ s with m_dropState := true }, retStatus, true)
  else if decRet.VPU_DEC_NO_ENOUGH_BUF then (s, retStatus, true)
  else if decRet.VPU_DEC_SKIP then (s, retStatus, true)
  else if decRet.VPU_DEC_FLUSH then (Reset o s, VC_FLUSHED, true)
  else (s, retStatus, true)

/-- The decode loop `while (true)` of `Decode`, with a bound `fuel` on the number of
passes: `none` when the bound is hit, otherwise the state, the status, and `false` for
the jump to `out_error`. The local variables are the size of the input still to feed,
the pass counter and the status collected so far. -/
def decodeLoop (o : Vpu) (i420 : Bool) (dts pts : Int) :
    Nat → CDVDVideoCodecIMX → Int → Nat → Nat → Option (CDVDVideoCodecIMX × Nat × Bool)
  | 0, _, _, _, _ => none
  | fuel + 1, s, nSize, retries, retStatus =>
    let a := decodeCall o s nSize
    if a.2.2 = false then some (a.1, retStatus, false) else
    let decRet := a.2.1
    let b := handleInit o i420 a.1 decRet
    if b.2 = false then some (b.1, retStatus, false) else
    let c := handleConsumed o b.1 decRet pts
    let d := handleOutput o c decRet retStatus dts pts
    if d.2.2 = false then some (d.1, d.2.1, false) else
    if decRet.VPU_DEC_NO_ENOUGH_INBUF ∨ decRet.VPU_DEC_OUTPUT_REPEAT ∨ decRet.VPU_DEC_OUTPUT_DIS then
      some (d.1, d.2.1, true)
    else if retries + 1 ≥ m_maxVpuDecodeLoops then
      some (d.1, d.2.1, true)
    else
      decodeLoop o i420 dts pts fuel d.1 0 (retries + 1) d.2.1

/-- The end of `Decode` after the loop: on the jump to `out_error` the status is
`VC_ERROR`; otherwise an empty status becomes `VC_BUFFER`, and the presentation
timestamp is remembered while bytes are outstanding. -/
def finishDecode (pts : Int) (x : CDVDVideoCodecIMX × Nat × Bool) : CDVDVideoCodecIMX × Nat :=
  if x.2.2 = false then (x.1, VC_ERROR)
  else
    let retStatus2 := if x.2.1 = 0 then x.2.1 ||| VC_BUFFER else x.2.1
    let s5 := if x.1.m_bytesToBeConsumed > 0 then { x.1 with m_previousPts := pts } else x.1
    (s5, retStatus2)

/-- The start of `Decode`: the current buffer is released, and the decoder is opened if
it is not open. -/
def beginDecode (o : Vpu) (s : CDVDVideoCodecIMX) : CDVDVideoCodecIMX :=
  let s1 := releaseCurrentBuffer s
  if s1.m_vpuHandle = 0 then (VpuOpen o s1).1 else s1

/-- The size of the input that `Decode` feeds to the decoder: the size of the converted
packet if the bitstream converter is in use and succeeds, else the size given. -/
def demuxerBytes (s : CDVDVideoCodecIMX) (iSize : Int) (converted : Option Int) : Int :=
  if s.m_convert_bitstream = true ∧ iSize ≠ 0 then converted.getD iSize else iSize

/-- The method `CDVDVideoCodecIMX::Decode` with a bound on the passes of its loop.
`pData` tells whether the data pointer is set, `converted` is what the bitstream
converter answers (the size of the converted packet, or `none` when it fails). -/
def DecodeFuel (fuel : Nat) (o : Vpu) (i420 : Bool) (s : CDVDVideoCodecIMX) (pData : Bool)
    (iSize : Int) (converted : Option Int) (dts pts : Int) : Option (CDVDVideoCodecIMX × Nat) :=
  let s2 := beginDecode o s
  if s2.m_vpuHandle = 0 then some (s2, VC_ERROR) else
  let s3 := recycleLoop o s2.m_vpuFrameBufferNum 0 s2
  if (pData = true ∧ iSize ≠ 0) ∨ s3.m_bytesToBeConsumed ≠ 0 then
    (decodeLoop o i420 dts pts fuel s3 (demuxerBytes s3 iSize converted) 0 0).map
      (finishDecode pts)
  else
    some (finishDecode pts (s3, 0, true))

/-- The method `CDVDVideoCodecIMX::Decode`. -/
def Decode (o : Vpu) (i420 : Bool) (s : CDVDVideoCodecIMX) (pData : Bool) (iSize : Int)
    (converted : Option Int) (dts pts : Int) : CDVDVideoCodecIMX × Nat :=
  (DecodeFuel m_maxVpuDecodeLoops o i420 s pData iSize converted dts pts).getD (s, VC_ERROR)

/-- The constructor `CDVDVideoCodecIMX::CDVDVideoCodecIMX`, in an empty world; the members
that the constructor leaves alone start at zero. -/
def CDVDVideoCodecIMX.new : CDVDVideoCodecIMX :=
  { world := { heap := [], calls := [], slotReturns := [] },
    m_vpuHandle := 0,
    CodecFormat := VpuCodStd.VPU_V_other,
    m_decMemInfo := { nVirtNum := 0, virtMem := none, nPhyNum := 0, phyMem := none },
    m_initInfo := default,
    m_frameInfo := default,
    m_vpuFrameBufferNum := 0,
    m_vpuFrameBuffers := none,
    m_outputBuffers := none,
    m_lastBuffer := none,
    m_currentBuffer := none,
    m_dropState := false,
    m_frameCounter := 0,
    m_usePTS := true,
    m_convert_bitstream := false,
    m_converter := false,
    m_bytesToBeConsumed := 0,
    m_previousPts := DVD_NOPTS_VALUE,
    m_frameReported := false }

/-- The planes of a slot laid out in the block `m` end below the top of the 32-bit
address space, for the physical and for the virtual base address. -/
def planesFit (l : FrameLayout) (m : VpuMemDesc) : Prop :=
  alignBase l m.nPhyAddr + toUnsigned l.ySize + toUnsigned l.uSize + toUnsigned l.vSize
    < 2 ^ 32 ∧
  alignBase l m.nVirtAddr + toUnsigned l.ySize + toUnsigned l.uSize + toUnsigned l.vSize
    < 2 ^ 32

instance (l : FrameLayout) (m : VpuMemDesc) : Decidable (planesFit l m) := by
  unfold planesFit; infer_instance

/-- Every plane address of a slot, physical and virtual, is a multiple of `n`. -/
def planesAligned (n : Int) (fb : VpuFrameBuffer) : Prop :=
  n ∣ (fb.pbufY : Int) ∧ n ∣ (fb.pbufCb : Int) ∧ n ∣ (fb.pbufCr : Int) ∧
  n ∣ (fb.pbufMvCol : Int) ∧ n ∣ (fb.pbufVirtY : Int) ∧ n ∣ (fb.pbufVirtCb : Int) ∧
  n ∣ (fb.pbufVirtCr : Int) ∧ n ∣ (fb.pbufVirtMvCol : Int)

/-- An example of hardware: every call succeeds, every response of the decoder carries
the flags `flags`, the stream is 1920 by 1080 with alignment 4096 and a minimum of two
frame buffers, the allocator hands out blocks that are 4 MiB apart, and the frame the
decoder displays is the one that a first `Decode` on `exampleSession` puts in pool
slot 0. -/
def exampleVpu (flags : VpuDecBufRetCode) : Vpu :=
  { ret := fun _ => VPU_DEC_RET_SUCCESS,
    decRet := fun _ => flags,
    initInfo := fun _ =>
      { nPicWidth := 1920, nPicHeight := 1080, nInterlace := 0, nMinFrameBufferCount := 2,
        nAddressAlignment := 4096, nMjpgSourceFormat := 0, nQ16ShiftWidthDivHeightRatio := 65536 },
    memDesc := fun k =>
      { nSize := 0, nPhyAddr := 268435456 + 4194304 * k + 16,
        nVirtAddr := 1073741824 + 4194304 * k + 16, nCpuAddr := 0 },
    mallocPtr := fun k => 4096 + 64 * k,
    memInfo := fun _ => [{ nAlignment := 8, nSize := 1024, virt := true },
                         { nAlignment := 8, nSize := 4096, virt := false }],
    handle := fun _ => 1,
    capability := fun _ => 1,
    frameLengthInfo := fun _ => { pFrame := none, nStuffLength := 0, nFrameLength := 100 },
    outFrameInfo := fun _ =>
      { pDisplayFrameBuf := { (default : VpuFrameBuffer) with pbufY := 276828160 },
        pExtInfo := { nFrmWidth := 1920, nFrmHeight := 1080,
                      FrmCropRect := { nLeft := 0, nTop := 0, nRight := 1920, nBottom := 1080 },
                      nQ16ShiftWidthDivHeightRatio := 65536 },
        eFieldType := 0 } }

/-- The flags of a decoder response in which nothing is set. -/
def noFlags : VpuDecBufRetCode :=
  { VPU_DEC_INPUT_USED := false, VPU_DEC_OUTPUT_EOS := false, VPU_DEC_OUTPUT_DIS := false,
    VPU_DEC_OUTPUT_REPEAT := false, VPU_DEC_OUTPUT_MOSAIC_DIS := false,
    VPU_DEC_NO_ENOUGH_BUF := false, VPU_DEC_NO_ENOUGH_INBUF := false, VPU_DEC_INIT_OK := false,
    VPU_DEC_SKIP := false, VPU_DEC_ONE_FRM_CONSUMED := false,
    VPU_DEC_RESOLUTION_CHANGED := false, VPU_DEC_FLUSH := false }

/-- The flags of a decoder response that reports the initialization of the stream and a
frame ready to be displayed. -/
def initAndDisplay : VpuDecBufRetCode :=
  { noFlags with VPU_DEC_INIT_OK := true, VPU_DEC_OUTPUT_DIS := true }

/-- An example session: freshly constructed, with the stream parameters of `exampleVpu`
already fetched. -/
def exampleSession : CDVDVideoCodecIMX :=
  { CDVDVideoCodecIMX.new with m_initInfo := (exampleVpu noFlags).initInfo 0, m_vpuHandle := 1 }

/-- Whether a logged call is the hardware decode call `VPU_DecDecodeBuf`. -/
def isDecodeBuf : VpuCall → Bool
  | VpuCall.DecDecodeBuf _ _ => true
  | _ => false

/-- How often the hardware decode call was made so far. -/
def decodeCalls (s : CDVDVideoCodecIMX) : Nat := s.world.calls.countP isDecodeBuf

/-- An example of a reachable session state: on `exampleSession`, a first `Decode` has
set up the pool and delivered the buffer of slot 0, and the renderer has taken a
reference of its own on that buffer. -/
def renderingSession : CDVDVideoCodecIMX :=
  setHeap (Decode (exampleVpu initAndDisplay) false exampleSession true 100 none 0 0).1
    (Lock (Decode (exampleVpu initAndDisplay) false exampleSession true 100 none 0 0).1.world.heap 0)

/-- A pool entry is null, or its buffer is not marked rendered, or its buffer has
reference count one and no chained previous buffer. -/
def unreferencedIfRendered (h : Heap) (e : Option Nat) : Bool :=
  match e with
  | none => true
  | some b =>
    !(Rendered h b) || ((read h b).m_iRefs == 1 && (read h b).m_previousBuffer == none)

/-- Every pool buffer that is marked rendered has reference count one and no chained
previous buffer: the state in which `Release` leaves a buffer that it marks rendered. -/
def renderedUnreferenced (s : CDVDVideoCodecIMX) : Prop :=
  ∀ e ∈ s.m_outputBuffers.getD [], unreferencedIfRendered s.world.heap e = true

instance (s : CDVDVideoCodecIMX) : Decidable (renderedUnreferenced s) := by
  unfold renderedUnreferenced; infer_instance

/-- An example session with a pool of one buffer that was displayed and then released
by everybody but the session, so that `Release` marked it rendered. -/
def renderedSession : CDVDVideoCodecIMX :=
  { exampleSession with
    world := { heap := [{ CDVDVideoCodecIMXBuffer.new with
                 m_iRefs := 1, m_rendered := true, m_frameBuffer := some default }],
               calls := [], slotReturns := [] },
    m_vpuFrameBufferNum := 1,
    m_vpuFrameBuffers := some [default],
    m_outputBuffers := some [some 0] }

/-- Whether a logged call belongs to the tear-down or the allocation of the frame buffer
pool: freeing memory, fetching the stream parameters, requesting memory, registering
the frame buffers. -/
def poolCall : VpuCall → Bool
  | VpuCall.free _ => true
  | VpuCall.DecFreeMem _ => true
  | VpuCall.DecGetInitialInfo _ => true
  | VpuCall.DecGetMem _ => true
  | VpuCall.DecRegisterFrameBuffer _ _ _ => true
  | _ => false

/-- The log `c2` continues the log `c` by calls none of which belongs to the tear-down or
the allocation of the pool. -/
def quietExt (c c2 : List VpuCall) : Prop :=
  ∃ l, c2 = c ++ l ∧ ∀ e ∈ l, poolCall e = false

/-- An example of hardware for a change of resolution: the answers of `exampleVpu`,
except that the first response of the decoder reports the initialization of the
stream, every later response reports a change of resolution with the return code
`VPU_DEC_RET_WRONG_CALL_SEQUENCE`, both ask for more input, and the allocator hands
out one of eight blocks in turn (a block that was freed is handed out again). -/
def resolutionChangeVpu : Vpu :=
  { exampleVpu noFlags with
    ret := fun k => if k = 11 then VPU_DEC_RET_WRONG_CALL_SEQUENCE else VPU_DEC_RET_SUCCESS,
    decRet := fun k =>
      if k = 0 then { noFlags with VPU_DEC_INIT_OK := true, VPU_DEC_NO_ENOUGH_INBUF := true }
      else { noFlags with VPU_DEC_RESOLUTION_CHANGED := true, VPU_DEC_NO_ENOUGH_INBUF := true },
    memDesc := fun k =>
      { nSize := 0, nPhyAddr := 268435456 + 4194304 * (k % 8) + 16,
        nVirtAddr := 1073741824 + 4194304 * (k % 8) + 16, nCpuAddr := 0 } }

/-- An example of a reachable session state with a pool: on `exampleSession`, a first
`Decode` against `resolutionChangeVpu` has set up the pool. -/
def pooledSession : CDVDVideoCodecIMX :=
  (Decode resolutionChangeVpu false exampleSession true 100 none 0 0).1

/-- An example heap: a displayed buffer with `n` references that is chained to a previous
buffer with two references. -/
def chainedHeap (n : Int) : Heap :=
  [{ CDVDVideoCodecIMXBuffer.new with
      m_iRefs := n, m_frameBuffer := some default, m_previousBuffer := some 1 },
    { CDVDVideoCodecIMXBuffer.new with m_iRefs := 2 }]

/-- How many of the thresholds two and one a reference count still has to pass on its
way down. -/
def weight (r : Int) : Nat := if 3 ≤ r then 2 else if r = 2 then 1 else 0

/-- The termination measure of `Release`: every recursive call lowers it. -/
def mu (h : Heap) : Nat := (h.map (fun b => weight b.m_iRefs)).sum

/-- How many of the logged calls, the first of which has position `k` in the log, are
hardware decode calls that the decoder answered with the frame-displayable flag. -/
def displayResponsesFrom (o : Vpu) : Nat → List VpuCall → Nat
  | _, [] => 0
  | k, c :: cs =>
    (if isDecodeBuf c && (o.decRet k).VPU_DEC_OUTPUT_DIS then 1 else 0)
      + displayResponsesFrom o (k + 1) cs

/-- How many hardware decode calls of the session were answered with the
frame-displayable flag so far: the number of times the decode loop has been given a
frame to display. -/
def displayResponses (o : Vpu) (s : CDVDVideoCodecIMX) : Nat :=
  displayResponsesFrom o 0 s.world.calls

/-- One pass of the decode loop up to the test that ends the loop: the hardware decode
call and the handling of the events it reports. The result is the state, the status
collected so far, and `false` for the jump to `out_error`. -/
def decodePass (o : Vpu) (i420 : Bool) (dts pts : Int) (s : CDVDVideoCodecIMX) (nSize : Int)
    (retStatus : Nat) : CDVDVideoCodecIMX × Nat × Bool :=
  let a := decodeCall o s nSize
  if a.2.2 = false then (a.1, retStatus, false) else
  let b := handleInit o i420 a.1 a.2.1
  if b.2 = false then (b.1, retStatus, false) else
  handleOutput o (handleConsumed o b.1 a.2.1 pts) a.2.1 retStatus dts pts

/-- The test `decRet & (VPU_DEC_NO_ENOUGH_INBUF | VPU_DEC_OUTPUT_REPEAT | VPU_DEC_OUTPUT_DIS)`
that ends the decode loop. -/
def loopDone (decRet : VpuDecBufRetCode) : Bool :=
  decRet.VPU_DEC_NO_ENOUGH_INBUF || decRet.VPU_DEC_OUTPUT_REPEAT || decRet.VPU_DEC_OUTPUT_DIS

/-- The number `r` is the smallest multiple of `k` that is at least `x`. -/
def isLeastMultiple (k x r : Int) : Prop := k ∣ r ∧ x ≤ r ∧ ∀ m : Int, k ∣ m → x ≤ m → r ≤ m

/-- The number `r` is the largest multiple of `k` that is at most `x`. -/
def isGreatestMultiple (k x r : Int) : Prop := k ∣ r ∧ r ≤ x ∧ ∀ m : Int, k ∣ m → m ≤ x → m ≤ r

/-- An example of a session in which a picture was delivered: on `exampleSession`, a first
`Decode` has set up the pool and made the buffer of slot 0 the current buffer. -/
def deliveredSession : CDVDVideoCodecIMX :=
  (Decode (exampleVpu initAndDisplay) false exampleSession true 100 none 0 0).1

/-- The flags of a decoder response that reports one consumed access unit and asks for
more input. -/
def consumedFlags : VpuDecBufRetCode :=
  { noFlags with VPU_DEC_ONE_FRM_CONSUMED := true, VPU_DEC_NO_ENOUGH_INBUF := true }

/-- An example of hardware: the answers of `exampleVpu`, except that the consumed frame it
reports is the one of pool slot 0. -/
def consumedVpu : Vpu :=
  { exampleVpu consumedFlags with
    frameLengthInfo := fun _ =>
      { pFrame := some { (default : VpuFrameBuffer) with pbufY := 276828160 },
        nStuffLength := 0, nFrameLength := 100 } }

/-- An example of a session with a pending timestamp: the decoder reports consumed
frames, and a first `Decode` with presentation timestamp 40000 has set up the pool and
fed 100 bytes that were not consumed in that call. -/
def pendingSession : CDVDVideoCodecIMX :=
  (Decode (exampleVpu { noFlags with VPU_DEC_INIT_OK := true, VPU_DEC_NO_ENOUGH_INBUF := true })
    false { exampleSession with m_frameReported := true } true 100 none 0 40000).1

/-- The flags of a decoder response that asks for a flush and for more input. -/
def flushFlags : VpuDecBufRetCode :=
  { noFlags with VPU_DEC_FLUSH := true, VPU_DEC_NO_ENOUGH_INBUF := true }

/-- The flags of a decoder response that asks for a flush and for more input and reports
a skipped frame. -/
def flushAndSkipFlags : VpuDecBufRetCode :=
  { flushFlags with VPU_DEC_SKIP := true }

/-- A buffer that refers to no frame still refers to none, and a buffer without a chained
previous buffer still has none. -/
def staysCleared (a b : CDVDVideoCodecIMXBuffer) : Prop :=
  (a.m_frameBuffer = none → b.m_frameBuffer = none) ∧
  (a.m_previousBuffer = none → b.m_previousBuffer = none)

/-- A buffer that is marked rendered refers to a frame and has no chained previous
buffer: the state in which `Release` leaves a buffer that it marks rendered. -/
def settledBuffer (b : CDVDVideoCodecIMXBuffer) : Prop :=
  b.m_rendered = true → b.m_previousBuffer = none ∧ b.m_frameBuffer ≠ none

instance (b : CDVDVideoCodecIMXBuffer) : Decidable (settledBuffer b) := by
  unfold settledBuffer; infer_instance

/-- Every decode buffer of the heap that is marked rendered refers to a frame and has no
chained previous buffer. -/
def renderedSettled (h : Heap) : Prop := ∀ b ∈ h, settledBuffer b

instance (h : Heap) : Decidable (renderedSettled h) := by
  unfold renderedSettled; infer_instance

/-- The state of `Decode` after the recycle scan, before the decode loop is entered. -/
def afterScan (o : Vpu) (s : CDVDVideoCodecIMX) : CDVDVideoCodecIMX :=
  recycleLoop o (beginDecode o s).m_vpuFrameBufferNum 0 (beginDecode o s)

/-- The failures inside one pass of the decode loop that the claim on decode errors
names, for a pass that starts in the state `s` and feeds `nSize` bytes: the hardware
decode call fails other than by the resolution-change signal; or the response reports
the initialization or a change of resolution and fetching the stream info, allocating
the frame buffer pool or registering it fails; or the response reports a frame to
display and fetching the output frame fails. Each hardware call is answered by the
oracle at the position the call has in the log. -/
def decodeFails (o : Vpu) (i420 : Bool) (pts : Int) (s : CDVDVideoCodecIMX) (nSize : Int) :
    Prop :=
  (o.ret s.world.calls.length ≠ VPU_DEC_RET_SUCCESS ∧
    ¬ (o.ret s.world.calls.length = VPU_DEC_RET_WRONG_CALL_SEQUENCE ∧
      (o.decRet s.world.calls.length).VPU_DEC_RESOLUTION_CHANGED = true)) ∨
  (((o.decRet s.world.calls.length).VPU_DEC_INIT_OK = true ∨
      (o.decRet s.world.calls.length).VPU_DEC_RESOLUTION_CHANGED = true) ∧
    (o.ret (decodeCall o s nSize).1.world.calls.length ≠ VPU_DEC_RET_SUCCESS ∨
     (VpuAllocFrameBuffers o i420
        { logCall (decodeCall o s nSize).1
            (VpuCall.DecGetInitialInfo (decodeCall o s nSize).1.m_vpuHandle) with
          m_initInfo := o.initInfo (decodeCall o s nSize).1.world.calls.length }).2 = false ∨
     o.ret (VpuAllocFrameBuffers o i420
        { logCall (decodeCall o s nSize).1
            (VpuCall.DecGetInitialInfo (decodeCall o s nSize).1.m_vpuHandle) with
          m_initInfo := o.initInfo (decodeCall o s nSize).1.world.calls.length }).1.world.calls.length
        ≠ VPU_DEC_RET_SUCCESS)) ∨
  ((o.decRet s.world.calls.length).VPU_DEC_OUTPUT_DIS = true ∧
    o.ret (handleConsumed o
        (handleInit o i420 (decodeCall o s nSize).1 (o.decRet s.world.calls.length)).1
        (o.decRet s.world.calls.length) pts).world.calls.length ≠ VPU_DEC_RET_SUCCESS)

/-- An example of hardware on which every call fails. -/
def failingVpu : Vpu :=
  { exampleVpu noFlags with ret := fun _ => VPU_DEC_RET_FAILURE }

/-! ## The display context: rectangles and composition tasks -/

/-- A rectangle `CRect` with `float` coordinates. A finite `float` value is a rational
number; comparisons and the conversion of a small `int` to `float` are exact (the
values infinity and NaN are not modelled). -/
structure CRect where
  x1 : ℚ
  y1 : ℚ
  x2 : ℚ
  y2 : ℚ

/-- A rectangle `CRectInt` with `int` coordinates. -/
structure CRectInt where
  x1 : Int
  y1 : Int
  x2 : Int
  y2 : Int
deriving DecidableEq, Repr

/-- The method `CRectInt::Width`: the difference `x2 - x1`, an `int`. -/
def CRectInt.Width (r : CRectInt) : Int := wrapInt (r.x2 - r.x1)

/-- The method `CRectInt::Height`: the difference `y2 - y1`, an `int`. -/
def CRectInt.Height (r : CRectInt) : Int := wrapInt (r.y2 - r.y1)

/-- The conversion `(int)x` of a `float` to `int`: the fraction is discarded. -/
def floatToInt (x : ℚ) : Int := if 0 ≤ x then ⌊x⌋ else ⌈x⌉

/-- The method `CRect::Width` in `float` arithmetic: the exact difference, rounded by
`rnd`. -/
def CRect.Width (rnd : ℚ → ℚ) (r : CRect) : ℚ := rnd (r.x2 - r.x1)

/-- The method `CRect::Height` in `float` arithmetic. -/
def CRect.Height (rnd : ℚ → ℚ) (r : CRect) : ℚ := rnd (r.y2 - r.y1)

/-- The projection step of `PrepareTask`: every edge of the destination rectangle that
lies outside the target buffer is set to the border of the buffer, and the paired edge
of the source rectangle is moved by the overshoot times the ratio of the widths (or
heights) that the rectangles had on entry. Every `float` operation is the exact
operation followed by the rounding `rnd`; a division by zero is not modelled. The
result is the source and the destination rectangle. -/
def projectRects (rnd : ℚ → ℚ) (m_fbWidth m_fbHeight : Int) (srcRect0 dstRect0 : CRect) :
    CRect × CRect :=
  let srcWidth := CRect.Width rnd srcRect0
  let srcHeight := CRect.Height rnd srcRect0
  let dstWidth := CRect.Width rnd dstRect0
  let dstHeight := CRect.Height rnd dstRect0
  let r1 : CRect × CRect :=
    if dstRect0.x1 < 0 then
      ({ srcRect0 with x1 := rnd (srcRect0.x1 - rnd (rnd (dstRect0.x1 * srcWidth) / dstWidth)) },
       { dstRect0 with x1 := 0 })
    else (srcRect0, dstRect0)
  let r2 : CRect × CRect :=
    if r1.2.x2 > (m_fbWidth : ℚ) then
      ({ r1.1 with x2 := rnd (r1.1.x2
          - rnd (rnd (rnd (r1.2.x2 - (m_fbWidth : ℚ)) * srcWidth) / dstWidth)) },
       { r1.2 with x2 := (m_fbWidth : ℚ) })
    else r1
  let r3 : CRect × CRect :=
    if r2.2.y1 < 0 then
      ({ r2.1 with y1 := rnd (r2.1.y1 - rnd (rnd (r2.2.y1 * srcHeight) / dstHeight)) },
       { r2.2 with y1 := 0 })
    else r2
  if r3.2.y2 > (m_fbHeight : ℚ) then
    ({ r3.1 with y2 := rnd (r3.1.y2
        - rnd (rnd (rnd (r3.2.y2 - (m_fbHeight : ℚ)) * srcHeight) / dstHeight)) },
     { r3.2 with y2 := (m_fbHeight : ℚ) })
  else r3

/-- The alignment step of `PrepareTask`: the coordinates are converted to `int`, the start
edges are rounded with `Align(.,8)` and the end edges with `Align2(.,8)`. -/
def alignRect (r : CRect) : CRectInt :=
  { x1 := toInt32 (Align (toUnsigned (floatToInt r.x1)) 8),
    y1 := toInt32 (Align (toUnsigned (floatToInt r.y1)) 8),
    x2 := toInt32 (Align2 (toUnsigned (floatToInt r.x2)) 8),
    y2 := toInt32 (Align2 (toUnsigned (floatToInt r.y2)) 8) }

/-- The deinterlace methods that `setIPUMotion` tells apart; the enumeration
`EINTERLACEMETHOD` is declared outside the sources at hand. -/
inductive EINTERLACEMETHOD where
  | VS_INTERLACEMETHOD_AUTO
  | VS_INTERLACEMETHOD_IMX_ADVMOTION
  | VS_INTERLACEMETHOD_IMX_WEAVE
  | VS_INTERLACEMETHOD_other
deriving DecidableEq, Repr

/-- The motion classes of the deinterlacer. -/
inductive ipu_motion_sel where
  | MED_MOTION
  | LOW_MOTION
  | HIGH_MOTION
deriving DecidableEq, Repr

open EINTERLACEMETHOD ipu_motion_sel

/-- The function `setIPUMotion`. -/
def setIPUMotion (hasPrev : Bool) (imethod : EINTERLACEMETHOD) : ipu_motion_sel :=
  if hasPrev = true ∧ imethod = VS_INTERLACEMETHOD_IMX_WEAVE then LOW_MOTION
  else if hasPrev = true ∧
      (imethod = VS_INTERLACEMETHOD_IMX_ADVMOTION ∨ imethod = VS_INTERLACEMETHOD_AUTO) then
    MED_MOTION
  else HIGH_MOTION

/-- A crop rectangle of a composition task: position and size. The structure
`ipu_task` and its parts are declared outside the sources at hand; a field holds the
`int` value that `PrepareTask` assigns to it. -/
structure ipu_crop where
  pos_x : Int
  pos_y : Int
  w : Int
  h : Int
deriving DecidableEq, Repr

/-- The deinterlace parameters of a composition task. -/
structure ipu_deinterlace where
  enable : Bool
  motion : ipu_motion_sel
  field_fmt : Nat
deriving DecidableEq, Repr

/-- A composition task `IPUTask`. The part that `PrepareTask` fills comes first: the crop
of the input, its deinterlace parameters, the size and the crop of the output, and the
previous and the current buffer. The rest is filled by `Blit`, `DoTask`, `TileTask` and
`Process`: size, format and addresses of the input, format and address of the output,
the page and the shift. A member that `IPUTask::Zero` clears starts at zero. -/
structure IPUTask where
  input_crop : ipu_crop
  input_deinterlace : ipu_deinterlace
  output_width : Int
  output_height : Int
  output_crop : ipu_crop
  previous : Option Nat
  current : Option Nat
  input_width : Int := 0
  input_height : Int := 0
  input_format : Nat := 0
  input_paddr : Int := 0
  input_paddr_n : Int := 0
  output_format : Nat := 0
  output_paddr : Int := 0
  page : Int := 0
  shift : Bool := false
deriving DecidableEq, Repr

/-- The method `IPUTask::Zero`, which by the comment at its call fills the task with
zeros; the motion class with the value zero is `MED_MOTION`. -/
def IPUTask.Zero : IPUTask :=
  { input_crop := { pos_x := 0, pos_y := 0, w := 0, h := 0 },
    input_deinterlace := { enable := false, motion := MED_MOTION, field_fmt := 0 },
    output_width := 0, output_height := 0,
    output_crop := { pos_x := 0, pos_y := 0, w := 0, h := 0 },
    previous := none, current := none }

/-- The constant `CIMXContext::m_fbPages`, the number of framebuffer pages used for
panning. -/
def m_fbPages : Nat := 3

/-- The members of `struct fb_var_screeninfo` of the framebuffer interface that the
display context reads or writes; each is a 32-bit unsigned number. -/
structure fb_var_screeninfo where
  xres : Nat
  yres : Nat
  xres_virtual : Nat
  yres_virtual : Nat
  xoffset : Nat
  yoffset : Nat
  bits_per_pixel : Nat
  nonstd : Nat
  activate : Nat
deriving DecidableEq, Repr, Inhabited

/-- The members of `struct fb_fix_screeninfo` that the display context reads. -/
structure fb_fix_screeninfo where
  smem_start : Int
  smem_len : Int
  line_length : Int
deriving DecidableEq, Repr, Inhabited

/-- A buffer of the 2D engine, `struct g2d_buf`. -/
structure g2d_buf where
  buf_paddr : Int
  buf_size : Int
deriving DecidableEq, Repr, Inhabited

/-- The base class `CIMXBuffer` of a buffer, as the display context sees it. -/
structure CIMXBuffer where
  iWidth : Int
  iHeight : Int
  iFormat : Nat
  pPhysAddr : Int
  m_fps : ℚ
  m_convBuffer : Option g2d_buf

/-- The device files that the display context opens: `"/dev/fb0"`, the file named by
`m_deviceName`, and `"/dev/mxc_ipu"`. -/
inductive DeviceFile where
  | fb0
  | m_deviceName
  | mxc_ipu
deriving DecidableEq, Repr

/-- The calls of the display context into the devices, the 2D library and its own thread,
as they are logged. -/
inductive DisplayCall where
  | open_ (file : DeviceFile)
  | close (fd : Int)
  | munmap
  | mmap (size : Int)
  | FBIOGET_VSCREENINFO (fd : Int)
  | FBIOPUT_VSCREENINFO (fd : Int) (var : fb_var_screeninfo)
  | FBIOGET_FSCREENINFO (fd : Int)
  | FBIOBLANK (fd : Int) (unblank : Bool)
  | FBIOPAN_DISPLAY (fd : Int) (var : fb_var_screeninfo)
  | FBIO_WAITFORVSYNC (fd : Int)
  | IPU_CHECK_TASK (fd : Int)
  | IPU_QUEUE_TASK (fd : Int)
  | g2d_alloc (size : Int)
  | g2d_free
  | g2d_blit
  | g2d_finish
  | clearPages (page : Int)
  | StopThread (wait : Bool)
  | signal
  | Create
deriving DecidableEq, Repr

/-- The state of the display context `CIMXContext` and of the world around it. The first
five members are those that `PrepareTask` reads. `m_input` is the queue of tasks, with
its head first. `m_bStop` and `running` are the state of the thread of the context
(`running` is what `IsRunning()` returns). `buffers` are the buffers that tasks refer to
(a pointer is an index), `calls` is the log of the calls into the devices, and the ghost
members `pushed` and `flipped` record the tasks in the order in which `Blit` pushed them
onto the queue and in the order in which `Process` passed them to `ShowPage`. The
default of a member is the value the constructor gives it, and zero for a member that
the constructor leaves alone. -/
structure CIMXContext where
  m_srcRect : CRect
  m_dstRect : CRect
  m_fbWidth : Int
  m_fbHeight : Int
  m_currentFieldFmt : Nat
  m_fbHandle : Int := 0
  m_fbCurrentPage : Int := 0
  m_fbPhysAddr : Int := 0
  m_fbVirtAddr : Int := 0
  m_fbPhysSize : Int := 0
  m_fbPageSize : Int := 0
  m_fbLineLength : Int := 0
  m_ipuHandle : Int := 0
  m_vsync : Bool := true
  m_pageCrops : Option (List CRectInt) :=
    some (List.replicate m_fbPages { x1 := 0, y1 := 0, x2 := 0, y2 := 0 })
  m_bFbIsConfigured : Bool := false
  m_bufferCapture : Option g2d_buf := none
  m_fbVar : fb_var_screeninfo := default
  m_fps : ℚ := 0
  m_fbInterlaced : Bool := false
  m_CaptureDone : Bool := false
  m_pg : Int := 0
  m_input : List IPUTask := []
  m_bStop : Bool := false
  running : Bool := false
  buffers : List CIMXBuffer := []
  calls : List DisplayCall := []
  pushed : List IPUTask := []
  flipped : List IPUTask := []

/-- An integer that a `float` can hold: its magnitude is a 24-bit number times a power of
two. The conversion of a `float` to `int` yields such an integer. -/
def isFloatInt (n : Int) : Prop := ∃ m e : Nat, n.natAbs = m * 2 ^ e ∧ m < 2 ^ 24

/-- The initial value of the local `dstRect` of `PrepareTask`, `dest ? *dest : m_dstRect`;
`dest` is `none` for a null pointer. -/
def destinationRect (c : CIMXContext) (dest : Option CRect) : CRect :=
  match dest with
  | none => c.m_dstRect
  | some d => d

/-- The locals `srcRect` and `dstRect` of `PrepareTask` after the projection step. -/
def clampedRects (rnd : ℚ → ℚ) (c : CIMXContext) (dest : Option CRect) : CRect × CRect :=
  projectRects rnd c.m_fbWidth c.m_fbHeight c.m_srcRect (destinationRect c dest)

/-- The locals `iSrcRect` and `iDstRect` of `PrepareTask`. -/
def integerRects (rnd : ℚ → ℚ) (c : CIMXContext) (dest : Option CRect) : CRectInt × CRectInt :=
  (alignRect (clampedRects rnd c dest).1, alignRect (clampedRects rnd c dest).2)

/-- The method `CIMXContext::PrepareTask`. The configured deinterlace method of the media
settings is the parameter `m_InterlaceMethod`, and `dest` is `none` for a null
pointer. -/
def PrepareTask (rnd : ℚ → ℚ) (m_InterlaceMethod : EINTERLACEMETHOD) (c : CIMXContext)
    (source_p source : Option Nat) (dest : Option CRect) : IPUTask :=
  let ipu0 : IPUTask := { IPUTask.Zero with previous := source_p, current := source }
  let iSrcRect := (integerRects rnd c dest).1
  let iDstRect := (integerRects rnd c dest).2
  let ipu1 : IPUTask := { ipu0 with
    input_crop := { pos_x := iSrcRect.x1, pos_y := iSrcRect.y1,
                    w := iSrcRect.Width, h := iSrcRect.Height },
    output_crop := { pos_x := iDstRect.x1, pos_y := iDstRect.y1,
                     w := iDstRect.Width, h := iDstRect.Height } }
  match dest with
  | some _ =>
    { ipu1 with
      output_crop := { pos_x := 0, pos_y := 0, w := iDstRect.Width, h := iDstRect.Height },
      output_width := iDstRect.Width,
      output_height := iDstRect.Height }
  | none =>
    if c.m_currentFieldFmt ≠ 0 then
      { ipu1 with input_deinterlace :=
          { enable := true,
            motion := setIPUMotion (ipu1.previous ≠ none) m_InterlaceMethod,
            field_fmt := c.m_currentFieldFmt } }
    else ipu1

/-- A coordinate whose conversion to `int` is not negative, lies in the range of `int` and
is an integer that a `float` can hold. -/
def convertibleCoordinate (q : ℚ) : Prop :=
  0 ≤ floatToInt q ∧ floatToInt q < 2 ^ 31 ∧ isFloatInt (floatToInt q)

/-- A rectangle all of whose coordinates are convertible. -/
def CRect.convertible (r : CRect) : Prop :=
  convertibleCoordinate r.x1 ∧ convertibleCoordinate r.y1 ∧
  convertibleCoordinate r.x2 ∧ convertibleCoordinate r.y2

/-- Every coordinate of the rectangle has a magnitude of at most `2 ^ 30`, so that no
`int` arithmetic on the converted coordinates overflows. -/
def CRect.inRange (r : CRect) : Prop :=
  (-(2 ^ 30 : ℚ) ≤ r.x1 ∧ r.x1 ≤ 2 ^ 30) ∧ (-(2 ^ 30 : ℚ) ≤ r.y1 ∧ r.y1 ≤ 2 ^ 30) ∧
  (-(2 ^ 30 : ℚ) ≤ r.x2 ∧ r.x2 ≤ 2 ^ 30) ∧ (-(2 ^ 30 : ℚ) ≤ r.y2 ∧ r.y2 ≤ 2 ^ 30)

/-- An example of a display context: a framebuffer of 1920 by 1080, a source rectangle of
1000 by 500 and a destination rectangle that lies beyond the right border. -/
def offScreenContext : CIMXContext :=
  { m_srcRect := { x1 := 0, y1 := 0, x2 := 1000, y2 := 500 },
    m_dstRect := { x1 := 2000, y1 := 0, x2 := 2100, y2 := 100 },
    m_fbWidth := 1920, m_fbHeight := 1080, m_currentFieldFmt := 0 }

/-- An example of a display context: a framebuffer of 1920 by 1080, a source rectangle of
1010 by 540 and a destination rectangle whose right edge is 100 beyond the right
border. -/
def overhangContext : CIMXContext :=
  { m_srcRect := { x1 := 0, y1 := 0, x2 := 1010, y2 := 540 },
    m_dstRect := { x1 := 0, y1 := 0, x2 := 2020, y2 := 1080 },
    m_fbWidth := 1920, m_fbHeight := 1080, m_currentFieldFmt := 0 }

/-- An example of a display context: a framebuffer of 1920 by 1080 and rectangles inside
the framebuffer whose edges are not multiples of 8. -/
def unalignedContext : CIMXContext :=
  { m_srcRect := { x1 := 3, y1 := 5, x2 := 1003, y2 := 509 },
    m_dstRect := { x1 := 10, y1 := 20, x2 := 1900, y2 := 1070 },
    m_fbWidth := 1920, m_fbHeight := 1080, m_currentFieldFmt := 0 }

/-- The function `checkIPUStrideOffset`. The flags `IPU_DEINTERLACE_RATE_FRAME1`,
`RENDER_FLAG_TOP` and `RENDER_FLAG_BOT`, from which the macros `MASK1`, `MASK2`, `VAL1`
and `VAL2` are built, are declared outside the sources at hand; they are parameters. -/
def checkIPUStrideOffset (IPU_DEINTERLACE_RATE_FRAME1 RENDER_FLAG_TOP RENDER_FLAG_BOT : Nat)
    (d : ipu_deinterlace) : Bool :=
  let MASK1 := IPU_DEINTERLACE_RATE_FRAME1 ||| RENDER_FLAG_TOP
  let MASK2 := IPU_DEINTERLACE_RATE_FRAME1 ||| RENDER_FLAG_BOT
  let VAL1 := MASK1
  let VAL2 := RENDER_FLAG_BOT
  match d.motion with
  | HIGH_MOTION => (d.field_fmt &&& MASK1 == VAL1) || (d.field_fmt &&& MASK2 == VAL2)
  | MED_MOTION => d.field_fmt &&& MASK2 == VAL1
  | LOW_MOTION => true

/-- The sizes and the alignment of a layout are not negative, and they add up without
overflow of a 32-bit `int`. -/
def layoutInRange (l : FrameLayout) : Prop :=
  0 ≤ l.ySize ∧ 0 ≤ l.uSize ∧ 0 ≤ l.vSize ∧ 0 ≤ l.mvSize ∧ 0 ≤ l.nAlign ∧
  l.ySize + l.uSize + l.vSize + l.mvSize + l.nAlign < 2 ^ 31

instance (l : FrameLayout) : Decidable (layoutInRange l) := by
  unfold layoutInRange; infer_instance

/-- The block `m` of `totalSize l` bytes ends below the top of the 32-bit address space,
at its physical and at its virtual address. -/
def blockInRange (l : FrameLayout) (m : VpuMemDesc) : Prop :=
  (m.nPhyAddr : Int) + totalSize l < 2 ^ 32 ∧ (m.nVirtAddr : Int) + totalSize l < 2 ^ 32

instance (l : FrameLayout) (m : VpuMemDesc) : Decidable (blockInRange l m) := by
  unfold blockInRange; infer_instance

/-- The planes at the addresses `pY`, `pCb`, `pCr` and `pMv`, of the sizes of the layout
`l`, follow one another without a gap and lie inside the block of `size` bytes at the
address `base`: the luma plane starts at or after `base`, the chroma plane starts where
the luma plane ends, the second chroma plane (which exists with the macro
`IMX_INPUT_FORMAT_I420`) starts where the first one ends, the motion vector plane starts
where the chroma planes end, and it ends at or before the end of the block. -/
def planesInside (i420 : Bool) (l : FrameLayout) (base : Nat) (size : Int)
    (pY pCb pCr pMv : Nat) : Prop :=
  base ≤ pY ∧ (pCb : Int) = pY + l.ySize ∧ (i420 = true → (pCr : Int) = pCb + l.uSize) ∧
  (pMv : Int) = pCb + l.uSize + l.vSize ∧ (pMv : Int) + l.mvSize ≤ base + size

instance (i420 : Bool) (l : FrameLayout) (base : Nat) (size : Int) (pY pCb pCr pMv : Nat) :
    Decidable (planesInside i420 l base size pY pCb pCr pMv) := by
  unfold planesInside; infer_instance

/-! ## GetPicture -/

/-- Modelled from the spec: the picture flag "top field first" of `DVDVideoCodec.h`, which
is not part of the sources at hand. The picture flags are distinct bits. -/
def DVP_FLAG_TOP_FIELD_FIRST : Nat := 1

/-- Modelled from the spec: the picture flag "allocated" of `DVDVideoCodec.h`. -/
def DVP_FLAG_ALLOCATED : Nat := 4

/-- Modelled from the spec: the picture flag "interlaced" of `DVDVideoCodec.h`. -/
def DVP_FLAG_INTERLACED : Nat := 8

/-- Modelled from the spec: the picture flag "dropped" of `DVDVideoCodec.h`. -/
def DVP_FLAG_DROPPED : Nat := 16

/-- Modelled from the spec: the field type "progressive" of the VPU library. -/
def VPU_FIELD_NONE : Nat := 1

/-- Modelled from the spec: the field type "top" of the VPU library. -/
def VPU_FIELD_TOP : Nat := 2

/-- Modelled from the spec: the field type "top-bottom" of the VPU library. -/
def VPU_FIELD_TB : Nat := 4

/-- The render formats that `GetPicture` tells apart. -/
inductive ERenderFormat where
  | RENDER_FMT_NONE
  | RENDER_FMT_IMXMAP
deriving DecidableEq, Repr

/-- The members of the structure `DVDVideoPicture` that `GetPicture` reads or writes. -/
structure DVDVideoPicture where
  iFlags : Nat
  format : ERenderFormat
  iWidth : Int
  iHeight : Int
  iDisplayWidth : Int
  iDisplayHeight : Int
  pts : Int
  dts : Int
  IMXBuffer : Option Nat
deriving DecidableEq, Repr

/-- The first statement of `GetPicture`: a pending drop mark flags the picture as dropped
and is cleared. -/
def markDropped (s : CDVDVideoCodecIMX) (pDvdVideoPicture : DVDVideoPicture) :
    CDVDVideoCodecIMX × DVDVideoPicture :=
  if s.m_dropState then
    ({ s with m_dropState := false }, { pDvdVideoPicture with iFlags := DVP_FLAG_DROPPED })
  else (s, pDvdVideoPicture)

/-- The flags that `GetPicture` gives a picture it delivers. -/
def deliveredFlags (s : CDVDVideoCodecIMX) (buffer : Nat) : Nat :=
  let fieldType := (read s.world.heap buffer).m_fieldType
  if s.m_initInfo.nInterlace ≠ 0 then
    (if fieldType = VPU_FIELD_NONE ∧ s.m_warnOnce = true then DVP_FLAG_ALLOCATED
     else if fieldType = VPU_FIELD_TB ∨ fieldType = VPU_FIELD_TOP then
       DVP_FLAG_ALLOCATED ||| DVP_FLAG_TOP_FIELD_FIRST
     else DVP_FLAG_ALLOCATED) ||| DVP_FLAG_INTERLACED
  else DVP_FLAG_ALLOCATED

/-- The part of `GetPicture` that delivers the current buffer `buffer`: the picture is
filled in, the buffer is handed over and the session lets go of it. -/
def deliverPicture (s : CDVDVideoCodecIMX) (buffer : Nat) :
    CDVDVideoCodecIMX × DVDVideoPicture :=
  let fieldType := (read s.world.heap buffer).m_fieldType
  let warn : Bool := s.m_initInfo.nInterlace ≠ 0 ∧ fieldType = VPU_FIELD_NONE
    ∧ s.m_warnOnce = true
  let crop := s.m_frameInfo.pExtInfo.FrmCropRect
  let iWidth := wrapInt (crop.nRight - crop.nLeft)
  let iHeight := wrapInt (crop.nBottom - crop.nTop)
  ({ s with m_warnOnce := if warn then false else s.m_warnOnce, m_currentBuffer := none },
   { iFlags := deliveredFlags s buffer,
     format := ERenderFormat.RENDER_FMT_IMXMAP,
     iWidth := iWidth,
     iHeight := iHeight,
     iDisplayWidth :=
       wrapInt (wrapInt (iWidth * s.m_frameInfo.pExtInfo.nQ16ShiftWidthDivHeightRatio)
         + 32767) / 65536,
     iDisplayHeight := iHeight,
     pts := (read s.world.heap buffer).m_pts,
     dts := (read s.world.heap buffer).m_dts,
     IMXBuffer := some buffer })

/-- The method `CDVDVideoCodecIMX::GetPicture`, which always returns `true`; the result
`none` is the dereference of the null pointer `m_currentBuffer`. The counter
`m_frameCounter` is a 32-bit `int`. -/
def GetPicture (s : CDVDVideoCodecIMX) (pDvdVideoPicture : DVDVideoPicture) :
    Option (CDVDVideoCodecIMX × DVDVideoPicture) :=
  let a := markDropped s pDvdVideoPicture
  let s2 := { a.1 with m_frameCounter := wrapInt (a.1.m_frameCounter + 1) }
  if a.1.m_frameCounter ≠ 0 ∧ a.2.iFlags = DVP_FLAG_DROPPED then
    some (releaseCurrentBuffer s2, a.2)
  else
    match s2.m_currentBuffer with
    | none => none
    | some buffer => some (deliverPicture s2 buffer)

/-- The flags of a decoder response that reports the initialization of the stream and asks
for the repetition of a frame. -/
def initAndRepeat : VpuDecBufRetCode :=
  { noFlags with VPU_DEC_INIT_OK := true, VPU_DEC_OUTPUT_REPEAT := true }

/-- An example of a session at the start of a stream: on `exampleSession`, a first `Decode`
has set up the pool and was answered with the request to repeat a frame. -/
def repeatSession : CDVDVideoCodecIMX :=
  (Decode (exampleVpu initAndRepeat) false exampleSession true 100 none 0 0).1

/-- An example of a session with the first picture of a stream: on `repeatSession`, a
second `Decode` was answered with a frame to display. -/
def firstPictureSession : CDVDVideoCodecIMX :=
  (Decode (exampleVpu { noFlags with VPU_DEC_OUTPUT_DIS := true }) false repeatSession
    true 100 none 0 0).1

/-- An example of a picture structure, filled with zeros. -/
def emptyPicture : DVDVideoPicture :=
  { iFlags := 0, format := ERenderFormat.RENDER_FMT_NONE, iWidth := 0, iHeight := 0,
    iDisplayWidth := 0, iDisplayHeight := 0, pts := 0, dts := 0, IMXBuffer := none }

/-- An example of hardware: the answers of `exampleVpu` with an initialization of the
stream, except that the third request for a block of frame memory fails. -/
def allocFailVpu : Vpu :=
  { exampleVpu { noFlags with VPU_DEC_INIT_OK := true } with
    ret := fun k => if k = 4 then VPU_DEC_RET_FAILURE else VPU_DEC_RET_SUCCESS }

/-- What a pass of the decode loop leaves of the current buffer and the status: no current
buffer and a status without the picture-ready bit (empty or flushed), or a current
buffer, no jump to `out_error` and a status with the picture-ready bit. -/
def pictureHeld (r : CDVDVideoCodecIMX × Nat × Bool) : Prop :=
  (r.1.m_currentBuffer = none ∧ (r.2.1 = 0 ∨ r.2.1 = VC_FLUSHED)) ∨
  (r.1.m_currentBuffer ≠ none ∧ r.2.2 = true ∧
    (r.2.1 = VC_PICTURE ∨ r.2.1 = VC_FLUSHED ||| VC_PICTURE))

/-! ## The display context: devices, reconfiguration, tasks and page flips -/

/-- The macro `_4CC(c1,c2,c3,c4)`. -/
def _4CC (c1 c2 c3 c4 : Char) : Nat :=
  (c4.toNat <<< 24) ||| (c3.toNat <<< 16) ||| (c2.toNat <<< 8) ||| c1.toNat

/-- Modelled from the spec: the value `FB_ACTIVATE_NOW` of the framebuffer interface, which
is not part of the sources at hand. -/
def FB_ACTIVATE_NOW : Nat := 0

/-- Modelled from the spec: the value `FB_ACTIVATE_VBL` of the framebuffer interface. -/
def FB_ACTIVATE_VBL : Nat := 16

/-- What the IPU driver answers to `IPU_CHECK_TASK`, as far as `DoTask` tells the answers
apart: `minusOne` is the answer -1 and `other` is every answer that the `default:` case
takes. In the header of the driver, which is not part of the sources at hand, the four
split errors are above `IPU_CHECK_ERR_MIN` and `IPU_CHECK_OK` is below it. -/
inductive IpuCheck where
  | IPU_CHECK_OK
  | IPU_CHECK_ERR_SPLIT_INPUTW_OVER
  | IPU_CHECK_ERR_SPLIT_INPUTH_OVER
  | IPU_CHECK_ERR_SPLIT_OUTPUTW_OVER
  | IPU_CHECK_ERR_SPLIT_OUTPUTH_OVER
  | minusOne
  | other
deriving DecidableEq, Repr

/-- The surroundings of the display context. The answers of the devices and of the 2D
library: the `k`-th logged call gets the answers at index `k`, each call reads the
fields that apply to it (`ret` is the return value of `open` and `ioctl`). And what is
declared outside the sources at hand: the macro `RENDER_USE_G2D`, the method
`IsDoubleRate` as a function of `m_currentFieldFmt`, the configured deinterlace method,
the rounding of `float` arithmetic, the flags of the field format, and the page numbers
`RENDER_TASK_AUTOPAGE` and `RENDER_TASK_CAPTURE`. -/
structure Surroundings where
  ret : Nat → Int
  fbVar : Nat → fb_var_screeninfo
  fbFix : Nat → fb_fix_screeninfo
  mapAddr : Nat → Int
  g2dBuf : Nat → Option g2d_buf
  ipuCheck : Nat → IpuCheck
  RENDER_USE_G2D : Bool
  IsDoubleRate : Nat → Bool
  m_InterlaceMethod : EINTERLACEMETHOD
  rnd : ℚ → ℚ
  IPU_DEINTERLACE_RATE_FRAME1 : Nat
  RENDER_FLAG_TOP : Nat
  RENDER_FLAG_BOT : Nat
  RENDER_TASK_AUTOPAGE : Int
  RENDER_TASK_CAPTURE : Int

/-- Log a call of the display context. -/
def logDisplay (c : CIMXContext) (x : DisplayCall) : CIMXContext :=
  { c with calls := c.calls ++ [x] }

/-- The method `CIMXContext::Clear`: the pages are filled with black when the framebuffer
is mapped, the page is in range and the pixel format is one of the two known ones. -/
def Clear (c : CIMXContext) (page : Int) : CIMXContext :=
  if c.m_fbVirtAddr = 0 then c
  else if page < 0 ∨ page < (m_fbPages : Int) then
    if c.m_fbVar.nonstd = _4CC 'R' 'G' 'B' '4' ∨ c.m_fbVar.nonstd = _4CC 'Y' 'U' 'Y' 'V' then
      logDisplay c (DisplayCall.clearPages page)
    else c
  else c

/-- The method `CIMXContext::MemMap`; `fb_fix` is `none` for a null pointer. -/
def MemMap (e : Surroundings) (c : CIMXContext) (fb_fix : Option fb_fix_screeninfo) :
    CIMXContext :=
  if c.m_fbVirtAddr ≠ 0 ∧ c.m_fbPhysSize ≠ 0 then
    { logDisplay c DisplayCall.munmap with m_fbVirtAddr := 0, m_fbPhysAddr := 0 }
  else
    match fb_fix with
    | none => c
    | some f =>
      let idx := c.calls.length
      let c1 := logDisplay c (DisplayCall.mmap f.smem_len)
      Clear { c1 with
        m_fbLineLength := f.line_length,
        m_fbPhysSize := f.smem_len,
        m_fbPageSize := Int.tdiv (wrapInt (f.line_length * (c1.m_fbVar.yres_virtual : Int)))
          (m_fbPages : Int),
        m_fbPhysAddr := f.smem_start,
        m_fbVirtAddr := e.mapAddr idx,
        m_fbCurrentPage := 0 } (-1)

/-- The method `CIMXContext::OpenDevices`. -/
def OpenDevices (e : Surroundings) (c : CIMXContext) : CIMXContext × Bool :=
  let fd := e.ret c.calls.length
  let c1 := logDisplay c (DisplayCall.open_ DeviceFile.m_deviceName)
  let c2 := { c1 with m_fbHandle := if fd < 0 then 0 else fd }
  (c2, decide (c2.m_fbHandle > 0))

/-- The method `CIMXContext::CloseDevices`. -/
def CloseDevices (c : CIMXContext) : CIMXContext :=
  let c1 := if c.m_fbHandle ≠ 0 then
      { logDisplay c (DisplayCall.close c.m_fbHandle) with m_fbHandle := 0 } else c
  if c1.m_ipuHandle ≠ 0 then
    { logDisplay c1 (DisplayCall.close c1.m_ipuHandle) with m_ipuHandle := 0 } else c1

/-- The method `CIMXContext::GetFBInfo`: the variable screen info that the device
reports, or `none` when the method returns `false`. -/
def GetFBInfo (e : Surroundings) (c : CIMXContext) (fbdev : DeviceFile) :
    CIMXContext × Option fb_var_screeninfo :=
  let fb := e.ret c.calls.length
  let c1 := logDisplay c (DisplayCall.open_ fbdev)
  if fb < 0 then (c1, none)
  else
    let idx := c1.calls.length
    let c2 := logDisplay c1 (DisplayCall.FBIOGET_VSCREENINFO fb)
    let c3 := logDisplay c2 (DisplayCall.close fb)
    if e.ret idx < 0 then (c3, none) else (c3, some (e.fbVar idx))

/-- The method `CIMXContext::Blank`. -/
def Blank (e : Surroundings) (c : CIMXContext) : CIMXContext × Bool :=
  if c.m_fbHandle = 0 then (c, false)
  else
    let idx := c.calls.length
    ({ logDisplay c (DisplayCall.FBIOBLANK c.m_fbHandle false) with m_bFbIsConfigured := false },
      decide (e.ret idx = 0))

/-- The method `CIMXContext::Unblank`. -/
def Unblank (e : Surroundings) (c : CIMXContext) : CIMXContext × Bool :=
  if c.m_fbHandle = 0 then (c, false)
  else
    let idx := c.calls.length
    ({ logDisplay c (DisplayCall.FBIOBLANK c.m_fbHandle true) with m_bFbIsConfigured := true },
      decide (e.ret idx = 0))

/-- Modelled from the spec: the method `CThread::StopThread`, which is not part of the
sources at hand. It sets the stop flag, and with `bWait` it joins the thread, which is
not running afterwards. -/
def StopThread (c : CIMXContext) (bWait : Bool) : CIMXContext :=
  let c1 := { logDisplay c (DisplayCall.StopThread bWait) with m_bStop := true }
  if bWait then { c1 with running := false } else c1

/-- Modelled from the spec: the method `CThread::Create`, which is not part of the sources
at hand. It starts the thread of the display context. -/
def Create (c : CIMXContext) : CIMXContext :=
  { logDisplay c DisplayCall.Create with m_bStop := false, running := true }

/-- The method `CIMXContext::Stop`. The call `m_input.signal()` wakes a thread that waits
at the queue and leaves the content of the queue as it is. -/
def Stop (e : Surroundings) (c : CIMXContext) (bWait : Bool) : CIMXContext :=
  if c.running = false then c
  else
    let c1 := StopThread c false
    let c2 := logDisplay c1 DisplayCall.signal
    let c3 := (Blank e c2).1
    if bWait = true ∧ c3.running = true then StopThread c3 true else c3

/-- The method `CIMXContext::TaskRestart`. -/
def TaskRestart (e : Surroundings) (c : CIMXContext) : CIMXContext :=
  Create (CloseDevices (MemMap e (Stop e c true) none))

/-- The variable screen information that `AdaptScreen` builds in `m_fbVar` from what the
device `m_deviceName` reported (`v`), from the bits per pixel of `/dev/fb0` (`bpp`) and from
the context, whose `m_fbWidth` and `m_fbHeight` are already set. -/
def adaptedVar (c : CIMXContext) (allocate : Bool) (bpp : Nat) (v : fb_var_screeninfo) :
    fb_var_screeninfo :=
  let yuv : Bool := allocate = false ∧ (bpp = 16 ∨ c.m_currentFieldFmt ≠ 0
    ∨ (c.m_fbHeight ≥ 1080 ∧ c.m_fps ≥ 49))
  let yres := toUnsigned c.m_fbHeight
  let xres := toUnsigned c.m_fbWidth
  { v with
    xoffset := 0,
    yoffset := 0,
    nonstd := if yuv then _4CC 'Y' 'U' 'Y' 'V' else _4CC 'R' 'G' 'B' '4',
    bits_per_pixel := if yuv then 16 else 32,
    activate := FB_ACTIVATE_NOW,
    xres := xres,
    yres := yres,
    yres_virtual := u32 (u32 (yres + 1) * m_fbPages),
    xres_virtual := xres }

/-- The first statement of `AdaptScreen`: an open IPU handle is closed. -/
def closeIpu (c : CIMXContext) : CIMXContext :=
  if c.m_ipuHandle ≠ 0 then
    { logDisplay c (DisplayCall.close c.m_ipuHandle) with m_ipuHandle := 0 }
  else c

/-- The part of `AdaptScreen` from the assignment of `m_fbWidth` up to the call of `Blank`:
the size is set from what `/dev/fb0` reported (`fbVar`), the device `m_deviceName` is
queried and `m_fbVar` is built; `false` is the jump to `Err`. -/
def queryDevice (e : Surroundings) (c : CIMXContext) (allocate : Bool)
    (fbVar : fb_var_screeninfo) : CIMXContext × Bool :=
  let c4 := { c with
    m_fbWidth := if allocate then 1920 else toInt32 fbVar.xres,
    m_fbHeight := if allocate then 1080 else toInt32 fbVar.yres }
  let g2 := GetFBInfo e c4 DeviceFile.m_deviceName
  match g2.2 with
  | none => (g2.1, false)
  | some v => ({ g2.1 with m_fbVar := adaptedVar g2.1 allocate fbVar.bits_per_pixel v }, true)

/-- The part of `AdaptScreen` from `MemMap()` up to the call of `Blank`: the devices are
opened if need be, both framebuffers are queried and `m_fbVar` is built; `false` is the jump
to `Err`. -/
def queryScreen (e : Surroundings) (c : CIMXContext) (allocate : Bool) : CIMXContext × Bool :=
  let c2 := MemMap e (closeIpu c) none
  let c3 := if c2.m_fbHandle = 0 then OpenDevices e c2 else (c2, true)
  if c3.2 = false then (c3.1, false) else
  let g := GetFBInfo e c3.1 DeviceFile.fb0
  match g.2 with
  | none => (g.1, false)
  | some fbVar => queryDevice e g.1 allocate fbVar

/-- The statement of `AdaptScreen` that opens the IPU device for a 16 bit framebuffer or
when G2D rendering is compiled out. -/
def openIpu (e : Surroundings) (c : CIMXContext) : CIMXContext :=
  if c.m_fbVar.bits_per_pixel = 16 ∨ e.RENDER_USE_G2D = false then
    { logDisplay c (DisplayCall.open_ DeviceFile.mxc_ipu) with
      m_ipuHandle := e.ret c.calls.length }
  else c

/-- The part of `AdaptScreen` from the call of `Blank` to `return true`; `false` is the jump
to `Err`. What the device writes back into `m_fbVar` in `FBIOPUT_VSCREENINFO` is not
modelled. -/
def programScreen (e : Surroundings) (c : CIMXContext) : CIMXContext × Bool :=
  let c6 := (Blank e c).1
  let idx := c6.calls.length
  let c7 := logDisplay c6 (DisplayCall.FBIOPUT_VSCREENINFO c6.m_fbHandle c6.m_fbVar)
  if e.ret idx = -1 then (c7, false) else
  let idx2 := c7.calls.length
  let c8 := logDisplay c7 (DisplayCall.FBIOGET_FSCREENINFO c7.m_fbHandle)
  if e.ret idx2 = -1 then (c8, false) else
  ((Unblank e (openIpu e (MemMap e c8 (some (e.fbFix idx2))))).1, true)

/-- The method `CIMXContext::AdaptScreen`, in its two parts `queryScreen` and
`programScreen`; a jump to `Err` from either ends in `TaskRestart` and `false`. -/
def AdaptScreen (e : Surroundings) (c : CIMXContext) (allocate : Bool) : CIMXContext × Bool :=
  let q := queryScreen e c allocate
  if q.2 = false then (TaskRestart e q.1, false) else
  let p := programScreen e q.1
  if p.2 = false then (TaskRestart e p.1, false) else (p.1, true)

/-- The statement `fieldFmt &= -!m_fbInterlaced` of `SetFieldData` on the `uint8_t`
`fieldFmt`: zero on an interlaced framebuffer, unchanged otherwise. -/
def maskFieldFmt (c : CIMXContext) (fieldFmt : Nat) : Nat :=
  if c.m_fbInterlaced then 0 else fieldFmt

/-- The test of `SetFieldData` for a change of the output parameters, for the field format
`fieldFmt` (already masked) and the frame rate `fps` of a submission: the
deinterlace-active state, the double-rate state or the frame rate differs from what the
context holds. -/
def outputChanged (e : Surroundings) (c : CIMXContext) (fieldFmt : Nat) (fps : ℚ) : Prop :=
  decide (fieldFmt ≠ 0) ≠ decide (c.m_currentFieldFmt ≠ 0)
    ∨ e.IsDoubleRate c.m_currentFieldFmt ≠ e.IsDoubleRate fieldFmt
    ∨ fps ≠ c.m_fps

instance (e : Surroundings) (c : CIMXContext) (fieldFmt : Nat) (fps : ℚ) :
    Decidable (outputChanged e c fieldFmt fps) := by
  unfold outputChanged; infer_instance

/-- The method `CIMXContext::SetFieldData`; `fieldFmt` is a `uint8_t`, `AdaptScreen` is
called without an argument, which stands for `false`. -/
def SetFieldData (e : Surroundings) (c : CIMXContext) (fieldFmt : Nat) (fps : ℚ) :
    CIMXContext :=
  if c.m_bStop = true ∨ c.running = false then c
  else
    let fieldFmt1 := maskFieldFmt c fieldFmt
    let c1 := { c with m_currentFieldFmt := fieldFmt1 }
    let c2 :=
      if outputChanged e c fieldFmt1 fps then { c1 with m_bFbIsConfigured := false } else c1
    if c2.m_bFbIsConfigured then c2
    else (AdaptScreen e { c2 with m_fps := fps, m_bFbIsConfigured := false } false).1

/-- The pan offset that `ShowPage` computes, `(m_fbVar.yres + 1) * page + !shift`, in
32-bit unsigned arithmetic. -/
def panOffset (yres : Nat) (page : Int) (shift : Bool) : Nat :=
  u32 (u32 (u32 (yres + 1) * toUnsigned page) + (if shift then 0 else 1))

/-- The method `CIMXContext::ShowPage`. The local `ret`, whose declaration is not in the
sources at hand, starts as `true`. -/
def ShowPage (e : Surroundings) (c : CIMXContext) (page : Int) (shift : Bool) :
    CIMXContext × Bool :=
  if c.m_fbHandle = 0 ∨ c.m_bFbIsConfigured = false then (c, false)
  else
    let v : fb_var_screeninfo :=
      { c.m_fbVar with activate := FB_ACTIVATE_VBL,
                       yoffset := panOffset c.m_fbVar.yres page shift }
    let c1 := { c with m_fbCurrentPage := page, m_fbVar := v }
    let idx := c1.calls.length
    let c2 := logDisplay c1 (DisplayCall.FBIOPAN_DISPLAY c1.m_fbHandle v)
    let ret : Bool := ¬ (e.ret idx < 0)
    let c3 := if ret = true ∧ c2.m_vsync = true then
        logDisplay c2 (DisplayCall.FBIO_WAITFORVSYNC c2.m_fbHandle) else c2
    (c3, true)

/-- The buffer that a pointer of a task refers to; `none` for a null pointer. -/
def bufferAt (c : CIMXContext) (p : Option Nat) : Option CIMXBuffer :=
  p.bind (fun i => c.buffers[i]?)

/-- Assign the members of the buffer that a pointer refers to. -/
def setBuffer (c : CIMXContext) (p : Option Nat) (b : CIMXBuffer) : CIMXContext :=
  match p with
  | none => c
  | some i => { c with buffers := c.buffers.set i b }

/-- The test of `TileTask` for the band mode, in which a tiled source is used without a
scratch buffer. -/
def bandMode (c : CIMXContext) (ipu : IPUTask) : Prop :=
  c.m_fps ≥ 49 ∧ c.m_fbWidth = 1920 ∧ ipu.input_width = 1920
    ∧ ipu.input_deinterlace.enable = false ∧ c.m_CaptureDone = true

instance (c : CIMXContext) (ipu : IPUTask) : Decidable (bandMode c ipu) := by
  unfold bandMode; infer_instance

/-- The method `CIMXContext::TileTask`. The result `none` is the dereference of a null
pointer; otherwise the result is the context, the task, and what the method returns. -/
def TileTask (e : Surroundings) (c : CIMXContext) (ipu : IPUTask) :
    Option (CIMXContext × IPUTask × Bool) :=
  match bufferAt c ipu.current with
  | none => none
  | some cur =>
    if cur.iFormat ≠ _4CC 'T' 'N' 'V' 'F' ∧ cur.iFormat ≠ _4CC 'T' 'N' 'V' 'P' then
      if ipu.input_deinterlace.enable = true ∧ ipu.input_deinterlace.motion ≠ HIGH_MOTION then
        match bufferAt c ipu.previous with
        | none => none
        | some prev =>
          some (c, { ipu with input_paddr_n := ipu.input_paddr, input_paddr := prev.pPhysAddr },
            true)
      else some (c, ipu, true)
    else if bandMode c ipu then
      some (c, { ipu with
        input_crop := { ipu.input_crop with pos_x := 0, pos_y := 0, h := cur.iHeight },
        output_crop := { ipu.output_crop with pos_x := 0, pos_y := 0, h := cur.iHeight },
        output_paddr := ipu.output_paddr
          + Int.tdiv (wrapInt (c.m_fbLineLength * wrapInt (c.m_fbHeight - cur.iHeight))) 2 },
        true)
    else
      let threeField : Bool := ipu.previous ≠ none ∧ cur.iFormat = _4CC 'T' 'N' 'V' 'F'
      let ipu1 : IPUTask := if threeField then
          { ipu with input_deinterlace := { enable := false, motion := MED_MOTION, field_fmt := 0 } }
        else ipu
      let idx := c.calls.length
      let c1 := logDisplay c (DisplayCall.g2d_alloc (wrapInt (wrapInt (cur.iWidth * cur.iHeight) * 2)))
      match e.g2dBuf idx with
      | none => some (c1, ipu1, false)
      | some conv =>
        let c2 := setBuffer c1 ipu.current { cur with m_convBuffer := some conv }
        let idx2 := c2.calls.length
        let c3 := logDisplay c2 (DisplayCall.IPU_CHECK_TASK c2.m_ipuHandle)
        if e.ret idx2 ≠ 0 then some (c3, ipu1, false) else
        let idx3 := c3.calls.length
        let c4 := logDisplay c3 (DisplayCall.IPU_QUEUE_TASK c3.m_ipuHandle)
        if e.ret idx3 < 0 then some (c4, ipu1, false) else
        let format := if c4.m_fbVar.bits_per_pixel = 16 ∧ c4.m_CaptureDone = true then
            _4CC 'Y' 'U' 'Y' 'V' else _4CC 'N' 'V' '1' '2'
        let ipu2 : IPUTask := { ipu1 with input_paddr := conv.buf_paddr, input_format := format }
        let c5 := setBuffer c4 ipu.current
          { cur with m_convBuffer := some conv, iFormat := format, pPhysAddr := conv.buf_paddr }
        if ipu2.input_deinterlace.enable = true ∧ ipu2.input_deinterlace.motion ≠ HIGH_MOTION
            ∧ ipu2.previous ≠ none then
          match bufferAt c4 ipu2.previous with
          | none => none
          | some prev =>
            some (c5, { ipu2 with input_paddr_n := ipu2.input_paddr,
                                  input_paddr := prev.pPhysAddr }, true)
        else some (c5, ipu2, true)

/-- The first part of `DoTask`: the input block and the output block of the task are
populated. For a task to the framebuffer the page is cleared if its crop changes; for a
task with a destination of its own the capture buffer is allocated. The result `none`
is the dereference of a null pointer or an access outside `m_pageCrops`; otherwise the
result is the context, the task and the local `swapColors`. -/
def populateTask (e : Surroundings) (c : CIMXContext) (ipu : IPUTask) :
    Option (CIMXContext × IPUTask × Bool) :=
  match bufferAt c ipu.current with
  | none => none
  | some cur =>
    let dstRect : CRectInt :=
      { x1 := ipu.output_crop.pos_x, y1 := ipu.output_crop.pos_y,
        x2 := wrapInt (ipu.output_crop.pos_x + ipu.output_crop.w),
        y2 := wrapInt (ipu.output_crop.pos_y + ipu.output_crop.h) }
    let ipu1 : IPUTask := { ipu with
      input_width := cur.iWidth,
      input_height := cur.iHeight,
      input_format := cur.iFormat,
      input_paddr := cur.pPhysAddr }
    if ipu1.output_width = 0 then
      let ipu2 : IPUTask := { ipu1 with
        output_width := c.m_fbWidth,
        output_height := c.m_fbHeight,
        output_format := c.m_fbVar.nonstd,
        output_paddr := c.m_fbPhysAddr + wrapInt (ipu1.page * c.m_fbPageSize) }
      match c.m_pageCrops with
      | none => none
      | some crops =>
        if 0 ≤ ipu2.page ∧ ipu2.page < (crops.length : Int) then
          if crops.getD ipu2.page.toNat dstRect ≠ dstRect then
            some (Clear { c with m_pageCrops := some (crops.set ipu2.page.toNat dstRect) } ipu2.page,
              ipu2, false)
          else some (c, ipu2, false)
        else none
    else
      let size := wrapInt (wrapInt (ipu1.output_width * ipu1.output_height) * 4)
      let c1 := match c.m_bufferCapture with
        | some b =>
          if size ≠ b.buf_size then
            { logDisplay c DisplayCall.g2d_free with m_bufferCapture := none }
          else c
        | none => c
      let c2 := if c1.m_bufferCapture = none then
          { logDisplay c1 (DisplayCall.g2d_alloc size) with
            m_bufferCapture := e.g2dBuf c1.calls.length }
        else c1
      match c2.m_bufferCapture with
      | none => none
      | some b => some (c2, { ipu1 with output_paddr := b.buf_paddr }, true)

/-- The loop `while (ret > IPU_CHECK_ERR_MIN)` of `DoTask`, with a bound `fuel` on the
number of passes: `none` when the bound is hit, otherwise the context, the task, and
`some b` when `DoTask` returns `b` from inside the loop. -/
def ipuCheckLoop (e : Surroundings) :
    Nat → CIMXContext → IPUTask → Option (CIMXContext × IPUTask × Option Bool)
  | 0, _, _ => none
  | fuel + 1, c, ipu =>
    let c1 := logDisplay c (DisplayCall.IPU_CHECK_TASK c.m_ipuHandle)
    match e.ipuCheck c.calls.length with
    | IpuCheck.IPU_CHECK_OK => some (c1, ipu, none)
    | IpuCheck.IPU_CHECK_ERR_SPLIT_INPUTW_OVER =>
      ipuCheckLoop e fuel c1
        { ipu with input_crop := { ipu.input_crop with w := wrapInt (ipu.input_crop.w - 8) } }
    | IpuCheck.IPU_CHECK_ERR_SPLIT_INPUTH_OVER =>
      ipuCheckLoop e fuel c1
        { ipu with input_crop := { ipu.input_crop with h := wrapInt (ipu.input_crop.h - 8) } }
    | IpuCheck.IPU_CHECK_ERR_SPLIT_OUTPUTW_OVER =>
      ipuCheckLoop e fuel c1
        { ipu with output_crop := { ipu.output_crop with w := wrapInt (ipu.output_crop.w - 8) } }
    | IpuCheck.IPU_CHECK_ERR_SPLIT_OUTPUTH_OVER =>
      ipuCheckLoop e fuel c1
        { ipu with output_crop := { ipu.output_crop with h := wrapInt (ipu.output_crop.h - 8) } }
    | IpuCheck.minusOne => some (c1, ipu, some true)
    | IpuCheck.other => some (c1, ipu, some false)

/-- The last part of `DoTask`: the task is run by the IPU or by the 2D engine. -/
def runTask (e : Surroundings) (fuel : Nat) (c : CIMXContext) (ipu : IPUTask) :
    Option (CIMXContext × IPUTask × Bool) :=
  if c.m_CaptureDone = true ∧ (c.m_fbVar.bits_per_pixel = 16 ∨ e.RENDER_USE_G2D = false) then
    match ipuCheckLoop e fuel c ipu with
    | none => none
    | some (c1, ipu1, some b) => some (c1, ipu1, b)
    | some (c1, ipu1, none) =>
      let c2 := logDisplay c1 (DisplayCall.IPU_QUEUE_TASK c1.m_ipuHandle)
      if e.ret c1.calls.length < 0 then some (c2, ipu1, false) else some (c2, ipu1, true)
  else
    let c1 := logDisplay (logDisplay c DisplayCall.g2d_blit) DisplayCall.g2d_finish
    let done : Bool := match c1.m_bufferCapture with
      | some b => ipu.output_paddr = b.buf_paddr
      | none => false
    some (if done then { c1 with m_CaptureDone := true } else c1, ipu, true)

/-- The test of `DoTask` for a crop without extent. -/
def degenerateCrop (ipu : IPUTask) : Prop :=
  ipu.input_crop.w ≤ 0 ∨ ipu.input_crop.h ≤ 0 ∨ ipu.output_crop.w ≤ 0 ∨ ipu.output_crop.h ≤ 0

instance (ipu : IPUTask) : Decidable (degenerateCrop ipu) := by
  unfold degenerateCrop; infer_instance

/-- The method `CIMXContext::DoTask`, with a bound `fuel` on the passes of its loop. The
result `none` means that the method does not return: a null pointer is dereferenced or
the bound is hit. Otherwise the result is the context, the task, and what the method
returns. -/
def DoTask (e : Surroundings) (fuel : Nat) (c : CIMXContext) (ipu : IPUTask) :
    Option (CIMXContext × IPUTask × Bool) :=
  match populateTask e c ipu with
  | none => none
  | some (c1, ipu1, _) =>
    if degenerateCrop ipu1 then some (c1, ipu1, false)
    else
      match TileTask e c1 ipu1 with
      | none => none
      | some (c2, ipu2, false) => some (c2, ipu2, false)
      | some (c2, ipu2, true) => runTask e fuel c2 ipu2

/-- Modelled from the spec: the method `push` of the queue `m_input`, whose class is not
part of the sources at hand. The queue is first-in first-out: the task is appended at the
end. The bound of the queue is not modelled: a push that waits for room is a push that is
made later. -/
def queuePush (q : List IPUTask) (t : IPUTask) : List IPUTask :=
  q ++ [t]

/-- Modelled from the spec: the method `pop` of the queue `m_input`: the task at the head
and the rest of the queue; on an empty queue the result is null, which is what a waiting
`pop` returns after a signal. -/
def queuePop (q : List IPUTask) : Option IPUTask × List IPUTask :=
  match q with
  | [] => (none, [])
  | t :: rest => (some t, rest)

/-- The page that `Blit` works with after its first statement: `m_pg` for
`RENDER_TASK_AUTOPAGE`. -/
def blitPage (e : Surroundings) (c : CIMXContext) (page : Int) : Int :=
  if page = e.RENDER_TASK_AUTOPAGE then c.m_pg else page

/-- The context after the first statement of `Blit`: for `RENDER_TASK_CAPTURE` the member
`m_CaptureDone` is reset. -/
def blitEntry (e : Surroundings) (c : CIMXContext) (page : Int) : CIMXContext :=
  if page ≠ e.RENDER_TASK_AUTOPAGE ∧ page = e.RENDER_TASK_CAPTURE then
    { c with m_CaptureDone := false }
  else c

/-- The statements of `Blit` that construct the task, from `SetFieldData` to the call of
`DoTask`: the context, the task, and what `DoTask` returns; `none` when `source` is null
or `DoTask` does not return. -/
def constructTask (e : Surroundings) (fuel : Nat) (c : CIMXContext)
    (source_p source : Option Nat) (fieldFmt : Nat) (page : Int) (dest : Option CRect) :
    Option (CIMXContext × IPUTask × Bool) :=
  match bufferAt c source with
  | none => none
  | some src =>
    let c2 := SetFieldData e c fieldFmt src.m_fps
    let ipu : IPUTask := { PrepareTask e.rnd e.m_InterlaceMethod c2 source_p source dest with
      page := page }
    DoTask e fuel c2 ipu

/-- The method `CIMXContext::Blit`, with a bound `fuel` on the passes of the loop of
`DoTask`; the result `none` means that the method does not return. The static local `pg`
is not used and not modelled. The member `pushed` is a record of the tasks that were
pushed, in the order of the calls of `push`. -/
def Blit (e : Surroundings) (fuel : Nat) (c : CIMXContext) (source_p source : Option Nat)
    (fieldFmt : Nat) (page : Int) (dest : Option CRect) : Option CIMXContext :=
  if page ≠ e.RENDER_TASK_AUTOPAGE ∧ page ≠ e.RENDER_TASK_CAPTURE
      ∧ page < 0 ∧ page ≥ (m_fbPages : Int) then some (blitEntry e c page)
  else
    match constructTask e fuel (blitEntry e c page) source_p source fieldFmt
        (blitPage e c page) dest with
    | none => none
    | some (c3, _, false) => some c3
    | some (c3, ipu3, true) =>
      if ipu3.output_width ≠ 0 then
        some { c3 with m_input := queuePush c3.m_input ipu3, pushed := c3.pushed ++ [ipu3] }
      else some c3

/-- One pass of the loop `while (!m_bStop)` of `CIMXContext::Process`: the task at the
head of the queue is popped, its shift is computed, and its page is shown. With an empty
queue `pop` returns null after a signal, and the pass does nothing. -/
def processPass (e : Surroundings) (c : CIMXContext) : CIMXContext :=
  if c.m_bStop then c
  else
    match queuePop c.m_input with
    | (none, _) => c
    | (some ipu, rest) =>
      let shift := checkIPUStrideOffset e.IPU_DEINTERLACE_RATE_FRAME1 e.RENDER_FLAG_TOP
        e.RENDER_FLAG_BOT ipu.input_deinterlace
      let c1 := (ShowPage e { c with m_input := rest } ipu.page shift).1
      { c1 with flipped := c1.flipped ++ [ipu] }

/-- What the two threads do to the display context: the render thread calls `Blit`, the
thread of the context makes a pass of the loop of `Process`. -/
inductive DisplayStep where
  | blit (source_p source : Option Nat) (fieldFmt : Nat) (page : Int) (dest : Option CRect)
  | pass

/-- One step of one of the two threads; `none` when a `Blit` does not return. -/
def displayStep (e : Surroundings) (fuel : Nat) (c : CIMXContext) :
    DisplayStep → Option CIMXContext
  | DisplayStep.blit source_p source fieldFmt page dest =>
    Blit e fuel c source_p source fieldFmt page dest
  | DisplayStep.pass => some (processPass e c)

/-- A schedule of the two threads: the steps are run one after the other. -/
def displayRun (e : Surroundings) (fuel : Nat) : CIMXContext → List DisplayStep →
    Option CIMXContext
  | c, [] => some c
  | c, x :: xs => (displayStep e fuel c x).bind (fun c1 => displayRun e fuel c1 xs)

/-- The queue of tasks and its ghost records are the same in both contexts. -/
def sameQueue (c c2 : CIMXContext) : Prop :=
  c2.m_input = c.m_input ∧ c2.pushed = c.pushed ∧ c2.flipped = c.flipped

/-- The virtual height that `AdaptScreen` programs: `(m_fbVar.yres + 1) * m_fbPages`, in
32-bit unsigned arithmetic. -/
def virtualProgrammed (v : fb_var_screeninfo) : Prop :=
  v.yres_virtual = u32 (u32 (v.yres + 1) * m_fbPages)

/-- An example of surroundings: every call of a device answers 0, no buffer of the 2D
engine can be allocated, and the frame-1, top and bottom flags are the bits 6, 1 and 0. -/
def quietDevices : Surroundings :=
  { ret := fun _ => 0,
    fbVar := fun _ => default,
    fbFix := fun _ => default,
    mapAddr := fun _ => 0,
    g2dBuf := fun _ => none,
    ipuCheck := fun _ => IpuCheck.IPU_CHECK_OK,
    RENDER_USE_G2D := true,
    IsDoubleRate := fun _ => false,
    m_InterlaceMethod := VS_INTERLACEMETHOD_AUTO,
    rnd := id,
    IPU_DEINTERLACE_RATE_FRAME1 := 2 ^ 6,
    RENDER_FLAG_TOP := 2 ^ 1,
    RENDER_FLAG_BOT := 2 ^ 0,
    RENDER_TASK_AUTOPAGE := -1,
    RENDER_TASK_CAPTURE := -2 }

/-- An example of a display context: a running display thread on a configured framebuffer
of 1920 by 1080 at 25 frames per second, with a progressive field format. -/
def runningDisplay : CIMXContext :=
  { m_srcRect := { x1 := 0, y1 := 0, x2 := 1280, y2 := 720 },
    m_dstRect := { x1 := 0, y1 := 0, x2 := 1920, y2 := 1080 },
    m_fbWidth := 1920, m_fbHeight := 1080, m_currentFieldFmt := 0,
    m_fbHandle := 3, m_bFbIsConfigured := true, m_fps := 25, running := true,
    m_fbVar := { xres := 1920, yres := 1080, xres_virtual := 1920, yres_virtual := 3243,
                 xoffset := 0, yoffset := 0, bits_per_pixel := 32,
                 nonstd := _4CC 'R' 'G' 'B' '4', activate := 0 } }

/-- An example of a buffer: 1280 by 720 in a linear format at 25 frames per second. -/
def playBuffer : CIMXBuffer :=
  { iWidth := 1280, iHeight := 720, iFormat := _4CC 'N' 'V' '1' '2', pPhysAddr := 4096,
    m_fps := 25, m_convBuffer := none }

/-- An example of a display context: a running display thread on a configured framebuffer
of 1920 by 1080 at 25 frames per second, a source rectangle of 1280 by 720, a destination
rectangle of the size of the framebuffer, and one buffer of 1280 by 720 in a linear
format. -/
def playDisplay : CIMXContext :=
  { m_srcRect := { x1 := 0, y1 := 0, x2 := 1280, y2 := 720 },
    m_dstRect := { x1 := 0, y1 := 0, x2 := 1920, y2 := 1080 },
    m_fbWidth := 1920, m_fbHeight := 1080, m_currentFieldFmt := 0,
    m_fbHandle := 3, m_bFbIsConfigured := true, m_fps := 25, running := true,
    m_fbVar := { xres := 1920, yres := 1080, xres_virtual := 1920, yres_virtual := 3243,
                 xoffset := 0, yoffset := 0, bits_per_pixel := 32,
                 nonstd := _4CC 'R' 'G' 'B' '4', activate := 0 },
    buffers := [playBuffer] }

/-- The task that `PrepareTask` builds on the example `playDisplay` for its buffer. -/
def playTask : IPUTask :=
  { IPUTask.Zero with
    current := some 0,
    input_crop := { pos_x := 0, pos_y := 0, w := 1280, h := 720 },
    output_crop := { pos_x := 0, pos_y := 0, w := 1920, h := 1080 } }

/-- An example of a display context: a thread that does not run, rectangles without
extent, and one buffer of 1280 by 720 in a linear format. -/
def idleDisplay : CIMXContext :=
  { m_srcRect := { x1 := 0, y1 := 0, x2 := 0, y2 := 0 },
    m_dstRect := { x1 := 0, y1 := 0, x2 := 0, y2 := 0 },
    m_fbWidth := 1920, m_fbHeight := 1080, m_currentFieldFmt := 0,
    buffers := [playBuffer] }

/-- The task that `PrepareTask` builds on the example `idleDisplay` for its buffer: both
crops are without extent. -/
def idleTask : IPUTask :=
  { IPUTask.Zero with current := some 0 }

/-- An example of a buffer: 1280 by 720 in the tiled frame format. -/
def tiledBuffer : CIMXBuffer :=
  { iWidth := 1280, iHeight := 720, iFormat := _4CC 'T' 'N' 'V' 'F', pPhysAddr := 4096,
    m_fps := 25, m_convBuffer := none }

/-- An example of a display context: as `playDisplay`, with a buffer in the tiled
format. -/
def tiledDisplay : CIMXContext :=
  { playDisplay with buffers := [tiledBuffer] }

/-- Every entry of `m_outputBuffers` below the pool count `m_vpuFrameBufferNum` is
assigned a decode buffer. -/
def poolAssigned (s : CDVDVideoCodecIMX) : Prop :=
  ∀ i, i < s.m_vpuFrameBufferNum → poolEntry s i ≠ none

instance (s : CDVDVideoCodecIMX) : Decidable (poolAssigned s) := by
  unfold poolAssigned; infer_instance

/-- An example of a session after a failed allocation of the pool: on `exampleSession`,
a `Decode` in which the third request for frame memory fails has returned the
decode-error status. -/
def failedAllocSession : CDVDVideoCodecIMX :=
  (Decode allocFailVpu false exampleSession true 100 none 0 0).1

/-! ## Heap lemmas -/

theorem read_write_same (h : Heap) (p : Nat) (b : CDVDVideoCodecIMXBuffer) (hp : p < h.length) :
    read (write h p b) p = b := by
  simp [read, write, List.getD, hp]

theorem read_write_ne (h : Heap) (p q : Nat) (b : CDVDVideoCodecIMXBuffer) (hpq : p ≠ q) :
    read (write h p b) q = read h q := by
  simp [read, write, List.getD, List.getElem?_set, hpq]

theorem length_write (h : Heap) (p : Nat) (b : CDVDVideoCodecIMXBuffer) :
    (write h p b).length = h.length := by
  simp [write]

theorem read_of_le (h : Heap) (p : Nat) (hp : h.length ≤ p) :
    read h p = CDVDVideoCodecIMXBuffer.new := by
  simp [read, List.getD, List.getElem?_eq_none hp]

theorem write_of_le (h : Heap) (p : Nat) (b : CDVDVideoCodecIMXBuffer) (hp : h.length ≤ p) :
    write h p b = h :=
  List.set_eq_of_length_le hp

theorem write_read_self (h : Heap) (p : Nat) : write h p (read h p) = h := by
  induction h generalizing p with
  | nil => rfl
  | cons a t ih =>
    cases p with
    | zero => rfl
    | succ n =>
      have := ih n
      simp only [write, read, List.getD_cons_succ, List.set_cons_succ] at this ⊢
      rw [this]

theorem write_write (h : Heap) (p : Nat) (a b : CDVDVideoCodecIMXBuffer) :
    write (write h p a) p b = write h p b := by
  simp [write]

/-! ## Termination of `Release` -/

theorem mu_write (h : Heap) (p : Nat) (b : CDVDVideoCodecIMXBuffer) (hp : p < h.length) :
    mu (write h p b) + weight (read h p).m_iRefs = mu h + weight b.m_iRefs := by
  induction h generalizing p with
  | nil => simp at hp
  | cons a t ih =>
    cases p with
    | zero => simp [mu, write, read]; omega
    | succ n =>
      have hn : n < t.length := by simpa using hp
      have := ih n hn
      simp only [mu, write, read, List.getD_cons_succ, List.set_cons_succ, List.map_cons,
        List.sum_cons] at this ⊢
      omega

theorem mu_le (h : Heap) : mu h ≤ 2 * h.length := by
  induction h with
  | nil => simp [mu]
  | cons a t ih =>
    have hw : weight a.m_iRefs ≤ 2 := by unfold weight; split_ifs <;> omega
    simp only [mu, List.map_cons, List.sum_cons, List.length_cons] at ih ⊢
    omega

theorem mu_lt_releaseFuel (h : Heap) : mu h < releaseFuel h := by
  have := mu_le h
  unfold releaseFuel
  omega

theorem prev_none_of_le (h : Heap) (p : Nat) (hp : h.length ≤ p) :
    (read h p).m_previousBuffer = none := by
  rw [read_of_le h p hp]; rfl

theorem lt_of_prev_some (h : Heap) (p q : Nat) (hq : (read h p).m_previousBuffer = some q) :
    p < h.length := by
  by_contra hp
  rw [prev_none_of_le h p (by omega)] at hq
  cases hq

theorem safeReleasePrevious_isSome (rel : Heap → Nat → Option (Heap × Int)) (h : Heap)
    (self : Nat) (hrel : ∀ p, (read h self).m_previousBuffer = some p → (rel h p).isSome) :
    (safeReleasePrevious rel h self).isSome := by
  unfold safeReleasePrevious
  cases hp : (read h self).m_previousBuffer with
  | none => rfl
  | some p =>
    have := hrel p hp
    cases hr : rel h p with
    | none => rw [hr] at this; cases this
    | some r => simp only [hr]; rfl

theorem ReleaseAux_isSome (n : Nat) (h : Heap) (self : Nat) (hn : mu h < n) :
    (ReleaseAux n h self).isSome := by
  induction n generalizing h self with
  | zero => omega
  | succ n ih =>
    unfold ReleaseAux
    simp only
    split_ifs with h2 h1 hf h0
    · rw [Option.isSome_map']
      apply safeReleasePrevious_isSome
      intro p hp
      apply ih
      have hlt := lt_of_prev_some _ _ _ hp
      rw [length_write] at hlt
      have hm := mu_write h self { read h self with m_iRefs := (read h self).m_iRefs - 1 } hlt
      have hw1 : weight (read h self).m_iRefs = 2 := by unfold weight; split_ifs <;> omega
      have hw2 : weight ((read h self).m_iRefs - 1) = 1 := by unfold weight; split_ifs <;> omega
      simp only [hw1, hw2] at hm
      omega
    · rw [Option.isSome_map']
      apply safeReleasePrevious_isSome
      intro p hp
      apply ih
      have hlt := lt_of_prev_some _ _ _ hp
      rw [length_write, length_write] at hlt
      have hm := mu_write h self { read h self with m_iRefs := (read h self).m_iRefs - 1 } hlt
      have hw1 : weight (read h self).m_iRefs = 1 := by unfold weight; split_ifs <;> omega
      have hw2 : weight ((read h self).m_iRefs - 1) = 0 := by unfold weight; split_ifs <;> omega
      simp only [hw1, hw2] at hm
      have hm2 := mu_write (write h self { read h self with m_iRefs := (read h self).m_iRefs - 1 })
        self { read (write h self { read h self with m_iRefs := (read h self).m_iRefs - 1 }) self
          with m_rendered := true } (by rw [length_write]; exact hlt)
      simp only at hm2
      omega
    · rfl
    · rfl
    · rfl

theorem safeReleasePrevious_mono (rel rel2 : Heap → Nat → Option (Heap × Int)) (h : Heap)
    (self : Nat) (x : Heap) (hrel : ∀ p r, rel h p = some r → rel2 h p = some r)
    (hx : safeReleasePrevious rel h self = some x) : safeReleasePrevious rel2 h self = some x := by
  unfold safeReleasePrevious at hx ⊢
  cases hp : (read h self).m_previousBuffer with
  | none => rw [hp] at hx; exact hx
  | some p =>
    rw [hp] at hx
    simp only at hx ⊢
    cases hr : rel h p with
    | none => rw [hr] at hx; cases hx
    | some r => rw [hr] at hx; rw [hrel p r hr]; exact hx

theorem ReleaseAux_succ (n : Nat) (h : Heap) (self : Nat) (r : Heap × Int)
    (hr : ReleaseAux n h self = some r) : ReleaseAux (n + 1) h self = some r := by
  induction n generalizing h self r with
  | zero => simp [ReleaseAux] at hr
  | succ n ih =>
    unfold ReleaseAux at hr ⊢
    simp only at hr ⊢
    split_ifs at hr ⊢ with h2 h1 hf h0
    · rw [Option.map_eq_some'] at hr ⊢
      obtain ⟨x, hx, hxr⟩ := hr
      exact ⟨x, safeReleasePrevious_mono _ _ _ _ _ (fun p r hpr => ih _ p r hpr) hx, hxr⟩
    · rw [Option.map_eq_some'] at hr ⊢
      obtain ⟨x, hx, hxr⟩ := hr
      exact ⟨x, safeReleasePrevious_mono _ _ _ _ _ (fun p r hpr => ih _ p r hpr) hx, hxr⟩
    · exact hr
    · exact hr
    · exact hr

theorem ReleaseAux_mono (n m : Nat) (h : Heap) (self : Nat) (r : Heap × Int) (hnm : n ≤ m)
    (hr : ReleaseAux n h self = some r) : ReleaseAux m h self = some r := by
  induction m with
  | zero =>
    have : n = 0 := by omega
    subst this; exact hr
  | succ m ih =>
    by_cases hn : n = m + 1
    · subst hn; exact hr
    · exact ReleaseAux_succ m h self r (ih (by omega))

theorem ReleaseAux_releaseFuel (h : Heap) (self : Nat) :
    ReleaseAux (releaseFuel h) h self = some (Release h self) := by
  have := ReleaseAux_isSome (releaseFuel h) h self (mu_lt_releaseFuel h)
  unfold Release
  cases hr : ReleaseAux (releaseFuel h) h self with
  | none => rw [hr] at this; cases this
  | some r => rfl

/-- The recursion bound is never hit: whatever fuel makes `ReleaseAux` answer, it
answers what `Release` does. -/
theorem Release_eq_of_aux (n : Nat) (h : Heap) (self : Nat) (r : Heap × Int)
    (hr : ReleaseAux n h self = some r) : Release h self = r := by
  have h1 := ReleaseAux_releaseFuel h self
  rcases Nat.le_total n (releaseFuel h) with hle | hle
  · have := ReleaseAux_mono _ _ h self r hle hr
    rw [h1] at this
    exact Option.some.inj this
  · have := ReleaseAux_mono _ _ h self _ hle h1
    rw [hr] at this
    exact (Option.some.inj this).symm

theorem safeReleasePrevious_releaseFuel (h : Heap) (self : Nat) :
    safeReleasePrevious (ReleaseAux (releaseFuel h)) h self = some (SAFE_RELEASE_previous h self) := by
  unfold safeReleasePrevious SAFE_RELEASE_previous
  cases hp : (read h self).m_previousBuffer with
  | none => rfl
  | some p => simp only [ReleaseAux_releaseFuel]

/-- The method `Release` satisfies the recursive equation of the source. -/
theorem Release_unfold (h : Heap) (self : Nat) :
    Release h self =
      if (read h self).m_iRefs - 1 = 2 then
        (SAFE_RELEASE_previous
          (write h self { read h self with m_iRefs := (read h self).m_iRefs - 1 }) self,
          (read h self).m_iRefs - 1)
      else if (read h self).m_iRefs - 1 = 1 then
        if (read (write h self { read h self with m_iRefs := (read h self).m_iRefs - 1 })
            self).m_frameBuffer ≠ none then
          (SAFE_RELEASE_previous
            (write (write h self { read h self with m_iRefs := (read h self).m_iRefs - 1 }) self
              { read (write h self { read h self with m_iRefs := (read h self).m_iRefs - 1 }) self
                with m_rendered := true }) self,
            (read h self).m_iRefs - 1)
        else
          (write h self { read h self with m_iRefs := (read h self).m_iRefs - 1 },
            (read h self).m_iRefs - 1)
      else if (read h self).m_iRefs - 1 = 0 then
        (write (write h self { read h self with m_iRefs := (read h self).m_iRefs - 1 }) self
          { read (write h self { read h self with m_iRefs := (read h self).m_iRefs - 1 }) self
            with destroyed :=
              (read (write h self { read h self with m_iRefs := (read h self).m_iRefs - 1 })
                self).destroyed + 1 },
          (read h self).m_iRefs - 1)
      else
        (write h self { read h self with m_iRefs := (read h self).m_iRefs - 1 },
          (read h self).m_iRefs - 1) := by
  apply Release_eq_of_aux (releaseFuel h + 1)
  unfold ReleaseAux
  simp only
  have e1 : releaseFuel h
      = releaseFuel (write h self { read h self with m_iRefs := (read h self).m_iRefs - 1 }) := by
    simp [releaseFuel, length_write]
  have e2 : releaseFuel h
      = releaseFuel (write (write h self { read h self with m_iRefs := (read h self).m_iRefs - 1 })
          self { read (write h self { read h self with m_iRefs := (read h self).m_iRefs - 1 }) self
                with m_rendered := true }) := by
    simp [releaseFuel, length_write]
  split_ifs with h2 h1 hf h0
  · rw [e1, safeReleasePrevious_releaseFuel]; rfl
  · rw [e2, safeReleasePrevious_releaseFuel]; rfl
  · rfl
  · rfl
  · rfl

/-! ## Sequences of `Lock` and `Release` on one buffer -/

theorem runOps_append (h : Heap) (self : Nat) (l : List BufferOp) (op : BufferOp) :
    runOps h self (l ++ [op]) = applyOp (runOps h self l) self op := by
  induction l generalizing h with
  | nil => cases op <;> rfl
  | cons a t ih => cases a <;> simp [runOps, ih]

theorem SAFE_RELEASE_previous_none (h : Heap) (self : Nat)
    (hp : (read h self).m_previousBuffer = none) : SAFE_RELEASE_previous h self = h := by
  unfold SAFE_RELEASE_previous
  rw [hp]

/-- What `Release` does to a buffer that has no chained previous buffer. -/
theorem Release_noPrevious (h : Heap) (self : Nat) (hb : self < h.length)
    (hp : (read h self).m_previousBuffer = none) :
    Release h self =
      (write h self { read h self with
          m_iRefs := (read h self).m_iRefs - 1,
          m_rendered := if (read h self).m_iRefs - 1 = 1 ∧ (read h self).m_frameBuffer ≠ none
            then true else (read h self).m_rendered,
          destroyed := if (read h self).m_iRefs - 1 = 0 then (read h self).destroyed + 1
            else (read h self).destroyed },
        (read h self).m_iRefs - 1) := by
  have hb1 : ∀ x, self < (write h self x).length := fun x => by rw [length_write]; exact hb
  rw [Release_unfold]
  simp only [read_write_same _ _ _ hb, write_write]
  by_cases h2 : (read h self).m_iRefs - 1 = 2
  · have e1 : ¬ ((read h self).m_iRefs - 1 = 1) := by omega
    have e0 : ¬ ((read h self).m_iRefs - 1 = 0) := by omega
    rw [if_pos h2, SAFE_RELEASE_previous_none _ _ (by simp [read_write_same, hb, hp])]
    simp [e1, e0]
  · rw [if_neg h2]
    by_cases h1 : (read h self).m_iRefs - 1 = 1
    · have e0 : ¬ ((read h self).m_iRefs - 1 = 0) := by omega
      rw [if_pos h1]
      by_cases hf : (read h self).m_frameBuffer = none
      · simp [hf, e0]
      · rw [if_pos hf, SAFE_RELEASE_previous_none _ _ (by simp [read_write_same, hb, hp])]
        simp [hf, e0, h1]
    · rw [if_neg h1]
      by_cases h0 : (read h self).m_iRefs - 1 = 0
      · simp [h0]
      · simp [h0, h1]

/-- What `Lock` and `Release` do to a buffer that has no chained previous buffer. -/
theorem applyOp_noPrevious (h : Heap) (self : Nat) (op : BufferOp) (hb : self < h.length)
    (hp : (read h self).m_previousBuffer = none) :
    (applyOp h self op).length = h.length ∧
    (read (applyOp h self op) self).m_previousBuffer = none ∧
    (read (applyOp h self op) self).m_iRefs
      = (read h self).m_iRefs + (if op = BufferOp.lock then 1 else -1) ∧
    (read (applyOp h self op) self).destroyed
      = (read h self).destroyed
        + (if op = BufferOp.release ∧ (read h self).m_iRefs - 1 = 0 then 1 else 0) := by
  cases op with
  | lock =>
    simp [applyOp, Lock, length_write, read_write_same, hb, hp]
  | release =>
    simp only [applyOp, Release_noPrevious h self hb hp, length_write, read_write_same _ _ _ hb]
    refine ⟨trivial, hp, ?_, ?_⟩
    · simp; omega
    · by_cases h0 : (read h self).m_iRefs - 1 = 0 <;> simp [h0]

theorem runOps_noPrevious (h : Heap) (self : Nat) (ops : List BufferOp) (hb : self < h.length)
    (hp : (read h self).m_previousBuffer = none) :
    (runOps h self ops).length = h.length ∧
    (read (runOps h self ops) self).m_previousBuffer = none ∧
    (read (runOps h self ops) self).m_iRefs
      = (read h self).m_iRefs + countLock ops - countRelease ops := by
  induction ops using List.reverseRecOn with
  | nil => simp [runOps, hp, countLock, countRelease]
  | append_singleton l op ih =>
    obtain ⟨h1, h2, h3⟩ := ih
    have := applyOp_noPrevious (runOps h self l) self op (by omega) h2
    rw [runOps_append]
    refine ⟨by omega, this.2.1, ?_⟩
    rw [this.2.2.1, h3]
    cases op <;> simp [countLock, countRelease, List.count_append] <;> omega

theorem runOps_cons (h : Heap) (self : Nat) (op : BufferOp) (ops : List BufferOp) :
    runOps h self (op :: ops) = runOps (applyOp h self op) self ops := by
  cases op <;> rfl

theorem runOps_destroyed (h : Heap) (self : Nat) (ops : List BufferOp) (hb : self < h.length)
    (hp : (read h self).m_previousBuffer = none) :
    (read (runOps h self ops) self).destroyed
      = (read h self).destroyed + zeroReleases (read h self).m_iRefs ops := by
  induction ops generalizing h with
  | nil => simp [runOps, zeroReleases]
  | cons op ops ih =>
    obtain ⟨h1, h2, h3, h4⟩ := applyOp_noPrevious h self op hb hp
    have hlen : self < (applyOp h self op).length := by omega
    rw [runOps_cons, ih _ hlen h2, h3, h4]
    cases op with
    | lock => simp [zeroReleases]
    | release =>
      have e : (read h self).m_iRefs + -1 = (read h self).m_iRefs - 1 := by omega
      simp only [zeroReleases, true_and, reduceCtorEq, if_false, e]
      omega

/-! ## What `Release` changes -/

/-- Writing an object that agrees with the old one under `f` does not change what `f`
sees anywhere in the heap. -/
theorem read_write_proj {α : Type} (f : CDVDVideoCodecIMXBuffer → α) (h : Heap) (p q : Nat)
    (b : CDVDVideoCodecIMXBuffer) (hf : f b = f (read h p)) :
    f (read (write h p b) q) = f (read h q) := by
  by_cases hpq : p = q
  · subst hpq
    by_cases hp : p < h.length
    · rw [read_write_same _ _ _ hp, hf]
    · rw [write_of_le _ _ _ (by omega)]
  · rw [read_write_ne _ _ _ _ hpq]

theorem prev_write_refs (h : Heap) (self z : Nat) (c : Int) :
    (read (write h self { read h self with m_iRefs := c }) z).m_previousBuffer
      = (read h z).m_previousBuffer :=
  read_write_proj (fun b => b.m_previousBuffer) h self z _ rfl

theorem prev_write_rendered (h : Heap) (self z : Nat) (v : Bool) :
    (read (write h self { read h self with m_rendered := v }) z).m_previousBuffer
      = (read h z).m_previousBuffer :=
  read_write_proj (fun b => b.m_previousBuffer) h self z _ rfl

theorem chain_congr (n : Nat) (h h2 : Heap) (self : Nat)
    (hprev : ∀ y, (read h2 y).m_previousBuffer = (read h y).m_previousBuffer) :
    chain n h2 self = chain n h self := by
  induction n generalizing self with
  | zero => rfl
  | succ n ih =>
    simp only [chain, hprev self]
    cases (read h self).m_previousBuffer with
    | none => rfl
    | some p => simp only [ih p]

theorem safeReleasePrevious_length (rel : Heap → Nat → Option (Heap × Int)) (h x : Heap)
    (self : Nat) (hrel : ∀ p r, rel h p = some r → r.1.length = h.length)
    (hx : safeReleasePrevious rel h self = some x) : x.length = h.length := by
  unfold safeReleasePrevious at hx
  cases hp : (read h self).m_previousBuffer with
  | none => rw [hp] at hx; cases hx; rfl
  | some p =>
    rw [hp] at hx
    simp only at hx
    cases hr : rel h p with
    | none => rw [hr] at hx; cases hx
    | some r =>
      rw [hr] at hx
      cases hx
      rw [length_write]
      exact hrel p r hr

theorem ReleaseAux_length (n : Nat) (h : Heap) (self : Nat) (r : Heap × Int)
    (hr : ReleaseAux n h self = some r) : r.1.length = h.length := by
  induction n generalizing h self r with
  | zero => simp [ReleaseAux] at hr
  | succ n ih =>
    unfold ReleaseAux at hr
    simp only at hr
    split_ifs at hr with h2 h1 hf h0
    · rw [Option.map_eq_some'] at hr
      obtain ⟨x, hx, hxr⟩ := hr
      subst hxr
      rw [safeReleasePrevious_length _ _ _ _ (fun p r hpr => ih _ p r hpr) hx, length_write]
    · rw [Option.map_eq_some'] at hr
      obtain ⟨x, hx, hxr⟩ := hr
      subst hxr
      rw [safeReleasePrevious_length _ _ _ _ (fun p r hpr => ih _ p r hpr) hx, length_write,
        length_write]
    · cases hr; simp [length_write]
    · cases hr; simp [length_write]
    · cases hr; simp [length_write]

theorem Release_length (h : Heap) (self : Nat) : (Release h self).1.length = h.length :=
  ReleaseAux_length _ h self _ (ReleaseAux_releaseFuel h self)

theorem safeReleasePrevious_frame (n : Nat) (h x : Heap) (self y : Nat)
    (ih : ∀ p r, ReleaseAux n h p = some r → y ∉ chain n h p → read r.1 y = read h y)
    (hx : safeReleasePrevious (ReleaseAux n) h self = some x) (hy : y ≠ self)
    (hc : ∀ p, (read h self).m_previousBuffer = some p → y ∉ chain n h p) :
    read x y = read h y := by
  unfold safeReleasePrevious at hx
  cases hp : (read h self).m_previousBuffer with
  | none => rw [hp] at hx; cases hx; rfl
  | some p =>
    rw [hp] at hx
    simp only at hx
    cases hr : ReleaseAux n h p with
    | none => rw [hr] at hx; cases hx
    | some r =>
      rw [hr] at hx
      cases hx
      rw [read_write_ne _ _ _ _ (Ne.symm hy)]
      exact ih p r hr (hc p hp)

/-- The method `Release` changes no buffer outside the chain of previous buffers. -/
theorem ReleaseAux_frame (n : Nat) (h : Heap) (self : Nat) (r : Heap × Int) (y : Nat)
    (hr : ReleaseAux n h self = some r) (hy : y ∉ chain n h self) : read r.1 y = read h y := by
  induction n generalizing h self r with
  | zero => simp [ReleaseAux] at hr
  | succ n ih =>
    unfold ReleaseAux at hr
    simp only [chain, List.mem_cons, not_or] at hy
    obtain ⟨hys, hyc⟩ := hy
    simp only at hr
    split_ifs at hr with h2 h1 hf h0
    · rw [Option.map_eq_some'] at hr
      obtain ⟨x, hx, hxr⟩ := hr
      subst hxr
      have hprev : ∀ z, (read (write h self
          { read h self with m_iRefs := (read h self).m_iRefs - 1 }) z).m_previousBuffer
          = (read h z).m_previousBuffer :=
        fun z => prev_write_refs h self z _
      rw [safeReleasePrevious_frame n _ x self y (fun p r hpr hyp => ih _ p r hpr hyp) hx hys,
        read_write_ne _ _ _ _ (Ne.symm hys)]
      intro p hp
      rw [hprev] at hp
      rw [hp] at hyc
      rw [chain_congr n h _ p hprev]
      exact hyc
    · rw [Option.map_eq_some'] at hr
      obtain ⟨x, hx, hxr⟩ := hr
      subst hxr
      have hprev1 : ∀ z, (read (write h self
          { read h self with m_iRefs := (read h self).m_iRefs - 1 }) z).m_previousBuffer
          = (read h z).m_previousBuffer :=
        fun z => prev_write_refs h self z _
      have hprev : ∀ z, (read (write (write h self
          { read h self with m_iRefs := (read h self).m_iRefs - 1 }) self
          { read (write h self { read h self with m_iRefs := (read h self).m_iRefs - 1 }) self
            with m_rendered := true }) z).m_previousBuffer
          = (read h z).m_previousBuffer := fun z =>
        (prev_write_rendered _ self z true).trans (hprev1 z)
      rw [safeReleasePrevious_frame n _ x self y (fun p r hpr hyp => ih _ p r hpr hyp) hx hys,
        read_write_ne _ _ _ _ (Ne.symm hys), read_write_ne _ _ _ _ (Ne.symm hys)]
      intro p hp
      rw [hprev] at hp
      rw [hp] at hyc
      rw [chain_congr n h _ p hprev]
      exact hyc
    · cases hr; simp [read_write_ne _ _ _ _ (Ne.symm hys)]
    · cases hr; simp [read_write_ne _ _ _ _ (Ne.symm hys)]
    · cases hr; simp [read_write_ne _ _ _ _ (Ne.symm hys)]

theorem safeReleasePrevious_self (k : Nat) (h x : Heap) (self : Nat)
    (hx : safeReleasePrevious (ReleaseAux k) h self = some x) (hb : self < h.length)
    (hc : ∀ p, (read h self).m_previousBuffer = some p → self ∉ chain k h p) :
    read x self = { read h self with m_previousBuffer := none } := by
  unfold safeReleasePrevious at hx
  cases hp : (read h self).m_previousBuffer with
  | none =>
    rw [hp] at hx
    cases hx
    cases hb2 : read h self
    rw [hb2] at hp
    simp only at hp
    rw [hp]
  | some p =>
    rw [hp] at hx
    simp only at hx
    cases hr : ReleaseAux k h p with
    | none => rw [hr] at hx; cases hx
    | some r =>
      rw [hr] at hx
      cases hx
      have hlen := ReleaseAux_length k h p r hr
      rw [read_write_same _ _ _ (by omega), ReleaseAux_frame k h p r self hr (hc p hp)]

/-- What `Release` does to the buffer it is called on, when the chain of previous
buffers does not lead back to that buffer. -/
theorem ReleaseAux_self (n : Nat) (h : Heap) (self : Nat) (r : Heap × Int)
    (hr : ReleaseAux n h self = some r) (hb : self < h.length)
    (hc : ∀ k p, n = k + 1 → (read h self).m_previousBuffer = some p → self ∉ chain k h p) :
    read r.1 self =
      { read h self with
        m_iRefs := (read h self).m_iRefs - 1,
        m_rendered := if (read h self).m_iRefs - 1 = 1 ∧ (read h self).m_frameBuffer ≠ none
          then true else (read h self).m_rendered,
        m_previousBuffer := if (read h self).m_iRefs - 1 = 2
            ∨ ((read h self).m_iRefs - 1 = 1 ∧ (read h self).m_frameBuffer ≠ none)
          then none else (read h self).m_previousBuffer,
        destroyed := if (read h self).m_iRefs - 1 = 0 then (read h self).destroyed + 1
          else (read h self).destroyed } ∧
    r.2 = (read h self).m_iRefs - 1 := by
  cases n with
  | zero => simp [ReleaseAux] at hr
  | succ k =>
    have hc2 := hc k
    unfold ReleaseAux at hr
    simp only [read_write_same _ _ _ hb, write_write] at hr
    by_cases h2 : (read h self).m_iRefs - 1 = 2
    · have e1 : ¬ ((read h self).m_iRefs - 1 = 1) := by omega
      have e0 : ¬ ((read h self).m_iRefs - 1 = 0) := by omega
      rw [if_pos h2, Option.map_eq_some'] at hr
      obtain ⟨x, hx, hxr⟩ := hr
      subst hxr
      have := safeReleasePrevious_self k _ x self hx (by rw [length_write]; exact hb) (by
        intro p hp
        rw [prev_write_refs] at hp
        rw [chain_congr k h _ p (fun z => prev_write_refs h self z _)]
        exact hc2 p rfl hp)
      rw [this, read_write_same _ _ _ hb]
      simp [h2, e1, e0]
    · rw [if_neg h2] at hr
      by_cases h1 : (read h self).m_iRefs - 1 = 1
      · have e0 : ¬ ((read h self).m_iRefs - 1 = 0) := by omega
        rw [if_pos h1] at hr
        by_cases hf : (read h self).m_frameBuffer = none
        · simp only [hf, ne_eq, not_true_eq_false, if_false] at hr
          cases hr
          simp [read_write_same _ _ _ hb, hf, e0, h2, h1]
        · rw [if_pos hf, Option.map_eq_some'] at hr
          obtain ⟨x, hx, hxr⟩ := hr
          subst hxr
          have := safeReleasePrevious_self k _ x self hx (by rw [length_write]; exact hb) (by
            intro p hp
            rw [read_write_same _ _ _ hb] at hp
            simp only at hp
            have hprev : ∀ z, (read (write h self
                { read h self with m_iRefs := (read h self).m_iRefs - 1, m_rendered := true })
                z).m_previousBuffer = (read h z).m_previousBuffer :=
              fun z => read_write_proj (fun b => b.m_previousBuffer) h self z _ rfl
            rw [chain_congr k h _ p hprev]
            exact hc2 p rfl hp)
          rw [this, read_write_same _ _ _ hb]
          simp [h2, h1, e0, hf]
      · rw [if_neg h1] at hr
        by_cases h0 : (read h self).m_iRefs - 1 = 0
        · rw [if_pos h0] at hr
          cases hr
          simp [read_write_same _ _ _ hb, h0]
        · rw [if_neg h0] at hr
          cases hr
          simp [read_write_same _ _ _ hb, h0, h1, h2]

theorem chain_succ_nodup (k : Nat) (h : Heap) (self p : Nat)
    (hp : (read h self).m_previousBuffer = some p) (hn : (chain (k + 1) h self).Nodup) :
    self ∉ chain k h p ∧ (chain k h p).Nodup := by
  simp only [chain, hp, List.nodup_cons] at hn
  exact hn

theorem safeReleasePrevious_prev (k : Nat) (h x : Heap) (self p : Nat)
    (hx : safeReleasePrevious (ReleaseAux k) h self = some x)
    (hprev : (read h self).m_previousBuffer = some p) (hpl : p < h.length)
    (hn : (chain k h p).Nodup) (hs : self ∉ chain k h p) :
    (read x p).m_iRefs = (read h p).m_iRefs - 1 := by
  unfold safeReleasePrevious at hx
  rw [hprev] at hx
  simp only at hx
  cases hr : ReleaseAux k h p with
  | none => rw [hr] at hx; cases hx
  | some r =>
    rw [hr] at hx
    cases hx
    cases k with
    | zero => simp [ReleaseAux] at hr
    | succ k =>
      have hne : self ≠ p := by
        intro e
        apply hs
        simp [chain, e]
      rw [read_write_ne _ _ _ _ hne]
      have := ReleaseAux_self (k + 1) h p r hr hpl (by
        intro k2 q hk hq
        have hk2 : k = k2 := by omega
        subst hk2
        exact (chain_succ_nodup k h p q hq hn).1)
      rw [this.1]

/-- When `Release` gets to `SAFE_RELEASE(m_previousBuffer)`, the count of the chained
previous buffer goes down by exactly one. -/
theorem Release_previous_refs (h : Heap) (self p : Nat) (hb : self < h.length)
    (hpl : p < h.length) (hprev : (read h self).m_previousBuffer = some p)
    (hac : chainAcyclic h self)
    (hcas : (read h self).m_iRefs - 1 = 2
      ∨ ((read h self).m_iRefs - 1 = 1 ∧ (read h self).m_frameBuffer ≠ none)) :
    (read (Release h self).1 p).m_iRefs = (read h p).m_iRefs - 1 := by
  have hR := ReleaseAux_releaseFuel h self
  unfold chainAcyclic at hac
  unfold releaseFuel at hR hac
  obtain ⟨hs, hn⟩ := chain_succ_nodup _ h self p hprev hac
  have hne : self ≠ p := by
    intro e
    apply hs
    have : 2 * h.length = (2 * h.length - 1) + 1 := by omega
    rw [this]
    simp [chain, e]
  unfold ReleaseAux at hR
  simp only [read_write_same _ _ _ hb, write_write] at hR
  rcases hcas with h2 | ⟨h1, hf⟩
  · rw [if_pos h2, Option.map_eq_some'] at hR
    obtain ⟨x, hx, hxr⟩ := hR
    rw [← hxr]
    have hpv := fun z => prev_write_refs h self z ((read h self).m_iRefs - 1)
    rw [safeReleasePrevious_prev _ _ x self p hx (by rw [hpv]; exact hprev)
      (by rw [length_write]; exact hpl) (by rw [chain_congr _ h _ p hpv]; exact hn)
      (by rw [chain_congr _ h _ p hpv]; exact hs), read_write_ne _ _ _ _ hne]
  · have h2 : ¬ ((read h self).m_iRefs - 1 = 2) := by omega
    rw [if_neg h2, if_pos h1, if_pos hf, Option.map_eq_some'] at hR
    obtain ⟨x, hx, hxr⟩ := hR
    rw [← hxr]
    have hpv : ∀ z, (read (write h self
        { read h self with m_iRefs := (read h self).m_iRefs - 1, m_rendered := true })
        z).m_previousBuffer = (read h z).m_previousBuffer :=
      fun z => read_write_proj (fun b => b.m_previousBuffer) h self z _ rfl
    rw [safeReleasePrevious_prev _ _ x self p hx (by rw [hpv]; exact hprev)
      (by rw [length_write]; exact hpl) (by rw [chain_congr _ h _ p hpv]; exact hn)
      (by rw [chain_congr _ h _ p hpv]; exact hs), read_write_ne _ _ _ _ hne]

/-- What `Release` does to the buffer it is called on, when the chain of previous
buffers does not run into a cycle. -/
theorem Release_self (h : Heap) (self : Nat) (hb : self < h.length)
    (hac : chainAcyclic h self) :
    read (Release h self).1 self =
      { read h self with
        m_iRefs := (read h self).m_iRefs - 1,
        m_rendered := if (read h self).m_iRefs - 1 = 1 ∧ (read h self).m_frameBuffer ≠ none
          then true else (read h self).m_rendered,
        m_previousBuffer := if (read h self).m_iRefs - 1 = 2
            ∨ ((read h self).m_iRefs - 1 = 1 ∧ (read h self).m_frameBuffer ≠ none)
          then none else (read h self).m_previousBuffer,
        destroyed := if (read h self).m_iRefs - 1 = 0 then (read h self).destroyed + 1
          else (read h self).destroyed } :=
  (ReleaseAux_self _ h self _ (ReleaseAux_releaseFuel h self) hb (by
    intro k p hk hp
    unfold chainAcyclic at hac
    rw [hk] at hac
    exact (chain_succ_nodup k h self p hp hac).1)).1

/-- The method `Release` returns the count after the decrement. -/
theorem Release_returns (h : Heap) (self : Nat) :
    (Release h self).2 = (read h self).m_iRefs - 1 := by
  rw [Release_unfold]
  split_ifs <;> rfl

theorem applyOp_noPrevious_frame (h : Heap) (self y : Nat) (op : BufferOp) (hb : self < h.length)
    (hp : (read h self).m_previousBuffer = none) (hy : self ≠ y) :
    read (applyOp h self op) y = read h y := by
  cases op with
  | lock => simp only [applyOp, Lock, read_write_ne _ _ _ _ hy]
  | release => simp only [applyOp, Release_noPrevious h self hb hp, read_write_ne _ _ _ _ hy]

theorem runOps_noPrevious_frame (h : Heap) (self y : Nat) (ops : List BufferOp)
    (hb : self < h.length) (hp : (read h self).m_previousBuffer = none) (hy : self ≠ y) :
    read (runOps h self ops) y = read h y := by
  induction ops generalizing h with
  | nil => rfl
  | cons op ops ih =>
    obtain ⟨h1, h2, _, _⟩ := applyOp_noPrevious h self op hb hp
    rw [runOps_cons, ih _ (by omega) h2, applyOp_noPrevious_frame h self y op hb hp hy]

theorem stable_write_refs (h : Heap) (self y : Nat) (c : Int) :
    stableView (read (write h self { read h self with m_iRefs := c }) y)
      = stableView (read h y) :=
  read_write_proj stableView h self y _ rfl

theorem stable_write_prev (h : Heap) (self y : Nat) (v : Option Nat) :
    stableView (read (write h self { read h self with m_previousBuffer := v }) y)
      = stableView (read h y) :=
  read_write_proj stableView h self y _ rfl

theorem stable_write_destroyed (h : Heap) (self y : Nat) (d : Nat) :
    stableView (read (write h self { read h self with destroyed := d }) y)
      = stableView (read h y) :=
  read_write_proj stableView h self y _ rfl

theorem stable_write_rendered (h : Heap) (self y : Nat) (v : Bool)
    (hf : (read h self).m_frameBuffer ≠ none) :
    stableView (read (write h self { read h self with m_rendered := v }) y)
      = stableView (read h y) :=
  read_write_proj stableView h self y _ (by simp [stableView, hf])

theorem safeReleasePrevious_stable (rel : Heap → Nat → Option (Heap × Int)) (h x : Heap)
    (self : Nat)
    (hrel : ∀ p r, rel h p = some r → ∀ y, stableView (read r.1 y) = stableView (read h y))
    (hx : safeReleasePrevious rel h self = some x) (y : Nat) :
    stableView (read x y) = stableView (read h y) := by
  unfold safeReleasePrevious at hx
  cases hp : (read h self).m_previousBuffer with
  | none => rw [hp] at hx; cases hx; rfl
  | some p =>
    rw [hp] at hx
    simp only at hx
    cases hr : rel h p with
    | none => rw [hr] at hx; cases hx
    | some r =>
      rw [hr] at hx
      cases hx
      rw [stable_write_prev]
      exact hrel p r hr y

/-- The method `Release` changes neither the frame nor the timestamps of any buffer, and it
does not mark a buffer rendered that refers to no frame. -/
theorem ReleaseAux_stable (n : Nat) (h : Heap) (self : Nat) (r : Heap × Int)
    (hr : ReleaseAux n h self = some r) :
    ∀ y, stableView (read r.1 y) = stableView (read h y) := by
  induction n generalizing h self r with
  | zero => simp [ReleaseAux] at hr
  | succ n ih =>
    intro y
    unfold ReleaseAux at hr
    simp only at hr
    split_ifs at hr with h2 h1 hf h0
    · rw [Option.map_eq_some'] at hr
      obtain ⟨x, hx, hxr⟩ := hr
      subst hxr
      rw [safeReleasePrevious_stable _ _ x self (fun p r hpr => ih _ p r hpr) hx y,
        stable_write_refs]
    · rw [Option.map_eq_some'] at hr
      obtain ⟨x, hx, hxr⟩ := hr
      subst hxr
      rw [safeReleasePrevious_stable _ _ x self (fun p r hpr => ih _ p r hpr) hx y,
        stable_write_rendered _ _ _ _ hf, stable_write_refs]
    · cases hr; exact stable_write_refs _ _ _ _
    · cases hr
      simp only
      rw [stable_write_destroyed, stable_write_refs]
    · cases hr; exact stable_write_refs _ _ _ _

theorem Release_stable (h : Heap) (self y : Nat) :
    stableView (read (Release h self).1 y) = stableView (read h y) :=
  ReleaseAux_stable _ h self _ (ReleaseAux_releaseFuel h self) y

theorem SAFE_RELEASE_previous_stable (h : Heap) (self y : Nat) :
    stableView (read (SAFE_RELEASE_previous h self) y) = stableView (read h y) := by
  unfold SAFE_RELEASE_previous
  cases hp : (read h self).m_previousBuffer with
  | none => rfl
  | some p =>
    simp only
    rw [stable_write_prev, Release_stable]

theorem SAFE_RELEASE_previous_prev (h : Heap) (self : Nat) :
    (read (SAFE_RELEASE_previous h self) self).m_previousBuffer = none := by
  unfold SAFE_RELEASE_previous
  cases hp : (read h self).m_previousBuffer with
  | none => exact hp
  | some p =>
    simp only
    by_cases hb : self < (Release h p).1.length
    · rw [read_write_same _ _ _ hb]
    · rw [read_of_le _ _ (by rw [length_write]; omega)]; rfl

/-! ## `ReleaseFramebuffer` -/

theorem read_write_self (h : Heap) (p : Nat) (b : CDVDVideoCodecIMXBuffer) :
    read (write h p b) p = if p < h.length then b else CDVDVideoCodecIMXBuffer.new := by
  by_cases hp : p < h.length
  · rw [if_pos hp, read_write_same _ _ _ hp]
  · rw [if_neg hp, read_of_le _ _ (by rw [length_write]; omega)]

/-- The heap after `ReleaseFramebuffer`: the three assignments made in one write. -/
theorem ReleaseFramebuffer_heap (hwRet : VpuDecRetCode) (w : World) (self handle : Nat) :
    (ReleaseFramebuffer hwRet w self handle).1.heap
      = SAFE_RELEASE_previous (write w.heap self { read w.heap self with
          m_rendered := false, m_frameBuffer := none, m_pts := DVD_NOPTS_VALUE }) self := by
  simp only [ReleaseFramebuffer, SetPts]
  by_cases hb : self < w.heap.length
  · simp only [read_write_same _ _ _ hb, write_write, length_write]
  · simp only [write_of_le _ _ _ (not_lt.mp hb)]

/-- The buffer on which `ReleaseFramebuffer` was called refers to no frame, is not marked
rendered, has no presentation timestamp and no chained previous buffer; its decode
timestamp is the one it had. -/
theorem ReleaseFramebuffer_post (hwRet : VpuDecRetCode) (w : World) (self handle : Nat) :
    (read (ReleaseFramebuffer hwRet w self handle).1.heap self).m_rendered = false ∧
    (read (ReleaseFramebuffer hwRet w self handle).1.heap self).m_frameBuffer = none ∧
    (read (ReleaseFramebuffer hwRet w self handle).1.heap self).m_pts = DVD_NOPTS_VALUE ∧
    (read (ReleaseFramebuffer hwRet w self handle).1.heap self).m_previousBuffer = none ∧
    (read (ReleaseFramebuffer hwRet w self handle).1.heap self).m_dts
      = (read w.heap self).m_dts := by
  rw [ReleaseFramebuffer_heap]
  have hs := SAFE_RELEASE_previous_stable (write w.heap self { read w.heap self with
          m_rendered := false, m_frameBuffer := none, m_pts := DVD_NOPTS_VALUE }) self self
  have hp := SAFE_RELEASE_previous_prev (write w.heap self { read w.heap self with
          m_rendered := false, m_frameBuffer := none, m_pts := DVD_NOPTS_VALUE }) self
  rw [read_write_self] at hs
  by_cases hb : self < w.heap.length
  · simp only [if_pos hb, stableView, Prod.mk.injEq] at hs
    obtain ⟨h1, h2, h3, h4⟩ := hs
    rw [h1] at h4
    simp only [if_true] at h4
    exact ⟨h4, h1, h2, hp, h3⟩
  · simp only [if_neg hb, stableView, Prod.mk.injEq, CDVDVideoCodecIMXBuffer.new] at hs
    obtain ⟨h1, h2, h3, h4⟩ := hs
    rw [h1] at h4
    simp only [if_true] at h4
    refine ⟨h4, h1, h2, hp, ?_⟩
    rw [h3, read_of_le _ _ (by omega)]
    rfl

/-- On a buffer that is already cleared, `ReleaseFramebuffer` changes nothing and calls
no hardware function. -/
theorem ReleaseFramebuffer_cleared (hwRet : VpuDecRetCode) (w : World) (self handle : Nat)
    (hr : (read w.heap self).m_rendered = false) (hf : (read w.heap self).m_frameBuffer = none)
    (ht : (read w.heap self).m_pts = DVD_NOPTS_VALUE)
    (hp : (read w.heap self).m_previousBuffer = none) :
    ReleaseFramebuffer hwRet w self handle = (w, VPU_DEC_RET_FAILURE) := by
  have hheap := ReleaseFramebuffer_heap hwRet w self handle
  have e : ({ read w.heap self with
      m_rendered := false, m_frameBuffer := none, m_pts := DVD_NOPTS_VALUE } :
      CDVDVideoCodecIMXBuffer) = read w.heap self := by
    cases hb : read w.heap self
    rw [hb] at hr hf ht
    simp only at hr hf ht
    simp [hr, hf, ht]
  rw [e, write_read_self, SAFE_RELEASE_previous_none _ _ hp] at hheap
  have hcalls : (ReleaseFramebuffer hwRet w self handle).1.calls = w.calls := by
    simp [ReleaseFramebuffer, hf]
  have hslots : (ReleaseFramebuffer hwRet w self handle).1.slotReturns = w.slotReturns := by
    simp [ReleaseFramebuffer, hf]
  have hret : (ReleaseFramebuffer hwRet w self handle).2 = VPU_DEC_RET_FAILURE := by
    simp [ReleaseFramebuffer, hf]
  rcases hrf : ReleaseFramebuffer hwRet w self handle with ⟨⟨a, c, d⟩, r⟩
  rw [hrf] at hheap hcalls hslots hret
  simp only at hheap hcalls hslots hret
  subst hheap hcalls hslots hret
  rfl

theorem prev_write_cleared (h : Heap) (self z : Nat) :
    (read (write h self { read h self with
        m_rendered := false, m_frameBuffer := none, m_pts := DVD_NOPTS_VALUE })
      z).m_previousBuffer = (read h z).m_previousBuffer :=
  read_write_proj (fun b => b.m_previousBuffer) h self z _ rfl

theorem refs_write_cleared (h : Heap) (self z : Nat) :
    (read (write h self { read h self with
        m_rendered := false, m_frameBuffer := none, m_pts := DVD_NOPTS_VALUE })
      z).m_iRefs = (read h z).m_iRefs :=
  read_write_proj (fun b => b.m_iRefs) h self z _ rfl

theorem refs_write_prev (h : Heap) (self z : Nat) (v : Option Nat) :
    (read (write h self { read h self with m_previousBuffer := v }) z).m_iRefs
      = (read h z).m_iRefs :=
  read_write_proj (fun b => b.m_iRefs) h self z _ rfl

theorem ReleaseFramebuffer_noPrevious_frame (hwRet : VpuDecRetCode) (w : World)
    (self handle y : Nat) (hp : (read w.heap self).m_previousBuffer = none) (hy : self ≠ y) :
    read (ReleaseFramebuffer hwRet w self handle).1.heap y = read w.heap y := by
  rw [ReleaseFramebuffer_heap, SAFE_RELEASE_previous_none, read_write_ne _ _ _ _ hy]
  rw [prev_write_cleared]
  exact hp

theorem chainAcyclic_congr (h h2 : Heap) (p : Nat) (hlen : h2.length = h.length)
    (hprev : ∀ y, (read h2 y).m_previousBuffer = (read h y).m_previousBuffer)
    (hac : chainAcyclic h p) : chainAcyclic h2 p := by
  unfold chainAcyclic releaseFuel at *
  rw [hlen, chain_congr _ h h2 p hprev]
  exact hac

/-! ## The claims on decode buffers -/

/-- C2 (as amended): for every decode buffer that refers to a hardware frame, when
`Release` brings the reference count to exactly one, `Release` returns one, the buffer
is marked rendered, its link to the chained previous buffer is cleared and the
reference count of that previous buffer has gone down by one. -/
theorem C2_release_to_one_marks_rendered (h : Heap) (self : Nat) (hb : self < h.length)
    (hrefs : (read h self).m_iRefs - 1 = 1) (hframe : (read h self).m_frameBuffer ≠ none)
    (hac : chainAcyclic h self) :
    (Release h self).2 = 1 ∧
    (read (Release h self).1 self).m_rendered = true ∧
    (read (Release h self).1 self).m_previousBuffer = none ∧
    ∀ p, (read h self).m_previousBuffer = some p → p < h.length →
      (read (Release h self).1 p).m_iRefs = (read h p).m_iRefs - 1 := by
  refine ⟨by rw [Release_returns, hrefs], ?_, ?_, ?_⟩
  · rw [Release_self h self hb hac]
    simp [hrefs, hframe]
  · rw [Release_self h self hb hac]
    simp [hrefs, hframe]
  · intro p hp hpl
    exact Release_previous_refs h self p hb hpl hp hac (Or.inr ⟨hrefs, hframe⟩)

/-- C2, witness: a displayed buffer held by the session and one more holder, chained to
a previous buffer. -/
theorem C2_release_to_one_marks_rendered_witness :
    (Release (chainedHeap 2) 0).2 = 1 ∧
    (read (Release (chainedHeap 2) 0).1 0).m_rendered = true ∧
    (read (Release (chainedHeap 2) 0).1 0).m_previousBuffer = none ∧
    (read (Release (chainedHeap 2) 0).1 1).m_iRefs = (read (chainedHeap 2) 1).m_iRefs - 1 :=
  (fun t => ⟨t.1, t.2.1, t.2.2.1, t.2.2.2 1 (by decide) (by decide)⟩)
    (C2_release_to_one_marks_rendered (chainedHeap 2) 0 (by decide) (by decide) (by decide)
      (by decide))

/-- C2, counterexample: a buffer that refers to no hardware frame (a pool buffer whose
slot was handed back while somebody still held it). `Release` brings its count from
two to exactly one, and the buffer is not marked rendered. -/
theorem C2_counterexample :
    (Release [{ CDVDVideoCodecIMXBuffer.new with m_iRefs := 2 }] 0).2 = 1 ∧
    (read (Release [{ CDVDVideoCodecIMXBuffer.new with m_iRefs := 2 }] 0).1 0).m_iRefs = 1 ∧
    (read (Release [{ CDVDVideoCodecIMXBuffer.new with m_iRefs := 2 }] 0).1 0).m_rendered
      = false := by
  decide

/-- C3: when `Release` brings the count of a buffer to exactly two, the reference count
of its chained previous buffer goes down by exactly one and the link is cleared; after
that, no sequence of further `Lock` and `Release` calls on the buffer and no later
`ReleaseFramebuffer` on it changes the previous buffer again. -/
theorem C3_release_to_two_releases_previous_once (h : Heap) (self p : Nat)
    (hb : self < h.length) (hpl : p < h.length)
    (hrefs : (read h self).m_iRefs - 1 = 2)
    (hprev : (read h self).m_previousBuffer = some p) (hac : chainAcyclic h self) :
    (Release h self).2 = 2 ∧
    (read (Release h self).1 p).m_iRefs = (read h p).m_iRefs - 1 ∧
    (read (Release h self).1 self).m_previousBuffer = none ∧
    (∀ ops, read (runOps (Release h self).1 self ops) p = read (Release h self).1 p) ∧
    (∀ ops hwRet calls slotReturns handle,
      read (ReleaseFramebuffer hwRet
        { heap := runOps (Release h self).1 self ops, calls := calls,
          slotReturns := slotReturns } self handle).1.heap p
        = read (Release h self).1 p) := by
  have hne : self ≠ p := by
    intro e
    unfold chainAcyclic releaseFuel at hac
    have := (chain_succ_nodup _ h self p hprev hac).1
    apply this
    have e2 : 2 * h.length = (2 * h.length - 1) + 1 := by omega
    rw [e2]
    simp [chain, e]
  have hself : (read (Release h self).1 self).m_previousBuffer = none := by
    rw [Release_self h self hb hac]
    simp [hrefs]
  have hlen : self < (Release h self).1.length := by rw [Release_length]; exact hb
  refine ⟨by rw [Release_returns, hrefs],
    Release_previous_refs h self p hb hpl hprev hac (Or.inl hrefs), hself, ?_, ?_⟩
  · intro ops
    exact runOps_noPrevious_frame _ self p ops hlen hself hne
  · intro ops hwRet calls slotReturns handle
    obtain ⟨h1, h2, _⟩ := runOps_noPrevious (Release h self).1 self ops hlen hself
    rw [ReleaseFramebuffer_noPrevious_frame _ _ self handle p h2 hne]
    exact runOps_noPrevious_frame _ self p ops hlen hself hne

/-- C3, witness: a buffer held by the session, its successor and one more holder,
chained to a previous buffer. -/
theorem C3_release_to_two_releases_previous_once_witness :
    (Release (chainedHeap 3) 0).2 = 2 ∧
    (read (Release (chainedHeap 3) 0).1 1).m_iRefs = (read (chainedHeap 3) 1).m_iRefs - 1 ∧
    (read (Release (chainedHeap 3) 0).1 0).m_previousBuffer = none :=
  (fun t => ⟨t.1, t.2.1, t.2.2.1⟩)
    (C3_release_to_two_releases_previous_once (chainedHeap 3) 0 1 (by decide) (by decide)
      (by decide) (by decide) (by decide))

/-- C4: `ReleaseFramebuffer` is idempotent. Whatever the buffer, the handle and the
answers of the hardware, a second call right after the first leaves the heap (the
buffer and the count of its former previous buffer), the log of hardware calls and
the ghost log unchanged: it issues no `VPU_DecOutFrameDisplayed`. -/
theorem C4_ReleaseFramebuffer_idempotent (hwRet1 hwRet2 : VpuDecRetCode) (w : World)
    (self handle1 handle2 : Nat) :
    ReleaseFramebuffer hwRet2 (ReleaseFramebuffer hwRet1 w self handle1).1 self handle2
        = ((ReleaseFramebuffer hwRet1 w self handle1).1, VPU_DEC_RET_FAILURE) ∧
    (ReleaseFramebuffer hwRet2 (ReleaseFramebuffer hwRet1 w self handle1).1 self handle2).1.calls
        = (ReleaseFramebuffer hwRet1 w self handle1).1.calls := by
  obtain ⟨h1, h2, h3, h4, _⟩ := ReleaseFramebuffer_post hwRet1 w self handle1
  have := ReleaseFramebuffer_cleared hwRet2 (ReleaseFramebuffer hwRet1 w self handle1).1
    self handle2 h1 h2 h3 h4
  exact ⟨this, by rw [this]⟩

/-- C5 (as amended): after `ReleaseFramebuffer` the presentation timestamp of the buffer
holds the no-timestamp value, its decode timestamp is what it was before, its rendered
flag is false, it refers to no hardware frame, its link to the chained previous buffer
is cleared and the count of that previous buffer has gone down by one. -/
theorem C5_ReleaseFramebuffer_clears (hwRet : VpuDecRetCode) (w : World) (self handle : Nat) :
    (read (ReleaseFramebuffer hwRet w self handle).1.heap self).m_pts = DVD_NOPTS_VALUE ∧
    (read (ReleaseFramebuffer hwRet w self handle).1.heap self).m_dts
      = (read w.heap self).m_dts ∧
    (read (ReleaseFramebuffer hwRet w self handle).1.heap self).m_rendered = false ∧
    (read (ReleaseFramebuffer hwRet w self handle).1.heap self).m_frameBuffer = none ∧
    (read (ReleaseFramebuffer hwRet w self handle).1.heap self).m_previousBuffer = none ∧
    (∀ p, (read w.heap self).m_previousBuffer = some p → p < w.heap.length →
      chainAcyclic w.heap p →
      (read (ReleaseFramebuffer hwRet w self handle).1.heap p).m_iRefs
        = (read w.heap p).m_iRefs - 1) := by
  obtain ⟨h1, h2, h3, h4, h5⟩ := ReleaseFramebuffer_post hwRet w self handle
  refine ⟨h3, h5, h1, h2, h4, ?_⟩
  intro p hp hpl hac
  rw [ReleaseFramebuffer_heap]
  unfold SAFE_RELEASE_previous
  rw [prev_write_cleared, hp]
  simp only
  rw [refs_write_prev, Release_self _ p (by rw [length_write]; exact hpl)
    (chainAcyclic_congr w.heap _ p (length_write _ _ _) (fun y => prev_write_cleared _ _ _) hac)]
  simp only
  rw [refs_write_cleared]

/-- C5, witness: a displayed buffer chained to a previous buffer. -/
theorem C5_ReleaseFramebuffer_clears_witness :
    (read (ReleaseFramebuffer VPU_DEC_RET_SUCCESS
      { heap := chainedHeap 1, calls := [], slotReturns := [] } 0 1).1.heap 1).m_iRefs
      = (read (chainedHeap 1) 1).m_iRefs - 1 :=
  (C5_ReleaseFramebuffer_clears VPU_DEC_RET_SUCCESS
      { heap := chainedHeap 1, calls := [], slotReturns := [] } 0 1).2.2.2.2.2 1
    (by decide) (by decide) (by decide)

/-- C5, counterexample: a displayed buffer whose decode timestamp is 7. After
`ReleaseFramebuffer` the decode timestamp is still 7, not the no-timestamp value. -/
theorem C5_counterexample :
    (read (ReleaseFramebuffer VPU_DEC_RET_SUCCESS
      { heap := [{ CDVDVideoCodecIMXBuffer.new with
          m_iRefs := 1, m_dts := 7, m_pts := 7, m_frameBuffer := some default }],
        calls := [], slotReturns := [] } 0 1).1.heap 0).m_dts = 7 ∧
    (7 : Int) ≠ DVD_NOPTS_VALUE := by
  decide

/-! ## The frame buffer pool -/

theorem getD_set_same {α : Type} (l : List α) (i : Nat) (v d : α) (h : i < l.length) :
    (l.set i v).getD i d = v := by
  simp [List.getD, h]

theorem getD_set_ne {α : Type} (l : List α) (i j : Nat) (v d : α) (h : i ≠ j) :
    (l.set i v).getD j d = l.getD j d := by
  simp [List.getD, List.getElem?_set, h]

/-- A decode buffer right after `new` and `Lock`. -/
theorem Lock_new (h : Heap) :
    Lock (h ++ [CDVDVideoCodecIMXBuffer.new]) h.length
      = h ++ [{ CDVDVideoCodecIMXBuffer.new with m_iRefs := 1 }] := by
  simp [Lock, write, read, List.getD, CDVDVideoCodecIMXBuffer.new]

theorem allocFrameStep_fields (o : Vpu) (i420 : Bool) (l : FrameLayout) (i : Nat)
    (s : CDVDVideoCodecIMX) :
    (allocFrameStep o i420 l i s).m_vpuFrameBuffers
      = s.m_vpuFrameBuffers.map (fun a => a.set i (fillFrameBuffer i420 l
          { o.memDesc s.world.calls.length with nSize := totalSize l })) ∧
    (allocFrameStep o i420 l i s).m_outputBuffers
      = s.m_outputBuffers.map (fun a => a.set i (some s.world.heap.length)) ∧
    (allocFrameStep o i420 l i s).world.heap
      = s.world.heap ++ [{ CDVDVideoCodecIMXBuffer.new with m_iRefs := 1 }] ∧
    (allocFrameStep o i420 l i s).m_vpuFrameBufferNum = s.m_vpuFrameBufferNum ∧
    (allocFrameStep o i420 l i s).world.calls
      = s.world.calls ++ [VpuCall.DecGetMem (totalSize l)] ∧
    (allocFrameStep o i420 l i s).m_vpuHandle = s.m_vpuHandle := by
  simp [allocFrameStep, logCall, setHeap, Lock_new]

/-- What a successful run of the allocation loop leaves: the arrays keep their length,
the slots and pointers below `i` are untouched, each of the `k` slots from `i` on is
filled from a block of the allocator and points to a new decode buffer, and the heap
has grown by exactly `k` buffers, each with reference count one. -/
theorem allocFrameLoop_spec (o : Vpu) (i420 : Bool) (l : FrameLayout) (k : Nat) :
    ∀ (i : Nat) (s s2 : CDVDVideoCodecIMX) (F : List VpuFrameBuffer) (B : List (Option Nat)),
    allocFrameLoop o i420 l k i s = (s2, true) →
    s.m_vpuFrameBuffers = some F → s.m_outputBuffers = some B →
    i + k ≤ F.length → i + k ≤ B.length →
    ∃ F2 B2, s2.m_vpuFrameBuffers = some F2 ∧ s2.m_outputBuffers = some B2 ∧
      F2.length = F.length ∧ B2.length = B.length ∧
      s2.world.heap
        = s.world.heap ++ List.replicate k { CDVDVideoCodecIMXBuffer.new with m_iRefs := 1 } ∧
      s2.m_vpuFrameBufferNum = s.m_vpuFrameBufferNum ∧
      (∀ j, j < i → F2.getD j default = F.getD j default ∧ B2.getD j none = B.getD j none) ∧
      (∀ j, i ≤ j → j < i + k →
        (∃ idx, F2.getD j default
          = fillFrameBuffer i420 l { o.memDesc idx with nSize := totalSize l }) ∧
        B2.getD j none = some (s.world.heap.length + (j - i))) := by
  induction k with
  | zero =>
    intro i s s2 F B hrun hF hB _ _
    simp only [allocFrameLoop, Prod.mk.injEq, and_true] at hrun
    subst hrun
    exact ⟨F, B, hF, hB, rfl, rfl, by simp, rfl, fun j _ => ⟨rfl, rfl⟩,
      fun j h1 h2 => by omega⟩
  | succ k ih =>
    intro i s s2 F B hrun hF hB hFl hBl
    unfold allocFrameLoop at hrun
    split_ifs at hrun with hret
    · simp at hrun
    · obtain ⟨e1, e2, e3, e4, _, _⟩ := allocFrameStep_fields o i420 l i s
      rw [hF] at e1
      rw [hB] at e2
      obtain ⟨F2, B2, hF2, hB2, hl1, hl2, hheap, hnum, hlow, hhigh⟩ :=
        ih (i + 1) _ s2 _ _ hrun e1 e2 (by simp; omega) (by simp; omega)
      refine ⟨F2, B2, hF2, hB2, by simpa using hl1, by simpa using hl2, ?_, by rw [hnum, e4],
        ?_, ?_⟩
      · rw [hheap, e3, List.replicate_succ, List.append_assoc]
        rfl
      · intro j hj
        obtain ⟨a, b⟩ := hlow j (by omega)
        rw [a, b, getD_set_ne _ _ _ _ _ (by omega), getD_set_ne _ _ _ _ _ (by omega)]
        exact ⟨rfl, rfl⟩
      · intro j hj1 hj2
        by_cases hji : j = i
        · subst hji
          obtain ⟨a, b⟩ := hlow j (by omega)
          rw [a, b, getD_set_same _ _ _ _ (by omega), getD_set_same _ _ _ _ (by omega)]
          exact ⟨⟨_, rfl⟩, by simp⟩
        · obtain ⟨a, b⟩ := hhigh j (by omega) (by omega)
          refine ⟨a, ?_⟩
          rw [b, e3]
          simp only [List.length_append, List.length_singleton, Option.some.injEq]
          omega

/-! ## Address arithmetic -/

theorem u32_lt (x : Nat) : u32 x < 2 ^ 32 := by
  unfold u32; omega

theorem toUnsigned_toInt32 (v : Nat) : toUnsigned (toInt32 v) = u32 v := by
  unfold toUnsigned toInt32 u32
  split_ifs <;> omega

theorem ptrAdd_toInt32 (p v : Nat) : ptrAdd p (toInt32 v) = u32 (p + v) := by
  unfold ptrAdd toUnsigned toInt32 u32
  split_ifs <;> omega

theorem toUnsigned_of_range (n : Int) (h0 : 0 ≤ n) (h1 : n < 2 ^ 32) : toUnsigned n = n.toNat := by
  unfold toUnsigned
  omega

theorem u32_of_lt (x : Nat) (h : x < 2 ^ 32) : u32 x = x := Nat.mod_eq_of_lt h

theorem Align_dvd (x a : Nat) : u32 a ∣ Align x a := by
  unfold Align
  have h1 : u32 (u32 (u32 x + u32 a) + (2 ^ 32 - 1)) / u32 a * u32 a
      ≤ u32 (u32 (u32 x + u32 a) + (2 ^ 32 - 1)) := Nat.div_mul_le_self _ _
  have h2 := u32_lt (u32 (u32 x + u32 a) + (2 ^ 32 - 1))
  rw [u32_of_lt _ (lt_of_le_of_lt h1 h2)]
  exact Nat.dvd_mul_left _ _

theorem Align_lt (x a : Nat) : Align x a < 2 ^ 32 := u32_lt _

theorem planes_dvd (a p vY vU vV : Nat) (hp : a ∣ p) (hY : a ∣ vY) (hU : a ∣ vU) (hV : a ∣ vV)
    (h : a ∣ 2 ^ 32 ∨ p + vY + vU + vV < 2 ^ 32) :
    a ∣ ptrAdd p (toInt32 vY) ∧ a ∣ ptrAdd (ptrAdd p (toInt32 vY)) (toInt32 vU) ∧
    a ∣ ptrAdd (ptrAdd (ptrAdd p (toInt32 vY)) (toInt32 vU)) (toInt32 vV) := by
  simp only [ptrAdd_toInt32]
  rcases h with h | h
  · have e : ∀ x, a ∣ x → a ∣ u32 x := fun x hx => (Nat.dvd_mod_iff h).mpr hx
    exact ⟨e _ (Nat.dvd_add hp hY), e _ (Nat.dvd_add (e _ (Nat.dvd_add hp hY)) hU),
      e _ (Nat.dvd_add (e _ (Nat.dvd_add (e _ (Nat.dvd_add hp hY)) hU)) hV)⟩
  · rw [u32_of_lt (p + vY) (by omega), u32_of_lt (p + vY + vU) (by omega),
      u32_of_lt (p + vY + vU + vV) h]
    exact ⟨Nat.dvd_add hp hY, Nat.dvd_add (Nat.dvd_add hp hY) hU,
      Nat.dvd_add (Nat.dvd_add (Nat.dvd_add hp hY) hU) hV⟩

theorem natCast_toUnsigned (n : Int) (h0 : 0 ≤ n) (h1 : n < 2 ^ 32) :
    ((toUnsigned n : Nat) : Int) = n := by
  unfold toUnsigned
  omega

/-- Every plane address of a slot that `VpuAllocFrameBuffers` fills is a multiple of the
address alignment, when the alignment divides `2 ^ 32` or the planes end below the top
of the address space. -/
theorem fillFrameBuffer_aligned (i420 : Bool) (l0 : FrameLayout) (m : VpuMemDesc)
    (hn : 1 < l0.nAlign) (hn31 : l0.nAlign < 2 ^ 31)
    (hfit : l0.nAlign ∣ 2 ^ 32 ∨ planesFit (alignSizes l0) m) :
    planesAligned l0.nAlign (fillFrameBuffer i420 (alignSizes l0) m) := by
  have hcast := natCast_toUnsigned l0.nAlign (by omega) (by omega)
  have hu : u32 (toUnsigned l0.nAlign) = toUnsigned l0.nAlign :=
    u32_of_lt _ (by unfold toUnsigned; omega)
  have hA : ∀ x, toUnsigned l0.nAlign ∣ Align x (toUnsigned l0.nAlign) := fun x => by
    have := Align_dvd x (toUnsigned l0.nAlign)
    rwa [hu] at this
  have hfit2 : ∀ base, toUnsigned l0.nAlign ∣ 2 ^ 32 ∨
      (alignBase (alignSizes l0) base + toUnsigned (alignSizes l0).ySize
        + toUnsigned (alignSizes l0).uSize + toUnsigned (alignSizes l0).vSize < 2 ^ 32) →
      toUnsigned l0.nAlign ∣ 2 ^ 32 ∨
      (Align (u32 base) (toUnsigned l0.nAlign) + Align (toUnsigned l0.ySize) (toUnsigned l0.nAlign)
        + Align (toUnsigned l0.uSize) (toUnsigned l0.nAlign)
        + Align (toUnsigned l0.vSize) (toUnsigned l0.nAlign) < 2 ^ 32) := by
    intro base h
    rcases h with h | h
    · exact Or.inl h
    · right
      simp only [alignSizes, alignBase, if_pos hn, toUnsigned_toInt32] at h
      rwa [u32_of_lt _ (Align_lt _ _), u32_of_lt _ (Align_lt _ _), u32_of_lt _ (Align_lt _ _)]
        at h
  have hdiv : l0.nAlign ∣ 2 ^ 32 → toUnsigned l0.nAlign ∣ 2 ^ 32 := by
    intro h
    rw [← hcast] at h
    exact_mod_cast h
  have hP := planes_dvd (toUnsigned l0.nAlign) (Align (u32 m.nPhyAddr) (toUnsigned l0.nAlign))
    (Align (toUnsigned l0.ySize) (toUnsigned l0.nAlign))
    (Align (toUnsigned l0.uSize) (toUnsigned l0.nAlign))
    (Align (toUnsigned l0.vSize) (toUnsigned l0.nAlign)) (hA _) (hA _) (hA _) (hA _)
    (hfit2 m.nPhyAddr (hfit.imp hdiv (fun h => h.1)))
  have hV := planes_dvd (toUnsigned l0.nAlign) (Align (u32 m.nVirtAddr) (toUnsigned l0.nAlign))
    (Align (toUnsigned l0.ySize) (toUnsigned l0.nAlign))
    (Align (toUnsigned l0.uSize) (toUnsigned l0.nAlign))
    (Align (toUnsigned l0.vSize) (toUnsigned l0.nAlign)) (hA _) (hA _) (hA _) (hA _)
    (hfit2 m.nVirtAddr (hfit.imp hdiv (fun h => h.2)))
  have hc : ∀ x : Nat, toUnsigned l0.nAlign ∣ x → l0.nAlign ∣ (x : Int) := by
    intro x hx
    rw [← hcast]
    exact_mod_cast hx
  simp only [planesAligned, fillFrameBuffer, alignSizes, alignBase, if_pos hn]
  refine ⟨hc _ (hA _), hc _ hP.1, ?_, hc _ hP.2.2, hc _ (hA _), hc _ hV.1, ?_, hc _ hV.2.2⟩
  · cases i420
    · simp
    · exact hc _ hP.2.1
  · cases i420
    · simp
    · exact hc _ hV.2.1

theorem planeSizes_nAlign (i420 : Bool) (info : VpuDecInitInfo) (l0 : FrameLayout)
    (h : planeSizes i420 info = some l0) : l0.nAlign = info.nAddressAlignment := by
  unfold planeSizes at h
  simp only at h
  split_ifs at h <;> (cases h; rfl)

/-- What a successful `VpuAllocFrameBuffers` leaves. -/
theorem VpuAllocFrameBuffers_spec (o : Vpu) (i420 : Bool) (s s2 : CDVDVideoCodecIMX)
    (hrun : VpuAllocFrameBuffers o i420 s = (s2, true)) :
    ∃ l0 F2 B2, planeSizes i420 s.m_initInfo = some l0 ∧
      s2.m_vpuFrameBuffers = some F2 ∧ s2.m_outputBuffers = some B2 ∧
      F2.length = s.m_initInfo.nMinFrameBufferCount + m_extraVpuBuffers ∧
      B2.length = s.m_initInfo.nMinFrameBufferCount + m_extraVpuBuffers ∧
      s2.world.heap = s.world.heap ++ List.replicate
        (s.m_initInfo.nMinFrameBufferCount + m_extraVpuBuffers)
        { CDVDVideoCodecIMXBuffer.new with m_iRefs := 1 } ∧
      s2.m_vpuFrameBufferNum = s.m_initInfo.nMinFrameBufferCount + m_extraVpuBuffers ∧
      (∀ j, j < s.m_initInfo.nMinFrameBufferCount + m_extraVpuBuffers →
        (∃ idx, F2.getD j default = fillFrameBuffer i420 (alignSizes l0)
          { o.memDesc idx with nSize := totalSize (alignSizes l0) }) ∧
        B2.getD j none = some (s.world.heap.length + j)) := by
  unfold VpuAllocFrameBuffers at hrun
  simp only at hrun
  cases hl : planeSizes i420 s.m_initInfo with
  | none => rw [hl] at hrun; simp at hrun
  | some l0 =>
    rw [hl] at hrun
    simp only at hrun
    obtain ⟨F2, B2, h1, h2, h3, h4, h5, h6, _, h8⟩ :=
      allocFrameLoop_spec o i420 (alignSizes l0) _ 0 _ s2 _ _ hrun rfl rfl (by simp) (by simp)
    refine ⟨l0, F2, B2, rfl, h1, h2, by simpa using h3, by simpa using h4, h5, h6, ?_⟩
    intro j hj
    have := h8 j (by omega) (by omega)
    simpa using this

/-- C7: after every successful `VpuAllocFrameBuffers` the pool size `m_vpuFrameBufferNum`
is the minimum frame buffer count the stream reports plus `m_extraVpuBuffers`, which is
`1 + RENDER_QUEUE_SIZE + 2 = 6`; the array of hardware frame slots and the array of
decode buffer pointers have exactly that many elements; exactly that many decode
buffers were created, each with reference count one, and pool entry `j` points to the
`j`-th of them. -/
theorem C7_pool_size (o : Vpu) (i420 : Bool) (s s2 : CDVDVideoCodecIMX)
    (hrun : VpuAllocFrameBuffers o i420 s = (s2, true)) :
    m_extraVpuBuffers = 1 + RENDER_QUEUE_SIZE + 2 ∧ m_extraVpuBuffers = 6 ∧
    s2.m_vpuFrameBufferNum = s.m_initInfo.nMinFrameBufferCount + m_extraVpuBuffers ∧
    (∃ F2, s2.m_vpuFrameBuffers = some F2 ∧ F2.length = s2.m_vpuFrameBufferNum) ∧
    (∃ B2, s2.m_outputBuffers = some B2 ∧ B2.length = s2.m_vpuFrameBufferNum ∧
      ∀ j, j < s2.m_vpuFrameBufferNum → B2.getD j none = some (s.world.heap.length + j)) ∧
    s2.world.heap = s.world.heap ++ List.replicate s2.m_vpuFrameBufferNum
      { CDVDVideoCodecIMXBuffer.new with m_iRefs := 1 } := by
  obtain ⟨l0, F2, B2, _, h1, h2, h3, h4, h5, h6, h7⟩ := VpuAllocFrameBuffers_spec o i420 s s2 hrun
  refine ⟨rfl, rfl, h6, ⟨F2, h1, by omega⟩, ⟨B2, h2, by omega, ?_⟩, by rw [h6]; exact h5⟩
  intro j hj
  exact (h7 j (by omega)).2

/-- C7, witness: the example stream reports a minimum of two frame buffers; the pool has
eight slots. -/
theorem C7_pool_size_witness :
    (VpuAllocFrameBuffers (exampleVpu noFlags) false exampleSession).1.m_vpuFrameBufferNum
      = exampleSession.m_initInfo.nMinFrameBufferCount + m_extraVpuBuffers ∧
    (VpuAllocFrameBuffers (exampleVpu noFlags) false exampleSession).1.m_vpuFrameBufferNum = 8 :=
  ⟨(C7_pool_size (exampleVpu noFlags) false exampleSession
      (VpuAllocFrameBuffers (exampleVpu noFlags) false exampleSession).1
      (Prod.ext rfl (by decide))).2.2.1, by decide⟩

/-- C8: for every stream info whose address alignment `n` is greater than one, and for
every base address the allocator returns, every plane address (luma, chroma,
motion vector; physical and virtual) of every pool slot that `VpuAllocFrameBuffers`
filled is a multiple of `n`. The addresses are 32-bit addresses: `n` divides `2 ^ 32`
(as every power of two does), or else the planes of each slot end below the top of
the address space. -/
theorem C8_plane_addresses_aligned (o : Vpu) (i420 : Bool) (s s2 : CDVDVideoCodecIMX)
    (hrun : VpuAllocFrameBuffers o i420 s = (s2, true))
    (hn : 1 < s.m_initInfo.nAddressAlignment) (hn31 : s.m_initInfo.nAddressAlignment < 2 ^ 31)
    (hfit : s.m_initInfo.nAddressAlignment ∣ 2 ^ 32 ∨
      ∀ l0, planeSizes i420 s.m_initInfo = some l0 →
        ∀ idx, planesFit (alignSizes l0) (o.memDesc idx)) :
    ∀ fb ∈ s2.m_vpuFrameBuffers.getD [], planesAligned s.m_initInfo.nAddressAlignment fb := by
  obtain ⟨l0, F2, B2, hl, h1, h2, h3, h4, h5, h6, h7⟩ := VpuAllocFrameBuffers_spec o i420 s s2 hrun
  have hal := planeSizes_nAlign i420 s.m_initInfo l0 hl
  intro fb hfb
  rw [h1] at hfb
  simp only [Option.getD_some] at hfb
  obtain ⟨j, hj, hget⟩ := List.getElem_of_mem hfb
  obtain ⟨⟨idx, hidx⟩, _⟩ := h7 j (by omega)
  have e : F2.getD j default = fb := by
    rw [List.getD_eq_getElem _ _ hj, hget]
  rw [e] at hidx
  rw [hidx, ← hal]
  apply fillFrameBuffer_aligned i420 l0 _ (by rw [hal]; exact hn) (by rw [hal]; exact hn31)
  rcases hfit with h | h
  · exact Or.inl (by rw [hal]; exact h)
  · exact Or.inr (h l0 hl idx)

/-- C8, witness: the example stream asks for an alignment of 4096 bytes; plane addresses
of slot 0. -/
theorem C8_plane_addresses_aligned_witness :
    planesAligned 4096
      (((VpuAllocFrameBuffers (exampleVpu noFlags) false exampleSession).1.m_vpuFrameBuffers.getD
        []).getD 0 default) :=
  C8_plane_addresses_aligned (exampleVpu noFlags) false exampleSession
    (VpuAllocFrameBuffers (exampleVpu noFlags) false exampleSession).1
    (Prod.ext rfl (by decide)) (by decide) (by decide) (Or.inl (by decide)) _ (by decide)

/-! ## Counting the hardware decode calls -/

theorem decodeCalls_logCall (s : CDVDVideoCodecIMX) (c : VpuCall) :
    decodeCalls (logCall s c) = decodeCalls s + (if isDecodeBuf c then 1 else 0) := by
  simp [decodeCalls, logCall, List.countP_append, List.countP_cons]

theorem decodeCalls_setHeap (s : CDVDVideoCodecIMX) (h : Heap) :
    decodeCalls (setHeap s h) = decodeCalls s := rfl

theorem ReleaseFramebuffer_countP (hwRet : VpuDecRetCode) (w : World) (self handle : Nat) :
    (ReleaseFramebuffer hwRet w self handle).1.calls.countP isDecodeBuf
      = w.calls.countP isDecodeBuf := by
  unfold ReleaseFramebuffer
  simp only
  cases (read w.heap self).m_frameBuffer with
  | none => rfl
  | some f =>
    by_cases hh : handle = 0
    · simp [hh]
    · simp [hh, List.countP_append, List.countP_cons, isDecodeBuf]

theorem decodeCalls_releaseFramebufferOf (o : Vpu) (s : CDVDVideoCodecIMX) (buffer : Nat) :
    decodeCalls (releaseFramebufferOf o s buffer).1 = decodeCalls s := by
  simp only [decodeCalls, releaseFramebufferOf]
  exact ReleaseFramebuffer_countP _ _ _ _

theorem decodeCalls_releaseLastBuffer (s : CDVDVideoCodecIMX) :
    decodeCalls (releaseLastBuffer s) = decodeCalls s := rfl

theorem decodeCalls_releaseCurrentBuffer (s : CDVDVideoCodecIMX) :
    decodeCalls (releaseCurrentBuffer s) = decodeCalls s := rfl

theorem freePhyLoop_countP (o : Vpu) (ds : List VpuMemDesc) (r : World × Bool) :
    (freePhyLoop o ds r).1.calls.countP isDecodeBuf = r.1.calls.countP isDecodeBuf := by
  induction ds generalizing r with
  | nil => rfl
  | cons d ds ih =>
    obtain ⟨w, ok⟩ := r
    simp only [freePhyLoop]
    rw [ih]
    simp [List.countP_append, List.countP_cons, isDecodeBuf]

theorem decodeCalls_VpuFreeBuffers (o : Vpu) (s : CDVDVideoCodecIMX) :
    decodeCalls (VpuFreeBuffers o s).1 = decodeCalls s := by
  have hfree : ∀ l : List Nat, (l.map VpuCall.free).countP isDecodeBuf = 0 := by
    intro l
    induction l with
    | nil => rfl
    | cons a t ih => simp [List.countP_cons, isDecodeBuf, ih]
  unfold VpuFreeBuffers decodeCalls
  cases hv : s.m_decMemInfo.virtMem with
  | none =>
    simp only
    cases hp : s.m_decMemInfo.phyMem with
    | none => rfl
    | some pm => simp only; rw [freePhyLoop_countP]
  | some vm =>
    simp only
    cases hp : s.m_decMemInfo.phyMem with
    | none => simp [List.countP_append, hfree]
    | some pm =>
      simp only
      rw [freePhyLoop_countP]
      simp [List.countP_append, hfree]

theorem decodeCalls_allocFrameLoop (o : Vpu) (i420 : Bool) (l : FrameLayout) (k i : Nat)
    (s : CDVDVideoCodecIMX) :
    decodeCalls (allocFrameLoop o i420 l k i s).1 = decodeCalls s := by
  induction k generalizing i s with
  | zero => rfl
  | succ k ih =>
    unfold allocFrameLoop
    split_ifs with hret
    · simp [decodeCalls_logCall, isDecodeBuf]
    · rw [ih]
      simp [decodeCalls, (allocFrameStep_fields o i420 l i s).2.2.2.2.1, List.countP_append,
        List.countP_cons, isDecodeBuf]

theorem decodeCalls_VpuAllocFrameBuffers (o : Vpu) (i420 : Bool) (s : CDVDVideoCodecIMX) :
    decodeCalls (VpuAllocFrameBuffers o i420 s).1 = decodeCalls s := by
  unfold VpuAllocFrameBuffers
  simp only
  cases planeSizes i420 s.m_initInfo with
  | none => rfl
  | some l0 => simp only; rw [decodeCalls_allocFrameLoop]; rfl

theorem decodeCalls_resetLoop (o : Vpu) (k i : Nat) (s : CDVDVideoCodecIMX) :
    decodeCalls (resetLoop o k i s) = decodeCalls s := by
  induction k generalizing i s with
  | zero => rfl
  | succ k ih =>
    unfold resetLoop
    cases poolEntry s i with
    | none => exact ih _ _
    | some b => simp only; rw [ih, decodeCalls_releaseFramebufferOf]

theorem decodeCalls_recycleLoop (o : Vpu) (k i : Nat) (s : CDVDVideoCodecIMX) :
    decodeCalls (recycleLoop o k i s) = decodeCalls s := by
  induction k generalizing i s with
  | zero => rfl
  | succ k ih =>
    unfold recycleLoop
    cases poolEntry s i with
    | none => exact ih _ _
    | some b =>
      simp only
      split_ifs
      · rw [ih, decodeCalls_releaseFramebufferOf]
      · exact ih _ _

theorem decodeCalls_disposeLoop (o : Vpu) (k i : Nat) (s : CDVDVideoCodecIMX) :
    decodeCalls (disposeLoop o k i s) = decodeCalls s := by
  induction k generalizing i s with
  | zero => rfl
  | succ k ih =>
    unfold disposeLoop
    cases poolEntry s i with
    | none => exact ih _ _
    | some b =>
      simp only
      rw [ih]
      exact decodeCalls_releaseFramebufferOf o s b

theorem decodeCalls_Reset (o : Vpu) (s : CDVDVideoCodecIMX) :
    decodeCalls (Reset o s) = decodeCalls s := by
  unfold Reset
  simp only [decodeCalls_logCall, isDecodeBuf]
  have := decodeCalls_resetLoop o (releaseCurrentBuffer (releaseLastBuffer s)).m_vpuFrameBufferNum
    0 (releaseCurrentBuffer (releaseLastBuffer s))
  simpa [decodeCalls] using this

theorem decodeCalls_Dispose (o : Vpu) (s : CDVDVideoCodecIMX) :
    decodeCalls (Dispose o s) = decodeCalls s := by
  have h2 := decodeCalls_disposeLoop o
    (releaseCurrentBuffer (releaseLastBuffer s)).m_vpuFrameBufferNum 0
    (releaseCurrentBuffer (releaseLastBuffer s))
  have h1 : decodeCalls (releaseCurrentBuffer (releaseLastBuffer s)) = decodeCalls s := rfl
  rw [h1] at h2
  have hfree := fun t => decodeCalls_VpuFreeBuffers o t
  simp only [decodeCalls] at h2 hfree ⊢
  unfold Dispose
  simp only
  split_ifs <;>
    simp [logCall, hfree, h2, List.countP_append, List.countP_cons, isDecodeBuf]

theorem decodeCalls_allocBuffersLoop (o : Vpu) (bs : List VpuMemSubBlock) (s : CDVDVideoCodecIMX) :
    decodeCalls (allocBuffersLoop o bs s).1 = decodeCalls s := by
  induction bs generalizing s with
  | nil => rfl
  | cons b bs ih =>
    unfold allocBuffersLoop
    simp only
    split_ifs
    · simp [decodeCalls_logCall, isDecodeBuf]
    · rw [ih]; simp [decodeCalls, logCall, List.countP_append, List.countP_cons, isDecodeBuf]
    · simp [decodeCalls_logCall, isDecodeBuf]
    · rw [ih]; simp [decodeCalls, logCall, List.countP_append, List.countP_cons, isDecodeBuf]

theorem decodeCalls_VpuAllocBuffers (o : Vpu) (m : List VpuMemSubBlock) (s : CDVDVideoCodecIMX) :
    decodeCalls (VpuAllocBuffers o m s).1 = decodeCalls s := by
  unfold VpuAllocBuffers
  simp only
  split_ifs
  · exact decodeCalls_allocBuffersLoop o m s
  · rw [decodeCalls_VpuFreeBuffers, decodeCalls_allocBuffersLoop]

theorem mustSucceed_some (o : Vpu) (s t : CDVDVideoCodecIMX) (c : VpuCall)
    (h : mustSucceed o s c = some t) : t = logCall s c := by
  unfold mustSucceed at h
  split_ifs at h
  cases h
  rfl

theorem decodeCalls_mustSucceed (o : Vpu) (s t : CDVDVideoCodecIMX) (c : VpuCall)
    (hc : isDecodeBuf c = false) (h : mustSucceed o s c = some t) :
    decodeCalls t = decodeCalls s := by
  rw [mustSucceed_some o s t c h, decodeCalls_logCall, hc]
  rfl

theorem decodeCalls_fail (o : Vpu) (s : CDVDVideoCodecIMX) (c : VpuCall)
    (hc : isDecodeBuf c = false) :
    decodeCalls (Dispose o (logCall s c)) = decodeCalls s := by
  rw [decodeCalls_Dispose, decodeCalls_logCall, hc]
  rfl

theorem decodeCalls_VpuOpen (o : Vpu) (s : CDVDVideoCodecIMX) :
    decodeCalls (VpuOpen o s).1 = decodeCalls s := by
  unfold VpuOpen
  simp only
  cases h1 : mustSucceed o s VpuCall.DecLoad with
  | none => exact decodeCalls_fail o s _ (by rfl)
  | some s1 =>
  have e1 := decodeCalls_mustSucceed o s s1 _ (by rfl) h1
  simp only
  cases h2 : mustSucceed o s1 VpuCall.DecGetVersionInfo with
  | none => exact (decodeCalls_fail o s1 _ (by rfl)).trans e1
  | some s2 =>
  have e2 := (decodeCalls_mustSucceed o s1 s2 _ (by rfl) h2).trans e1
  simp only
  cases h3 : mustSucceed o s2 VpuCall.DecQueryMem with
  | none => exact (decodeCalls_fail o s2 _ (by rfl)).trans e2
  | some s3 =>
  have e3 := (decodeCalls_mustSucceed o s2 s3 _ (by rfl) h3).trans e2
  simp only
  have e4 := (decodeCalls_VpuAllocBuffers o (o.memInfo s2.world.calls.length) s3).trans e3
  split_ifs with hal
  · exact (decodeCalls_Dispose o _).trans e4
  · cases h5 : mustSucceed o (VpuAllocBuffers o (o.memInfo s2.world.calls.length) s3).1
        VpuCall.DecOpen with
    | none => exact (decodeCalls_fail o _ _ (by rfl)).trans e4
    | some s5 =>
    have e5 := (decodeCalls_mustSucceed o _ s5 _ (by rfl) h5).trans e4
    simp only
    cases h7 : mustSucceed o
        { s5 with m_vpuHandle :=
            o.handle (VpuAllocBuffers o (o.memInfo s2.world.calls.length) s3).1.world.calls.length }
        (VpuCall.DecConfig
          (o.handle (VpuAllocBuffers o (o.memInfo s2.world.calls.length) s3).1.world.calls.length))
      with
    | none => exact (decodeCalls_fail o _ _ (by rfl)).trans e5
    | some s7 =>
    have e7 := (decodeCalls_mustSucceed o _ s7 _ (by rfl) h7).trans e5
    simp only
    cases h8 : mustSucceed o s7 (VpuCall.DecConfig s7.m_vpuHandle) with
    | none => exact (decodeCalls_fail o _ _ (by rfl)).trans e7
    | some s8 =>
    have e8 := (decodeCalls_mustSucceed o _ s8 _ (by rfl) h8).trans e7
    simp only
    cases h9 : mustSucceed o s8 (VpuCall.DecConfig s8.m_vpuHandle) with
    | none => exact (decodeCalls_fail o _ _ (by rfl)).trans e8
    | some s9 =>
    have e9 := (decodeCalls_mustSucceed o _ s9 _ (by rfl) h9).trans e8
    simp only
    exact (decodeCalls_logCall s9 _).trans e9

theorem decodeCalls_decodeCall (o : Vpu) (s : CDVDVideoCodecIMX) (nSize : Int) :
    decodeCalls (decodeCall o s nSize).1 = decodeCalls s + 1 := by
  unfold decodeCall
  simp only
  split_ifs <;>
    simp [decodeCalls_VpuFreeBuffers, decodeCalls_logCall, isDecodeBuf] <;> rfl

theorem decodeCalls_handleInit (o : Vpu) (i420 : Bool) (s : CDVDVideoCodecIMX)
    (decRet : VpuDecBufRetCode) :
    decodeCalls (handleInit o i420 s decRet).1 = decodeCalls s := by
  unfold handleInit
  simp only
  split_ifs
  all_goals
    simp only [decodeCalls_logCall, isDecodeBuf, decodeCalls_VpuAllocFrameBuffers]
    try simp [decodeCalls, logCall, List.countP_append, List.countP_cons, isDecodeBuf]

theorem decodeCalls_handleConsumed (o : Vpu) (s : CDVDVideoCodecIMX)
    (decRet : VpuDecBufRetCode) (pts : Int) :
    decodeCalls (handleConsumed o s decRet pts) = decodeCalls s := by
  unfold handleConsumed
  simp only
  repeat' split
  all_goals first
    | rfl
    | exact decodeCalls_logCall s _

theorem decodeCalls_handleDisplay (o : Vpu) (s : CDVDVideoCodecIMX) (retStatus : Nat)
    (dts pts : Int) :
    decodeCalls (handleDisplay o s retStatus dts pts).1 = decodeCalls s := by
  unfold handleDisplay
  simp only
  repeat' split
  all_goals first
    | rfl
    | exact decodeCalls_logCall s _

theorem decodeCalls_handleMosaic (o : Vpu) (s : CDVDVideoCodecIMX) :
    decodeCalls (handleMosaic o s).1 = decodeCalls s := by
  unfold handleMosaic
  simp only
  split_ifs <;> simp [decodeCalls, logCall, List.countP_append, List.countP_cons, isDecodeBuf]

theorem decodeCalls_handleOutput (o : Vpu) (s : CDVDVideoCodecIMX) (decRet : VpuDecBufRetCode)
    (retStatus : Nat) (dts pts : Int) :
    decodeCalls (handleOutput o s decRet retStatus dts pts).1 = decodeCalls s := by
  unfold handleOutput
  split_ifs
  · exact decodeCalls_handleDisplay o s retStatus dts pts
  · exact decodeCalls_handleMosaic o s
  · rfl
  · rfl
  · rfl
  · exact decodeCalls_Reset o s
  · rfl

/-! ## Termination of the decode loop -/

/-- The decode loop comes to an end: entered with `retries` passes done and at most `n`
more allowed by the cap, it returns the same result for every bound `fuel ≥ n` on the
number of passes, and it has made at most `n` hardware decode calls. -/
theorem decodeLoop_terminates (o : Vpu) (i420 : Bool) (dts pts : Int) (n : Nat) :
    ∀ (retries : Nat) (s : CDVDVideoCodecIMX) (nSize : Int) (retStatus : Nat),
    retries + n = m_maxVpuDecodeLoops → 1 ≤ n →
    ∃ r, (∀ fuel, n ≤ fuel →
        decodeLoop o i420 dts pts fuel s nSize retries retStatus = some r) ∧
      decodeCalls r.1 ≤ decodeCalls s + n := by
  induction n with
  | zero => intro _ _ _ _ _ h; omega
  | succ n ih =>
    intro retries s nSize retStatus hsum _
    have hcount : ∀ rs, decodeCalls (handleOutput o (handleConsumed o
        (handleInit o i420 (decodeCall o s nSize).1 (decodeCall o s nSize).2.1).1
        (decodeCall o s nSize).2.1 pts) (decodeCall o s nSize).2.1 rs dts pts).1
        = decodeCalls s + 1 := by
      intro rs
      rw [decodeCalls_handleOutput, decodeCalls_handleConsumed, decodeCalls_handleInit,
        decodeCalls_decodeCall]
    by_cases ha : (decodeCall o s nSize).2.2 = false
    · refine ⟨((decodeCall o s nSize).1, retStatus, false), ?_, ?_⟩
      · intro fuel hf
        obtain ⟨f, rfl⟩ : ∃ f, fuel = f + 1 := ⟨fuel - 1, by omega⟩
        simp only [decodeLoop, ha, if_true]
      · simp only [decodeCalls_decodeCall]; omega
    by_cases hb : (handleInit o i420 (decodeCall o s nSize).1 (decodeCall o s nSize).2.1).2 = false
    · refine ⟨((handleInit o i420 (decodeCall o s nSize).1 (decodeCall o s nSize).2.1).1,
        retStatus, false), ?_, ?_⟩
      · intro fuel hf
        obtain ⟨f, rfl⟩ : ∃ f, fuel = f + 1 := ⟨fuel - 1, by omega⟩
        simp only [decodeLoop, ha, hb, if_true, if_false, Bool.true_eq_false]
      · simp only [decodeCalls_handleInit, decodeCalls_decodeCall]; omega
    by_cases hd : (handleOutput o (handleConsumed o
        (handleInit o i420 (decodeCall o s nSize).1 (decodeCall o s nSize).2.1).1
        (decodeCall o s nSize).2.1 pts) (decodeCall o s nSize).2.1 retStatus dts pts).2.2 = false
    · refine ⟨((handleOutput o (handleConsumed o
        (handleInit o i420 (decodeCall o s nSize).1 (decodeCall o s nSize).2.1).1
        (decodeCall o s nSize).2.1 pts) (decodeCall o s nSize).2.1 retStatus dts pts).1, (handleOutput o (handleConsumed o
        (handleInit o i420 (decodeCall o s nSize).1 (decodeCall o s nSize).2.1).1
        (decodeCall o s nSize).2.1 pts) (decodeCall o s nSize).2.1 retStatus dts pts).2.1, false), ?_, ?_⟩
      · intro fuel hf
        obtain ⟨f, rfl⟩ : ∃ f, fuel = f + 1 := ⟨fuel - 1, by omega⟩
        simp only [decodeLoop, ha, hb, hd, if_true, if_false, Bool.true_eq_false]
      · simp only [hcount]; omega
    by_cases hbrk : ((decodeCall o s nSize).2.1.VPU_DEC_NO_ENOUGH_INBUF = true
        ∨ (decodeCall o s nSize).2.1.VPU_DEC_OUTPUT_REPEAT = true
        ∨ (decodeCall o s nSize).2.1.VPU_DEC_OUTPUT_DIS = true)
    · refine ⟨((handleOutput o (handleConsumed o
        (handleInit o i420 (decodeCall o s nSize).1 (decodeCall o s nSize).2.1).1
        (decodeCall o s nSize).2.1 pts) (decodeCall o s nSize).2.1 retStatus dts pts).1, (handleOutput o (handleConsumed o
        (handleInit o i420 (decodeCall o s nSize).1 (decodeCall o s nSize).2.1).1
        (decodeCall o s nSize).2.1 pts) (decodeCall o s nSize).2.1 retStatus dts pts).2.1, true), ?_, ?_⟩
      · intro fuel hf
        obtain ⟨f, rfl⟩ : ∃ f, fuel = f + 1 := ⟨fuel - 1, by omega⟩
        simp only [decodeLoop, ha, hb, hd, hbrk, if_true, if_false, Bool.true_eq_false]
      · simp only [hcount]; omega
    by_cases hcap : retries + 1 ≥ m_maxVpuDecodeLoops
    · refine ⟨((handleOutput o (handleConsumed o
        (handleInit o i420 (decodeCall o s nSize).1 (decodeCall o s nSize).2.1).1
        (decodeCall o s nSize).2.1 pts) (decodeCall o s nSize).2.1 retStatus dts pts).1, (handleOutput o (handleConsumed o
        (handleInit o i420 (decodeCall o s nSize).1 (decodeCall o s nSize).2.1).1
        (decodeCall o s nSize).2.1 pts) (decodeCall o s nSize).2.1 retStatus dts pts).2.1, true), ?_, ?_⟩
      · intro fuel hf
        obtain ⟨f, rfl⟩ : ∃ f, fuel = f + 1 := ⟨fuel - 1, by omega⟩
        simp only [decodeLoop, ha, hb, hd, hbrk, hcap, if_true, if_false, Bool.true_eq_false]
      · simp only [hcount]; omega
    · obtain ⟨r, hr, hc⟩ := ih (retries + 1) (handleOutput o (handleConsumed o
        (handleInit o i420 (decodeCall o s nSize).1 (decodeCall o s nSize).2.1).1
        (decodeCall o s nSize).2.1 pts) (decodeCall o s nSize).2.1 retStatus dts pts).1 0
        (handleOutput o (handleConsumed o
        (handleInit o i420 (decodeCall o s nSize).1 (decodeCall o s nSize).2.1).1
        (decodeCall o s nSize).2.1 pts) (decodeCall o s nSize).2.1 retStatus dts pts).2.1
        (by omega) (by omega)
      refine ⟨r, ?_, ?_⟩
      · intro fuel hf
        obtain ⟨f, rfl⟩ : ∃ f, fuel = f + 1 := ⟨fuel - 1, by omega⟩
        simp only [decodeLoop, ha, hb, hd, hbrk, hcap, if_true, if_false, Bool.true_eq_false]
        exact hr f (by omega)
      · rw [hcount] at hc; omega

theorem decodeCalls_beginDecode (o : Vpu) (s : CDVDVideoCodecIMX) :
    decodeCalls (beginDecode o s) = decodeCalls s := by
  unfold beginDecode
  simp only
  split_ifs
  · rw [decodeCalls_VpuOpen]; rfl
  · rfl

theorem decodeCalls_finishDecode (pts : Int) (x : CDVDVideoCodecIMX × Nat × Bool) :
    decodeCalls (finishDecode pts x).1 = decodeCalls x.1 := by
  unfold finishDecode
  simp only
  split_ifs <;> rfl

/-- The method `Decode` comes to an end: for every bound of at least
`m_maxVpuDecodeLoops` passes the loop is not cut short, and the result is that of
`Decode`. -/
theorem DecodeFuel_eq_Decode (o : Vpu) (i420 : Bool) (s : CDVDVideoCodecIMX) (pData : Bool)
    (iSize : Int) (converted : Option Int) (dts pts : Int) (fuel : Nat)
    (hf : m_maxVpuDecodeLoops ≤ fuel) :
    DecodeFuel fuel o i420 s pData iSize converted dts pts
      = some (Decode o i420 s pData iSize converted dts pts) := by
  have key : ∀ f, m_maxVpuDecodeLoops ≤ f →
      DecodeFuel f o i420 s pData iSize converted dts pts
        = DecodeFuel m_maxVpuDecodeLoops o i420 s pData iSize converted dts pts ∧
      (DecodeFuel f o i420 s pData iSize converted dts pts).isSome = true := by
    intro f hf
    unfold DecodeFuel
    simp only
    split_ifs with h0 h1
    · exact ⟨rfl, rfl⟩
    · obtain ⟨r, hr, _⟩ := decodeLoop_terminates o i420 dts pts m_maxVpuDecodeLoops 0
        (recycleLoop o (beginDecode o s).m_vpuFrameBufferNum 0 (beginDecode o s))
          (demuxerBytes (recycleLoop o (beginDecode o s).m_vpuFrameBufferNum 0 (beginDecode o s))
          iSize converted) 0 (by simp) (by decide)
      rw [hr f hf, hr _ (le_refl _)]
      exact ⟨rfl, rfl⟩
    · exact ⟨rfl, rfl⟩
  obtain ⟨h1, h2⟩ := key fuel hf
  unfold Decode
  rw [h1]
  rw [h1] at h2
  cases hD : DecodeFuel m_maxVpuDecodeLoops o i420 s pData iSize converted dts pts with
  | none => rw [hD] at h2; cases h2
  | some r => rfl

/-- C10: for every sequence of hardware return codes and event flags, one `Decode` call
comes to an end and makes the hardware decode call `VPU_DecDecodeBuf` at most
`m_maxVpuDecodeLoops` (5) times: the result does not depend on the bound on the
number of passes once that bound is at least 5. -/
theorem C10_decode_loop_bounded (o : Vpu) (i420 : Bool) (s : CDVDVideoCodecIMX) (pData : Bool)
    (iSize : Int) (converted : Option Int) (dts pts : Int) :
    m_maxVpuDecodeLoops = 5 ∧
    (∀ fuel, m_maxVpuDecodeLoops ≤ fuel →
      DecodeFuel fuel o i420 s pData iSize converted dts pts
        = some (Decode o i420 s pData iSize converted dts pts)) ∧
    decodeCalls (Decode o i420 s pData iSize converted dts pts).1
      ≤ decodeCalls s + m_maxVpuDecodeLoops := by
  refine ⟨rfl, fun fuel hf => DecodeFuel_eq_Decode o i420 s pData iSize converted dts pts fuel hf,
    ?_⟩
  have hD := DecodeFuel_eq_Decode o i420 s pData iSize converted dts pts m_maxVpuDecodeLoops
    (le_refl _)
  unfold DecodeFuel at hD
  simp only at hD
  have hb := decodeCalls_beginDecode o s
  have hrec := decodeCalls_recycleLoop o (beginDecode o s).m_vpuFrameBufferNum 0 (beginDecode o s)
  split_ifs at hD with h0 h1
  · rw [← Option.some.inj hD]
    simp only [hb]
    omega
  · obtain ⟨r, hr, hc⟩ := decodeLoop_terminates o i420 dts pts m_maxVpuDecodeLoops 0
      (recycleLoop o (beginDecode o s).m_vpuFrameBufferNum 0 (beginDecode o s))
        (demuxerBytes (recycleLoop o (beginDecode o s).m_vpuFrameBufferNum 0 (beginDecode o s))
          iSize converted) 0 (by simp) (by decide)
    rw [hr _ (le_refl _)] at hD
    rw [← Option.some.inj hD, decodeCalls_finishDecode]
    omega
  · rw [← Option.some.inj hD, decodeCalls_finishDecode]
    simp only [hrec, hb]
    omega

/-! ## Handing hardware slots back -/

/-- What `ReleaseFramebuffer` logs in the ghost log: nothing, or the buffer with its
reference count. -/
theorem ReleaseFramebuffer_slotReturns (hwRet : VpuDecRetCode) (w : World) (self handle : Nat) :
    (ReleaseFramebuffer hwRet w self handle).1.slotReturns = w.slotReturns ∨
    (ReleaseFramebuffer hwRet w self handle).1.slotReturns
      = w.slotReturns ++ [(self, (read w.heap self).m_iRefs)] := by
  unfold ReleaseFramebuffer
  simp only
  cases (read w.heap self).m_frameBuffer with
  | none => exact Or.inl rfl
  | some f =>
    by_cases hh : handle = 0
    · left; simp [hh]
    · right; simp [hh]

theorem mem_of_poolEntry (s : CDVDVideoCodecIMX) (i b : Nat) (h : poolEntry s i = some b) :
    some b ∈ s.m_outputBuffers.getD [] := by
  unfold poolEntry at h
  by_cases hi : i < (s.m_outputBuffers.getD []).length
  · rw [List.getD_eq_getElem _ _ hi] at h
    rw [← h]
    exact List.getElem_mem _
  · rw [List.getD_eq_default _ _ (by omega)] at h
    cases h

theorem renderedUnreferenced_entry (s : CDVDVideoCodecIMX) (hinv : renderedUnreferenced s)
    (i b : Nat) (hp : poolEntry s i = some b) (hr : Rendered s.world.heap b = true) :
    (read s.world.heap b).m_iRefs = 1 ∧ (read s.world.heap b).m_previousBuffer = none := by
  have := hinv (some b) (mem_of_poolEntry s i b hp)
  simpa [unreferencedIfRendered, hr] using this

/-- The recycle scan of `Decode` hands back only slots of pool buffers whose reference
count is one, when it starts in a state in which the rendered pool buffers are
unreferenced. -/
theorem recycleLoop_slotReturns (o : Vpu) (k : Nat) :
    ∀ (i : Nat) (s : CDVDVideoCodecIMX), renderedUnreferenced s →
    ∃ l, (recycleLoop o k i s).world.slotReturns = s.world.slotReturns ++ l ∧
      ∀ e ∈ l, e.2 = 1 ∧ ∃ j, poolEntry s j = some e.1 := by
  induction k with
  | zero => intro i s _; exact ⟨[], by simp [recycleLoop], by simp⟩
  | succ k ih =>
    intro i s hinv
    unfold recycleLoop
    cases hp : poolEntry s i with
    | none => exact ih (i + 1) { s with fault := true } hinv
    | some b =>
      simp only
      by_cases hr : Rendered s.world.heap b = true
      · rw [if_pos hr]
        obtain ⟨hrefs, hprev⟩ := renderedUnreferenced_entry s hinv i b hp hr
        have hheap : ∀ y, b ≠ y →
            read (releaseFramebufferOf o s b).1.world.heap y = read s.world.heap y :=
          fun y hy => ReleaseFramebuffer_noPrevious_frame (o.ret s.world.calls.length)
            s.world b s.m_vpuHandle y hprev hy
        have hself : (read (releaseFramebufferOf o s b).1.world.heap b).m_rendered = false :=
          (ReleaseFramebuffer_post (o.ret s.world.calls.length) s.world b s.m_vpuHandle).1
        have hinv2 : renderedUnreferenced (releaseFramebufferOf o s b).1 := by
          intro e he
          have h0 := hinv e he
          cases e with
          | none => rfl
          | some c =>
            by_cases hbc : b = c
            · subst hbc
              simp [unreferencedIfRendered, Rendered, hself]
            · simp only [unreferencedIfRendered, Rendered] at h0 ⊢
              rw [hheap c hbc]
              exact h0
        obtain ⟨l, hl, hall⟩ := ih (i + 1) _ hinv2
        rcases ReleaseFramebuffer_slotReturns (o.ret s.world.calls.length) s.world b
          s.m_vpuHandle with h1 | h1
        · refine ⟨l, ?_, fun e he => hall e he⟩
          rw [hl]
          simp only [releaseFramebufferOf, h1]
        · refine ⟨(b, (read s.world.heap b).m_iRefs) :: l, ?_, ?_⟩
          · rw [hl]
            simp only [releaseFramebufferOf, h1, List.append_assoc, List.singleton_append]
          · intro e he
            rcases List.mem_cons.mp he with h2 | h2
            · subst h2
              exact ⟨hrefs, i, hp⟩
            · exact hall e h2
      · rw [if_neg hr]
        exact ih (i + 1) s hinv

theorem quietExt_refl (c : List VpuCall) : quietExt c c := ⟨[], by simp, by simp⟩

theorem quietExt_trans (a b c : List VpuCall) (h1 : quietExt a b) (h2 : quietExt b c) :
    quietExt a c := by
  obtain ⟨l1, e1, q1⟩ := h1
  obtain ⟨l2, e2, q2⟩ := h2
  refine ⟨l1 ++ l2, by rw [e2, e1, List.append_assoc], ?_⟩
  intro e he
  rcases List.mem_append.mp he with h | h
  · exact q1 e h
  · exact q2 e h

theorem quietExt_logCall (s : CDVDVideoCodecIMX) (c : VpuCall) (hc : poolCall c = false) :
    quietExt s.world.calls (logCall s c).world.calls :=
  ⟨[c], rfl, by simpa using hc⟩

theorem quietExt_ReleaseFramebuffer (hwRet : VpuDecRetCode) (w : World) (self handle : Nat) :
    quietExt w.calls (ReleaseFramebuffer hwRet w self handle).1.calls := by
  unfold ReleaseFramebuffer
  simp only
  cases (read w.heap self).m_frameBuffer with
  | none => exact quietExt_refl _
  | some f =>
    by_cases hh : handle = 0
    · simp only [hh, ne_eq, not_true_eq_false, if_false]
      exact quietExt_refl _
    · simp only [hh, ne_eq, not_false_eq_true, if_true]
      exact ⟨[VpuCall.DecOutFrameDisplayed handle f], rfl, by simp [poolCall]⟩

theorem quietExt_resetLoop (o : Vpu) (k i : Nat) (s : CDVDVideoCodecIMX) :
    quietExt s.world.calls (resetLoop o k i s).world.calls := by
  induction k generalizing i s with
  | zero => exact quietExt_refl _
  | succ k ih =>
    unfold resetLoop
    cases poolEntry s i with
    | none => exact ih _ _
    | some b =>
      exact quietExt_trans _ _ _
        (quietExt_ReleaseFramebuffer (o.ret s.world.calls.length) s.world b s.m_vpuHandle)
        (ih (i + 1) (releaseFramebufferOf o s b).1)

theorem quietExt_Reset (o : Vpu) (s : CDVDVideoCodecIMX) :
    quietExt s.world.calls (Reset o s).world.calls := by
  unfold Reset
  simp only
  refine quietExt_trans _ _ _ ?_ (quietExt_logCall _ _ rfl)
  exact quietExt_resetLoop o _ 0 (releaseCurrentBuffer (releaseLastBuffer s))

theorem quietExt_handleConsumed (o : Vpu) (s : CDVDVideoCodecIMX) (decRet : VpuDecBufRetCode)
    (pts : Int) : quietExt s.world.calls (handleConsumed o s decRet pts).world.calls := by
  unfold handleConsumed
  simp only
  repeat' split
  all_goals first
    | exact quietExt_refl _
    | exact quietExt_logCall s _ rfl

theorem quietExt_handleDisplay (o : Vpu) (s : CDVDVideoCodecIMX) (retStatus : Nat)
    (dts pts : Int) : quietExt s.world.calls (handleDisplay o s retStatus dts pts).1.world.calls := by
  unfold handleDisplay
  simp only
  repeat' split
  all_goals first
    | exact quietExt_refl _
    | exact quietExt_logCall s _ rfl

theorem quietExt_handleMosaic (o : Vpu) (s : CDVDVideoCodecIMX) :
    quietExt s.world.calls (handleMosaic o s).1.world.calls := by
  have h1 : quietExt s.world.calls
      (logCall s (VpuCall.DecGetOutputFrame s.m_vpuHandle)).world.calls :=
    quietExt_logCall s _ (by rfl)
  have h2 : quietExt s.world.calls
      (logCall { logCall s (VpuCall.DecGetOutputFrame s.m_vpuHandle) with
          m_frameInfo := o.outFrameInfo s.world.calls.length }
        (VpuCall.DecOutFrameDisplayed s.m_vpuHandle
          (o.outFrameInfo s.world.calls.length).pDisplayFrameBuf)).world.calls :=
    quietExt_trans _ _ _ h1 (quietExt_logCall _ _ (by rfl))
  unfold handleMosaic
  simp only
  split_ifs
  · exact h1
  · exact h2
  · exact h2

theorem quietExt_handleOutput (o : Vpu) (s : CDVDVideoCodecIMX) (decRet : VpuDecBufRetCode)
    (retStatus : Nat) (dts pts : Int) :
    quietExt s.world.calls (handleOutput o s decRet retStatus dts pts).1.world.calls := by
  unfold handleOutput
  split_ifs
  · exact quietExt_handleDisplay o s retStatus dts pts
  · exact quietExt_handleMosaic o s
  · exact quietExt_refl _
  · exact quietExt_refl _
  · exact quietExt_refl _
  · exact quietExt_Reset o s
  · exact quietExt_refl _

theorem freePhyLoop_calls (o : Vpu) (ds : List VpuMemDesc) (r : World × Bool) :
    (freePhyLoop o ds r).1.calls = r.1.calls ++ ds.map VpuCall.DecFreeMem ∧
    (freePhyLoop o ds r).1.heap = r.1.heap := by
  induction ds generalizing r with
  | nil => simp [freePhyLoop]
  | cons d ds ih =>
    obtain ⟨w, ok⟩ := r
    simp only [freePhyLoop]
    obtain ⟨h1, h2⟩ := ih ({ w with calls := w.calls ++ [VpuCall.DecFreeMem d] },
      if o.ret w.calls.length ≠ VPU_DEC_RET_SUCCESS then false else ok)
    rw [h1, h2]
    simp

/-- After `VpuFreeBuffers` the allocator tracks no block; every physically contiguous
block it tracked was handed to `VPU_DecFreeMem`; the decode buffers are untouched. -/
theorem VpuFreeBuffers_spec (o : Vpu) (s : CDVDVideoCodecIMX) :
    (VpuFreeBuffers o s).1.m_decMemInfo.phyMem = none ∧
    (VpuFreeBuffers o s).1.m_decMemInfo.virtMem = none ∧
    (∀ m phyMem, s.m_decMemInfo.phyMem = some phyMem → m ∈ phyMem.take s.m_decMemInfo.nPhyNum →
      VpuCall.DecFreeMem m ∈ (VpuFreeBuffers o s).1.world.calls) ∧
    (VpuFreeBuffers o s).1.world.heap = s.world.heap ∧
    (VpuFreeBuffers o s).1.m_vpuHandle = s.m_vpuHandle := by
  unfold VpuFreeBuffers
  cases hv : s.m_decMemInfo.virtMem with
  | none =>
    simp only
    cases hp : s.m_decMemInfo.phyMem with
    | none => simp [hv, hp]
    | some pm =>
      simp only [hv, (freePhyLoop_calls o _ _).1, (freePhyLoop_calls o _ _).2]
      simp
      intro m hm
      right
      rw [← List.map_take]
      exact List.mem_map_of_mem _ hm
  | some vm =>
    simp only
    cases hp : s.m_decMemInfo.phyMem with
    | none => simp
    | some pm =>
      simp only [(freePhyLoop_calls o _ _).1, (freePhyLoop_calls o _ _).2]
      simp
      intro m hm
      right
      rw [← List.map_take]
      exact List.mem_map_of_mem _ hm

theorem allocFrameLoop_calls (o : Vpu) (i420 : Bool) (l : FrameLayout) (k : Nat) :
    ∀ (i : Nat) (s s2 : CDVDVideoCodecIMX), allocFrameLoop o i420 l k i s = (s2, true) →
    s2.world.calls = s.world.calls ++ List.replicate k (VpuCall.DecGetMem (totalSize l)) ∧
    s2.m_vpuHandle = s.m_vpuHandle := by
  induction k with
  | zero =>
    intro i s s2 hrun
    simp only [allocFrameLoop, Prod.mk.injEq, and_true] at hrun
    subst hrun
    simp
  | succ k ih =>
    intro i s s2 hrun
    unfold allocFrameLoop at hrun
    split_ifs at hrun with hret
    · simp at hrun
    · obtain ⟨h1, h2⟩ := ih (i + 1) _ s2 hrun
      obtain ⟨_, _, _, _, e5, e6⟩ := allocFrameStep_fields o i420 l i s
      rw [h1, h2, e5, e6, List.replicate_succ]
      simp

theorem VpuAllocFrameBuffers_calls (o : Vpu) (i420 : Bool) (s s2 : CDVDVideoCodecIMX)
    (l0 : FrameLayout) (hl : planeSizes i420 s.m_initInfo = some l0)
    (hrun : VpuAllocFrameBuffers o i420 s = (s2, true)) :
    s2.world.calls = s.world.calls ++ List.replicate
      (s.m_initInfo.nMinFrameBufferCount + m_extraVpuBuffers)
      (VpuCall.DecGetMem (totalSize (alignSizes l0))) ∧
    s2.m_vpuHandle = s.m_vpuHandle := by
  unfold VpuAllocFrameBuffers at hrun
  simp only [hl] at hrun
  have h := allocFrameLoop_calls o i420 (alignSizes l0) _ 0 _ s2 hrun
  exact h

/-- A decoder response with the resolution-changed flag and the return code
`VPU_DEC_RET_WRONG_CALL_SEQUENCE`: the decode call is logged and `VpuFreeBuffers`
runs. -/
theorem decodeCall_resolutionChanged (o : Vpu) (s : CDVDVideoCodecIMX) (nSize : Int)
    (hflag : (o.decRet s.world.calls.length).VPU_DEC_RESOLUTION_CHANGED = true)
    (hseq : o.ret s.world.calls.length = VPU_DEC_RET_WRONG_CALL_SEQUENCE) :
    ∃ t, decodeCall o s nSize = ((VpuFreeBuffers o t).1, o.decRet s.world.calls.length, true) ∧
      t.world.heap = s.world.heap ∧ t.m_decMemInfo = s.m_decMemInfo ∧
      t.m_vpuHandle = s.m_vpuHandle ∧
      t.world.calls = s.world.calls ++ [VpuCall.DecDecodeBuf s.m_vpuHandle nSize] := by
  unfold decodeCall
  simp only
  by_cases hr : s.m_frameReported = true
  · rw [if_pos hr]
    refine ⟨logCall { s with m_bytesToBeConsumed := s.m_bytesToBeConsumed + nSize }
      (VpuCall.DecDecodeBuf s.m_vpuHandle nSize), ?_, rfl, rfl, rfl, rfl⟩
    exact if_pos ⟨hseq, hflag⟩
  · rw [if_neg hr]
    refine ⟨logCall s (VpuCall.DecDecodeBuf s.m_vpuHandle nSize), ?_, rfl, rfl, rfl, rfl⟩
    exact if_pos ⟨hseq, hflag⟩

/-- What the branch for initialization and change of resolution leaves when it
succeeds: a pool of new decode buffers, and a log that grew by one fetch of the stream
parameters, one memory request per slot and one registration. -/
theorem handleInit_spec (o : Vpu) (i420 : Bool) (t : CDVDVideoCodecIMX)
    (decRet : VpuDecBufRetCode) (hflag : decRet.VPU_DEC_RESOLUTION_CHANGED = true)
    (hok : (handleInit o i420 t decRet).2 = true) :
    ∃ l0 F2 B2, planeSizes i420 (o.initInfo t.world.calls.length) = some l0 ∧
      (handleInit o i420 t decRet).1.m_vpuFrameBuffers = some F2 ∧
      (handleInit o i420 t decRet).1.m_outputBuffers = some B2 ∧
      (handleInit o i420 t decRet).1.m_vpuFrameBufferNum
        = (o.initInfo t.world.calls.length).nMinFrameBufferCount + m_extraVpuBuffers ∧
      F2.length = (o.initInfo t.world.calls.length).nMinFrameBufferCount + m_extraVpuBuffers ∧
      B2.length = (o.initInfo t.world.calls.length).nMinFrameBufferCount + m_extraVpuBuffers ∧
      (∀ j, j < (o.initInfo t.world.calls.length).nMinFrameBufferCount + m_extraVpuBuffers →
        (∃ idx, F2.getD j default = fillFrameBuffer i420 (alignSizes l0)
          { o.memDesc idx with nSize := totalSize (alignSizes l0) }) ∧
        B2.getD j none = some (t.world.heap.length + j)) ∧
      (handleInit o i420 t decRet).1.world.calls
        = t.world.calls ++ [VpuCall.DecGetInitialInfo t.m_vpuHandle]
          ++ List.replicate
            ((o.initInfo t.world.calls.length).nMinFrameBufferCount + m_extraVpuBuffers)
            (VpuCall.DecGetMem (totalSize (alignSizes l0)))
          ++ [VpuCall.DecRegisterFrameBuffer t.m_vpuHandle F2
            ((o.initInfo t.world.calls.length).nMinFrameBufferCount + m_extraVpuBuffers)] := by
  unfold handleInit at hok ⊢
  simp only [hflag, or_true, if_true] at hok ⊢
  by_cases hinfo : o.ret t.world.calls.length = VPU_DEC_RET_SUCCESS
  · simp only [hinfo, if_true] at hok ⊢
    cases hrun : VpuAllocFrameBuffers o i420
        { logCall t (VpuCall.DecGetInitialInfo t.m_vpuHandle) with
          m_initInfo := o.initInfo t.world.calls.length } with
    | mk s3 ok =>
      rw [hrun] at hok
      simp only at hok ⊢
      cases ok with
      | false => simp at hok
      | true =>
        simp only [if_true] at hok ⊢
        obtain ⟨l0, F2, B2, hl, h1, h2, h3, h4, h5, h6, h7⟩ :=
          VpuAllocFrameBuffers_spec o i420 _ s3 hrun
        obtain ⟨c1, c2⟩ := VpuAllocFrameBuffers_calls o i420 _ s3 l0 hl hrun
        refine ⟨l0, F2, B2, hl, ?_, ?_, ?_, h3, h4, h7, ?_⟩
        · split_ifs <;> exact h1
        · split_ifs <;> exact h2
        · split_ifs <;> exact h6
        · have e : (logCall s3 (VpuCall.DecRegisterFrameBuffer s3.m_vpuHandle
              (s3.m_vpuFrameBuffers.getD []) s3.m_vpuFrameBufferNum)).world.calls
              = t.world.calls ++ [VpuCall.DecGetInitialInfo t.m_vpuHandle]
                ++ List.replicate
                  ((o.initInfo t.world.calls.length).nMinFrameBufferCount + m_extraVpuBuffers)
                  (VpuCall.DecGetMem (totalSize (alignSizes l0)))
                ++ [VpuCall.DecRegisterFrameBuffer t.m_vpuHandle F2
                  ((o.initInfo t.world.calls.length).nMinFrameBufferCount
                    + m_extraVpuBuffers)] := by
            simp only [logCall, c1, c2, h1, h6, Option.getD_some]
          split_ifs <;> exact e
  · simp [hinfo] at hok

/-- C9, counterexample: `pooledSession` has a pool of eight decode buffers, the objects
0 to 7. The next `Decode` meets the resolution-changed flag and all allocations
succeed. Afterwards the pool consists of the new objects 8 to 15, while each decode
buffer of the old pool still has its reference count of one and was never destroyed:
the old decode buffers were not released. And slot 5 of the new pool has the luma
address that slot 0 of the old pool had: the allocator handed a freed block out
again. -/
theorem C9_counterexample :
    (resolutionChangeVpu.decRet pooledSession.world.calls.length).VPU_DEC_RESOLUTION_CHANGED
      = true ∧
    pooledSession.m_outputBuffers
      = some [some 0, some 1, some 2, some 3, some 4, some 5, some 6, some 7] ∧
    (Decode resolutionChangeVpu false pooledSession true 100 none 0 0).2 = VC_BUFFER ∧
    (Decode resolutionChangeVpu false pooledSession true 100 none 0 0).1.m_outputBuffers
      = some [some 8, some 9, some 10, some 11, some 12, some 13, some 14, some 15] ∧
    (∀ b ∈ (Decode resolutionChangeVpu false pooledSession true 100 none 0 0).1.world.heap.take 8,
      b.m_iRefs = 1 ∧ b.destroyed = 0) ∧
    (((Decode resolutionChangeVpu false pooledSession true 100 none 0
        0).1.m_vpuFrameBuffers.getD []).getD 5 default).pbufY
      = ((pooledSession.m_vpuFrameBuffers.getD []).getD 0 default).pbufY := by
  decide

/-! ## The log of hardware calls only grows -/

theorem prefix_logCall (s : CDVDVideoCodecIMX) (c : VpuCall) :
    s.world.calls <+: (logCall s c).world.calls := List.prefix_append _ _

theorem prefix_ReleaseFramebuffer (hwRet : VpuDecRetCode) (w : World) (self handle : Nat) :
    w.calls <+: (ReleaseFramebuffer hwRet w self handle).1.calls := by
  unfold ReleaseFramebuffer
  simp only
  cases (read w.heap self).m_frameBuffer with
  | none => exact List.prefix_refl _
  | some f =>
    by_cases hh : handle = 0
    · simp only [hh, ne_eq, not_true_eq_false, if_false]
      exact List.prefix_refl _
    · simp only [hh, ne_eq, not_false_eq_true, if_true]
      exact List.prefix_append _ _

theorem prefix_releaseFramebufferOf (o : Vpu) (s : CDVDVideoCodecIMX) (buffer : Nat) :
    s.world.calls <+: (releaseFramebufferOf o s buffer).1.world.calls :=
  prefix_ReleaseFramebuffer (o.ret s.world.calls.length) s.world buffer s.m_vpuHandle

theorem prefix_VpuFreeBuffers (o : Vpu) (s : CDVDVideoCodecIMX) :
    s.world.calls <+: (VpuFreeBuffers o s).1.world.calls := by
  unfold VpuFreeBuffers
  cases hv : s.m_decMemInfo.virtMem with
  | none =>
    simp only
    cases hp : s.m_decMemInfo.phyMem with
    | none => exact List.prefix_refl _
    | some pm =>
      simp only [(freePhyLoop_calls o _ _).1]
      exact List.prefix_append _ _
  | some vm =>
    simp only
    cases hp : s.m_decMemInfo.phyMem with
    | none => exact List.prefix_append _ _
    | some pm =>
      simp only [(freePhyLoop_calls o _ _).1, List.append_assoc]
      exact List.prefix_append _ _

theorem prefix_allocFrameLoop (o : Vpu) (i420 : Bool) (l : FrameLayout) (k i : Nat)
    (s : CDVDVideoCodecIMX) :
    s.world.calls <+: (allocFrameLoop o i420 l k i s).1.world.calls := by
  induction k generalizing i s with
  | zero => exact List.prefix_refl _
  | succ k ih =>
    unfold allocFrameLoop
    split_ifs with hret
    · exact prefix_logCall _ _
    · refine List.IsPrefix.trans ?_ (ih _ _)
      rw [(allocFrameStep_fields o i420 l i s).2.2.2.2.1]
      exact List.prefix_append _ _

theorem prefix_VpuAllocFrameBuffers (o : Vpu) (i420 : Bool) (s : CDVDVideoCodecIMX) :
    s.world.calls <+: (VpuAllocFrameBuffers o i420 s).1.world.calls := by
  unfold VpuAllocFrameBuffers
  simp only
  cases planeSizes i420 s.m_initInfo with
  | none => exact List.prefix_refl _
  | some l0 =>
    simp only
    refine List.IsPrefix.trans ?_ (prefix_allocFrameLoop o i420 _ _ 0 _)
    exact List.prefix_refl _

theorem prefix_resetLoop (o : Vpu) (k i : Nat) (s : CDVDVideoCodecIMX) :
    s.world.calls <+: (resetLoop o k i s).world.calls := by
  induction k generalizing i s with
  | zero => exact List.prefix_refl _
  | succ k ih =>
    unfold resetLoop
    cases poolEntry s i with
    | none => exact ih (i + 1) { s with fault := true }
    | some b => exact (prefix_releaseFramebufferOf o s b).trans (ih _ _)

theorem prefix_recycleLoop (o : Vpu) (k i : Nat) (s : CDVDVideoCodecIMX) :
    s.world.calls <+: (recycleLoop o k i s).world.calls := by
  induction k generalizing i s with
  | zero => exact List.prefix_refl _
  | succ k ih =>
    unfold recycleLoop
    cases poolEntry s i with
    | none => exact ih (i + 1) { s with fault := true }
    | some b =>
      simp only
      split_ifs
      · exact (prefix_releaseFramebufferOf o s b).trans (ih _ _)
      · exact ih _ _

theorem prefix_disposeLoop (o : Vpu) (k i : Nat) (s : CDVDVideoCodecIMX) :
    s.world.calls <+: (disposeLoop o k i s).world.calls := by
  induction k generalizing i s with
  | zero => exact List.prefix_refl _
  | succ k ih =>
    unfold disposeLoop
    cases poolEntry s i with
    | none => exact ih (i + 1) { s with fault := true }
    | some b =>
      simp only
      refine List.IsPrefix.trans ?_ (ih _ _)
      exact prefix_releaseFramebufferOf o s b

theorem prefix_Reset (o : Vpu) (s : CDVDVideoCodecIMX) :
    s.world.calls <+: (Reset o s).world.calls := by
  unfold Reset
  simp only
  exact (prefix_resetLoop o _ 0 (releaseCurrentBuffer (releaseLastBuffer s))).trans
    (prefix_logCall _ _)

theorem prefix_Dispose (o : Vpu) (s : CDVDVideoCodecIMX) :
    s.world.calls <+: (Dispose o s).world.calls := by
  have h2 : s.world.calls <+: (disposeLoop o
      (releaseCurrentBuffer (releaseLastBuffer s)).m_vpuFrameBufferNum 0
      (releaseCurrentBuffer (releaseLastBuffer s))).world.calls :=
    prefix_disposeLoop o _ 0 (releaseCurrentBuffer (releaseLastBuffer s))
  have hfree := fun t => prefix_VpuFreeBuffers o t
  unfold Dispose
  simp only
  split_ifs
  all_goals
    first
      | refine List.IsPrefix.trans ?_ (hfree _)
      | refine List.IsPrefix.trans (List.IsPrefix.trans ?_ (hfree _)) (List.prefix_append _ _)
    first
      | exact h2
      | exact h2.trans ((List.prefix_append _ _).trans (List.prefix_append _ _))

theorem prefix_allocBuffersLoop (o : Vpu) (bs : List VpuMemSubBlock) (s : CDVDVideoCodecIMX) :
    s.world.calls <+: (allocBuffersLoop o bs s).1.world.calls := by
  induction bs generalizing s with
  | nil => exact List.prefix_refl _
  | cons b bs ih =>
    unfold allocBuffersLoop
    simp only
    split_ifs
    · exact prefix_logCall _ _
    · refine List.IsPrefix.trans ?_ (ih _)
      exact prefix_logCall s _
    · exact prefix_logCall _ _
    · refine List.IsPrefix.trans ?_ (ih _)
      exact prefix_logCall s _

theorem prefix_VpuAllocBuffers (o : Vpu) (m : List VpuMemSubBlock) (s : CDVDVideoCodecIMX) :
    s.world.calls <+: (VpuAllocBuffers o m s).1.world.calls := by
  unfold VpuAllocBuffers
  simp only
  split_ifs
  · exact prefix_allocBuffersLoop o m s
  · exact (prefix_allocBuffersLoop o m s).trans (prefix_VpuFreeBuffers o _)

theorem prefix_fail (o : Vpu) (s : CDVDVideoCodecIMX) (c : VpuCall) (l : List VpuCall)
    (h : l <+: s.world.calls) : l <+: (Dispose o (logCall s c)).world.calls :=
  h.trans ((prefix_logCall s c).trans (prefix_Dispose o _))

theorem prefix_VpuOpen (o : Vpu) (s : CDVDVideoCodecIMX) :
    s.world.calls <+: (VpuOpen o s).1.world.calls := by
  unfold VpuOpen
  simp only
  cases h1 : mustSucceed o s VpuCall.DecLoad with
  | none => exact prefix_fail o s _ _ (List.prefix_refl _)
  | some s1 =>
  have e1 : s.world.calls <+: s1.world.calls := by
    rw [mustSucceed_some o s s1 _ h1]; exact prefix_logCall _ _
  simp only
  cases h2 : mustSucceed o s1 VpuCall.DecGetVersionInfo with
  | none => refine prefix_fail o _ _ _ ?_; exact e1
  | some s2 =>
  have e2 : s.world.calls <+: s2.world.calls := by
    rw [mustSucceed_some o s1 s2 _ h2]; exact e1.trans (prefix_logCall _ _)
  simp only
  cases h3 : mustSucceed o s2 VpuCall.DecQueryMem with
  | none => refine prefix_fail o _ _ _ ?_; exact e2
  | some s3 =>
  have e3 : s.world.calls <+: s3.world.calls := by
    rw [mustSucceed_some o s2 s3 _ h3]; exact e2.trans (prefix_logCall _ _)
  simp only
  have e4 := e3.trans (prefix_VpuAllocBuffers o (o.memInfo s2.world.calls.length) s3)
  split_ifs with hal
  · exact e4.trans (prefix_Dispose o _)
  · cases h5 : mustSucceed o (VpuAllocBuffers o (o.memInfo s2.world.calls.length) s3).1
        VpuCall.DecOpen with
    | none => refine prefix_fail o _ _ _ ?_; exact e4
    | some s5 =>
    have e5 : s.world.calls <+: s5.world.calls := by
      rw [mustSucceed_some o _ s5 _ h5]; exact e4.trans (prefix_logCall _ _)
    simp only
    cases h7 : mustSucceed o
        { s5 with m_vpuHandle :=
            o.handle (VpuAllocBuffers o (o.memInfo s2.world.calls.length) s3).1.world.calls.length }
        (VpuCall.DecConfig
          (o.handle (VpuAllocBuffers o (o.memInfo s2.world.calls.length) s3).1.world.calls.length))
      with
    | none => refine prefix_fail o _ _ _ ?_; exact e5
    | some s7 =>
    have e7 : s.world.calls <+: s7.world.calls := by
      rw [mustSucceed_some o _ s7 _ h7]; exact e5.trans (prefix_logCall _ _)
    simp only
    cases h8 : mustSucceed o s7 (VpuCall.DecConfig s7.m_vpuHandle) with
    | none => refine prefix_fail o _ _ _ ?_; exact e7
    | some s8 =>
    have e8 : s.world.calls <+: s8.world.calls := by
      rw [mustSucceed_some o _ s8 _ h8]; exact e7.trans (prefix_logCall _ _)
    simp only
    cases h9 : mustSucceed o s8 (VpuCall.DecConfig s8.m_vpuHandle) with
    | none => refine prefix_fail o _ _ _ ?_; exact e8
    | some s9 =>
    have e9 : s.world.calls <+: s9.world.calls := by
      rw [mustSucceed_some o _ s9 _ h9]; exact e8.trans (prefix_logCall _ _)
    simp only
    exact e9.trans (prefix_logCall s9 _)

theorem prefix_decodeCall (o : Vpu) (s : CDVDVideoCodecIMX) (nSize : Int) :
    s.world.calls <+: (decodeCall o s nSize).1.world.calls := by
  unfold decodeCall
  simp only
  split_ifs
  all_goals first
    | exact List.prefix_append _ _
    | (refine List.IsPrefix.trans ?_ (prefix_VpuFreeBuffers o _)
       exact List.prefix_append _ _)

theorem prefix_handleInit (o : Vpu) (i420 : Bool) (s : CDVDVideoCodecIMX)
    (decRet : VpuDecBufRetCode) :
    s.world.calls <+: (handleInit o i420 s decRet).1.world.calls := by
  have h1 : s.world.calls <+: (VpuAllocFrameBuffers o i420
      { logCall s (VpuCall.DecGetInitialInfo s.m_vpuHandle) with
        m_initInfo := o.initInfo s.world.calls.length }).1.world.calls := by
    refine List.IsPrefix.trans ?_ (prefix_VpuAllocFrameBuffers o i420 _)
    exact prefix_logCall s _
  unfold handleInit
  simp only
  split_ifs
  · exact h1.trans (prefix_logCall _ _)
  · exact h1.trans (prefix_logCall _ _)
  · exact h1
  · exact prefix_logCall s _
  · exact List.prefix_refl _

theorem prefix_handleConsumed (o : Vpu) (s : CDVDVideoCodecIMX) (decRet : VpuDecBufRetCode)
    (pts : Int) : s.world.calls <+: (handleConsumed o s decRet pts).world.calls := by
  unfold handleConsumed
  simp only
  repeat' split
  all_goals first
    | exact List.prefix_refl _
    | exact prefix_logCall s _

theorem prefix_handleDisplay (o : Vpu) (s : CDVDVideoCodecIMX) (retStatus : Nat)
    (dts pts : Int) : s.world.calls <+: (handleDisplay o s retStatus dts pts).1.world.calls := by
  unfold handleDisplay
  simp only
  repeat' split
  all_goals first
    | exact List.prefix_refl _
    | exact prefix_logCall s _

theorem prefix_handleMosaic (o : Vpu) (s : CDVDVideoCodecIMX) :
    s.world.calls <+: (handleMosaic o s).1.world.calls := by
  have h1 : s.world.calls <+:
      (logCall s (VpuCall.DecGetOutputFrame s.m_vpuHandle)).world.calls := prefix_logCall s _
  have h2 : s.world.calls <+:
      (logCall { logCall s (VpuCall.DecGetOutputFrame s.m_vpuHandle) with
          m_frameInfo := o.outFrameInfo s.world.calls.length }
        (VpuCall.DecOutFrameDisplayed s.m_vpuHandle
          (o.outFrameInfo s.world.calls.length).pDisplayFrameBuf)).world.calls :=
    h1.trans (List.prefix_append _ _)
  unfold handleMosaic
  simp only
  split_ifs
  · exact h1
  · exact h2
  · exact h2

theorem prefix_handleOutput (o : Vpu) (s : CDVDVideoCodecIMX) (decRet : VpuDecBufRetCode)
    (retStatus : Nat) (dts pts : Int) :
    s.world.calls <+: (handleOutput o s decRet retStatus dts pts).1.world.calls := by
  unfold handleOutput
  split_ifs
  · exact prefix_handleDisplay o s retStatus dts pts
  · exact prefix_handleMosaic o s
  · exact List.prefix_refl _
  · exact List.prefix_refl _
  · exact List.prefix_refl _
  · exact prefix_Reset o s
  · exact List.prefix_refl _

theorem prefix_beginDecode (o : Vpu) (s : CDVDVideoCodecIMX) :
    s.world.calls <+: (beginDecode o s).world.calls := by
  unfold beginDecode
  simp only
  split_ifs
  · exact prefix_VpuOpen o (releaseCurrentBuffer s)
  · exact List.prefix_refl _

/-! ## Frames to display -/

theorem displayResponsesFrom_append (o : Vpu) (l1 l2 : List VpuCall) (k : Nat) :
    displayResponsesFrom o k (l1 ++ l2)
      = displayResponsesFrom o k l1 + displayResponsesFrom o (k + l1.length) l2 := by
  induction l1 generalizing k with
  | nil => simp [displayResponsesFrom]
  | cons c cs ih =>
    show (if isDecodeBuf c && (o.decRet k).VPU_DEC_OUTPUT_DIS then 1 else 0)
        + displayResponsesFrom o (k + 1) (cs ++ l2)
      = ((if isDecodeBuf c && (o.decRet k).VPU_DEC_OUTPUT_DIS then 1 else 0)
        + displayResponsesFrom o (k + 1) cs) + displayResponsesFrom o (k + (cs.length + 1)) l2
    rw [ih, show k + 1 + cs.length = k + (cs.length + 1) by omega]
    omega

theorem displayResponsesFrom_quiet (o : Vpu) (l : List VpuCall) (k : Nat)
    (h : l.countP isDecodeBuf = 0) : displayResponsesFrom o k l = 0 := by
  induction l generalizing k with
  | nil => rfl
  | cons c cs ih =>
    rw [List.countP_cons] at h
    have hc : isDecodeBuf c = false := by
      cases hd : isDecodeBuf c with
      | false => rfl
      | true => rw [hd] at h; simp at h
    simp only [displayResponsesFrom, hc, Bool.false_and, Bool.false_eq_true, if_false, zero_add]
    exact ih _ (by omega)

/-- A step that extends the log without a hardware decode call leaves the number of
frames to display as it is. -/
theorem displayResponses_quiet (o : Vpu) (s t : CDVDVideoCodecIMX)
    (hp : s.world.calls <+: t.world.calls) (hc : decodeCalls t = decodeCalls s) :
    displayResponses o t = displayResponses o s := by
  obtain ⟨l, hl⟩ := hp
  unfold decodeCalls at hc
  unfold displayResponses
  rw [← hl, List.countP_append] at hc
  rw [← hl, displayResponsesFrom_append, displayResponsesFrom_quiet o l _ (by omega)]
  rfl

theorem decodeCall_decRet (o : Vpu) (s : CDVDVideoCodecIMX) (nSize : Int) :
    (decodeCall o s nSize).2.1 = o.decRet s.world.calls.length := by
  unfold decodeCall
  simp only
  split_ifs <;> rfl

/-- The hardware decode call adds one frame to display exactly when the decoder answers
it with the frame-displayable flag. -/
theorem displayResponses_decodeCall (o : Vpu) (s : CDVDVideoCodecIMX) (nSize : Int) :
    displayResponses o (decodeCall o s nSize).1
      = displayResponses o s
        + (if (o.decRet s.world.calls.length).VPU_DEC_OUTPUT_DIS = true then 1 else 0) := by
  have hlog : ∀ t : CDVDVideoCodecIMX, t.world.calls = s.world.calls → ∀ h n,
      displayResponses o (logCall t (VpuCall.DecDecodeBuf h n))
        = displayResponses o s
          + (if (o.decRet s.world.calls.length).VPU_DEC_OUTPUT_DIS = true then 1 else 0) := by
    intro t ht h n
    simp only [displayResponses, logCall, ht, displayResponsesFrom_append, displayResponsesFrom,
      isDecodeBuf, Bool.true_and, zero_add, add_zero]
  have hfree : ∀ t, displayResponses o (VpuFreeBuffers o t).1 = displayResponses o t :=
    fun t => displayResponses_quiet o t _ (prefix_VpuFreeBuffers o t)
      (decodeCalls_VpuFreeBuffers o t)
  generalize hN : displayResponses o s
    + (if (o.decRet s.world.calls.length).VPU_DEC_OUTPUT_DIS = true then 1 else 0) = N at hlog ⊢
  unfold decodeCall
  simp only
  split_ifs
  all_goals
    first
      | (refine hlog _ ?_ _ _; rfl)
      | (rw [hfree]; refine hlog _ ?_ _ _; rfl)

/-! ## The decode loop, pass by pass -/

theorem decodeLoop_succ (o : Vpu) (i420 : Bool) (dts pts : Int) (fuel : Nat)
    (s : CDVDVideoCodecIMX) (nSize : Int) (retries retStatus : Nat) :
    decodeLoop o i420 dts pts (fuel + 1) s nSize retries retStatus
      = if (decodePass o i420 dts pts s nSize retStatus).2.2 = false
          ∨ loopDone (o.decRet s.world.calls.length) = true
          ∨ retries + 1 ≥ m_maxVpuDecodeLoops
        then some (decodePass o i420 dts pts s nSize retStatus)
        else decodeLoop o i420 dts pts fuel (decodePass o i420 dts pts s nSize retStatus).1 0
          (retries + 1) (decodePass o i420 dts pts s nSize retStatus).2.1 := by
  have hd := decodeCall_decRet o s nSize
  have heta : ∀ x : CDVDVideoCodecIMX × Nat × Bool, x.2.2 = true → (x.1, x.2.1, true) = x := by
    rintro ⟨a, b, c⟩ h
    simp only at h
    rw [h]
  have heta2 : ∀ x : CDVDVideoCodecIMX × Nat × Bool, x.2.2 = false → (x.1, x.2.1, false) = x := by
    rintro ⟨a, b, c⟩ h
    simp only at h
    rw [h]
  by_cases ha : (decodeCall o s nSize).2.2 = false
  · simp only [decodeLoop, decodePass, ha, if_true, true_or]
  by_cases hb : (handleInit o i420 (decodeCall o s nSize).1 (decodeCall o s nSize).2.1).2 = false
  · simp only [decodeLoop, decodePass, ha, hb, if_true, if_false, true_or, Bool.true_eq_false]
  by_cases hd2 : (handleOutput o (handleConsumed o
        (handleInit o i420 (decodeCall o s nSize).1 (decodeCall o s nSize).2.1).1
        (decodeCall o s nSize).2.1 pts) (decodeCall o s nSize).2.1 retStatus dts pts).2.2 = false
  · simp only [decodeLoop, decodePass, ha, hb, hd2, if_true, if_false, true_or,
      Bool.true_eq_false]
    rw [heta2 _ hd2]
  have hd3 := Bool.eq_true_of_not_eq_false hd2
  by_cases hbrk : loopDone (o.decRet s.world.calls.length) = true
  · have hbrk2 : (decodeCall o s nSize).2.1.VPU_DEC_NO_ENOUGH_INBUF = true
        ∨ (decodeCall o s nSize).2.1.VPU_DEC_OUTPUT_REPEAT = true
        ∨ (decodeCall o s nSize).2.1.VPU_DEC_OUTPUT_DIS = true := by
      rw [hd]
      simpa [loopDone, or_assoc] using hbrk
    simp only [decodeLoop, decodePass, ha, hb, hd2, hbrk, hbrk2, if_true, if_false, true_or,
      or_true, Bool.true_eq_false]
    rw [heta _ hd3]
  · have hbrk2 : ¬ ((decodeCall o s nSize).2.1.VPU_DEC_NO_ENOUGH_INBUF = true
        ∨ (decodeCall o s nSize).2.1.VPU_DEC_OUTPUT_REPEAT = true
        ∨ (decodeCall o s nSize).2.1.VPU_DEC_OUTPUT_DIS = true) := by
      rw [hd]
      simpa [loopDone, or_assoc] using hbrk
    by_cases hcap : retries + 1 ≥ m_maxVpuDecodeLoops
    · simp only [decodeLoop, decodePass, ha, hb, hd2, hbrk, hbrk2, hcap, if_true, if_false,
        true_or, or_true, false_or, Bool.true_eq_false]
      rw [heta _ hd3]
    · simp only [decodeLoop, decodePass, ha, hb, hd2, hbrk, hbrk2, hcap, if_true, if_false,
        true_or, or_true, false_or, or_false, or_self, Bool.true_eq_false, Bool.false_eq_true]

/-- A rule for reasoning about the decode loop: a relation between the state and status
on entry and the result holds for the loop if it holds for a last pass, and if it
carries over a pass that neither fails nor ends the loop. -/
theorem decodeLoop_rule (o : Vpu) (i420 : Bool) (dts pts : Int)
    (R : CDVDVideoCodecIMX → Nat → CDVDVideoCodecIMX × Nat × Bool → Prop)
    (hlast : ∀ s nSize retStatus, R s retStatus (decodePass o i420 dts pts s nSize retStatus))
    (hstep : ∀ s nSize retStatus r,
      (decodePass o i420 dts pts s nSize retStatus).2.2 = true →
      loopDone (o.decRet s.world.calls.length) = false →
      R (decodePass o i420 dts pts s nSize retStatus).1
        (decodePass o i420 dts pts s nSize retStatus).2.1 r → R s retStatus r) :
    ∀ (fuel : Nat) (s : CDVDVideoCodecIMX) (nSize : Int) (retries retStatus : Nat)
      (r : CDVDVideoCodecIMX × Nat × Bool),
      decodeLoop o i420 dts pts fuel s nSize retries retStatus = some r → R s retStatus r := by
  intro fuel
  induction fuel with
  | zero => intro s nSize retries retStatus r h; simp [decodeLoop] at h
  | succ fuel ih =>
    intro s nSize retries retStatus r h
    rw [decodeLoop_succ] at h
    split_ifs at h with hc
    · cases h
      exact hlast s nSize retStatus
    · simp only [not_or] at hc
      exact hstep s nSize retStatus r (Bool.eq_true_of_not_eq_false hc.1)
        (Bool.eq_false_of_not_eq_true hc.2.1) (ih _ _ _ _ r h)

theorem prefix_decodePass (o : Vpu) (i420 : Bool) (dts pts : Int) (s : CDVDVideoCodecIMX)
    (nSize : Int) (retStatus : Nat) :
    s.world.calls <+: (decodePass o i420 dts pts s nSize retStatus).1.world.calls := by
  have ha := prefix_decodeCall o s nSize
  have hb := ha.trans (prefix_handleInit o i420 (decodeCall o s nSize).1 (decodeCall o s nSize).2.1)
  unfold decodePass
  simp only
  split_ifs
  · exact ha
  · exact hb
  · exact hb.trans ((prefix_handleConsumed o _ _ pts).trans (prefix_handleOutput o _ _ _ dts pts))

theorem decodeCalls_decodePass (o : Vpu) (i420 : Bool) (dts pts : Int) (s : CDVDVideoCodecIMX)
    (nSize : Int) (retStatus : Nat) :
    decodeCalls (decodePass o i420 dts pts s nSize retStatus).1 = decodeCalls s + 1 := by
  unfold decodePass
  simp only
  split_ifs
  · exact decodeCalls_decodeCall o s nSize
  · rw [decodeCalls_handleInit, decodeCalls_decodeCall]
  · rw [decodeCalls_handleOutput, decodeCalls_handleConsumed, decodeCalls_handleInit,
      decodeCalls_decodeCall]

/-- One pass of the decode loop adds one frame to display exactly when the decoder
answers the hardware decode call of the pass with the frame-displayable flag. -/
theorem displayResponses_decodePass (o : Vpu) (i420 : Bool) (dts pts : Int)
    (s : CDVDVideoCodecIMX) (nSize : Int) (retStatus : Nat) :
    displayResponses o (decodePass o i420 dts pts s nSize retStatus).1
      = displayResponses o s
        + (if (o.decRet s.world.calls.length).VPU_DEC_OUTPUT_DIS = true then 1 else 0) := by
  have ha := displayResponses_decodeCall o s nSize
  have hb : displayResponses o
      (handleInit o i420 (decodeCall o s nSize).1 (decodeCall o s nSize).2.1).1
      = displayResponses o (decodeCall o s nSize).1 :=
    displayResponses_quiet o _ _ (prefix_handleInit o i420 _ _) (decodeCalls_handleInit o i420 _ _)
  have hc : ∀ t d rs, displayResponses o (handleOutput o (handleConsumed o t d pts) d rs dts pts).1
      = displayResponses o t := by
    intro t d rs
    rw [displayResponses_quiet o _ _ (prefix_handleOutput o _ d rs dts pts)
      (decodeCalls_handleOutput o _ d rs dts pts)]
    exact displayResponses_quiet o _ _ (prefix_handleConsumed o t d pts)
      (decodeCalls_handleConsumed o t d pts)
  generalize hN : displayResponses o s
    + (if (o.decRet s.world.calls.length).VPU_DEC_OUTPUT_DIS = true then 1 else 0) = N at ha ⊢
  unfold decodePass
  simp only
  split_ifs
  · exact ha
  · rw [hb, ha]
  · rw [hc, hb, ha]

/-- How `Decode` runs: either the decoder cannot be opened, or the recycle scan is
followed by the decode loop (when there is input, or bytes are outstanding) and by the
end of `Decode`. -/
theorem Decode_run (o : Vpu) (i420 : Bool) (s : CDVDVideoCodecIMX) (pData : Bool)
    (iSize : Int) (converted : Option Int) (dts pts : Int) :
    ((beginDecode o s).m_vpuHandle = 0 ∧
      Decode o i420 s pData iSize converted dts pts = (beginDecode o s, VC_ERROR)) ∨
    ((beginDecode o s).m_vpuHandle ≠ 0 ∧
      ∃ r, (r = (recycleLoop o (beginDecode o s).m_vpuFrameBufferNum 0 (beginDecode o s), 0, true) ∨
          ∃ nSize, decodeLoop o i420 dts pts m_maxVpuDecodeLoops
            (recycleLoop o (beginDecode o s).m_vpuFrameBufferNum 0 (beginDecode o s))
            nSize 0 0 = some r) ∧
        Decode o i420 s pData iSize converted dts pts = finishDecode pts r) := by
  have hD := DecodeFuel_eq_Decode o i420 s pData iSize converted dts pts m_maxVpuDecodeLoops
    (le_refl _)
  unfold DecodeFuel at hD
  simp only at hD
  split_ifs at hD with h0 h1
  · left
    exact ⟨h0, (Option.some.inj hD).symm⟩
  · right
    refine ⟨h0, ?_⟩
    rw [Option.map_eq_some'] at hD
    obtain ⟨r, hr, hfin⟩ := hD
    exact ⟨r, Or.inr ⟨_, hr⟩, hfin.symm⟩
  · right
    exact ⟨h0, _, Or.inl rfl, (Option.some.inj hD).symm⟩

theorem displayResponses_decodeLoop (o : Vpu) (i420 : Bool) (dts pts : Int) (fuel : Nat)
    (s : CDVDVideoCodecIMX) (nSize : Int) (retries retStatus : Nat)
    (r : CDVDVideoCodecIMX × Nat × Bool)
    (h : decodeLoop o i420 dts pts fuel s nSize retries retStatus = some r) :
    displayResponses o r.1 ≤ displayResponses o s + 1 := by
  refine decodeLoop_rule o i420 dts pts
    (fun s _ r => displayResponses o r.1 ≤ displayResponses o s + 1) ?_ ?_
    fuel s nSize retries retStatus r h
  · intro s nSize retStatus
    simp only [displayResponses_decodePass]
    split_ifs <;> omega
  · intro s nSize retStatus r _ hdone hr
    have hdis : (o.decRet s.world.calls.length).VPU_DEC_OUTPUT_DIS = false := by
      simp only [loopDone, Bool.or_eq_false_iff] at hdone
      exact hdone.2
    simp only [displayResponses_decodePass, hdis, Bool.false_eq_true, if_false, add_zero] at hr
    exact hr

/-! ## What `Release` does to a buffer, in general -/

theorem rel_write (R : CDVDVideoCodecIMXBuffer → CDVDVideoCodecIMXBuffer → Prop)
    (hrefl : ∀ b, R b b) (h : Heap) (p y : Nat) (b : CDVDVideoCodecIMXBuffer)
    (hb : R (read h p) b) : R (read h y) (read (write h p b) y) := by
  by_cases hpy : p = y
  · subst hpy
    by_cases hp : p < h.length
    · rw [read_write_same _ _ _ hp]; exact hb
    · rw [write_of_le _ _ _ (by omega)]; exact hrefl _
  · rw [read_write_ne _ _ _ _ hpy]; exact hrefl _

/-- Every buffer after `Release` is related to what it was before by any relation that is
reflexive and transitive and that holds for each of the four assignments `Release`
makes: to the reference count, to the rendered mark of a buffer that refers to a frame,
to the pointer to the previous buffer (which it clears), and the destruction. -/
theorem ReleaseAux_rel (R : CDVDVideoCodecIMXBuffer → CDVDVideoCodecIMXBuffer → Prop)
    (hrefl : ∀ b, R b b) (htrans : ∀ a b c, R a b → R b c → R a c)
    (hrefs : ∀ b c, R b { b with m_iRefs := c })
    (hrend : ∀ b, b.m_frameBuffer ≠ none → R b { b with m_rendered := true })
    (hprev : ∀ b, R b { b with m_previousBuffer := none })
    (hdest : ∀ b d, R b { b with destroyed := d })
    (n : Nat) (h : Heap) (self : Nat) (r : Heap × Int) (hr : ReleaseAux n h self = some r) :
    ∀ y, R (read h y) (read r.1 y) := by
  have hsafe : ∀ (m : Nat) (g x : Heap) (p : Nat),
      (∀ q r, ReleaseAux m g q = some r → ∀ y, R (read g y) (read r.1 y)) →
      safeReleasePrevious (ReleaseAux m) g p = some x → ∀ y, R (read g y) (read x y) := by
    intro m g x p ih hx y
    unfold safeReleasePrevious at hx
    cases hp : (read g p).m_previousBuffer with
    | none => rw [hp] at hx; cases hx; exact hrefl _
    | some q =>
      rw [hp] at hx
      simp only at hx
      cases hq : ReleaseAux m g q with
      | none => rw [hq] at hx; cases hx
      | some r =>
        rw [hq] at hx
        cases hx
        exact htrans _ _ _ (ih q r hq y) (rel_write R hrefl _ _ _ _ (hprev _))
  induction n generalizing h self r with
  | zero => simp [ReleaseAux] at hr
  | succ n ih =>
    intro y
    unfold ReleaseAux at hr
    simp only at hr
    have h1 : R (read h y)
        (read (write h self { read h self with m_iRefs := (read h self).m_iRefs - 1 }) y) :=
      rel_write R hrefl _ _ _ _ (hrefs _ _)
    split_ifs at hr with h2 h1c hf h0
    · rw [Option.map_eq_some'] at hr
      obtain ⟨x, hx, hxr⟩ := hr
      subst hxr
      exact htrans _ _ _ h1 (hsafe n _ x self (fun q r hq => ih _ q r hq) hx y)
    · rw [Option.map_eq_some'] at hr
      obtain ⟨x, hx, hxr⟩ := hr
      subst hxr
      refine htrans _ _ _ h1 (htrans _ _ _ ?_ (hsafe n _ x self (fun q r hq => ih _ q r hq) hx y))
      exact rel_write R hrefl _ _ _ _ (hrend _ hf)
    · cases hr; exact h1
    · cases hr
      exact htrans _ _ _ h1 (rel_write R hrefl _ _ _ _ (hdest _ _))
    · cases hr; exact h1

theorem Release_rel (R : CDVDVideoCodecIMXBuffer → CDVDVideoCodecIMXBuffer → Prop)
    (hrefl : ∀ b, R b b) (htrans : ∀ a b c, R a b → R b c → R a c)
    (hrefs : ∀ b c, R b { b with m_iRefs := c })
    (hrend : ∀ b, b.m_frameBuffer ≠ none → R b { b with m_rendered := true })
    (hprev : ∀ b, R b { b with m_previousBuffer := none })
    (hdest : ∀ b d, R b { b with destroyed := d }) (h : Heap) (self y : Nat) :
    R (read h y) (read (Release h self).1 y) :=
  ReleaseAux_rel R hrefl htrans hrefs hrend hprev hdest _ h self _
    (ReleaseAux_releaseFuel h self) y

theorem SAFE_RELEASE_rel (R : CDVDVideoCodecIMXBuffer → CDVDVideoCodecIMXBuffer → Prop)
    (hrefl : ∀ b, R b b) (htrans : ∀ a b c, R a b → R b c → R a c)
    (hrefs : ∀ b c, R b { b with m_iRefs := c })
    (hrend : ∀ b, b.m_frameBuffer ≠ none → R b { b with m_rendered := true })
    (hprev : ∀ b, R b { b with m_previousBuffer := none })
    (hdest : ∀ b d, R b { b with destroyed := d }) (h : Heap) (p : Option Nat) (y : Nat) :
    R (read h y) (read (SAFE_RELEASE h p) y) := by
  cases p with
  | none => exact hrefl _
  | some q => exact Release_rel R hrefl htrans hrefs hrend hprev hdest h q y

/-- The methods `Release` and `SAFE_RELEASE` leave the picture data of every buffer as it
is: the dimensions, the addresses and the field type. -/
theorem SAFE_RELEASE_picture (h : Heap) (p : Option Nat) (y : Nat) :
    (read (SAFE_RELEASE h p) y).iWidth = (read h y).iWidth ∧
    (read (SAFE_RELEASE h p) y).iHeight = (read h y).iHeight ∧
    (read (SAFE_RELEASE h p) y).pVirtAddr = (read h y).pVirtAddr ∧
    (read (SAFE_RELEASE h p) y).pPhysAddr = (read h y).pPhysAddr ∧
    (read (SAFE_RELEASE h p) y).m_fieldType = (read h y).m_fieldType := by
  have := SAFE_RELEASE_rel (fun a b => b.iWidth = a.iWidth ∧ b.iHeight = a.iHeight ∧
      b.pVirtAddr = a.pVirtAddr ∧ b.pPhysAddr = a.pPhysAddr ∧ b.m_fieldType = a.m_fieldType)
    (fun _ => ⟨rfl, rfl, rfl, rfl, rfl⟩)
    (fun a b c h1 h2 => ⟨h2.1.trans h1.1, h2.2.1.trans h1.2.1, h2.2.2.1.trans h1.2.2.1,
      h2.2.2.2.1.trans h1.2.2.2.1, h2.2.2.2.2.trans h1.2.2.2.2⟩)
    (fun _ _ => ⟨rfl, rfl, rfl, rfl, rfl⟩) (fun _ _ => ⟨rfl, rfl, rfl, rfl, rfl⟩)
    (fun _ => ⟨rfl, rfl, rfl, rfl, rfl⟩) (fun _ _ => ⟨rfl, rfl, rfl, rfl, rfl⟩) h p y
  exact this

theorem SAFE_RELEASE_length (h : Heap) (p : Option Nat) :
    (SAFE_RELEASE h p).length = h.length := by
  cases p with
  | none => rfl
  | some q => exact Release_length h q

/-! ## Rounding to the macroblock size -/

theorem land_mask16 (n : Nat) (h : n < 2 ^ 32) : n &&& (2 ^ 32 - 16) = n / 16 * 16 := by
  have h1 : (n &&& (2 ^ 32 - 16)) % 16 = 0 := by
    have e := Nat.and_pow_two_sub_one_eq_mod (n &&& (2 ^ 32 - 16)) 4
    rw [Nat.and_assoc] at e
    have z : (2 ^ 32 - 16) &&& (2 ^ 4 - 1) = 0 := by decide
    rw [z, Nat.and_zero] at e
    omega
  have h2 : (n &&& (2 ^ 32 - 16)) / 16 = n / 16 := by
    have d : ∀ x : Nat, x / 16 = x / 2 / 2 / 2 / 2 := fun x => by omega
    rw [d, Nat.and_div_two, Nat.and_div_two, Nat.and_div_two, Nat.and_div_two]
    have m : (2 ^ 32 - 16) / 2 / 2 / 2 / 2 = 2 ^ 28 - 1 := by decide
    rw [m, Nat.and_pow_two_sub_one_eq_mod, ← d]
    omega
  omega

theorem roundUp16_eq (x : Int) (h0 : 0 ≤ x) (h1 : x + 15 < 2 ^ 31) :
    roundUp16 x = (x + 15) / 16 * 16 := by
  unfold roundUp16
  rw [toUnsigned_of_range (x + 15) (by omega) (by omega), land_mask16 _ (by omega)]
  unfold toInt32 u32
  split_ifs <;> omega

/-- The expression `((x) + 15) & ~15` is the smallest multiple of 16 that is at least `x`,
for an `x` that is not negative and for which `x + 15` does not overflow. -/
theorem roundUp16_spec (x : Int) (h0 : 0 ≤ x) (h1 : x + 15 < 2 ^ 31) :
    isLeastMultiple 16 x (roundUp16 x) := by
  rw [roundUp16_eq x h0 h1]
  refine ⟨Dvd.intro_left _ rfl, by omega, ?_⟩
  rintro m ⟨c, rfl⟩ hm
  omega

/-! ## The frame-displayable branch -/

theorem length_Lock (h : Heap) (p : Nat) : (Lock h p).length = h.length := length_write _ _ _

theorem length_SetPts (h : Heap) (p : Nat) (v : Int) : (SetPts h p v).length = h.length :=
  length_write _ _ _

theorem length_SetDts (h : Heap) (p : Nat) (v : Int) : (SetDts h p v).length = h.length :=
  length_write _ _ _

theorem length_Queue (h : Heap) (p : Nat) (f : VpuDecOutFrameInfo) (prev : Option Nat) :
    (Queue h p f prev).length = h.length := by
  unfold Queue
  cases prev with
  | none => simp only [length_write]
  | some q => simp only [length_write, length_Lock]

theorem Queue_picture (h : Heap) (p : Nat) (f : VpuDecOutFrameInfo) (prev : Option Nat)
    (hp : p < h.length) :
    (read (Queue h p f prev) p).iWidth = f.pExtInfo.nFrmWidth ∧
    (read (Queue h p f prev) p).iHeight = f.pExtInfo.nFrmHeight := by
  unfold Queue
  simp only
  rw [read_write_same]
  · exact ⟨rfl, rfl⟩
  · cases prev with
    | none => simp only [length_write]; exact hp
    | some q => simp only [length_write, length_Lock]; exact hp

theorem Lock_picture (h : Heap) (p y : Nat) :
    (read (Lock h p) y).iWidth = (read h y).iWidth ∧
    (read (Lock h p) y).iHeight = (read h y).iHeight :=
  ⟨read_write_proj (fun b => b.iWidth) h p y _ rfl,
   read_write_proj (fun b => b.iHeight) h p y _ rfl⟩

theorem SetPts_picture (h : Heap) (p y : Nat) (v : Int) :
    (read (SetPts h p v) y).iWidth = (read h y).iWidth ∧
    (read (SetPts h p v) y).iHeight = (read h y).iHeight :=
  ⟨read_write_proj (fun b => b.iWidth) h p y _ rfl,
   read_write_proj (fun b => b.iHeight) h p y _ rfl⟩

theorem SetDts_picture (h : Heap) (p y : Nat) (v : Int) :
    (read (SetDts h p v) y).iWidth = (read h y).iWidth ∧
    (read (SetDts h p v) y).iHeight = (read h y).iHeight :=
  ⟨read_write_proj (fun b => b.iWidth) h p y _ rfl,
   read_write_proj (fun b => b.iHeight) h p y _ rfl⟩

theorem display_heap_picture (h : Heap) (b : Nat) (f : VpuDecOutFrameInfo) (last : Option Nat)
    (vp8 usePTS : Prop) [Decidable vp8] [Decidable usePTS] (dts pts : Int) (hb : b < h.length) :
    (read (Lock (SAFE_RELEASE
        (if usePTS then
          Queue (SetDts (Lock (if vp8 then SetPts h b pts else h) b) b dts) b f last
        else
          SetDts (SetPts
            (Queue (SetDts (Lock (if vp8 then SetPts h b pts else h) b) b dts) b f last)
            b DVD_NOPTS_VALUE) b DVD_NOPTS_VALUE) last) b) b).iWidth = f.pExtInfo.nFrmWidth ∧
    (read (Lock (SAFE_RELEASE
        (if usePTS then
          Queue (SetDts (Lock (if vp8 then SetPts h b pts else h) b) b dts) b f last
        else
          SetDts (SetPts
            (Queue (SetDts (Lock (if vp8 then SetPts h b pts else h) b) b dts) b f last)
            b DVD_NOPTS_VALUE) b DVD_NOPTS_VALUE) last) b) b).iHeight = f.pExtInfo.nFrmHeight := by
  have hlen : b < (SetDts (Lock (if vp8 then SetPts h b pts else h) b) b dts).length := by
    rw [length_SetDts, length_Lock]
    split_ifs
    · rw [length_SetPts]; exact hb
    · exact hb
  have hq := Queue_picture _ b f last hlen
  rw [(Lock_picture _ _ _).1, (Lock_picture _ _ _).2, (SAFE_RELEASE_picture _ _ _).1,
    (SAFE_RELEASE_picture _ _ _).2.1]
  by_cases hu : usePTS
  · rw [if_pos hu]
    exact hq
  · rw [if_neg hu, (SetDts_picture _ _ _ _).1, (SetDts_picture _ _ _ _).2,
      (SetPts_picture _ _ _ _).1, (SetPts_picture _ _ _ _).2]
    exact hq

/-- The frame-displayable branch when the frame is fetched and resolves to a pool
buffer: the dimensions stored in the frame info are the rounded ones, the buffer is the
current buffer, and it carries the dimensions of the frame info. -/
theorem handleDisplay_found (o : Vpu) (s : CDVDVideoCodecIMX) (retStatus : Nat) (dts pts : Int)
    (i b : Nat) (hret : o.ret s.world.calls.length = VPU_DEC_RET_SUCCESS)
    (hfind : VpuFindBuffer s (o.outFrameInfo s.world.calls.length).pDisplayFrameBuf.pbufY = some i)
    (hpool : poolEntry s i = some b) (hb : b < s.world.heap.length) :
    (handleDisplay o s retStatus dts pts).1.m_frameInfo.pExtInfo.nFrmWidth
      = roundUp16 (o.outFrameInfo s.world.calls.length).pExtInfo.nFrmWidth ∧
    (handleDisplay o s retStatus dts pts).1.m_frameInfo.pExtInfo.nFrmHeight
      = roundUp16 (o.outFrameInfo s.world.calls.length).pExtInfo.nFrmHeight ∧
    (handleDisplay o s retStatus dts pts).1.m_currentBuffer = some b ∧
    (handleDisplay o s retStatus dts pts).2.1 = retStatus ||| VC_PICTURE ∧
    (read (handleDisplay o s retStatus dts pts).1.world.heap b).iWidth
      = roundUp16 (o.outFrameInfo s.world.calls.length).pExtInfo.nFrmWidth ∧
    (read (handleDisplay o s retStatus dts pts).1.world.heap b).iHeight
      = roundUp16 (o.outFrameInfo s.world.calls.length).pExtInfo.nFrmHeight := by
  unfold handleDisplay
  simp only [hret, ne_eq, not_true_eq_false, if_false]
  have hf2 : VpuFindBuffer
      { logCall s (VpuCall.DecGetOutputFrame s.m_vpuHandle) with
        m_frameInfo := { o.outFrameInfo s.world.calls.length with
          pExtInfo := { (o.outFrameInfo s.world.calls.length).pExtInfo with
            nFrmWidth := roundUp16 (o.outFrameInfo s.world.calls.length).pExtInfo.nFrmWidth,
            nFrmHeight := roundUp16 (o.outFrameInfo s.world.calls.length).pExtInfo.nFrmHeight } } }
      (o.outFrameInfo s.world.calls.length).pDisplayFrameBuf.pbufY = some i := hfind
  have hp2 : poolEntry
      { logCall s (VpuCall.DecGetOutputFrame s.m_vpuHandle) with
        m_frameInfo := { o.outFrameInfo s.world.calls.length with
          pExtInfo := { (o.outFrameInfo s.world.calls.length).pExtInfo with
            nFrmWidth := roundUp16 (o.outFrameInfo s.world.calls.length).pExtInfo.nFrmWidth,
            nFrmHeight := roundUp16 (o.outFrameInfo s.world.calls.length).pExtInfo.nFrmHeight } } }
      i = some b := hpool
  rw [hf2]
  simp only [hp2, true_and]
  simp only [setHeap, logCall, true_and]
  exact display_heap_picture s.world.heap b _ s.m_lastBuffer
    (s.CodecFormat = VpuCodStd.VPU_V_VP8) (s.m_usePTS = true) dts pts hb

theorem handleDisplay_frameInfo (o : Vpu) (s : CDVDVideoCodecIMX) (retStatus : Nat)
    (dts pts : Int) (hret : o.ret s.world.calls.length = VPU_DEC_RET_SUCCESS) :
    (handleDisplay o s retStatus dts pts).1.m_frameInfo.pExtInfo.nFrmWidth
      = roundUp16 (o.outFrameInfo s.world.calls.length).pExtInfo.nFrmWidth ∧
    (handleDisplay o s retStatus dts pts).1.m_frameInfo.pExtInfo.nFrmHeight
      = roundUp16 (o.outFrameInfo s.world.calls.length).pExtInfo.nFrmHeight := by
  unfold handleDisplay
  simp only [hret, ne_eq, not_true_eq_false, if_false]
  repeat' split
  all_goals exact ⟨rfl, rfl⟩

/-- C12: on a frame-displayable event whose frame is fetched, for every reported frame
width `w` and height `h` with `0 ≤ w, h` and no 32-bit overflow in `w + 15`, `h + 15`,
the width and height stored in the frame info are the smallest multiples of 16 that are
at least `w` and `h`; and when the frame resolves to a pool buffer, that buffer becomes
the current (ready) buffer and carries the same width and height. -/
theorem C12_display_dimensions_rounded (o : Vpu) (s : CDVDVideoCodecIMX) (retStatus : Nat)
    (dts pts : Int) (hret : o.ret s.world.calls.length = VPU_DEC_RET_SUCCESS)
    (hw0 : 0 ≤ (o.outFrameInfo s.world.calls.length).pExtInfo.nFrmWidth)
    (hw1 : (o.outFrameInfo s.world.calls.length).pExtInfo.nFrmWidth + 15 < 2 ^ 31)
    (hh0 : 0 ≤ (o.outFrameInfo s.world.calls.length).pExtInfo.nFrmHeight)
    (hh1 : (o.outFrameInfo s.world.calls.length).pExtInfo.nFrmHeight + 15 < 2 ^ 31) :
    isLeastMultiple 16 (o.outFrameInfo s.world.calls.length).pExtInfo.nFrmWidth
      (handleDisplay o s retStatus dts pts).1.m_frameInfo.pExtInfo.nFrmWidth ∧
    isLeastMultiple 16 (o.outFrameInfo s.world.calls.length).pExtInfo.nFrmHeight
      (handleDisplay o s retStatus dts pts).1.m_frameInfo.pExtInfo.nFrmHeight ∧
    ∀ i b, VpuFindBuffer s (o.outFrameInfo s.world.calls.length).pDisplayFrameBuf.pbufY = some i →
      poolEntry s i = some b → b < s.world.heap.length →
      (handleDisplay o s retStatus dts pts).1.m_currentBuffer = some b ∧
      (read (handleDisplay o s retStatus dts pts).1.world.heap b).iWidth
        = (handleDisplay o s retStatus dts pts).1.m_frameInfo.pExtInfo.nFrmWidth ∧
      (read (handleDisplay o s retStatus dts pts).1.world.heap b).iHeight
        = (handleDisplay o s retStatus dts pts).1.m_frameInfo.pExtInfo.nFrmHeight := by
  obtain ⟨e1, e2⟩ := handleDisplay_frameInfo o s retStatus dts pts hret
  refine ⟨?_, ?_, ?_⟩
  · rw [e1]; exact roundUp16_spec _ hw0 hw1
  · rw [e2]; exact roundUp16_spec _ hh0 hh1
  · intro i b hfind hpool hb
    obtain ⟨_, _, h3, _, h5, h6⟩ := handleDisplay_found o s retStatus dts pts i b hret hfind hpool hb
    exact ⟨h3, by rw [h5, e1], by rw [h6, e2]⟩

/-- C12, witness: the example decoder reports a frame of 1920 by 1080 in pool slot 0; the
height stored and copied onto the ready buffer is 1088. -/
theorem C12_display_dimensions_rounded_witness :
    isLeastMultiple 16 1080
      (handleDisplay (exampleVpu initAndDisplay) deliveredSession 0 0 0).1.m_frameInfo.pExtInfo.nFrmHeight ∧
    (read (handleDisplay (exampleVpu initAndDisplay) deliveredSession 0 0 0).1.world.heap 0).iHeight
      = (handleDisplay (exampleVpu initAndDisplay) deliveredSession 0 0 0).1.m_frameInfo.pExtInfo.nFrmHeight :=
  (fun t => ⟨t.2.1, (t.2.2 0 0 (by decide) (by decide) (by decide)).2.2⟩)
    (C12_display_dimensions_rounded (exampleVpu initAndDisplay) deliveredSession 0 0 0
      (by decide) (by decide) (by decide) (by decide) (by decide))

/-! ## The consumed-access-unit branch -/

/-- C13: on a consumed-access-unit event whose consumed frame resolves to a pool slot with
a decode buffer: if a pending timestamp exists (`m_previousPts` is not
`DVD_NOPTS_VALUE`), the buffer receives the pending timestamp and the pending value is
cleared; otherwise the buffer receives the presentation timestamp of the current
`Decode` call and the pending value stays cleared. -/
theorem C13_consumed_frame_timestamp (o : Vpu) (s : CDVDVideoCodecIMX)
    (decRet : VpuDecBufRetCode) (pts : Int) (f : VpuFrameBuffer) (i b : Nat)
    (hflag : decRet.VPU_DEC_ONE_FRM_CONSUMED = true)
    (hframe : (o.frameLengthInfo s.world.calls.length).pFrame = some f)
    (hfind : VpuFindBuffer s f.pbufY = some i)
    (hpool : poolEntry s i = some b) (hb : b < s.world.heap.length) :
    (s.m_previousPts ≠ DVD_NOPTS_VALUE →
      (read (handleConsumed o s decRet pts).world.heap b).m_pts = s.m_previousPts ∧
      (handleConsumed o s decRet pts).m_previousPts = DVD_NOPTS_VALUE) ∧
    (s.m_previousPts = DVD_NOPTS_VALUE →
      (read (handleConsumed o s decRet pts).world.heap b).m_pts = pts ∧
      (handleConsumed o s decRet pts).m_previousPts = DVD_NOPTS_VALUE) := by
  have hset : ∀ v, (read (SetPts s.world.heap b v) b).m_pts = v := by
    intro v
    unfold SetPts
    rw [read_write_same _ _ _ hb]
  unfold handleConsumed
  simp only [hflag, if_true, hframe]
  have hf2 : VpuFindBuffer
      { logCall s (VpuCall.DecGetConsumedFrameInfo s.m_vpuHandle) with
        m_bytesToBeConsumed :=
          (logCall s (VpuCall.DecGetConsumedFrameInfo s.m_vpuHandle)).m_bytesToBeConsumed -
            ((o.frameLengthInfo s.world.calls.length).nFrameLength +
              (o.frameLengthInfo s.world.calls.length).nStuffLength) }
      f.pbufY = some i := hfind
  rw [hf2]
  simp only
  have hp2 : ∀ t : CDVDVideoCodecIMX, t.m_outputBuffers = s.m_outputBuffers →
      poolEntry t i = some b := by
    intro t h1
    unfold poolEntry at hpool ⊢
    rw [h1]
    exact hpool
  by_cases hbytes : s.m_bytesToBeConsumed -
      ((o.frameLengthInfo s.world.calls.length).nFrameLength +
        (o.frameLengthInfo s.world.calls.length).nStuffLength) < 50
  · simp only [logCall, hbytes, if_true]
    rw [hp2]
    · simp only
      constructor
      · intro hne
        simp only [hne, ne_eq, not_false_eq_true, if_true, setHeap]
        exact ⟨hset _, trivial⟩
      · intro he
        simp only [he, ne_eq, not_true_eq_false, if_false, setHeap]
        exact ⟨hset _, trivial⟩
    · rfl
  · simp only [logCall, hbytes, if_false]
    rw [hp2]
    · simp only
      constructor
      · intro hne
        simp only [hne, ne_eq, not_false_eq_true, if_true, setHeap]
        exact ⟨hset _, trivial⟩
      · intro he
        simp only [he, ne_eq, not_true_eq_false, if_false, setHeap]
        exact ⟨hset _, trivial⟩
    · rfl

/-- C13, witness: a session with the pending timestamp 40000; the consumed frame is the
one of pool slot 0, and the current call has the timestamp 80000. -/
theorem C13_consumed_frame_timestamp_witness :
    (read (handleConsumed consumedVpu pendingSession consumedFlags 80000).world.heap 0).m_pts
      = 40000 ∧
    (handleConsumed consumedVpu pendingSession consumedFlags 80000).m_previousPts
      = DVD_NOPTS_VALUE :=
  (C13_consumed_frame_timestamp consumedVpu pendingSession consumedFlags 80000
    { (default : VpuFrameBuffer) with pbufY := 276828160 } 0 0
    (by decide) (by decide) (by decide) (by decide) (by decide)).1 (by decide)

/-! ## Reset -/

theorem staysCleared_refl (b : CDVDVideoCodecIMXBuffer) : staysCleared b b := ⟨id, id⟩

theorem staysCleared_trans (a b c : CDVDVideoCodecIMXBuffer) (h1 : staysCleared a b)
    (h2 : staysCleared b c) : staysCleared a c :=
  ⟨fun h => h2.1 (h1.1 h), fun h => h2.2 (h1.2 h)⟩

theorem SAFE_RELEASE_staysCleared (h : Heap) (p : Option Nat) (y : Nat) :
    staysCleared (read h y) (read (SAFE_RELEASE h p) y) :=
  SAFE_RELEASE_rel staysCleared staysCleared_refl staysCleared_trans
    (fun _ _ => ⟨id, id⟩) (fun _ _ => ⟨id, id⟩) (fun _ => ⟨id, fun _ => rfl⟩)
    (fun _ _ => ⟨id, id⟩) h p y

theorem SAFE_RELEASE_previous_staysCleared (h : Heap) (self y : Nat) :
    staysCleared (read h y) (read (SAFE_RELEASE_previous h self) y) := by
  unfold SAFE_RELEASE_previous
  cases hp : (read h self).m_previousBuffer with
  | none => exact staysCleared_refl _
  | some p =>
    simp only
    refine staysCleared_trans _ _ _ (SAFE_RELEASE_staysCleared h (some p) y) ?_
    exact rel_write staysCleared staysCleared_refl _ _ _ _ ⟨id, fun _ => rfl⟩

theorem ReleaseFramebuffer_staysCleared (hwRet : VpuDecRetCode) (w : World) (self handle y : Nat) :
    staysCleared (read w.heap y) (read (ReleaseFramebuffer hwRet w self handle).1.heap y) := by
  rw [ReleaseFramebuffer_heap]
  refine staysCleared_trans _ _ _ ?_ (SAFE_RELEASE_previous_staysCleared _ self y)
  exact rel_write staysCleared staysCleared_refl _ _ _ _ ⟨fun _ => rfl, id⟩

/-- The loop of `Reset` changes nothing of the session but the world around it. -/
theorem resetLoop_fields (o : Vpu) (k i : Nat) (s : CDVDVideoCodecIMX) :
    resetLoop o k i s = { s with world := (resetLoop o k i s).world,
                                 fault := (resetLoop o k i s).fault } := by
  induction k generalizing i s with
  | zero => rfl
  | succ k ih =>
    unfold resetLoop
    cases poolEntry s i with
    | none =>
      simp only
      rw [ih]
    | some b =>
      simp only
      rw [ih]
      rfl

theorem resetLoop_staysCleared (o : Vpu) (k i : Nat) (s : CDVDVideoCodecIMX) (y : Nat) :
    staysCleared (read s.world.heap y) (read (resetLoop o k i s).world.heap y) := by
  induction k generalizing i s with
  | zero => exact staysCleared_refl _
  | succ k ih =>
    unfold resetLoop
    cases poolEntry s i with
    | none => exact ih (i + 1) { s with fault := true }
    | some b =>
      simp only
      refine staysCleared_trans _ _ _ ?_ (ih _ _)
      exact ReleaseFramebuffer_staysCleared (o.ret s.world.calls.length) s.world b s.m_vpuHandle y

/-- After the loop of `Reset` over the pool slots `i, ..., i + k - 1`, the decode buffer of
each of these slots refers to no frame and has no chained previous buffer. -/
theorem resetLoop_cleared (o : Vpu) (k : Nat) :
    ∀ (i : Nat) (s : CDVDVideoCodecIMX) (j b : Nat), i ≤ j → j < i + k →
      poolEntry s j = some b →
      (read (resetLoop o k i s).world.heap b).m_frameBuffer = none ∧
      (read (resetLoop o k i s).world.heap b).m_previousBuffer = none := by
  induction k with
  | zero => intro i s j b h1 h2; omega
  | succ k ih =>
    intro i s j b h1 h2 hp
    unfold resetLoop
    cases hpi : poolEntry s i with
    | none =>
      simp only
      have hne : i ≠ j := by
        rintro rfl
        rw [hpi] at hp
        cases hp
      exact ih (i + 1) { s with fault := true } j b (by omega) (by omega) hp
    | some bi =>
      simp only
      by_cases hij : i = j
      · subst hij
        rw [hpi] at hp
        cases hp
        have hpost := ReleaseFramebuffer_post (o.ret s.world.calls.length) s.world b s.m_vpuHandle
        have hkeep := resetLoop_staysCleared o k (i + 1) (releaseFramebufferOf o s b).1 b
        exact ⟨hkeep.1 hpost.2.1, hkeep.2 hpost.2.2.2.1⟩
      · exact ih (i + 1) _ j b (by omega) (by omega) hp

/-- What `Reset` leaves behind: the last and the current buffer are dropped, every pool
buffer refers to no frame and has no chained previous buffer, no byte is outstanding
and no timestamp is pending; the pool itself and the handle are as they were. -/
theorem Reset_spec (o : Vpu) (s : CDVDVideoCodecIMX) :
    (Reset o s).m_lastBuffer = none ∧ (Reset o s).m_currentBuffer = none ∧
    (∀ i b, i < s.m_vpuFrameBufferNum → poolEntry s i = some b →
      (read (Reset o s).world.heap b).m_frameBuffer = none ∧
      (read (Reset o s).world.heap b).m_previousBuffer = none) ∧
    (Reset o s).m_bytesToBeConsumed = 0 ∧ (Reset o s).m_previousPts = DVD_NOPTS_VALUE ∧
    (Reset o s).m_outputBuffers = s.m_outputBuffers ∧
    (Reset o s).m_vpuFrameBufferNum = s.m_vpuFrameBufferNum ∧
    (Reset o s).m_vpuHandle = s.m_vpuHandle := by
  have hf := resetLoop_fields o (releaseCurrentBuffer (releaseLastBuffer s)).m_vpuFrameBufferNum 0
    (releaseCurrentBuffer (releaseLastBuffer s))
  have hc := resetLoop_cleared o (releaseCurrentBuffer (releaseLastBuffer s)).m_vpuFrameBufferNum 0
    (releaseCurrentBuffer (releaseLastBuffer s))
  unfold Reset
  simp only
  rw [hf]
  refine ⟨rfl, rfl, ?_, rfl, rfl, rfl, rfl, rfl⟩
  intro i b hi hp
  exact hc i b (Nat.zero_le _) (by simpa using hi) hp

theorem handleOutput_flush (o : Vpu) (s : CDVDVideoCodecIMX) (decRet : VpuDecBufRetCode)
    (retStatus : Nat) (dts pts : Int) (hflush : decRet.VPU_DEC_FLUSH = true)
    (hdis : decRet.VPU_DEC_OUTPUT_DIS = false) (hmos : decRet.VPU_DEC_OUTPUT_MOSAIC_DIS = false)
    (hrep : decRet.VPU_DEC_OUTPUT_REPEAT = false) (hbuf : decRet.VPU_DEC_NO_ENOUGH_BUF = false)
    (hskip : decRet.VPU_DEC_SKIP = false) :
    handleOutput o s decRet retStatus dts pts = (Reset o s, VC_FLUSHED, true) := by
  unfold handleOutput
  simp only [hflush, hdis, hmos, hrep, hbuf, hskip, if_true, if_false, Bool.false_eq_true]

theorem decodePass_flush (o : Vpu) (i420 : Bool) (dts pts : Int) (s : CDVDVideoCodecIMX)
    (nSize : Int) (retStatus : Nat)
    (hok : (decodeCall o s nSize).2.2 = true)
    (hinit : (handleInit o i420 (decodeCall o s nSize).1 (o.decRet s.world.calls.length)).2 = true)
    (hflush : (o.decRet s.world.calls.length).VPU_DEC_FLUSH = true)
    (hdis : (o.decRet s.world.calls.length).VPU_DEC_OUTPUT_DIS = false)
    (hmos : (o.decRet s.world.calls.length).VPU_DEC_OUTPUT_MOSAIC_DIS = false)
    (hrep : (o.decRet s.world.calls.length).VPU_DEC_OUTPUT_REPEAT = false)
    (hbuf : (o.decRet s.world.calls.length).VPU_DEC_NO_ENOUGH_BUF = false)
    (hskip : (o.decRet s.world.calls.length).VPU_DEC_SKIP = false) :
    decodePass o i420 dts pts s nSize retStatus
      = (Reset o (handleConsumed o
          (handleInit o i420 (decodeCall o s nSize).1 (o.decRet s.world.calls.length)).1
          (o.decRet s.world.calls.length) pts), VC_FLUSHED, true) := by
  unfold decodePass
  simp only [decodeCall_decRet, hok, hinit, Bool.true_eq_false, if_false]
  exact handleOutput_flush o _ _ retStatus dts pts hflush hdis hmos hrep hbuf hskip

/-- C14: whenever a decoder response inside `Decode` carries the flush-required flag and
none of the flags that the event chain tests before it (frame displayable, mosaic,
repeat, no frame buffer available, skip), in a pass that has not jumped to `out_error`
before the chain, the session is reset: the last and the current buffer are dropped,
every pool buffer has no chained previous buffer and no hardware slot, no byte is
outstanding and no timestamp is pending, and the status collected is the flushed
status. When the loop ends with this pass (the response asks for more input, or it is
the fifth pass), `Decode` returns the flushed status and leaves the session in the
state after the reset. -/
theorem C14_flush_resets_session (o : Vpu) (i420 : Bool) (dts pts : Int)
    (s : CDVDVideoCodecIMX) (nSize : Int) (retStatus : Nat)
    (hok : (decodeCall o s nSize).2.2 = true)
    (hinit : (handleInit o i420 (decodeCall o s nSize).1 (o.decRet s.world.calls.length)).2 = true)
    (hflush : (o.decRet s.world.calls.length).VPU_DEC_FLUSH = true)
    (hdis : (o.decRet s.world.calls.length).VPU_DEC_OUTPUT_DIS = false)
    (hmos : (o.decRet s.world.calls.length).VPU_DEC_OUTPUT_MOSAIC_DIS = false)
    (hrep : (o.decRet s.world.calls.length).VPU_DEC_OUTPUT_REPEAT = false)
    (hbuf : (o.decRet s.world.calls.length).VPU_DEC_NO_ENOUGH_BUF = false)
    (hskip : (o.decRet s.world.calls.length).VPU_DEC_SKIP = false) :
    (decodePass o i420 dts pts s nSize retStatus).2.2 = true ∧
    (decodePass o i420 dts pts s nSize retStatus).2.1 = VC_FLUSHED ∧
    (decodePass o i420 dts pts s nSize retStatus).1.m_lastBuffer = none ∧
    (decodePass o i420 dts pts s nSize retStatus).1.m_currentBuffer = none ∧
    (∀ i b, i < (decodePass o i420 dts pts s nSize retStatus).1.m_vpuFrameBufferNum →
      poolEntry (decodePass o i420 dts pts s nSize retStatus).1 i = some b →
      (read (decodePass o i420 dts pts s nSize retStatus).1.world.heap b).m_previousBuffer = none ∧
      (read (decodePass o i420 dts pts s nSize retStatus).1.world.heap b).m_frameBuffer = none) ∧
    (decodePass o i420 dts pts s nSize retStatus).1.m_bytesToBeConsumed = 0 ∧
    (decodePass o i420 dts pts s nSize retStatus).1.m_previousPts = DVD_NOPTS_VALUE ∧
    (∀ fuel retries, (o.decRet s.world.calls.length).VPU_DEC_NO_ENOUGH_INBUF = true
        ∨ retries + 1 ≥ m_maxVpuDecodeLoops →
      (decodeLoop o i420 dts pts (fuel + 1) s nSize retries retStatus).map (finishDecode pts)
        = some ((decodePass o i420 dts pts s nSize retStatus).1, VC_FLUSHED)) := by
  have hp := decodePass_flush o i420 dts pts s nSize retStatus hok hinit hflush hdis hmos hrep
    hbuf hskip
  obtain ⟨h1, h2, h3, h4, h5, h6, h7, _⟩ := Reset_spec o (handleConsumed o
    (handleInit o i420 (decodeCall o s nSize).1 (o.decRet s.world.calls.length)).1
    (o.decRet s.world.calls.length) pts)
  rw [hp]
  refine ⟨rfl, rfl, h1, h2, ?_, h4, h5, ?_⟩
  · intro i b hi hb
    simp only at hi hb
    rw [h7] at hi
    have hb2 : poolEntry (handleConsumed o
        (handleInit o i420 (decodeCall o s nSize).1 (o.decRet s.world.calls.length)).1
        (o.decRet s.world.calls.length) pts) i = some b := by
      unfold poolEntry at hb ⊢
      rw [← h6]
      exact hb
    exact ⟨(h3 i b hi hb2).2, (h3 i b hi hb2).1⟩
  · intro fuel retries hend
    rw [decodeLoop_succ, hp]
    have hcond : (Reset o (handleConsumed o
          (handleInit o i420 (decodeCall o s nSize).1 (o.decRet s.world.calls.length)).1
          (o.decRet s.world.calls.length) pts), VC_FLUSHED, true).2.2 = false
        ∨ loopDone (o.decRet s.world.calls.length) = true
        ∨ retries + 1 ≥ m_maxVpuDecodeLoops := by
      right
      rcases hend with h | h
      · left; simp [loopDone, h]
      · right; exact h
    rw [if_pos hcond]
    simp only [Option.map_some', finishDecode, Bool.true_eq_false, if_false, h4]
    rfl

/-- C14, witness: in the example session, a response that asks for a flush and for more
input. -/
theorem C14_flush_resets_session_witness :
    (decodePass (exampleVpu flushFlags) false 0 0 deliveredSession 100 0).2.1 = VC_FLUSHED ∧
    (decodePass (exampleVpu flushFlags) false 0 0 deliveredSession 100 0).1.m_lastBuffer = none :=
  (fun t => ⟨t.2.1, t.2.2.1⟩)
    (C14_flush_resets_session (exampleVpu flushFlags) false 0 0 deliveredSession 100 0
      (by decide) (by decide) (by decide) (by decide) (by decide) (by decide) (by decide)
      (by decide))

/-- C14, counterexample: a response that carries the flush-required flag together with
the skip flag. The event chain takes the skip branch: `Decode` returns the buffer status,
not the flushed status, the last buffer is still held and its decode buffer still has
its hardware slot. -/
theorem C14_counterexample :
    flushAndSkipFlags.VPU_DEC_FLUSH = true ∧
    deliveredSession.m_lastBuffer = some 0 ∧
    (Decode (exampleVpu flushAndSkipFlags) false deliveredSession true 100 none 0 0).2
      = VC_BUFFER ∧
    (Decode (exampleVpu flushAndSkipFlags) false deliveredSession true 100 none 0 0).2
      ≠ VC_FLUSHED ∧
    (Decode (exampleVpu flushAndSkipFlags) false deliveredSession true 100 none 0 0).1.m_lastBuffer
      = some 0 ∧
    (read (Decode (exampleVpu flushAndSkipFlags) false deliveredSession true 100 none 0
      0).1.world.heap 0).m_frameBuffer ≠ none := by
  decide

/-! ## The recycle scan -/

theorem settled_read (h : Heap) (hinv : renderedSettled h) (y : Nat) :
    settledBuffer (read h y) := by
  by_cases hy : y < h.length
  · unfold read
    rw [List.getD_eq_getElem _ _ hy]
    exact hinv _ (List.getElem_mem _)
  · rw [read_of_le _ _ (by omega)]
    intro hr
    cases hr

/-- The method `Release` leaves every buffer settled that was settled: when it marks a
buffer rendered, the buffer refers to a frame, and `Release` clears its chain. -/
theorem ReleaseAux_settled (n : Nat) (h : Heap) (self : Nat) (r : Heap × Int)
    (hr : ReleaseAux n h self = some r) :
    ∀ y, settledBuffer (read h y) → settledBuffer (read r.1 y) := by
  have hclear : ∀ b : CDVDVideoCodecIMXBuffer, settledBuffer b →
      settledBuffer { b with m_previousBuffer := none } :=
    fun b hb hrend => ⟨rfl, (hb hrend).2⟩
  have hR : ∀ b : CDVDVideoCodecIMXBuffer, settledBuffer b → settledBuffer b := fun _ => id
  have hrefs : ∀ (b : CDVDVideoCodecIMXBuffer) (c : Int), settledBuffer b →
      settledBuffer { b with m_iRefs := c } := fun _ _ hb => hb
  have hrend : ∀ b : CDVDVideoCodecIMXBuffer, b.m_previousBuffer = none →
      b.m_frameBuffer ≠ none → settledBuffer b → settledBuffer { b with m_rendered := true } :=
    fun _ hp hf _ _ => ⟨hp, hf⟩
  have hdest : ∀ (b : CDVDVideoCodecIMXBuffer) (d : Nat), settledBuffer b →
      settledBuffer { b with destroyed := d } := fun _ _ hb => hb
  induction n generalizing h self r with
  | zero => simp [ReleaseAux] at hr
  | succ n ih =>
    intro y hy
    unfold ReleaseAux at hr
    simp only at hr
    have h1 : settledBuffer
        (read (write h self { read h self with m_iRefs := (read h self).m_iRefs - 1 }) y) :=
      rel_write (fun a b => settledBuffer a → settledBuffer b) hR _ _ _ _ (hrefs _ _) hy
    split_ifs at hr with h2 h1c hf h0
    · rw [Option.map_eq_some'] at hr
      obtain ⟨x, hx, hxr⟩ := hr
      subst hxr
      unfold safeReleasePrevious at hx
      cases hp : (read (write h self { read h self with m_iRefs := (read h self).m_iRefs - 1 })
          self).m_previousBuffer with
      | none => rw [hp] at hx; cases hx; exact h1
      | some p =>
        rw [hp] at hx
        simp only at hx
        cases hq : ReleaseAux n (write h self
            { read h self with m_iRefs := (read h self).m_iRefs - 1 }) p with
        | none => rw [hq] at hx; cases hx
        | some r2 =>
          rw [hq] at hx
          cases hx
          exact rel_write (fun a b => settledBuffer a → settledBuffer b) hR _ _ _ _ (hclear _)
            (ih _ p r2 hq y h1)
    · rw [Option.map_eq_some'] at hr
      obtain ⟨x, hx, hxr⟩ := hr
      subst hxr
      unfold safeReleasePrevious at hx
      cases hp : (read (write (write h self
          { read h self with m_iRefs := (read h self).m_iRefs - 1 }) self
          { read (write h self { read h self with m_iRefs := (read h self).m_iRefs - 1 }) self
            with m_rendered := true }) self).m_previousBuffer with
      | none =>
        rw [hp] at hx
        cases hx
        rw [prev_write_rendered] at hp
        exact rel_write (fun a b => settledBuffer a → settledBuffer b) hR _ _ _ _
          (hrend _ hp hf) h1
      | some p =>
        rw [hp] at hx
        simp only at hx
        cases hq : ReleaseAux n (write (write h self
            { read h self with m_iRefs := (read h self).m_iRefs - 1 }) self
            { read (write h self { read h self with m_iRefs := (read h self).m_iRefs - 1 }) self
              with m_rendered := true }) p with
        | none => rw [hq] at hx; cases hx
        | some r2 =>
          rw [hq] at hx
          cases hx
          simp only
          by_cases hys : self = y
          · subst hys
            by_cases hlen : self < r2.1.length
            · rw [read_write_same _ _ _ hlen]
              intro _
              refine ⟨rfl, ?_⟩
              have hst := ReleaseAux_stable n _ p r2 hq self
              rw [stable_write_rendered _ _ _ _ hf] at hst
              simp only [stableView, Prod.mk.injEq] at hst
              show (read r2.1 self).m_frameBuffer ≠ none
              rw [hst.1]
              exact hf
            · rw [write_of_le _ _ _ (by omega), read_of_le _ _ (by omega)]
              intro hrend
              cases hrend
          · rw [read_write_ne _ _ _ _ hys]
            apply ih _ p r2 hq y
            rw [read_write_ne _ _ _ _ hys]
            exact h1
    · cases hr; exact h1
    · cases hr
      exact rel_write (fun a b => settledBuffer a → settledBuffer b) hR _ _ _ _ (hdest _ _) h1
    · cases hr; exact h1

theorem SAFE_RELEASE_settled (h : Heap) (p : Option Nat) (y : Nat)
    (hy : settledBuffer (read h y)) : settledBuffer (read (SAFE_RELEASE h p) y) := by
  cases p with
  | none => exact hy
  | some q => exact ReleaseAux_settled _ h q _ (ReleaseAux_releaseFuel h q) y hy

/-- The method `SAFE_RELEASE` never takes the rendered mark from a buffer and never
changes the frame a buffer refers to. -/
theorem SAFE_RELEASE_rendered (h : Heap) (p : Option Nat) (y : Nat) :
    ((read h y).m_rendered = true → (read (SAFE_RELEASE h p) y).m_rendered = true) ∧
    (read (SAFE_RELEASE h p) y).m_frameBuffer = (read h y).m_frameBuffer :=
  SAFE_RELEASE_rel (fun a b => (a.m_rendered = true → b.m_rendered = true) ∧
      b.m_frameBuffer = a.m_frameBuffer)
    (fun _ => ⟨id, rfl⟩) (fun _ _ _ h1 h2 => ⟨fun x => h2.1 (h1.1 x), h2.2.trans h1.2⟩)
    (fun _ _ => ⟨id, rfl⟩) (fun _ _ => ⟨fun _ => rfl, rfl⟩) (fun _ => ⟨id, rfl⟩)
    (fun _ _ => ⟨id, rfl⟩) h p y

theorem ReleaseFramebuffer_calls_frame (hwRet : VpuDecRetCode) (w : World) (self handle : Nat)
    (f : VpuFrameBuffer) (hf : (read w.heap self).m_frameBuffer = some f) (hh : handle ≠ 0) :
    (ReleaseFramebuffer hwRet w self handle).1.calls
      = w.calls ++ [VpuCall.DecOutFrameDisplayed handle f] := by
  unfold ReleaseFramebuffer
  simp only [hf, hh, ne_eq, not_false_eq_true, if_true]

/-- The recycle scan over the pool slots `i, ..., i + k - 1` of an open session in which
every buffer is settled. Every buffer is afterwards as it was, or it is not marked
rendered and refers to no frame; no buffer of a scanned slot is marked rendered; and the
log has grown by calls none of which is a hardware decode call, among them the return
of the hardware slot of every scanned buffer that was marked rendered. -/
theorem recycleLoop_scan (o : Vpu) (k : Nat) :
    ∀ (i : Nat) (s : CDVDVideoCodecIMX), (∀ y, settledBuffer (read s.world.heap y)) →
      s.m_vpuHandle ≠ 0 →
      (∀ y, read (recycleLoop o k i s).world.heap y = read s.world.heap y ∨
        ((read (recycleLoop o k i s).world.heap y).m_rendered = false ∧
         (read (recycleLoop o k i s).world.heap y).m_frameBuffer = none)) ∧
      (∀ j y, i ≤ j → j < i + k → poolEntry s j = some y →
        (read (recycleLoop o k i s).world.heap y).m_rendered = false) ∧
      (∃ l, (recycleLoop o k i s).world.calls = s.world.calls ++ l ∧
        (∀ c ∈ l, isDecodeBuf c = false) ∧
        ∀ j y f, i ≤ j → j < i + k → poolEntry s j = some y →
          (read s.world.heap y).m_rendered = true → (read s.world.heap y).m_frameBuffer = some f →
          VpuCall.DecOutFrameDisplayed s.m_vpuHandle f ∈ l) := by
  induction k with
  | zero =>
    intro i s _ _
    refine ⟨fun y => Or.inl rfl, fun j y h1 h2 => by omega, [], by simp [recycleLoop], by simp,
      fun j y f h1 h2 => by omega⟩
  | succ k ih =>
    intro i s hinv hopen
    unfold recycleLoop
    cases hpi : poolEntry s i with
    | none =>
      simp only
      obtain ⟨a1, a2, l, a3, a4, a5⟩ := ih (i + 1) { s with fault := true } hinv hopen
      have hne : ∀ j y, poolEntry s j = some y → i ≠ j := by
        rintro j y hp rfl
        rw [hpi] at hp
        cases hp
      refine ⟨a1, ?_, l, a3, a4, ?_⟩
      · intro j y h1 h2 hp
        have := hne j y hp
        exact a2 j y (by omega) (by omega) hp
      · intro j y f h1 h2 hp hr hf
        have := hne j y hp
        exact a5 j y f (by omega) (by omega) hp hr hf
    | some bi =>
      simp only
      by_cases hrend : Rendered s.world.heap bi = true
      · rw [if_pos hrend]
        have hrend2 : (read s.world.heap bi).m_rendered = true := hrend
        obtain ⟨hprev, hframe⟩ := hinv bi hrend2
        obtain ⟨fi, hfi⟩ := Option.ne_none_iff_exists'.mp hframe
        have hother : ∀ y, bi ≠ y →
            read (releaseFramebufferOf o s bi).1.world.heap y = read s.world.heap y :=
          fun y hy => ReleaseFramebuffer_noPrevious_frame (o.ret s.world.calls.length)
            s.world bi s.m_vpuHandle y hprev hy
        have hpost := ReleaseFramebuffer_post (o.ret s.world.calls.length) s.world bi s.m_vpuHandle
        have hself : (read (releaseFramebufferOf o s bi).1.world.heap bi).m_rendered = false ∧
            (read (releaseFramebufferOf o s bi).1.world.heap bi).m_frameBuffer = none :=
          ⟨hpost.1, hpost.2.1⟩
        have hcalls : (releaseFramebufferOf o s bi).1.world.calls
            = s.world.calls ++ [VpuCall.DecOutFrameDisplayed s.m_vpuHandle fi] :=
          ReleaseFramebuffer_calls_frame (o.ret s.world.calls.length) s.world bi s.m_vpuHandle
            fi hfi hopen
        have hinv2 : ∀ y, settledBuffer (read (releaseFramebufferOf o s bi).1.world.heap y) := by
          intro y
          by_cases hy : bi = y
          · subst hy
            intro hr
            rw [hself.1] at hr
            cases hr
          · rw [hother y hy]
            exact hinv y
        obtain ⟨a1, a2, l, a3, a4, a5⟩ := ih (i + 1) (releaseFramebufferOf o s bi).1 hinv2 hopen
        refine ⟨?_, ?_, VpuCall.DecOutFrameDisplayed s.m_vpuHandle fi :: l, ?_, ?_, ?_⟩
        · intro y
          rcases a1 y with h | h
          · by_cases hy : bi = y
            · subst hy
              right
              rw [h]
              exact hself
            · left
              rw [h, hother y hy]
          · exact Or.inr h
        · intro j y h1 h2 hp
          by_cases hij : i = j
          · subst hij
            rw [hpi] at hp
            cases hp
            rcases a1 bi with h | h
            · rw [h]; exact hself.1
            · exact h.1
          · exact a2 j y (by omega) (by omega) hp
        · rw [a3, hcalls]
          simp
        · intro c hc
          rcases List.mem_cons.mp hc with rfl | hc
          · rfl
          · exact a4 c hc
        · intro j y f h1 h2 hp hr hf
          by_cases hy : bi = y
          · subst hy
            rw [hfi] at hf
            cases hf
            exact List.mem_cons_self _ _
          · have hij : i ≠ j := by
              rintro rfl
              rw [hpi] at hp
              cases hp
              exact hy rfl
            refine List.mem_cons_of_mem _ (a5 j y f (by omega) (by omega) hp ?_ ?_)
            · rw [hother y hy]; exact hr
            · rw [hother y hy]; exact hf
      · rw [if_neg hrend]
        obtain ⟨a1, a2, l, a3, a4, a5⟩ := ih (i + 1) s hinv hopen
        have hnr : (read s.world.heap bi).m_rendered = false := by
          cases hb : (read s.world.heap bi).m_rendered with
          | false => rfl
          | true => exact absurd hb hrend
        refine ⟨a1, ?_, l, a3, a4, ?_⟩
        · intro j y h1 h2 hp
          by_cases hij : i = j
          · subst hij
            rw [hpi] at hp
            cases hp
            rcases a1 bi with h | h
            · rw [h]; exact hnr
            · exact h.1
          · exact a2 j y (by omega) (by omega) hp
        · intro j y f h1 h2 hp hr hf
          by_cases hij : i = j
          · subst hij
            rw [hpi] at hp
            cases hp
            rw [hnr] at hr
            cases hr
          · exact a5 j y f (by omega) (by omega) hp hr hf

theorem prefix_decodeLoop (o : Vpu) (i420 : Bool) (dts pts : Int) (fuel : Nat)
    (s : CDVDVideoCodecIMX) (nSize : Int) (retries retStatus : Nat)
    (r : CDVDVideoCodecIMX × Nat × Bool)
    (h : decodeLoop o i420 dts pts fuel s nSize retries retStatus = some r) :
    s.world.calls <+: r.1.world.calls := by
  refine decodeLoop_rule o i420 dts pts (fun s _ r => s.world.calls <+: r.1.world.calls) ?_ ?_
    fuel s nSize retries retStatus r h
  · intro s nSize retStatus
    exact prefix_decodePass o i420 dts pts s nSize retStatus
  · intro s nSize retStatus r _ _ hr
    exact (prefix_decodePass o i420 dts pts s nSize retStatus).trans hr

theorem finishDecode_world (pts : Int) (x : CDVDVideoCodecIMX × Nat × Bool) :
    (finishDecode pts x).1.world = x.1.world := by
  unfold finishDecode
  simp only
  split_ifs <;> rfl

theorem beginDecode_open (o : Vpu) (s : CDVDVideoCodecIMX) (hopen : s.m_vpuHandle ≠ 0) :
    beginDecode o s = releaseCurrentBuffer s := by
  unfold beginDecode
  simp only
  rw [if_neg]
  exact hopen

/-- After the recycle scan the log of `Decode` only grows: the calls of the scan come
before every later call of the same `Decode`. -/
theorem afterScan_prefix (o : Vpu) (i420 : Bool) (s : CDVDVideoCodecIMX) (pData : Bool)
    (iSize : Int) (converted : Option Int) (dts pts : Int) (hopen : s.m_vpuHandle ≠ 0) :
    (afterScan o s).world.calls
      <+: (Decode o i420 s pData iSize converted dts pts).1.world.calls := by
  rcases Decode_run o i420 s pData iSize converted dts pts with ⟨h0, _⟩ | ⟨_, r, hr, hD⟩
  · rw [beginDecode_open o s hopen] at h0
    exact absurd h0 hopen
  · rw [hD, finishDecode_world]
    rcases hr with rfl | ⟨nSize, hr⟩
    · exact List.prefix_refl _
    · exact prefix_decodeLoop o i420 dts pts _ _ _ _ _ r hr

/-- C15: for every pool buffer that is marked rendered when `Decode` is called on an open
session (in which the buffers are settled, as `Release` leaves them), the recycle scan
of `Decode` calls `ReleaseFramebuffer` on that buffer: the buffer refers to no frame
afterwards, and the return of its hardware slot is logged in the calls of the scan, none
of which is a hardware decode call and all of which come before the later calls of the
same `Decode`. After the scan no pool buffer is marked rendered. -/
theorem C15_rendered_slots_returned_before_decode (o : Vpu) (i420 : Bool)
    (s : CDVDVideoCodecIMX) (pData : Bool) (iSize : Int) (converted : Option Int)
    (dts pts : Int) (hopen : s.m_vpuHandle ≠ 0) (hinv : renderedSettled s.world.heap) :
    (∃ l, (afterScan o s).world.calls = s.world.calls ++ l ∧
      (∀ c ∈ l, isDecodeBuf c = false) ∧
      ∀ i b f, i < s.m_vpuFrameBufferNum → poolEntry s i = some b →
        Rendered s.world.heap b = true → (read s.world.heap b).m_frameBuffer = some f →
        VpuCall.DecOutFrameDisplayed s.m_vpuHandle f ∈ l) ∧
    (∀ i b, i < s.m_vpuFrameBufferNum → poolEntry s i = some b →
      Rendered s.world.heap b = true → IsValid (afterScan o s).world.heap b = false) ∧
    (∀ i b, i < s.m_vpuFrameBufferNum → poolEntry s i = some b →
      Rendered (afterScan o s).world.heap b = false) ∧
    (afterScan o s).world.calls
      <+: (Decode o i420 s pData iSize converted dts pts).1.world.calls := by
  have hinv1 : ∀ y, settledBuffer (read (releaseCurrentBuffer s).world.heap y) :=
    fun y => SAFE_RELEASE_settled s.world.heap s.m_currentBuffer y (settled_read _ hinv y)
  have hkeep : ∀ y, ((read s.world.heap y).m_rendered = true →
        (read (releaseCurrentBuffer s).world.heap y).m_rendered = true) ∧
      (read (releaseCurrentBuffer s).world.heap y).m_frameBuffer
        = (read s.world.heap y).m_frameBuffer :=
    fun y => SAFE_RELEASE_rendered s.world.heap s.m_currentBuffer y
  obtain ⟨a1, a2, l, a3, a4, a5⟩ := recycleLoop_scan o (releaseCurrentBuffer s).m_vpuFrameBufferNum
    0 (releaseCurrentBuffer s) hinv1 hopen
  have hpool : ∀ i, poolEntry (releaseCurrentBuffer s) i = poolEntry s i := fun _ => rfl
  unfold afterScan
  rw [beginDecode_open o s hopen]
  refine ⟨⟨l, a3, a4, ?_⟩, ?_, ?_, ?_⟩
  · intro i b f hi hp hr hf
    refine a5 i b f (Nat.zero_le _) (by simpa using hi) hp ((hkeep b).1 hr) ?_
    rw [(hkeep b).2]
    exact hf
  · intro i b hi hp hr
    have hnot := a2 i b (Nat.zero_le _) (by simpa using hi) hp
    rcases a1 b with h | h
    · rw [h, (hkeep b).1 hr] at hnot
      cases hnot
    · simp only [IsValid, h.2, ne_eq, not_true_eq_false, decide_False]
  · intro i b hi hp
    exact a2 i b (Nat.zero_le _) (by simpa using hi) hp
  · have := afterScan_prefix o i420 s pData iSize converted dts pts hopen
    unfold afterScan at this
    rw [beginDecode_open o s hopen] at this
    exact this

/-- C15, witness: the example session with a pool of one buffer that is marked
rendered; the scan hands its hardware slot back. -/
theorem C15_rendered_slots_returned_before_decode_witness :
    IsValid (afterScan (exampleVpu noFlags) renderedSession).world.heap 0 = false ∧
    Rendered (afterScan (exampleVpu noFlags) renderedSession).world.heap 0 = false :=
  (fun t => ⟨t.2.1 0 0 (by decide) (by decide) (by decide), t.2.2.1 0 0 (by decide) (by decide)⟩)
    (C15_rendered_slots_returned_before_decode (exampleVpu noFlags) false renderedSession true
      100 none 0 0 (by decide) (by decide))

/-! ## The error exits of the decode loop -/

theorem decodeCall_ok (o : Vpu) (s : CDVDVideoCodecIMX) (nSize : Int) :
    (decodeCall o s nSize).2.2 = false ↔
      (o.ret s.world.calls.length ≠ VPU_DEC_RET_SUCCESS ∧
        ¬ (o.ret s.world.calls.length = VPU_DEC_RET_WRONG_CALL_SEQUENCE ∧
          (o.decRet s.world.calls.length).VPU_DEC_RESOLUTION_CHANGED = true)) := by
  have e : (if s.m_frameReported = true then
      { s with m_bytesToBeConsumed := s.m_bytesToBeConsumed + nSize } else s).world = s.world := by
    split_ifs <;> rfl
  unfold decodeCall
  simp only [e]
  by_cases h1 : o.ret s.world.calls.length = VPU_DEC_RET_WRONG_CALL_SEQUENCE ∧
      (o.decRet s.world.calls.length).VPU_DEC_RESOLUTION_CHANGED = true
  · rw [if_pos h1]
    simp only [Bool.true_eq_false, false_iff]
    exact fun hc => hc.2 h1
  · rw [if_neg h1]
    by_cases h2 : o.ret s.world.calls.length = VPU_DEC_RET_SUCCESS
    · rw [if_neg (not_not.mpr h2)]
      simp only [Bool.true_eq_false, false_iff]
      exact fun hc => hc.1 h2
    · rw [if_pos h2]
      simp only [true_iff]
      exact ⟨h2, h1⟩

theorem handleInit_fail (o : Vpu) (i420 : Bool) (s : CDVDVideoCodecIMX)
    (decRet : VpuDecBufRetCode)
    (hflag : decRet.VPU_DEC_INIT_OK = true ∨ decRet.VPU_DEC_RESOLUTION_CHANGED = true)
    (hfail : o.ret s.world.calls.length ≠ VPU_DEC_RET_SUCCESS ∨
      (VpuAllocFrameBuffers o i420
        { logCall s (VpuCall.DecGetInitialInfo s.m_vpuHandle) with
          m_initInfo := o.initInfo s.world.calls.length }).2 = false ∨
      o.ret (VpuAllocFrameBuffers o i420
        { logCall s (VpuCall.DecGetInitialInfo s.m_vpuHandle) with
          m_initInfo := o.initInfo s.world.calls.length }).1.world.calls.length
        ≠ VPU_DEC_RET_SUCCESS) :
    (handleInit o i420 s decRet).2 = false := by
  unfold handleInit
  simp only [hflag, if_true]
  by_cases h1 : o.ret s.world.calls.length = VPU_DEC_RET_SUCCESS
  · rw [if_pos h1]
    by_cases h2 : (VpuAllocFrameBuffers o i420
        { logCall s (VpuCall.DecGetInitialInfo s.m_vpuHandle) with
          m_initInfo := o.initInfo s.world.calls.length }).2 = true
    · rw [if_pos h2]
      rcases hfail with h | h | h
      · exact absurd h1 h
      · rw [h2] at h; cases h
      · rw [if_pos h]
    · rw [if_neg h2]
  · rw [if_neg h1]

theorem handleOutput_fail (o : Vpu) (s : CDVDVideoCodecIMX) (decRet : VpuDecBufRetCode)
    (retStatus : Nat) (dts pts : Int) (hdis : decRet.VPU_DEC_OUTPUT_DIS = true)
    (hfail : o.ret s.world.calls.length ≠ VPU_DEC_RET_SUCCESS) :
    (handleOutput o s decRet retStatus dts pts).2.2 = false := by
  unfold handleOutput handleDisplay
  simp only [hdis, if_true, hfail, ne_eq, not_false_eq_true]

/-- Each of the failures makes the pass jump to `out_error`. -/
theorem decodePass_fail (o : Vpu) (i420 : Bool) (dts pts : Int) (s : CDVDVideoCodecIMX)
    (nSize : Int) (retStatus : Nat) (hfail : decodeFails o i420 pts s nSize) :
    (decodePass o i420 dts pts s nSize retStatus).2.2 = false := by
  unfold decodePass
  simp only [decodeCall_decRet]
  by_cases ha : (decodeCall o s nSize).2.2 = false
  · rw [if_pos ha]
  rw [if_neg ha]
  by_cases hb : (handleInit o i420 (decodeCall o s nSize).1
      (o.decRet s.world.calls.length)).2 = false
  · rw [if_pos hb]
  rw [if_neg hb]
  rcases hfail with h | ⟨hflag, h⟩ | ⟨hdis, h⟩
  · exact absurd ((decodeCall_ok o s nSize).mpr h) ha
  · exact absurd (handleInit_fail o i420 _ _ hflag h) hb
  · exact handleOutput_fail o _ _ retStatus dts pts hdis h

/-! ## The hardware handle during `Decode` -/

theorem recycleLoop_fields (o : Vpu) (k i : Nat) (s : CDVDVideoCodecIMX) :
    recycleLoop o k i s = { s with world := (recycleLoop o k i s).world,
                                   fault := (recycleLoop o k i s).fault } := by
  induction k generalizing i s with
  | zero => rfl
  | succ k ih =>
    unfold recycleLoop
    cases poolEntry s i with
    | none =>
      simp only
      rw [ih]
    | some b =>
      simp only
      split_ifs
      · rw [ih]; rfl
      · exact ih _ _

theorem handle_recycleLoop (o : Vpu) (k i : Nat) (s : CDVDVideoCodecIMX) :
    (recycleLoop o k i s).m_vpuHandle = s.m_vpuHandle := by
  rw [recycleLoop_fields]

theorem handle_allocFrameLoop (o : Vpu) (i420 : Bool) (l : FrameLayout) (k i : Nat)
    (s : CDVDVideoCodecIMX) :
    (allocFrameLoop o i420 l k i s).1.m_vpuHandle = s.m_vpuHandle := by
  induction k generalizing i s with
  | zero => rfl
  | succ k ih =>
    unfold allocFrameLoop
    split_ifs
    · rfl
    · rw [ih, (allocFrameStep_fields o i420 l i s).2.2.2.2.2]

theorem handle_VpuAllocFrameBuffers (o : Vpu) (i420 : Bool) (s : CDVDVideoCodecIMX) :
    (VpuAllocFrameBuffers o i420 s).1.m_vpuHandle = s.m_vpuHandle := by
  unfold VpuAllocFrameBuffers
  simp only
  cases planeSizes i420 s.m_initInfo with
  | none => rfl
  | some l0 => simp only; rw [handle_allocFrameLoop]

theorem handle_decodeCall (o : Vpu) (s : CDVDVideoCodecIMX) (nSize : Int) :
    (decodeCall o s nSize).1.m_vpuHandle = s.m_vpuHandle := by
  unfold decodeCall
  simp only
  split_ifs
  all_goals first
    | rfl
    | (rw [(VpuFreeBuffers_spec o _).2.2.2.2]; rfl)

theorem handle_handleInit (o : Vpu) (i420 : Bool) (s : CDVDVideoCodecIMX)
    (decRet : VpuDecBufRetCode) :
    (handleInit o i420 s decRet).1.m_vpuHandle = s.m_vpuHandle := by
  unfold handleInit
  simp only
  split_ifs
  all_goals first
    | rfl
    | (simp only [logCall]; rw [handle_VpuAllocFrameBuffers])

theorem handle_handleConsumed (o : Vpu) (s : CDVDVideoCodecIMX) (decRet : VpuDecBufRetCode)
    (pts : Int) : (handleConsumed o s decRet pts).m_vpuHandle = s.m_vpuHandle := by
  unfold handleConsumed
  simp only
  repeat' split
  all_goals rfl

theorem handle_handleOutput (o : Vpu) (s : CDVDVideoCodecIMX) (decRet : VpuDecBufRetCode)
    (retStatus : Nat) (dts pts : Int) :
    (handleOutput o s decRet retStatus dts pts).1.m_vpuHandle = s.m_vpuHandle := by
  unfold handleOutput
  split_ifs
  · unfold handleDisplay
    simp only
    repeat' split
    all_goals rfl
  · unfold handleMosaic
    simp only
    split_ifs <;> rfl
  · rfl
  · rfl
  · rfl
  · exact (Reset_spec o s).2.2.2.2.2.2.2
  · rfl

theorem handle_decodePass (o : Vpu) (i420 : Bool) (dts pts : Int) (s : CDVDVideoCodecIMX)
    (nSize : Int) (retStatus : Nat) :
    (decodePass o i420 dts pts s nSize retStatus).1.m_vpuHandle = s.m_vpuHandle := by
  unfold decodePass
  simp only
  split_ifs
  · exact handle_decodeCall o s nSize
  · rw [handle_handleInit, handle_decodeCall]
  · rw [handle_handleOutput, handle_handleConsumed, handle_handleInit, handle_decodeCall]

theorem handle_decodeLoop (o : Vpu) (i420 : Bool) (dts pts : Int) (fuel : Nat)
    (s : CDVDVideoCodecIMX) (nSize : Int) (retries retStatus : Nat)
    (r : CDVDVideoCodecIMX × Nat × Bool)
    (h : decodeLoop o i420 dts pts fuel s nSize retries retStatus = some r) :
    r.1.m_vpuHandle = s.m_vpuHandle := by
  refine decodeLoop_rule o i420 dts pts (fun s _ r => r.1.m_vpuHandle = s.m_vpuHandle) ?_ ?_
    fuel s nSize retries retStatus r h
  · intro s nSize retStatus
    exact handle_decodePass o i420 dts pts s nSize retStatus
  · intro s nSize retStatus r _ _ hr
    exact hr.trans (handle_decodePass o i420 dts pts s nSize retStatus)

theorem handle_finishDecode (pts : Int) (x : CDVDVideoCodecIMX × Nat × Bool) :
    (finishDecode pts x).1.m_vpuHandle = x.1.m_vpuHandle := by
  unfold finishDecode
  simp only
  split_ifs <;> rfl

/-- The method `Decode` leaves the hardware handle of an open session as it is. -/
theorem handle_Decode (o : Vpu) (i420 : Bool) (s : CDVDVideoCodecIMX) (pData : Bool)
    (iSize : Int) (converted : Option Int) (dts pts : Int) (hopen : s.m_vpuHandle ≠ 0) :
    (Decode o i420 s pData iSize converted dts pts).1.m_vpuHandle = s.m_vpuHandle := by
  have hb := beginDecode_open o s hopen
  rcases Decode_run o i420 s pData iSize converted dts pts with ⟨h0, _⟩ | ⟨_, r, hr, hD⟩
  · rw [hb] at h0
    exact absurd h0 hopen
  · rw [hD, handle_finishDecode]
    rcases hr with rfl | ⟨nSize, hr⟩
    · simp only [handle_recycleLoop, hb]
      rfl
    · rw [handle_decodeLoop o i420 dts pts _ _ _ _ _ r hr, handle_recycleLoop, hb]
      rfl

/-- C16: when, inside `Decode` on an open session, the hardware decode call fails (other
than by the resolution-change signal), or fetching the stream info, allocating or
registering the frame buffer pool, or fetching the output frame fails, the decode loop
is left by the jump to `out_error` and `Decode` returns the decode-error status. The
session is not disposed by `Decode`: the hardware handle is the one the session had,
after every `Decode` on an open session and so after one that fails. -/
theorem C16_decode_error_keeps_session (o : Vpu) (i420 : Bool) (s : CDVDVideoCodecIMX)
    (pData : Bool) (iSize : Int) (converted : Option Int) (dts pts : Int)
    (hopen : s.m_vpuHandle ≠ 0) :
    (Decode o i420 s pData iSize converted dts pts).1.m_vpuHandle = s.m_vpuHandle ∧
    (∀ (fuel : Nat) (t : CDVDVideoCodecIMX) (nSize : Int) (retries retStatus : Nat),
      decodeFails o i420 pts t nSize →
      ∃ p, decodeLoop o i420 dts pts (fuel + 1) t nSize retries retStatus = some p ∧
        p.2.2 = false ∧ (finishDecode pts p).2 = VC_ERROR ∧
        (finishDecode pts p).1.m_vpuHandle = t.m_vpuHandle) ∧
    ((pData = true ∧ iSize ≠ 0) ∨ (afterScan o s).m_bytesToBeConsumed ≠ 0 →
      decodeFails o i420 pts (afterScan o s) (demuxerBytes (afterScan o s) iSize converted) →
      (Decode o i420 s pData iSize converted dts pts).2 = VC_ERROR) := by
  have hloop : ∀ (fuel : Nat) (t : CDVDVideoCodecIMX) (nSize : Int) (retries retStatus : Nat),
      decodeFails o i420 pts t nSize →
      decodeLoop o i420 dts pts (fuel + 1) t nSize retries retStatus
        = some (decodePass o i420 dts pts t nSize retStatus) ∧
      (decodePass o i420 dts pts t nSize retStatus).2.2 = false := by
    intro fuel t nSize retries retStatus hfail
    have hp := decodePass_fail o i420 dts pts t nSize retStatus hfail
    rw [decodeLoop_succ, if_pos (Or.inl hp)]
    exact ⟨rfl, hp⟩
  have hfin : ∀ p : CDVDVideoCodecIMX × Nat × Bool, p.2.2 = false →
      (finishDecode pts p).2 = VC_ERROR := by
    intro p hp
    unfold finishDecode
    rw [if_pos hp]
  refine ⟨handle_Decode o i420 s pData iSize converted dts pts hopen, ?_, ?_⟩
  · intro fuel t nSize retries retStatus hfail
    obtain ⟨h1, h2⟩ := hloop fuel t nSize retries retStatus hfail
    exact ⟨_, h1, h2, hfin _ h2, by rw [handle_finishDecode, handle_decodePass]⟩
  · intro hinput hfail
    have hD := DecodeFuel_eq_Decode o i420 s pData iSize converted dts pts m_maxVpuDecodeLoops
      (le_refl _)
    unfold DecodeFuel at hD
    simp only at hD
    have hb := beginDecode_open o s hopen
    have h0 : ¬ (beginDecode o s).m_vpuHandle = 0 := by rw [hb]; exact hopen
    rw [if_neg h0] at hD
    have hinput2 : (pData = true ∧ iSize ≠ 0) ∨
        (recycleLoop o (beginDecode o s).m_vpuFrameBufferNum 0
          (beginDecode o s)).m_bytesToBeConsumed ≠ 0 := hinput
    rw [if_pos hinput2] at hD
    obtain ⟨h1, h2⟩ := hloop 4 (afterScan o s) (demuxerBytes (afterScan o s) iSize converted)
      0 0 hfail
    have h1b : decodeLoop o i420 dts pts m_maxVpuDecodeLoops
        (recycleLoop o (beginDecode o s).m_vpuFrameBufferNum 0 (beginDecode o s))
        (demuxerBytes (recycleLoop o (beginDecode o s).m_vpuFrameBufferNum 0 (beginDecode o s))
          iSize converted) 0 0
        = some (decodePass o i420 dts pts (afterScan o s)
            (demuxerBytes (afterScan o s) iSize converted) 0) := h1
    rw [h1b] at hD
    simp only [Option.map_some', Option.some.injEq] at hD
    rw [← hD]
    exact hfin _ h2

/-- C16, witness: in the example session with a pool, the hardware decode call fails. -/
theorem C16_decode_error_keeps_session_witness :
    (Decode failingVpu false deliveredSession true 100 none 0 0).1.m_vpuHandle = 1 ∧
    (Decode failingVpu false deliveredSession true 100 none 0 0).2 = VC_ERROR :=
  (fun t => ⟨t.1, t.2.2 (Or.inl ⟨rfl, by decide⟩) (Or.inl ⟨by decide, by decide⟩)⟩)
    (C16_decode_error_keeps_session failingVpu false deliveredSession true 100 none 0 0
      (by decide))

/-- C16, counterexample: the hardware decode call fails in a session with a pool of eight
buffers. `Decode` returns the decode-error status, but the session is not disposed: the
handle is still open, the pool and the memory blocks are still there, the last buffer
is still held and no close call was made; the session differs from what `Dispose` would
leave. -/
theorem C16_counterexample :
    failingVpu.ret deliveredSession.world.calls.length = VPU_DEC_RET_FAILURE ∧
    (Decode failingVpu false deliveredSession true 100 none 0 0).2 = VC_ERROR ∧
    (Decode failingVpu false deliveredSession true 100 none 0 0).1.m_vpuHandle = 1 ∧
    (Dispose failingVpu deliveredSession).m_vpuHandle = 0 ∧
    (Decode failingVpu false deliveredSession true 100 none 0 0).1.m_vpuFrameBufferNum = 8 ∧
    (Decode failingVpu false deliveredSession true 100 none 0 0).1.m_outputBuffers ≠ none ∧
    (Decode failingVpu false deliveredSession true 100 none 0 0).1.m_decMemInfo.phyMem ≠ none ∧
    (Decode failingVpu false deliveredSession true 100 none 0 0).1.m_lastBuffer = some 0 ∧
    VpuCall.DecClose 1 ∉ (Decode failingVpu false deliveredSession true 100 none 0 0).1.world.calls := by
  decide

/-! ## Dispose -/

theorem VpuFreeBuffers_fields (o : Vpu) (s : CDVDVideoCodecIMX) :
    (VpuFreeBuffers o s).1 = { s with world := (VpuFreeBuffers o s).1.world,
                                      m_decMemInfo := (VpuFreeBuffers o s).1.m_decMemInfo } := by
  unfold VpuFreeBuffers
  cases s.m_decMemInfo.virtMem with
  | none =>
    simp only
    cases s.m_decMemInfo.phyMem with
    | none => rfl
    | some pm => rfl
  | some vm =>
    simp only
    cases s.m_decMemInfo.phyMem with
    | none => rfl
    | some pm => rfl

theorem disposeLoop_fields (o : Vpu) (k i : Nat) (s : CDVDVideoCodecIMX) :
    disposeLoop o k i s = { s with world := (disposeLoop o k i s).world,
                                   m_outputBuffers := (disposeLoop o k i s).m_outputBuffers,
                                   fault := (disposeLoop o k i s).fault } ∧
    ((disposeLoop o k i s).m_outputBuffers = none ↔ s.m_outputBuffers = none) := by
  induction k generalizing i s with
  | zero => exact ⟨rfl, Iff.rfl⟩
  | succ k ih =>
    unfold disposeLoop
    cases poolEntry s i with
    | none =>
      simp only
      obtain ⟨h1, h2⟩ := ih (i + 1) { s with fault := true }
      exact ⟨by rw [h1], h2⟩
    | some b =>
      simp only
      obtain ⟨h1, h2⟩ := ih (i + 1)
        { setHeap (releaseFramebufferOf o s b).1
            (SAFE_RELEASE (releaseFramebufferOf o s b).1.world.heap (some b)) with
          m_outputBuffers := (setHeap (releaseFramebufferOf o s b).1
            (SAFE_RELEASE (releaseFramebufferOf o s b).1.world.heap (some b))).m_outputBuffers.map
              (fun a => a.set i none) }
      refine ⟨?_, ?_⟩
      · rw [h1]
        rfl
      · rw [h2]
        simp only [setHeap, releaseFramebufferOf]
        cases s.m_outputBuffers <;> simp

/-- What `Dispose` leaves behind, whatever the hardware answers. -/
theorem Dispose_spec (o : Vpu) (s : CDVDVideoCodecIMX) :
    (Dispose o s).m_vpuHandle = 0 ∧ (Dispose o s).m_vpuFrameBufferNum = 0 ∧
    (Dispose o s).m_vpuFrameBuffers = none ∧ (Dispose o s).m_outputBuffers = none ∧
    (Dispose o s).m_decMemInfo.virtMem = none ∧ (Dispose o s).m_decMemInfo.phyMem = none ∧
    (Dispose o s).m_lastBuffer = none ∧ (Dispose o s).m_currentBuffer = none ∧
    (Dispose o s).m_frameCounter = 0 ∧ (Dispose o s).m_converter = false := by
  have hf := fun t => VpuFreeBuffers_fields o t
  have hv := fun t => VpuFreeBuffers_spec o t
  have hd := (disposeLoop_fields o (releaseCurrentBuffer (releaseLastBuffer s)).m_vpuFrameBufferNum
    0 (releaseCurrentBuffer (releaseLastBuffer s))).1
  have hhandle : ∀ t, (VpuFreeBuffers o t).1.m_vpuHandle = t.m_vpuHandle := fun t => (hv t).2.2.2.2
  have hlast : ∀ t, (VpuFreeBuffers o t).1.m_lastBuffer = t.m_lastBuffer := fun t => by rw [hf]
  have hcur : ∀ t, (VpuFreeBuffers o t).1.m_currentBuffer = t.m_currentBuffer :=
    fun t => by rw [hf]
  have hout : ∀ t, (VpuFreeBuffers o t).1.m_outputBuffers = t.m_outputBuffers :=
    fun t => by rw [hf]
  have hfc : ∀ t, (VpuFreeBuffers o t).1.m_frameCounter = t.m_frameCounter := fun t => by rw [hf]
  have hdl : (disposeLoop o (releaseCurrentBuffer (releaseLastBuffer s)).m_vpuFrameBufferNum 0
      (releaseCurrentBuffer (releaseLastBuffer s))).m_lastBuffer = none := by rw [hd]; rfl
  have hdc : (disposeLoop o (releaseCurrentBuffer (releaseLastBuffer s)).m_vpuFrameBufferNum 0
      (releaseCurrentBuffer (releaseLastBuffer s))).m_currentBuffer = none := by rw [hd]; rfl
  unfold Dispose
  simp only
  by_cases hh : (disposeLoop o (releaseCurrentBuffer (releaseLastBuffer s)).m_vpuFrameBufferNum 0
      (releaseCurrentBuffer (releaseLastBuffer s))).m_vpuHandle ≠ 0
  · rw [if_pos hh]
    split_ifs
    all_goals
      simp only [logCall, hhandle, hlast, hcur, hout, hfc, hdl, hdc, (hv _).1, (hv _).2.1,
        and_self, true_and]
  · rw [if_neg hh]
    split_ifs
    all_goals
      simp only [logCall, hhandle, hlast, hcur, hout, hfc, hdl, hdc, (hv _).1, (hv _).2.1,
        and_self, true_and, and_true]
      exact not_not.mp hh

/-- On a session that is already disposed, `Dispose` changes nothing and calls no
hardware function. -/
theorem Dispose_fixed (o : Vpu) (d : CDVDVideoCodecIMX) (h1 : d.m_vpuHandle = 0)
    (h2 : d.m_vpuFrameBufferNum = 0) (h3 : d.m_vpuFrameBuffers = none)
    (h4 : d.m_outputBuffers = none) (h5 : d.m_decMemInfo.virtMem = none)
    (h6 : d.m_decMemInfo.phyMem = none) (h7 : d.m_lastBuffer = none)
    (h8 : d.m_currentBuffer = none) (h9 : d.m_frameCounter = 0) (h10 : d.m_converter = false) :
    Dispose o d = d := by
  obtain ⟨world, handle, fmt, ⟨nv, vm, np, pm⟩, ii, fi, num, fbs, obs, last, cur, ds, fc, up, cb,
    conv, bytes, ppts, fr⟩ := d
  simp only at h1 h2 h3 h4 h5 h6 h7 h8 h9 h10
  subst h1 h2 h3 h4 h5 h6 h7 h8 h9 h10
  simp [Dispose, releaseLastBuffer, releaseCurrentBuffer, disposeLoop, VpuFreeBuffers,
    SAFE_RELEASE, setHeap]

/-- On an open session `Dispose` calls `VPU_DecClose` on the handle, whatever the
hardware answers. -/
theorem Dispose_closes (o : Vpu) (s : CDVDVideoCodecIMX) (h : s.m_vpuHandle ≠ 0) :
    VpuCall.DecClose s.m_vpuHandle ∈ (Dispose o s).world.calls := by
  have hd := (disposeLoop_fields o (releaseCurrentBuffer (releaseLastBuffer s)).m_vpuFrameBufferNum
    0 (releaseCurrentBuffer (releaseLastBuffer s))).1
  have hh : (disposeLoop o (releaseCurrentBuffer (releaseLastBuffer s)).m_vpuFrameBufferNum 0
      (releaseCurrentBuffer (releaseLastBuffer s))).m_vpuHandle = s.m_vpuHandle := by
    rw [hd]; rfl
  have hfree := fun t => prefix_VpuFreeBuffers o t
  have hc : (disposeLoop o (releaseCurrentBuffer (releaseLastBuffer s)).m_vpuFrameBufferNum 0
      (releaseCurrentBuffer (releaseLastBuffer s))).m_vpuHandle ≠ 0 := by
    rw [hh]; exact h
  unfold Dispose
  simp only [if_pos hc, if_pos h]
  refine (List.IsPrefix.trans (hfree _) (prefix_logCall _ _)).subset ?_
  simp only [logCall, hh]
  simp

/-! ## The display context: projecting and aligning rectangles -/

/-- The destination rectangle after the projection step: every edge outside the target
buffer is set to the border, the other edges are untouched. -/
theorem projectRects_dst (rnd : ℚ → ℚ) (fbW fbH : Int) (src dst : CRect) :
    (projectRects rnd fbW fbH src dst).2.x1 = (if dst.x1 < 0 then 0 else dst.x1) ∧
    (projectRects rnd fbW fbH src dst).2.x2 = (if dst.x2 > (fbW : ℚ) then (fbW : ℚ) else dst.x2) ∧
    (projectRects rnd fbW fbH src dst).2.y1 = (if dst.y1 < 0 then 0 else dst.y1) ∧
    (projectRects rnd fbW fbH src dst).2.y2
      = (if dst.y2 > (fbH : ℚ) then (fbH : ℚ) else dst.y2) := by
  unfold projectRects
  simp only
  refine ⟨?_, ?_, ?_, ?_⟩ <;> split_ifs <;> rfl

theorem floatToInt_nonneg (q : ℚ) (h : 0 ≤ q) : 0 ≤ floatToInt q := by
  unfold floatToInt
  rw [if_pos h]
  exact Int.floor_nonneg.mpr h

theorem floatToInt_le (q : ℚ) (n : Int) (h : q ≤ (n : ℚ)) (hn : 0 ≤ n) : floatToInt q ≤ n := by
  unfold floatToInt
  split_ifs with h0
  · exact Int.floor_le_iff.mpr (lt_of_le_of_lt h (by exact_mod_cast Int.lt_succ n))
  · exact le_trans (Int.ceil_le.mpr (by push_cast; linarith)) hn

theorem floatToInt_ge (q : ℚ) (n : Int) (h : (n : ℚ) ≤ q) (hn : n ≤ 0) : n ≤ floatToInt q := by
  unfold floatToInt
  split_ifs with h0
  · exact le_trans hn (Int.floor_nonneg.mpr h0)
  · exact Int.le_ceil_iff.mpr (by linarith)

/-- A `float` integer below `2 ^ 31` is at most `2 ^ 31 - 8`: from `2 ^ 24` on the
integers a `float` can hold are multiples of a power of two. -/
theorem isFloatInt_bound (n : Int) (h0 : 0 ≤ n) (h1 : n < 2 ^ 31) (hf : isFloatInt n) :
    n ≤ 2 ^ 31 - 8 := by
  obtain ⟨m, e, hme, hm⟩ := hf
  have hn : (n.natAbs : Int) = n := Int.natAbs_of_nonneg h0
  by_cases he : e < 7
  · have h2 : (2 : Nat) ^ e ≤ 2 ^ 6 := Nat.pow_le_pow_right (by decide) (by omega)
    have h3 : m * 2 ^ e ≤ (2 ^ 24 - 1) * 2 ^ 6 := Nat.mul_le_mul (by omega) h2
    omega
  · obtain ⟨k, rfl⟩ : ∃ k, e = 7 + k := ⟨e - 7, by omega⟩
    rw [pow_add] at hme
    generalize (2 : Nat) ^ k = c at hme
    have h4 : n.natAbs = 128 * (m * c) := by rw [hme]; ring
    omega

theorem Align8_eq (n : Int) (h0 : 0 ≤ n) (h1 : n ≤ 2 ^ 31 - 8) :
    toInt32 (Align (toUnsigned n) 8) = (n + 7) / 8 * 8 := by
  rw [toUnsigned_of_range n h0 (by omega)]
  unfold toInt32 Align u32
  have e8 : (8 : Nat) % 2 ^ 32 = 8 := by decide
  rw [e8]
  split_ifs <;> omega

theorem Align2_8_eq (n : Int) (h0 : -(2 ^ 31) ≤ n) (h1 : n < 2 ^ 31) :
    toInt32 (Align2 (toUnsigned n) 8) = n / 8 * 8 := by
  unfold toInt32 Align2 u32 toUnsigned
  have e8 : (8 : Nat) % 2 ^ 32 = 8 := by decide
  rw [e8]
  split_ifs <;> omega

/-- The macro `Align(x, 8)` yields the smallest multiple of 8 that is at least `x`. -/
theorem Align8_spec (n : Int) (h0 : 0 ≤ n) (h1 : n ≤ 2 ^ 31 - 8) :
    isLeastMultiple 8 n (toInt32 (Align (toUnsigned n) 8)) := by
  rw [Align8_eq n h0 h1]
  refine ⟨Dvd.intro_left _ rfl, by omega, ?_⟩
  rintro m ⟨c, rfl⟩ hm
  omega

/-- The macro `Align2(x, 8)` yields the largest multiple of 8 that is at most `x`. -/
theorem Align2_8_spec (n : Int) (h0 : -(2 ^ 31) ≤ n) (h1 : n < 2 ^ 31) :
    isGreatestMultiple 8 n (toInt32 (Align2 (toUnsigned n) 8)) := by
  rw [Align2_8_eq n h0 h1]
  refine ⟨Dvd.intro_left _ rfl, by omega, ?_⟩
  rintro m ⟨c, rfl⟩ hm
  omega

theorem wrapInt_of_range (x : Int) (h0 : -(2 ^ 31) ≤ x) (h1 : x < 2 ^ 31) : wrapInt x = x := by
  unfold wrapInt toInt32 u32 toUnsigned
  split_ifs <;> omega

/-- The source rectangle after the projection step: an edge changes only if the paired
edge of the destination is outside the target buffer, and the sizes that enter are
those on entry. -/
theorem projectRects_src (rnd : ℚ → ℚ) (fbW fbH : Int) (src dst : CRect) :
    (projectRects rnd fbW fbH src dst).1.x1
      = (if dst.x1 < 0 then
          rnd (src.x1 - rnd (rnd (dst.x1 * CRect.Width rnd src) / CRect.Width rnd dst))
        else src.x1) ∧
    (projectRects rnd fbW fbH src dst).1.x2
      = (if dst.x2 > (fbW : ℚ) then
          rnd (src.x2 - rnd (rnd (rnd (dst.x2 - (fbW : ℚ)) * CRect.Width rnd src)
            / CRect.Width rnd dst))
        else src.x2) ∧
    (projectRects rnd fbW fbH src dst).1.y1
      = (if dst.y1 < 0 then
          rnd (src.y1 - rnd (rnd (dst.y1 * CRect.Height rnd src) / CRect.Height rnd dst))
        else src.y1) ∧
    (projectRects rnd fbW fbH src dst).1.y2
      = (if dst.y2 > (fbH : ℚ) then
          rnd (src.y2 - rnd (rnd (rnd (dst.y2 - (fbH : ℚ)) * CRect.Height rnd src)
            / CRect.Height rnd dst))
        else src.y2) := by
  unfold projectRects
  simp only
  refine ⟨?_, ?_, ?_, ?_⟩ <;> split_ifs <;> rfl

/-- The integer destination rectangle of `PrepareTask`: its left and top edge are not
negative and its right and bottom edge do not exceed the framebuffer, for a framebuffer
and a requested rectangle in range. -/
theorem integerRects_dst (rnd : ℚ → ℚ) (c : CIMXContext) (dest : Option CRect)
    (hW : 0 ≤ c.m_fbWidth ∧ c.m_fbWidth ≤ 2 ^ 30) (hH : 0 ≤ c.m_fbHeight ∧ c.m_fbHeight ≤ 2 ^ 30)
    (hr : (destinationRect c dest).inRange) :
    (0 ≤ (integerRects rnd c dest).2.x1 ∧ (integerRects rnd c dest).2.x1 ≤ 2 ^ 30) ∧
    (-(2 ^ 30) ≤ (integerRects rnd c dest).2.x2 ∧
      (integerRects rnd c dest).2.x2 ≤ c.m_fbWidth) ∧
    (0 ≤ (integerRects rnd c dest).2.y1 ∧ (integerRects rnd c dest).2.y1 ≤ 2 ^ 30) ∧
    (-(2 ^ 30) ≤ (integerRects rnd c dest).2.y2 ∧
      (integerRects rnd c dest).2.y2 ≤ c.m_fbHeight) := by
  obtain ⟨e1, e2, e3, e4⟩ :=
    projectRects_dst rnd c.m_fbWidth c.m_fbHeight c.m_srcRect (destinationRect c dest)
  obtain ⟨⟨a1, a2⟩, ⟨b1, b2⟩, ⟨c1, c2⟩, ⟨d1, d2⟩⟩ := hr
  have hWq : ((c.m_fbWidth : Int) : ℚ) ≤ 2 ^ 30 := by exact_mod_cast hW.2
  have hHq : ((c.m_fbHeight : Int) : ℚ) ≤ 2 ^ 30 := by exact_mod_cast hH.2
  have hW0 : (0 : ℚ) ≤ ((c.m_fbWidth : Int) : ℚ) := by exact_mod_cast hW.1
  have hH0 : (0 : ℚ) ≤ ((c.m_fbHeight : Int) : ℚ) := by exact_mod_cast hH.1
  have lo : ∀ q : ℚ, -(2 ^ 30 : ℚ) ≤ q → q ≤ 2 ^ 30 →
      0 ≤ toInt32 (Align (toUnsigned (floatToInt (if q < 0 then 0 else q))) 8) ∧
      toInt32 (Align (toUnsigned (floatToInt (if q < 0 then 0 else q))) 8) ≤ 2 ^ 30 := by
    intro q _ h2
    have n0 : 0 ≤ floatToInt (if q < 0 then 0 else q) := by
      apply floatToInt_nonneg
      split_ifs with h
      · exact le_refl _
      · exact not_lt.mp h
    have n1 : floatToInt (if q < 0 then 0 else q) ≤ 2 ^ 30 := by
      apply floatToInt_le _ _ _ (by norm_num)
      split_ifs with h
      · norm_num
      · exact_mod_cast h2
    rw [Align8_eq _ n0 (by omega)]
    omega
  have hi : ∀ (q : ℚ) (n : Int), -(2 ^ 30 : ℚ) ≤ q → 0 ≤ n → n ≤ 2 ^ 30 →
      -(2 ^ 30) ≤ toInt32 (Align2 (toUnsigned (floatToInt (if q > (n : ℚ) then (n : ℚ) else q))) 8) ∧
      toInt32 (Align2 (toUnsigned (floatToInt (if q > (n : ℚ) then (n : ℚ) else q))) 8) ≤ n := by
    intro q n h1 hn0 hn1
    have n1 : floatToInt (if q > (n : ℚ) then (n : ℚ) else q) ≤ n := by
      apply floatToInt_le _ _ _ hn0
      split_ifs with h
      · exact le_refl _
      · exact not_lt.mp h
    have n0 : -(2 ^ 30) ≤ floatToInt (if q > (n : ℚ) then (n : ℚ) else q) := by
      apply floatToInt_ge _ _ _ (by norm_num)
      split_ifs with h
      · have : (0 : ℚ) ≤ (n : ℚ) := by exact_mod_cast hn0
        push_cast
        linarith
      · push_cast
        exact h1
    rw [Align2_8_eq _ (by omega) (by omega)]
    omega
  unfold integerRects clampedRects alignRect
  simp only [e1, e2, e3, e4]
  exact ⟨lo _ a1 a2, hi _ _ c1 hW.1 hW.2, lo _ b1 b2, hi _ _ d1 hH.1 hH.2⟩

/-- The crops that `PrepareTask` writes into the task are those of the integer rectangles;
with a destination passed, the position of the output crop is the origin. -/
theorem PrepareTask_crops (rnd : ℚ → ℚ) (im : EINTERLACEMETHOD) (c : CIMXContext)
    (source_p source : Option Nat) (dest : Option CRect) :
    (PrepareTask rnd im c source_p source dest).input_crop
      = { pos_x := (integerRects rnd c dest).1.x1, pos_y := (integerRects rnd c dest).1.y1,
          w := (integerRects rnd c dest).1.Width, h := (integerRects rnd c dest).1.Height } ∧
    (PrepareTask rnd im c source_p source dest).output_crop
      = { pos_x := if dest.isSome = true then 0 else (integerRects rnd c dest).2.x1,
          pos_y := if dest.isSome = true then 0 else (integerRects rnd c dest).2.y1,
          w := (integerRects rnd c dest).2.Width, h := (integerRects rnd c dest).2.Height } := by
  unfold PrepareTask
  cases dest with
  | none =>
    simp only [Option.isSome_none, Bool.false_eq_true, if_false]
    split_ifs <;> exact ⟨rfl, rfl⟩
  | some d => exact ⟨rfl, rfl⟩

/-- A small natural number is a convertible coordinate. -/
theorem convertibleCoordinate_of_nat (q : ℚ) (n : Nat) (hq : q = (n : ℚ)) (h : n < 2 ^ 24) :
    convertibleCoordinate q := by
  have e : floatToInt q = (n : Int) := by
    unfold floatToInt
    rw [hq, if_pos (Nat.cast_nonneg n)]
    exact Int.floor_natCast n
  unfold convertibleCoordinate
  rw [e]
  exact ⟨Int.natCast_nonneg n, by omega, n, 0, by simp, h⟩

/-- The integer rectangle of a convertible rectangle: the start edges are rounded up and
the end edges are rounded down to a multiple of 8. -/
theorem alignRect_spec (r : CRect) (h : r.convertible) :
    isLeastMultiple 8 (floatToInt r.x1) (alignRect r).x1 ∧
    isLeastMultiple 8 (floatToInt r.y1) (alignRect r).y1 ∧
    isGreatestMultiple 8 (floatToInt r.x2) (alignRect r).x2 ∧
    isGreatestMultiple 8 (floatToInt r.y2) (alignRect r).y2 := by
  obtain ⟨⟨a0, a1, a2⟩, ⟨b0, b1, b2⟩, ⟨c0, c1, _⟩, ⟨d0, d1, _⟩⟩ := h
  exact ⟨Align8_spec _ a0 (isFloatInt_bound _ a0 a1 a2),
    Align8_spec _ b0 (isFloatInt_bound _ b0 b1 b2),
    Align2_8_spec _ (by omega) c1, Align2_8_spec _ (by omega) d1⟩

/-- The width and the height of the integer rectangle of a convertible rectangle do not
overflow. -/
theorem alignRect_size (r : CRect) (h : r.convertible) :
    (alignRect r).Width = (alignRect r).x2 - (alignRect r).x1 ∧
    (alignRect r).Height = (alignRect r).y2 - (alignRect r).y1 := by
  obtain ⟨⟨a0, a1, a2⟩, ⟨b0, b1, b2⟩, ⟨c0, c1, _⟩, ⟨d0, d1, _⟩⟩ := h
  have ha := isFloatInt_bound _ a0 a1 a2
  have hb := isFloatInt_bound _ b0 b1 b2
  unfold CRectInt.Width CRectInt.Height alignRect
  simp only
  rw [Align8_eq _ a0 ha, Align8_eq _ b0 hb, Align2_8_eq _ (by omega) c1,
    Align2_8_eq _ (by omega) d1]
  exact ⟨wrapInt_of_range _ (by omega) (by omega), wrapInt_of_range _ (by omega) (by omega)⟩

/-- C18 (amended): for every framebuffer size and requested destination rectangle in range,
the output crop that `PrepareTask` puts into the task starts at a position that is not
negative and ends, at position plus size, inside the framebuffer, so a crop of positive
width and height has its extent inside `[0, m_fbWidth)` and `[0, m_fbHeight)`; and the
projection step never enlarges the destination rectangle. -/
theorem C18_destination_clamped_to_framebuffer (rnd : ℚ → ℚ) (im : EINTERLACEMETHOD)
    (c : CIMXContext) (source_p source : Option Nat) (dest : Option CRect)
    (hW : 0 ≤ c.m_fbWidth ∧ c.m_fbWidth ≤ 2 ^ 30) (hH : 0 ≤ c.m_fbHeight ∧ c.m_fbHeight ≤ 2 ^ 30)
    (hr : (destinationRect c dest).inRange) :
    (0 ≤ (PrepareTask rnd im c source_p source dest).output_crop.pos_x ∧
      (PrepareTask rnd im c source_p source dest).output_crop.pos_x
        + (PrepareTask rnd im c source_p source dest).output_crop.w ≤ c.m_fbWidth ∧
      (0 < (PrepareTask rnd im c source_p source dest).output_crop.w →
        (PrepareTask rnd im c source_p source dest).output_crop.pos_x < c.m_fbWidth)) ∧
    (0 ≤ (PrepareTask rnd im c source_p source dest).output_crop.pos_y ∧
      (PrepareTask rnd im c source_p source dest).output_crop.pos_y
        + (PrepareTask rnd im c source_p source dest).output_crop.h ≤ c.m_fbHeight ∧
      (0 < (PrepareTask rnd im c source_p source dest).output_crop.h →
        (PrepareTask rnd im c source_p source dest).output_crop.pos_y < c.m_fbHeight)) ∧
    ((destinationRect c dest).x1 ≤ (clampedRects rnd c dest).2.x1 ∧
      (clampedRects rnd c dest).2.x2 ≤ (destinationRect c dest).x2 ∧
      (destinationRect c dest).y1 ≤ (clampedRects rnd c dest).2.y1 ∧
      (clampedRects rnd c dest).2.y2 ≤ (destinationRect c dest).y2) := by
  obtain ⟨⟨x0, x1⟩, ⟨x2, x3⟩, ⟨y0, y1⟩, ⟨y2, y3⟩⟩ := integerRects_dst rnd c dest hW hH hr
  obtain ⟨e1, e2, e3, e4⟩ :=
    projectRects_dst rnd c.m_fbWidth c.m_fbHeight c.m_srcRect (destinationRect c dest)
  have hw : (integerRects rnd c dest).2.Width
      = (integerRects rnd c dest).2.x2 - (integerRects rnd c dest).2.x1 :=
    wrapInt_of_range _ (by omega) (by omega)
  have hh : (integerRects rnd c dest).2.Height
      = (integerRects rnd c dest).2.y2 - (integerRects rnd c dest).2.y1 :=
    wrapInt_of_range _ (by omega) (by omega)
  rw [(PrepareTask_crops rnd im c source_p source dest).2]
  simp only [hw, hh]
  refine ⟨?_, ?_, ?_⟩
  · split_ifs <;> refine ⟨?_, ?_, ?_⟩ <;> omega
  · split_ifs <;> refine ⟨?_, ?_, ?_⟩ <;> omega
  · unfold clampedRects
    rw [e1, e2, e3, e4]
    refine ⟨?_, ?_, ?_, ?_⟩ <;> split_ifs with h
    · exact le_of_lt h
    · exact le_refl _
    · exact le_of_lt h
    · exact le_refl _
    · exact le_of_lt h
    · exact le_refl _
    · exact le_of_lt h
    · exact le_refl _

/-- C18, witness: on a framebuffer of 1920 by 1080, a destination rectangle whose right edge
is 100 beyond the right border yields an output crop that ends inside the framebuffer. -/
theorem C18_destination_clamped_to_framebuffer_witness :
    (PrepareTask id VS_INTERLACEMETHOD_AUTO overhangContext none none none).output_crop.pos_x
      + (PrepareTask id VS_INTERLACEMETHOD_AUTO overhangContext none none none).output_crop.w
      ≤ overhangContext.m_fbWidth :=
  (C18_destination_clamped_to_framebuffer id VS_INTERLACEMETHOD_AUTO overhangContext none none
    none (by decide) (by decide)
    (by norm_num [CRect.inRange, destinationRect, overhangContext])).1.2.1

/-- C18, counterexample: on a framebuffer of 1920 by 1080, a destination rectangle from 2000
to 2100, beyond the right border, yields an output crop at position 2000 of width -80:
its start is not inside the framebuffer. -/
theorem C18_counterexample :
    (PrepareTask id VS_INTERLACEMETHOD_AUTO offScreenContext none none none).output_crop
      = { pos_x := 2000, pos_y := 0, w := -80, h := 96 } ∧
    ¬ ((PrepareTask id VS_INTERLACEMETHOD_AUTO offScreenContext none none none).output_crop.pos_x
      < offScreenContext.m_fbWidth) := by
  have e : (PrepareTask id VS_INTERLACEMETHOD_AUTO offScreenContext none none none).output_crop
      = { pos_x := 2000, pos_y := 0, w := -80, h := 96 } := by
    rw [(PrepareTask_crops _ _ _ _ _ _).2]
    norm_num [integerRects, clampedRects, destinationRect, offScreenContext, projectRects,
      CRect.Width, CRect.Height, alignRect, floatToInt, CRectInt.Width, CRectInt.Height]
    decide
  rw [e]
  exact ⟨rfl, by decide⟩

/-- C19: in the projection step of `PrepareTask`, a destination edge outside the target
buffer is set to the border and the paired edge of the source moves by the overshoot
times the source size over the destination size, the sizes being those on entry; an edge
of the source whose paired destination edge is inside stays as it is. Every `float`
operation is the exact operation followed by the rounding `rnd`; for exact arithmetic the
right edge of the source is reduced by `d * srcWidth / dstWidth`. -/
theorem C19_source_shrinks_proportionally (rnd : ℚ → ℚ) (fbW fbH : Int) (src dst : CRect) :
    (dst.x2 > (fbW : ℚ) →
      (projectRects rnd fbW fbH src dst).2.x2 = (fbW : ℚ) ∧
      (projectRects rnd fbW fbH src dst).1.x2
        = rnd (src.x2 - rnd (rnd (rnd (dst.x2 - (fbW : ℚ)) * CRect.Width rnd src)
            / CRect.Width rnd dst)) ∧
      (projectRects id fbW fbH src dst).1.x2
        = src.x2 - (dst.x2 - (fbW : ℚ)) * (src.x2 - src.x1) / (dst.x2 - dst.x1)) ∧
    (¬ dst.x2 > (fbW : ℚ) →
      (projectRects rnd fbW fbH src dst).2.x2 = dst.x2 ∧
      (projectRects rnd fbW fbH src dst).1.x2 = src.x2) ∧
    (dst.x1 < 0 →
      (projectRects rnd fbW fbH src dst).2.x1 = 0 ∧
      (projectRects rnd fbW fbH src dst).1.x1
        = rnd (src.x1 - rnd (rnd (dst.x1 * CRect.Width rnd src) / CRect.Width rnd dst)) ∧
      (projectRects id fbW fbH src dst).1.x1
        = src.x1 - dst.x1 * (src.x2 - src.x1) / (dst.x2 - dst.x1)) ∧
    (¬ dst.x1 < 0 →
      (projectRects rnd fbW fbH src dst).2.x1 = dst.x1 ∧
      (projectRects rnd fbW fbH src dst).1.x1 = src.x1) ∧
    (dst.y2 > (fbH : ℚ) →
      (projectRects rnd fbW fbH src dst).2.y2 = (fbH : ℚ) ∧
      (projectRects rnd fbW fbH src dst).1.y2
        = rnd (src.y2 - rnd (rnd (rnd (dst.y2 - (fbH : ℚ)) * CRect.Height rnd src)
            / CRect.Height rnd dst)) ∧
      (projectRects id fbW fbH src dst).1.y2
        = src.y2 - (dst.y2 - (fbH : ℚ)) * (src.y2 - src.y1) / (dst.y2 - dst.y1)) ∧
    (¬ dst.y2 > (fbH : ℚ) →
      (projectRects rnd fbW fbH src dst).2.y2 = dst.y2 ∧
      (projectRects rnd fbW fbH src dst).1.y2 = src.y2) ∧
    (dst.y1 < 0 →
      (projectRects rnd fbW fbH src dst).2.y1 = 0 ∧
      (projectRects rnd fbW fbH src dst).1.y1
        = rnd (src.y1 - rnd (rnd (dst.y1 * CRect.Height rnd src) / CRect.Height rnd dst)) ∧
      (projectRects id fbW fbH src dst).1.y1
        = src.y1 - dst.y1 * (src.y2 - src.y1) / (dst.y2 - dst.y1)) ∧
    (¬ dst.y1 < 0 →
      (projectRects rnd fbW fbH src dst).2.y1 = dst.y1 ∧
      (projectRects rnd fbW fbH src dst).1.y1 = src.y1) := by
  obtain ⟨s1, s2, s3, s4⟩ := projectRects_src rnd fbW fbH src dst
  obtain ⟨i1, i2, i3, i4⟩ := projectRects_src id fbW fbH src dst
  obtain ⟨d1, d2, d3, d4⟩ := projectRects_dst rnd fbW fbH src dst
  refine ⟨fun h => ⟨?_, ?_, ?_⟩, fun h => ⟨?_, ?_⟩, fun h => ⟨?_, ?_, ?_⟩, fun h => ⟨?_, ?_⟩,
    fun h => ⟨?_, ?_, ?_⟩, fun h => ⟨?_, ?_⟩, fun h => ⟨?_, ?_, ?_⟩, fun h => ⟨?_, ?_⟩⟩
  · rw [d2, if_pos h]
  · rw [s2, if_pos h]
  · rw [i2, if_pos h]; rfl
  · rw [d2, if_neg h]
  · rw [s2, if_neg h]
  · rw [d1, if_pos h]
  · rw [s1, if_pos h]
  · rw [i1, if_pos h]; rfl
  · rw [d1, if_neg h]
  · rw [s1, if_neg h]
  · rw [d4, if_pos h]
  · rw [s4, if_pos h]
  · rw [i4, if_pos h]; rfl
  · rw [d4, if_neg h]
  · rw [s4, if_neg h]
  · rw [d3, if_pos h]
  · rw [s3, if_pos h]
  · rw [i3, if_pos h]; rfl
  · rw [d3, if_neg h]
  · rw [s3, if_neg h]

/-- C19, witness: on a framebuffer 1920 wide, a destination from 0 to 2020 for a source from
0 to 1010 overshoots by 100; the destination ends at 1920 and the right edge of the source
is reduced by `100 * 1010 / 2020 = 50` to 960. -/
theorem C19_source_shrinks_proportionally_witness :
    (clampedRects id overhangContext none).2.x2 = 1920 ∧
    (clampedRects id overhangContext none).1.x2 = 960 := by
  have h := (C19_source_shrinks_proportionally id overhangContext.m_fbWidth
    overhangContext.m_fbHeight overhangContext.m_srcRect
    (destinationRect overhangContext none)).1
    (by norm_num [destinationRect, overhangContext])
  unfold clampedRects
  rw [h.1, h.2.2]
  norm_num [destinationRect, overhangContext]

/-- C20: for clamped rectangles whose coordinates convert to `int` values that are not
negative, the integer rectangles of `PrepareTask` have each start edge at the smallest
multiple of 8 that is at least the converted start and each end edge at the largest
multiple of 8 that is at most the converted end; the crop of the input that the task
receives has these edges. -/
theorem C20_edges_aligned_to_8 (rnd : ℚ → ℚ) (c : CIMXContext) (dest : Option CRect)
    (hs : (clampedRects rnd c dest).1.convertible)
    (hd : (clampedRects rnd c dest).2.convertible) :
    (isLeastMultiple 8 (floatToInt (clampedRects rnd c dest).1.x1)
        (integerRects rnd c dest).1.x1 ∧
      isLeastMultiple 8 (floatToInt (clampedRects rnd c dest).1.y1)
        (integerRects rnd c dest).1.y1 ∧
      isGreatestMultiple 8 (floatToInt (clampedRects rnd c dest).1.x2)
        (integerRects rnd c dest).1.x2 ∧
      isGreatestMultiple 8 (floatToInt (clampedRects rnd c dest).1.y2)
        (integerRects rnd c dest).1.y2) ∧
    (isLeastMultiple 8 (floatToInt (clampedRects rnd c dest).2.x1)
        (integerRects rnd c dest).2.x1 ∧
      isLeastMultiple 8 (floatToInt (clampedRects rnd c dest).2.y1)
        (integerRects rnd c dest).2.y1 ∧
      isGreatestMultiple 8 (floatToInt (clampedRects rnd c dest).2.x2)
        (integerRects rnd c dest).2.x2 ∧
      isGreatestMultiple 8 (floatToInt (clampedRects rnd c dest).2.y2)
        (integerRects rnd c dest).2.y2) ∧
    ∀ (im : EINTERLACEMETHOD) (source_p source : Option Nat),
      (PrepareTask rnd im c source_p source dest).input_crop.pos_x
        = (integerRects rnd c dest).1.x1 ∧
      (PrepareTask rnd im c source_p source dest).input_crop.pos_y
        = (integerRects rnd c dest).1.y1 ∧
      (PrepareTask rnd im c source_p source dest).input_crop.pos_x
        + (PrepareTask rnd im c source_p source dest).input_crop.w
        = (integerRects rnd c dest).1.x2 ∧
      (PrepareTask rnd im c source_p source dest).input_crop.pos_y
        + (PrepareTask rnd im c source_p source dest).input_crop.h
        = (integerRects rnd c dest).1.y2 ∧
      (PrepareTask rnd im c source_p source dest).output_crop.w
        = (integerRects rnd c dest).2.x2 - (integerRects rnd c dest).2.x1 ∧
      (PrepareTask rnd im c source_p source dest).output_crop.h
        = (integerRects rnd c dest).2.y2 - (integerRects rnd c dest).2.y1 := by
  refine ⟨alignRect_spec _ hs, alignRect_spec _ hd, ?_⟩
  intro im source_p source
  obtain ⟨w1, h1⟩ := alignRect_size _ hs
  obtain ⟨w2, h2⟩ := alignRect_size _ hd
  obtain ⟨e1, e2⟩ := PrepareTask_crops rnd im c source_p source dest
  rw [e1, e2]
  refine ⟨?_, ?_, ?_, ?_, ?_, ?_⟩ <;> simp only [integerRects, w1, h1, w2, h2] <;> omega

/-- C20, witness: a source rectangle from (3, 5) to (1003, 509) becomes the integer
rectangle from (8, 8) to (1000, 504). -/
theorem C20_edges_aligned_to_8_witness :
    isLeastMultiple 8 3 (integerRects id unalignedContext none).1.x1 ∧
    isGreatestMultiple 8 1003 (integerRects id unalignedContext none).1.x2 ∧
    (integerRects id unalignedContext none).1 = { x1 := 8, y1 := 8, x2 := 1000, y2 := 504 } := by
  have e : clampedRects id unalignedContext none
      = (unalignedContext.m_srcRect, unalignedContext.m_dstRect) := by
    norm_num [clampedRects, projectRects, destinationRect, unalignedContext]
  have h := C20_edges_aligned_to_8 id unalignedContext none
    (by
      rw [e]
      exact ⟨convertibleCoordinate_of_nat _ 3 (by norm_num [unalignedContext]) (by decide),
        convertibleCoordinate_of_nat _ 5 (by norm_num [unalignedContext]) (by decide),
        convertibleCoordinate_of_nat _ 1003 (by norm_num [unalignedContext]) (by decide),
        convertibleCoordinate_of_nat _ 509 (by norm_num [unalignedContext]) (by decide)⟩)
    (by
      rw [e]
      exact ⟨convertibleCoordinate_of_nat _ 10 (by norm_num [unalignedContext]) (by decide),
        convertibleCoordinate_of_nat _ 20 (by norm_num [unalignedContext]) (by decide),
        convertibleCoordinate_of_nat _ 1900 (by norm_num [unalignedContext]) (by decide),
        convertibleCoordinate_of_nat _ 1070 (by norm_num [unalignedContext]) (by decide)⟩)
  have f : ∀ n : Nat, floatToInt ((n : ℚ)) = (n : Int) := by
    intro n
    unfold floatToInt
    rw [if_pos (Nat.cast_nonneg n)]
    exact Int.floor_natCast n
  have f3 : floatToInt (clampedRects id unalignedContext none).1.x1 = 3 := by
    rw [e]; exact f 3
  have f1003 : floatToInt (clampedRects id unalignedContext none).1.x2 = 1003 := by
    rw [e]; exact f 1003
  rw [← f3, ← f1003]
  refine ⟨h.1.1, h.1.2.2.1, ?_⟩
  unfold integerRects
  rw [e]
  norm_num [unalignedContext, alignRect, floatToInt]
  decide

/-! ## The motion class and the shift of a page flip -/

/-- C21: `setIPUMotion` returns the low class exactly when a previous frame is chained and
the method is weave, the medium class exactly when a previous frame is chained and the
method is advanced motion or auto, and the high class in every other case: whenever no
previous frame is chained, and for every other method. `PrepareTask` calls it with
whether the previous buffer of the task is set and with the configured method. -/
theorem C21_motion_class (hasPrev : Bool) (imethod : EINTERLACEMETHOD) :
    (setIPUMotion hasPrev imethod = LOW_MOTION ↔
      hasPrev = true ∧ imethod = VS_INTERLACEMETHOD_IMX_WEAVE) ∧
    (setIPUMotion hasPrev imethod = MED_MOTION ↔
      hasPrev = true ∧ (imethod = VS_INTERLACEMETHOD_IMX_ADVMOTION
        ∨ imethod = VS_INTERLACEMETHOD_AUTO)) ∧
    (setIPUMotion hasPrev imethod = HIGH_MOTION ↔
      hasPrev = false ∨ (imethod ≠ VS_INTERLACEMETHOD_IMX_WEAVE
        ∧ imethod ≠ VS_INTERLACEMETHOD_IMX_ADVMOTION ∧ imethod ≠ VS_INTERLACEMETHOD_AUTO)) ∧
    (setIPUMotion false imethod = HIGH_MOTION) ∧
    (∀ (rnd : ℚ → ℚ) (c : CIMXContext) (source_p source : Option Nat),
      c.m_currentFieldFmt ≠ 0 →
      (PrepareTask rnd imethod c source_p source none).input_deinterlace.motion
        = setIPUMotion (decide (source_p ≠ none)) imethod) := by
  refine ⟨?_, ?_, ?_, ?_, ?_⟩
  · cases hasPrev <;> cases imethod <;> decide
  · cases hasPrev <;> cases imethod <;> decide
  · cases hasPrev <;> cases imethod <;> decide
  · cases imethod <;> decide
  · intro rnd c source_p source hf
    unfold PrepareTask
    simp only [hf, ne_eq, not_false_eq_true, if_true]

theorem and_two_flags_eq (f a b : Nat) :
    f &&& (2 ^ a ||| 2 ^ b) = 2 ^ a ||| 2 ^ b ↔ f.testBit a = true ∧ f.testBit b = true := by
  constructor
  · intro h
    have ha := congrArg (fun x => x.testBit a) h
    have hb := congrArg (fun x => x.testBit b) h
    simp [Nat.testBit_two_pow] at ha hb
    exact ⟨ha, hb⟩
  · rintro ⟨ha, hb⟩
    apply Nat.eq_of_testBit_eq
    intro i
    simp only [Nat.testBit_and, Nat.testBit_or, Nat.testBit_two_pow]
    by_cases h1 : a = i
    · subst h1; simp [ha]
    · by_cases h2 : b = i
      · subst h2; simp [hb]
      · simp [h1, h2]

theorem and_two_flags_eq_second (f a c : Nat) (hac : a ≠ c) :
    f &&& (2 ^ a ||| 2 ^ c) = 2 ^ c ↔ f.testBit c = true ∧ f.testBit a = false := by
  constructor
  · intro h
    have ha := congrArg (fun x => x.testBit a) h
    have hc := congrArg (fun x => x.testBit c) h
    simp [Nat.testBit_two_pow, hac, Ne.symm hac] at ha hc
    exact ⟨hc, ha⟩
  · rintro ⟨hc, ha⟩
    apply Nat.eq_of_testBit_eq
    intro i
    simp only [Nat.testBit_and, Nat.testBit_or, Nat.testBit_two_pow]
    by_cases h1 : a = i
    · subst h1; simp [ha, Ne.symm hac]
    · by_cases h2 : c = i
      · subst h2; simp [hc]
      · simp [h1, h2]

theorem and_two_flags_ne (f a b c : Nat) (hab : a ≠ b) (hcb : c ≠ b) :
    f &&& (2 ^ a ||| 2 ^ c) ≠ 2 ^ a ||| 2 ^ b := by
  intro h
  have hb := congrArg (fun x => x.testBit b) h
  simp [Nat.testBit_two_pow, hab, hcb] at hb

/-- C30: with the frame-1, top-field and bottom-field flags three distinct bits, the shift
that `checkIPUStrideOffset` computes from the field format `f` is, for the high motion
class, true exactly when frame-1 and top are both set in `f` or bottom is set and frame-1
is clear in `f`; for the medium motion class it is false for every `f`; for the low
motion class it is true for every `f`. -/
theorem C30_shift_parity (a b c f : Nat) (en : Bool) (hab : a ≠ b) (hac : a ≠ c) (hbc : b ≠ c) :
    (checkIPUStrideOffset (2 ^ a) (2 ^ b) (2 ^ c)
        { enable := en, motion := HIGH_MOTION, field_fmt := f } = true ↔
      (f.testBit a = true ∧ f.testBit b = true) ∨ (f.testBit c = true ∧ f.testBit a = false)) ∧
    checkIPUStrideOffset (2 ^ a) (2 ^ b) (2 ^ c)
        { enable := en, motion := MED_MOTION, field_fmt := f } = false ∧
    checkIPUStrideOffset (2 ^ a) (2 ^ b) (2 ^ c)
        { enable := en, motion := LOW_MOTION, field_fmt := f } = true := by
  refine ⟨?_, ?_, rfl⟩
  · simp only [checkIPUStrideOffset, Bool.or_eq_true, beq_iff_eq]
    rw [and_two_flags_eq, and_two_flags_eq_second f a c hac]
  · simp only [checkIPUStrideOffset, beq_eq_false_iff_ne]
    exact and_two_flags_ne f a b c hab (Ne.symm hbc)

/-- C30, witness: with frame-1 the bit 6, top the bit 1 and bottom the bit 0, the field
format with bottom and top set and frame-1 clear gives a shift for the high motion
class. -/
theorem C30_shift_parity_witness :
    checkIPUStrideOffset (2 ^ 6) (2 ^ 1) (2 ^ 0)
      { enable := true, motion := HIGH_MOTION, field_fmt := 3 } = true :=
  (C30_shift_parity 6 1 0 3 true (by decide) (by decide) (by decide)).1.mpr
    (Or.inr ⟨by decide, by decide⟩)

/-! ## The planes of a pool slot inside its memory block -/

theorem Align_bounds (x a : Nat) (ha : 0 < a) (h : x + a < 2 ^ 32) :
    x ≤ Align x a ∧ Align x a < x + a := by
  have h1 := Nat.div_mul_le_self (x + a - 1) a
  have h2 := Nat.lt_div_mul_add (a := x + a - 1) ha
  have e : Align x a = (x + a - 1) / a * a := by
    unfold Align u32
    rw [Nat.mod_eq_of_lt (show x < 2 ^ 32 by omega), Nat.mod_eq_of_lt (show a < 2 ^ 32 by omega),
      Nat.mod_eq_of_lt h, show (x + a + (2 ^ 32 - 1)) % 2 ^ 32 = x + a - 1 by omega]
    exact Nat.mod_eq_of_lt (by omega)
  rw [e]
  omega

theorem alignBase_bounds (l : FrameLayout) (addr : Nat) (hn : 0 ≤ l.nAlign) (hn31 : l.nAlign < 2 ^ 31)
    (h : (addr : Int) + l.nAlign < 2 ^ 32) :
    addr ≤ alignBase l addr ∧ ((alignBase l addr : Nat) : Int) ≤ addr + l.nAlign := by
  unfold alignBase
  have hu : u32 addr = addr := u32_of_lt _ (by omega)
  rw [hu]
  split_ifs with h1
  · have hc := natCast_toUnsigned l.nAlign hn (by omega)
    obtain ⟨b1, b2⟩ := Align_bounds addr (toUnsigned l.nAlign) (by omega) (by omega)
    exact ⟨b1, by omega⟩
  · exact ⟨le_refl _, by omega⟩

theorem ptrAdd_of_range (p : Nat) (n : Int) (h0 : 0 ≤ (p : Int) + n) (h1 : (p : Int) + n < 2 ^ 32) :
    ((ptrAdd p n : Nat) : Int) = p + n := by
  unfold ptrAdd toUnsigned
  omega

/-- The planes that `VpuAllocFrameBuffers` lays out in a block follow one another and lie
inside the block, at the physical and at the virtual address, also after the base
address was rounded up to a multiple of the alignment. -/
theorem fillFrameBuffer_inside (i420 : Bool) (l : FrameLayout) (m : VpuMemDesc)
    (hl : layoutInRange l) (hb : blockInRange l m) :
    planesInside i420 l m.nPhyAddr (totalSize l) (fillFrameBuffer i420 l m).pbufY
      (fillFrameBuffer i420 l m).pbufCb (fillFrameBuffer i420 l m).pbufCr
      (fillFrameBuffer i420 l m).pbufMvCol ∧
    planesInside i420 l m.nVirtAddr (totalSize l) (fillFrameBuffer i420 l m).pbufVirtY
      (fillFrameBuffer i420 l m).pbufVirtCb (fillFrameBuffer i420 l m).pbufVirtCr
      (fillFrameBuffer i420 l m).pbufVirtMvCol := by
  obtain ⟨y0, u0, v0, m0, n0, hsum⟩ := hl
  have ht : totalSize l = l.ySize + l.uSize + l.vSize + l.mvSize + l.nAlign :=
    wrapInt_of_range _ (by omega) (by omega)
  obtain ⟨hb1, hb2⟩ := hb
  rw [ht] at hb1 hb2
  have key : ∀ addr : Nat, (addr : Int) + (l.ySize + l.uSize + l.vSize + l.mvSize + l.nAlign) < 2 ^ 32 →
      planesInside i420 l addr (totalSize l) (alignBase l addr)
        (ptrAdd (alignBase l addr) l.ySize)
        (if i420 = true then ptrAdd (ptrAdd (alignBase l addr) l.ySize) l.uSize else 0)
        (ptrAdd (ptrAdd (ptrAdd (alignBase l addr) l.ySize) l.uSize) l.vSize) := by
    intro addr h
    obtain ⟨a1, a2⟩ := alignBase_bounds l addr n0 (by omega) (by omega)
    have e1 := ptrAdd_of_range (alignBase l addr) l.ySize (by omega) (by omega)
    have e2 := ptrAdd_of_range (ptrAdd (alignBase l addr) l.ySize) l.uSize (by omega) (by omega)
    have e3 := ptrAdd_of_range (ptrAdd (ptrAdd (alignBase l addr) l.ySize) l.uSize) l.vSize
      (by omega) (by omega)
    rw [ht]
    refine ⟨a1, e1, ?_, by omega, by omega⟩
    intro hi
    rw [if_pos hi]
    exact e2
  exact ⟨key _ hb1, key _ hb2⟩

/-- The slots that a successful run of the allocation loop fills: slot `j` is laid out in
the block that the allocator returns for the `(j - i)`-th request of the run. -/
theorem allocFrameLoop_block (o : Vpu) (i420 : Bool) (l : FrameLayout) (k : Nat) :
    ∀ (i : Nat) (s s2 : CDVDVideoCodecIMX) (F : List VpuFrameBuffer),
    allocFrameLoop o i420 l k i s = (s2, true) →
    s.m_vpuFrameBuffers = some F → i + k ≤ F.length →
    ∃ F2, s2.m_vpuFrameBuffers = some F2 ∧ F2.length = F.length ∧
      (∀ j, j < i → F2.getD j default = F.getD j default) ∧
      (∀ j, i ≤ j → j < i + k →
        F2.getD j default = fillFrameBuffer i420 l
          { o.memDesc (s.world.calls.length + (j - i)) with nSize := totalSize l }) := by
  induction k with
  | zero =>
    intro i s s2 F hrun hF _
    simp only [allocFrameLoop, Prod.mk.injEq, and_true] at hrun
    subst hrun
    exact ⟨F, hF, rfl, fun j _ => rfl, fun j h1 h2 => by omega⟩
  | succ k ih =>
    intro i s s2 F hrun hF hFl
    unfold allocFrameLoop at hrun
    split_ifs at hrun with hret
    · simp at hrun
    · obtain ⟨e1, _, _, _, e5, _⟩ := allocFrameStep_fields o i420 l i s
      rw [hF] at e1
      obtain ⟨F2, hF2, hl1, hlow, hhigh⟩ := ih (i + 1) _ s2 _ hrun e1 (by simp; omega)
      refine ⟨F2, hF2, by simpa using hl1, ?_, ?_⟩
      · intro j hj
        rw [hlow j (by omega), getD_set_ne _ _ _ _ _ (by omega)]
      · intro j hj1 hj2
        by_cases hji : j = i
        · subst hji
          rw [hlow j (by omega), getD_set_same _ _ _ _ (by omega), Nat.sub_self, Nat.add_zero]
        · rw [hhigh j (by omega) (by omega), e5]
          simp only [List.length_append, List.length_singleton]
          rw [show s.world.calls.length + 1 + (j - (i + 1)) = s.world.calls.length + (j - i) by
            omega]

theorem Align_zero (a : Nat) : Align 0 a = 0 := by
  unfold Align
  have h0 : u32 0 = 0 := rfl
  rw [h0, Nat.zero_add]
  have hu : u32 (u32 a) = u32 a := u32_of_lt _ (u32_lt a)
  rw [hu]
  rcases Nat.eq_zero_or_pos (u32 a) with h | h
  · rw [h]; rfl
  · have h2 := u32_lt a
    have e : u32 (u32 a + (2 ^ 32 - 1)) = u32 a - 1 := by
      unfold u32 at h h2 ⊢
      omega
    rw [e, Nat.div_eq_of_lt (by omega), Nat.zero_mul]
    rfl

/-- The layout that `planeSizes` computes without the macro `IMX_INPUT_FORMAT_I420` has no
second chroma plane, also after the sizes are aligned. -/
theorem alignSizes_vSize (info : VpuDecInitInfo) (l0 : FrameLayout)
    (h : planeSizes false info = some l0) : (alignSizes l0).vSize = 0 := by
  have hv : l0.vSize = 0 := by
    unfold planeSizes at h
    simp only [Bool.false_eq_true, if_false, Option.some.injEq] at h
    subst h
    rfl
  unfold alignSizes
  split_ifs
  · simp only [hv]
    have e : toUnsigned 0 = 0 := rfl
    rw [e, Align_zero]
    rfl
  · exact hv

/-- C28: when the sizes of the layout that `VpuAllocFrameBuffers` computes from the stream
info are not negative and add up, with the alignment `n`, without 32-bit overflow, and
each block the allocator returns ends below the top of the address space, then in every
pool slot the luma, chroma and motion vector planes follow one another without a gap or
an overlap and lie inside the block of `ySize + uSize + vSize + mvSize + n` bytes that
was requested for the slot, at the physical and at the virtual address, also after the
base address was rounded up to a multiple of `n`. -/
theorem C28_planes_inside_block (o : Vpu) (i420 : Bool) (s s2 : CDVDVideoCodecIMX)
    (l0 : FrameLayout) (hrun : VpuAllocFrameBuffers o i420 s = (s2, true))
    (hl0 : planeSizes i420 s.m_initInfo = some l0)
    (hl : layoutInRange (alignSizes l0))
    (hb : ∀ j, j < s.m_initInfo.nMinFrameBufferCount + m_extraVpuBuffers →
      blockInRange (alignSizes l0) (o.memDesc (s.world.calls.length + j))) :
    totalSize (alignSizes l0) = (alignSizes l0).ySize + (alignSizes l0).uSize
      + (alignSizes l0).vSize + (alignSizes l0).mvSize + (alignSizes l0).nAlign ∧
    (i420 = false → (alignSizes l0).vSize = 0) ∧
    ∃ F2, s2.m_vpuFrameBuffers = some F2 ∧ F2.length = s2.m_vpuFrameBufferNum ∧
      ∀ j, j < s2.m_vpuFrameBufferNum →
        planesInside i420 (alignSizes l0) (o.memDesc (s.world.calls.length + j)).nPhyAddr
          (totalSize (alignSizes l0)) (F2.getD j default).pbufY (F2.getD j default).pbufCb
          (F2.getD j default).pbufCr (F2.getD j default).pbufMvCol ∧
        planesInside i420 (alignSizes l0) (o.memDesc (s.world.calls.length + j)).nVirtAddr
          (totalSize (alignSizes l0)) (F2.getD j default).pbufVirtY
          (F2.getD j default).pbufVirtCb (F2.getD j default).pbufVirtCr
          (F2.getD j default).pbufVirtMvCol := by
  obtain ⟨l1, F, B, hl1, h1, _, h3, _, _, h6, _⟩ := VpuAllocFrameBuffers_spec o i420 s s2 hrun
  refine ⟨wrapInt_of_range _ (by unfold layoutInRange at hl; omega)
    (by unfold layoutInRange at hl; omega), ?_, F, h1, by omega, ?_⟩
  · intro hi
    subst hi
    exact alignSizes_vSize _ _ hl0
  · intro j hj
    unfold VpuAllocFrameBuffers at hrun
    simp only [hl0] at hrun
    obtain ⟨F2, hF2, _, _, hhigh⟩ :=
      allocFrameLoop_block o i420 (alignSizes l0) _ 0 _ s2 _ hrun rfl (by simp)
    rw [h1] at hF2
    cases hF2
    have e := hhigh j (Nat.zero_le j) (by omega)
    rw [Nat.sub_zero] at e
    have e2 : F.getD j default = fillFrameBuffer i420 (alignSizes l0)
        { o.memDesc (s.world.calls.length + j) with nSize := totalSize (alignSizes l0) } := e
    rw [e2]
    exact fillFrameBuffer_inside i420 (alignSizes l0) _ hl (hb j (by omega))

/-- C28, witness: the example stream of 1920 by 1080 with alignment 4096 and the example
allocator, whose blocks are 4 MiB apart; the planes of each of the eight slots lie in the
block of the slot. -/
theorem C28_planes_inside_block_witness :
    ∃ F2, (VpuAllocFrameBuffers (exampleVpu noFlags) false exampleSession).1.m_vpuFrameBuffers
        = some F2 ∧
      F2.length = (VpuAllocFrameBuffers (exampleVpu noFlags) false exampleSession).1.m_vpuFrameBufferNum ∧
      ∀ j, j < (VpuAllocFrameBuffers (exampleVpu noFlags) false exampleSession).1.m_vpuFrameBufferNum →
        planesInside false
          (alignSizes ((planeSizes false exampleSession.m_initInfo).getD default))
          ((exampleVpu noFlags).memDesc (exampleSession.world.calls.length + j)).nPhyAddr
          (totalSize (alignSizes ((planeSizes false exampleSession.m_initInfo).getD default)))
          (F2.getD j default).pbufY (F2.getD j default).pbufCb
          (F2.getD j default).pbufCr (F2.getD j default).pbufMvCol ∧
        planesInside false
          (alignSizes ((planeSizes false exampleSession.m_initInfo).getD default))
          ((exampleVpu noFlags).memDesc (exampleSession.world.calls.length + j)).nVirtAddr
          (totalSize (alignSizes ((planeSizes false exampleSession.m_initInfo).getD default)))
          (F2.getD j default).pbufVirtY (F2.getD j default).pbufVirtCb
          (F2.getD j default).pbufVirtCr (F2.getD j default).pbufVirtMvCol :=
  (C28_planes_inside_block (exampleVpu noFlags) false exampleSession
    (VpuAllocFrameBuffers (exampleVpu noFlags) false exampleSession).1
    ((planeSizes false exampleSession.m_initInfo).getD default)
    (Prod.ext rfl (by decide)) (by decide) (by decide) (by decide)).2.2

/-! ## The current buffer at the return of `Decode` -/

theorem cur_VpuFreeBuffers (o : Vpu) (s : CDVDVideoCodecIMX) :
    (VpuFreeBuffers o s).1.m_currentBuffer = s.m_currentBuffer := by
  rw [VpuFreeBuffers_fields]

theorem cur_allocBuffersLoop (o : Vpu) (bs : List VpuMemSubBlock) (s : CDVDVideoCodecIMX) :
    (allocBuffersLoop o bs s).1.m_currentBuffer = s.m_currentBuffer := by
  induction bs generalizing s with
  | nil => rfl
  | cons b bs ih =>
    unfold allocBuffersLoop
    simp only
    split_ifs
    · rfl
    · rw [ih]; rfl
    · rfl
    · rw [ih]; rfl

theorem cur_VpuAllocBuffers (o : Vpu) (m : List VpuMemSubBlock) (s : CDVDVideoCodecIMX) :
    (VpuAllocBuffers o m s).1.m_currentBuffer = s.m_currentBuffer := by
  unfold VpuAllocBuffers
  simp only
  split_ifs
  · exact cur_allocBuffersLoop o m s
  · rw [cur_VpuFreeBuffers, cur_allocBuffersLoop]

theorem cur_Dispose (o : Vpu) (s : CDVDVideoCodecIMX) : (Dispose o s).m_currentBuffer = none :=
  (Dispose_spec o s).2.2.2.2.2.2.2.1

theorem cur_VpuOpen (o : Vpu) (s : CDVDVideoCodecIMX) (hs : s.m_currentBuffer = none) :
    (VpuOpen o s).1.m_currentBuffer = none := by
  unfold VpuOpen
  simp only
  cases h1 : mustSucceed o s VpuCall.DecLoad with
  | none => exact cur_Dispose o _
  | some s1 =>
  have e1 : s1.m_currentBuffer = none := by
    rw [mustSucceed_some o s s1 _ h1]; exact hs
  simp only
  cases h2 : mustSucceed o s1 VpuCall.DecGetVersionInfo with
  | none => exact cur_Dispose o _
  | some s2 =>
  have e2 : s2.m_currentBuffer = none := by
    rw [mustSucceed_some o s1 s2 _ h2]; exact e1
  simp only
  cases h3 : mustSucceed o s2 VpuCall.DecQueryMem with
  | none => exact cur_Dispose o _
  | some s3 =>
  have e3 : s3.m_currentBuffer = none := by
    rw [mustSucceed_some o s2 s3 _ h3]; exact e2
  simp only
  have e4 : (VpuAllocBuffers o (o.memInfo s2.world.calls.length) s3).1.m_currentBuffer = none := by
    rw [cur_VpuAllocBuffers]; exact e3
  split_ifs with hal
  · exact cur_Dispose o _
  · cases h5 : mustSucceed o (VpuAllocBuffers o (o.memInfo s2.world.calls.length) s3).1
        VpuCall.DecOpen with
    | none => exact cur_Dispose o _
    | some s5 =>
    have e5 : s5.m_currentBuffer = none := by
      rw [mustSucceed_some o _ s5 _ h5]; exact e4
    simp only
    cases h7 : mustSucceed o
        { s5 with m_vpuHandle :=
            o.handle (VpuAllocBuffers o (o.memInfo s2.world.calls.length) s3).1.world.calls.length }
        (VpuCall.DecConfig
          (o.handle (VpuAllocBuffers o (o.memInfo s2.world.calls.length) s3).1.world.calls.length))
      with
    | none => exact cur_Dispose o _
    | some s7 =>
    have e7 : s7.m_currentBuffer = none := by
      rw [mustSucceed_some o _ s7 _ h7]; exact e5
    simp only
    cases h8 : mustSucceed o s7 (VpuCall.DecConfig s7.m_vpuHandle) with
    | none => exact cur_Dispose o _
    | some s8 =>
    have e8 : s8.m_currentBuffer = none := by
      rw [mustSucceed_some o _ s8 _ h8]; exact e7
    simp only
    cases h9 : mustSucceed o s8 (VpuCall.DecConfig s8.m_vpuHandle) with
    | none => exact cur_Dispose o _
    | some s9 =>
    have e9 : s9.m_currentBuffer = none := by
      rw [mustSucceed_some o _ s9 _ h9]; exact e8
    simp only
    exact e9

theorem cur_beginDecode (o : Vpu) (s : CDVDVideoCodecIMX) :
    (beginDecode o s).m_currentBuffer = none := by
  unfold beginDecode
  simp only
  split_ifs
  · exact cur_VpuOpen o _ rfl
  · rfl

theorem cur_recycleLoop (o : Vpu) (k i : Nat) (s : CDVDVideoCodecIMX) :
    (recycleLoop o k i s).m_currentBuffer = s.m_currentBuffer := by
  rw [recycleLoop_fields]

theorem cur_allocFrameLoop (o : Vpu) (i420 : Bool) (l : FrameLayout) (k i : Nat)
    (s : CDVDVideoCodecIMX) :
    (allocFrameLoop o i420 l k i s).1.m_currentBuffer = s.m_currentBuffer := by
  induction k generalizing i s with
  | zero => rfl
  | succ k ih =>
    unfold allocFrameLoop
    split_ifs
    · rfl
    · rw [ih]; rfl

theorem cur_VpuAllocFrameBuffers (o : Vpu) (i420 : Bool) (s : CDVDVideoCodecIMX) :
    (VpuAllocFrameBuffers o i420 s).1.m_currentBuffer = s.m_currentBuffer := by
  unfold VpuAllocFrameBuffers
  simp only
  cases planeSizes i420 s.m_initInfo with
  | none => rfl
  | some l0 => simp only; rw [cur_allocFrameLoop]

theorem cur_decodeCall (o : Vpu) (s : CDVDVideoCodecIMX) (nSize : Int) :
    (decodeCall o s nSize).1.m_currentBuffer = s.m_currentBuffer := by
  unfold decodeCall
  simp only
  split_ifs
  all_goals first
    | rfl
    | (rw [cur_VpuFreeBuffers]; rfl)

theorem cur_handleInit (o : Vpu) (i420 : Bool) (s : CDVDVideoCodecIMX)
    (decRet : VpuDecBufRetCode) :
    (handleInit o i420 s decRet).1.m_currentBuffer = s.m_currentBuffer := by
  unfold handleInit
  simp only
  split_ifs
  all_goals first
    | rfl
    | (simp only [logCall]; rw [cur_VpuAllocFrameBuffers])

theorem cur_handleConsumed (o : Vpu) (s : CDVDVideoCodecIMX) (decRet : VpuDecBufRetCode)
    (pts : Int) : (handleConsumed o s decRet pts).m_currentBuffer = s.m_currentBuffer := by
  unfold handleConsumed
  simp only
  repeat' split
  all_goals rfl

theorem handleDisplay_held (o : Vpu) (s : CDVDVideoCodecIMX) (retStatus : Nat) (dts pts : Int)
    (hs : s.m_currentBuffer = none) (hr : retStatus = 0 ∨ retStatus = VC_FLUSHED) :
    pictureHeld (handleDisplay o s retStatus dts pts) := by
  have hp : retStatus ||| VC_PICTURE = VC_PICTURE ∨ retStatus ||| VC_PICTURE = VC_FLUSHED ||| VC_PICTURE := by
    rcases hr with h | h
    · left; rw [h]; rfl
    · right; rw [h]
  unfold handleDisplay
  simp only
  repeat' split
  all_goals first
    | exact Or.inl ⟨hs, hr⟩
    | exact Or.inr ⟨by simp [setHeap], rfl, hp⟩

theorem handleOutput_held (o : Vpu) (s : CDVDVideoCodecIMX) (decRet : VpuDecBufRetCode)
    (retStatus : Nat) (dts pts : Int)
    (hs : s.m_currentBuffer = none) (hr : retStatus = 0 ∨ retStatus = VC_FLUSHED) :
    pictureHeld (handleOutput o s decRet retStatus dts pts) ∧
    (decRet.VPU_DEC_OUTPUT_DIS = false →
      (handleOutput o s decRet retStatus dts pts).1.m_currentBuffer = none ∧
      ((handleOutput o s decRet retStatus dts pts).2.1 = 0 ∨
        (handleOutput o s decRet retStatus dts pts).2.1 = VC_FLUSHED)) := by
  have hm : (handleMosaic o s).1.m_currentBuffer = none := by
    unfold handleMosaic
    simp only
    split_ifs <;> exact hs
  unfold handleOutput
  split_ifs with h1 h2 h3 h4 h5 h6
  · exact ⟨handleDisplay_held o s retStatus dts pts hs hr, fun h => by rw [h1] at h; cases h⟩
  · exact ⟨Or.inl ⟨hm, hr⟩, fun _ => ⟨hm, hr⟩⟩
  · exact ⟨Or.inl ⟨hs, hr⟩, fun _ => ⟨hs, hr⟩⟩
  · exact ⟨Or.inl ⟨hs, hr⟩, fun _ => ⟨hs, hr⟩⟩
  · exact ⟨Or.inl ⟨hs, hr⟩, fun _ => ⟨hs, hr⟩⟩
  · exact ⟨Or.inl ⟨(Reset_spec o s).2.1, Or.inr rfl⟩, fun _ => ⟨(Reset_spec o s).2.1, Or.inr rfl⟩⟩
  · exact ⟨Or.inl ⟨hs, hr⟩, fun _ => ⟨hs, hr⟩⟩

theorem decodePass_held (o : Vpu) (i420 : Bool) (dts pts : Int) (s : CDVDVideoCodecIMX)
    (nSize : Int) (retStatus : Nat)
    (hs : s.m_currentBuffer = none) (hr : retStatus = 0 ∨ retStatus = VC_FLUSHED) :
    pictureHeld (decodePass o i420 dts pts s nSize retStatus) ∧
    ((o.decRet s.world.calls.length).VPU_DEC_OUTPUT_DIS = false →
      (decodePass o i420 dts pts s nSize retStatus).1.m_currentBuffer = none ∧
      ((decodePass o i420 dts pts s nSize retStatus).2.1 = 0 ∨
        (decodePass o i420 dts pts s nSize retStatus).2.1 = VC_FLUSHED)) := by
  have ha : (decodeCall o s nSize).1.m_currentBuffer = none := by rw [cur_decodeCall]; exact hs
  have hb : (handleInit o i420 (decodeCall o s nSize).1
      (o.decRet s.world.calls.length)).1.m_currentBuffer = none := by
    rw [cur_handleInit]; exact ha
  have hc : (handleConsumed o (handleInit o i420 (decodeCall o s nSize).1
      (o.decRet s.world.calls.length)).1 (o.decRet s.world.calls.length) pts).m_currentBuffer
      = none := by
    rw [cur_handleConsumed]; exact hb
  unfold decodePass
  simp only [decodeCall_decRet]
  split_ifs
  · exact ⟨Or.inl ⟨ha, hr⟩, fun _ => ⟨ha, hr⟩⟩
  · exact ⟨Or.inl ⟨hb, hr⟩, fun _ => ⟨hb, hr⟩⟩
  · exact handleOutput_held o _ _ retStatus dts pts hc hr

theorem decodeLoop_held (o : Vpu) (i420 : Bool) (dts pts : Int) (fuel : Nat)
    (s : CDVDVideoCodecIMX) (nSize : Int) (retries retStatus : Nat)
    (r : CDVDVideoCodecIMX × Nat × Bool)
    (h : decodeLoop o i420 dts pts fuel s nSize retries retStatus = some r)
    (hs : s.m_currentBuffer = none) (hr : retStatus = 0 ∨ retStatus = VC_FLUSHED) :
    pictureHeld r := by
  refine decodeLoop_rule o i420 dts pts
    (fun s retStatus r => s.m_currentBuffer = none → (retStatus = 0 ∨ retStatus = VC_FLUSHED) →
      pictureHeld r) ?_ ?_ fuel s nSize retries retStatus r h hs hr
  · intro s nSize retStatus hs hr
    exact (decodePass_held o i420 dts pts s nSize retStatus hs hr).1
  · intro s nSize retStatus r _ hdone ih hs hr
    have hdis : (o.decRet s.world.calls.length).VPU_DEC_OUTPUT_DIS = false := by
      simp only [loopDone, Bool.or_eq_false_iff] at hdone
      exact hdone.2
    obtain ⟨h1, h2⟩ := (decodePass_held o i420 dts pts s nSize retStatus hs hr).2 hdis
    exact ih h1 h2

/-- At the return of `Decode` there is no current buffer and the status is the decode
error, "more input" or "flushed", or there is a current buffer and the status is
"picture ready", alone or with "flushed". -/
theorem Decode_held (o : Vpu) (i420 : Bool) (s : CDVDVideoCodecIMX) (pData : Bool)
    (iSize : Int) (converted : Option Int) (dts pts : Int) :
    ((Decode o i420 s pData iSize converted dts pts).1.m_currentBuffer = none ∧
      ((Decode o i420 s pData iSize converted dts pts).2 = VC_ERROR ∨
       (Decode o i420 s pData iSize converted dts pts).2 = VC_BUFFER ∨
       (Decode o i420 s pData iSize converted dts pts).2 = VC_FLUSHED)) ∨
    ((Decode o i420 s pData iSize converted dts pts).1.m_currentBuffer ≠ none ∧
      ((Decode o i420 s pData iSize converted dts pts).2 = VC_PICTURE ∨
       (Decode o i420 s pData iSize converted dts pts).2 = VC_FLUSHED ||| VC_PICTURE)) := by
  have hfin : ∀ x : CDVDVideoCodecIMX × Nat × Bool, pictureHeld x →
      ((finishDecode pts x).1.m_currentBuffer = none ∧
        ((finishDecode pts x).2 = VC_ERROR ∨ (finishDecode pts x).2 = VC_BUFFER ∨
         (finishDecode pts x).2 = VC_FLUSHED)) ∨
      ((finishDecode pts x).1.m_currentBuffer ≠ none ∧
        ((finishDecode pts x).2 = VC_PICTURE ∨ (finishDecode pts x).2 = VC_FLUSHED ||| VC_PICTURE)) := by
    rintro ⟨t, st, ok⟩ hx
    have hcur : (finishDecode pts (t, st, ok)).1.m_currentBuffer = t.m_currentBuffer := by
      unfold finishDecode
      simp only
      split_ifs <;> rfl
    rw [hcur]
    unfold finishDecode
    rcases hx with ⟨h1, h2⟩ | ⟨h1, h2, h3⟩
    · left
      refine ⟨h1, ?_⟩
      simp only at h2 ⊢
      by_cases hok : ok = false
      · rw [if_pos hok]; exact Or.inl rfl
      · rw [if_neg hok]
        rcases h2 with h | h
        · subst h; exact Or.inr (Or.inl rfl)
        · subst h; exact Or.inr (Or.inr rfl)
    · right
      refine ⟨h1, ?_⟩
      simp only at h2 h3 ⊢
      subst h2
      simp only [Bool.true_eq_false, if_false]
      rcases h3 with h | h
      · subst h; exact Or.inl rfl
      · subst h; exact Or.inr rfl
  rcases Decode_run o i420 s pData iSize converted dts pts with ⟨_, hD⟩ | ⟨_, r, hr, hD⟩
  · rw [hD]
    exact Or.inl ⟨cur_beginDecode o s, Or.inl rfl⟩
  · rw [hD]
    apply hfin
    have hscan : (recycleLoop o (beginDecode o s).m_vpuFrameBufferNum 0
        (beginDecode o s)).m_currentBuffer = none := by
      rw [cur_recycleLoop]; exact cur_beginDecode o s
    rcases hr with rfl | ⟨nSize, hr⟩
    · exact Or.inl ⟨hscan, Or.inl rfl⟩
    · exact decodeLoop_held o i420 dts pts _ _ _ _ _ r hr hscan (Or.inl rfl)

theorem markDropped_spec (s : CDVDVideoCodecIMX) (pic : DVDVideoPicture) :
    (markDropped s pic).1.m_currentBuffer = s.m_currentBuffer ∧
    (markDropped s pic).1.m_dropState = false ∧
    (markDropped s pic).1.m_frameCounter = s.m_frameCounter ∧
    (markDropped s pic).2.iFlags = (if s.m_dropState = true then DVP_FLAG_DROPPED else pic.iFlags) ∧
    (markDropped s pic).2.IMXBuffer = pic.IMXBuffer := by
  unfold markDropped
  cases hd : s.m_dropState
  · rw [if_neg (by decide), if_neg (by decide)]
    exact ⟨rfl, hd, rfl, rfl, rfl⟩
  · rw [if_pos rfl, if_pos rfl]
    exact ⟨rfl, rfl, rfl, rfl, rfl⟩

theorem GetPicture_isSome (s : CDVDVideoCodecIMX) (pic : DVDVideoPicture)
    (h : s.m_currentBuffer ≠ none) : (GetPicture s pic).isSome = true := by
  obtain ⟨b, hb⟩ := Option.ne_none_iff_exists'.mp h
  unfold GetPicture
  simp only
  by_cases hc : (markDropped s pic).1.m_frameCounter ≠ 0
      ∧ (markDropped s pic).2.iFlags = DVP_FLAG_DROPPED
  · rw [if_pos hc]
    rfl
  · rw [if_neg hc, (markDropped_spec s pic).1, hb]
    rfl

/-- C26: at every return of `Decode` the session holds a current buffer if and only if the
returned status contains the picture-ready bit. On the return of the decode-error
status, of the status "more input" alone and of the status "flushed" alone no current
buffer is held; and after a status with the picture-ready bit `GetPicture` finds a
current buffer: it does not dereference a null pointer. -/
theorem C26_current_buffer_iff_picture (o : Vpu) (i420 : Bool) (s : CDVDVideoCodecIMX)
    (pData : Bool) (iSize : Int) (converted : Option Int) (dts pts : Int) :
    ((Decode o i420 s pData iSize converted dts pts).1.m_currentBuffer ≠ none ↔
      (Decode o i420 s pData iSize converted dts pts).2 &&& VC_PICTURE ≠ 0) ∧
    ((Decode o i420 s pData iSize converted dts pts).2 = VC_ERROR →
      (Decode o i420 s pData iSize converted dts pts).1.m_currentBuffer = none) ∧
    ((Decode o i420 s pData iSize converted dts pts).2 = VC_BUFFER →
      (Decode o i420 s pData iSize converted dts pts).1.m_currentBuffer = none) ∧
    ((Decode o i420 s pData iSize converted dts pts).2 = VC_FLUSHED →
      (Decode o i420 s pData iSize converted dts pts).1.m_currentBuffer = none) ∧
    ((Decode o i420 s pData iSize converted dts pts).2 &&& VC_PICTURE ≠ 0 →
      ∀ pic, (GetPicture (Decode o i420 s pData iSize converted dts pts).1 pic).isSome = true) := by
  have key : ∀ (cur : Option Nat) (st : Nat),
      ((cur = none ∧ (st = VC_ERROR ∨ st = VC_BUFFER ∨ st = VC_FLUSHED)) ∨
        (cur ≠ none ∧ (st = VC_PICTURE ∨ st = VC_FLUSHED ||| VC_PICTURE))) →
      (cur ≠ none ↔ st &&& VC_PICTURE ≠ 0) := by
    intro cur st h
    rcases h with ⟨h1, h2 | h2 | h2⟩ | ⟨h1, h2 | h2⟩ <;> subst h2
    · exact ⟨fun h => absurd h1 h, fun h => absurd rfl h⟩
    · exact ⟨fun h => absurd h1 h, fun h => absurd rfl h⟩
    · exact ⟨fun h => absurd h1 h, fun h => absurd rfl h⟩
    · exact ⟨fun _ => by decide, fun _ => h1⟩
    · exact ⟨fun _ => by decide, fun _ => h1⟩
  have hD := Decode_held o i420 s pData iSize converted dts pts
  have hiff := key _ _ hD
  refine ⟨hiff, ?_, ?_, ?_, ?_⟩
  · intro h
    by_contra hc
    have := hiff.mp hc
    rw [h] at this
    exact this rfl
  · intro h
    by_contra hc
    have := hiff.mp hc
    rw [h] at this
    exact this rfl
  · intro h
    by_contra hc
    have := hiff.mp hc
    rw [h] at this
    exact this rfl
  · intro h pic
    exact GetPicture_isSome _ pic (hiff.mpr h)

/-! ## The drop mark and `GetPicture` -/

theorem deliveredFlags_not_dropped (s : CDVDVideoCodecIMX) (b : Nat) :
    deliveredFlags s b ≠ DVP_FLAG_DROPPED ∧ deliveredFlags s b &&& DVP_FLAG_DROPPED = 0 ∧
    deliveredFlags s b &&& DVP_FLAG_ALLOCATED = DVP_FLAG_ALLOCATED := by
  unfold deliveredFlags
  simp only
  split_ifs <;> decide

theorem GetPicture_dropState (s : CDVDVideoCodecIMX) (pic : DVDVideoPicture)
    (r : CDVDVideoCodecIMX × DVDVideoPicture) (h : GetPicture s pic = some r) :
    r.1.m_dropState = false := by
  have hm := (markDropped_spec s pic).2.1
  unfold GetPicture at h
  simp only at h
  split_ifs at h
  · cases h
    exact hm
  · rw [(markDropped_spec s pic).1] at h
    cases hb : s.m_currentBuffer with
    | none => rw [hb] at h; cases h
    | some b =>
      rw [hb] at h
      cases h
      exact hm

/-- C25 (amended): a decoder response with repeat-requested, and with neither the
frame-displayable nor the mosaic flag, sets the drop mark and ends the decode loop. The
next `GetPicture` consumes the mark: if it is not the first picture since the session
was opened, reset or disposed (the frame counter is not zero), the picture is flagged as
dropped, the current buffer is released and not handed over; if it is the first picture
(the frame counter is zero), the current buffer is delivered as a picture that is not
flagged as dropped. In both cases the mark is cleared, and without the mark a picture
structure that does not carry the dropped flag on entry is not flagged as dropped. -/
theorem C25_drop_mark (o : Vpu) (s t : CDVDVideoCodecIMX) (decRet : VpuDecBufRetCode)
    (retStatus : Nat) (dts pts : Int) (pic : DVDVideoPicture) :
    (decRet.VPU_DEC_OUTPUT_REPEAT = true → decRet.VPU_DEC_OUTPUT_DIS = false →
      decRet.VPU_DEC_OUTPUT_MOSAIC_DIS = false →
      (handleOutput o t decRet retStatus dts pts).1.m_dropState = true ∧
      loopDone decRet = true) ∧
    (s.m_dropState = true → s.m_frameCounter ≠ 0 →
      ∃ r, GetPicture s pic = some r ∧ r.2 = { pic with iFlags := DVP_FLAG_DROPPED } ∧
        r.1.m_dropState = false ∧ r.1.m_currentBuffer = none) ∧
    (s.m_dropState = true → s.m_frameCounter = 0 → ∀ b, s.m_currentBuffer = some b →
      ∃ r, GetPicture s pic = some r ∧ r.2.iFlags ≠ DVP_FLAG_DROPPED ∧
        r.2.iFlags &&& DVP_FLAG_DROPPED = 0 ∧
        r.2.iFlags &&& DVP_FLAG_ALLOCATED = DVP_FLAG_ALLOCATED ∧
        r.2.IMXBuffer = some b ∧ r.1.m_dropState = false) ∧
    (∀ r, GetPicture s pic = some r → r.1.m_dropState = false) ∧
    (s.m_dropState = false → pic.iFlags ≠ DVP_FLAG_DROPPED →
      ∀ r, GetPicture s pic = some r → r.2.iFlags ≠ DVP_FLAG_DROPPED) := by
  obtain ⟨m1, m2, m3, m4, m5⟩ := markDropped_spec s pic
  refine ⟨?_, ?_, ?_, GetPicture_dropState s pic, ?_⟩
  · intro hrep hdis hmos
    refine ⟨?_, ?_⟩
    · unfold handleOutput
      simp only [hdis, hmos, hrep, Bool.false_eq_true, if_false, if_true]
    · simp only [loopDone, hrep, Bool.or_true, Bool.true_or]
  · intro hd hc
    have hm : markDropped s pic
        = ({ s with m_dropState := false }, { pic with iFlags := DVP_FLAG_DROPPED }) := by
      unfold markDropped
      rw [if_pos hd]
    unfold GetPicture
    simp only [hm]
    rw [if_pos ⟨hc, trivial⟩]
    exact ⟨_, rfl, rfl, rfl, rfl⟩
  · intro hd hc b hb
    unfold GetPicture
    simp only
    rw [if_neg (fun h => h.1 (m3.trans hc)), m1, hb]
    refine ⟨_, rfl, ?_, ?_, ?_, rfl, m2⟩
    · exact (deliveredFlags_not_dropped _ b).1
    · exact (deliveredFlags_not_dropped _ b).2.1
    · exact (deliveredFlags_not_dropped _ b).2.2
  · intro hd hp r h
    have hf : (markDropped s pic).2.iFlags ≠ DVP_FLAG_DROPPED := by
      rw [m4, hd]
      exact hp
    unfold GetPicture at h
    simp only at h
    rw [if_neg (fun h => hf h.2), m1] at h
    cases hb : s.m_currentBuffer with
    | none => rw [hb] at h; cases h
    | some b =>
      rw [hb] at h
      cases h
      exact (deliveredFlags_not_dropped _ b).1

/-- C25, witness: in a session that has delivered five pictures and holds the drop mark and
a current buffer, the next picture is flagged as dropped and the mark is cleared. -/
theorem C25_drop_mark_witness :
    ∃ r, GetPicture { firstPictureSession with m_frameCounter := 5 } emptyPicture = some r ∧
      r.2 = { emptyPicture with iFlags := DVP_FLAG_DROPPED } ∧
      r.1.m_dropState = false ∧ r.1.m_currentBuffer = none :=
  (C25_drop_mark (exampleVpu noFlags) { firstPictureSession with m_frameCounter := 5 }
    exampleSession noFlags 0 0 0 emptyPicture).2.1 (by decide) (by decide)

/-- C25, counterexample: at the start of a stream the decoder answers a first `Decode` with
repeat-requested, which sets the drop mark, and a second `Decode` with a frame to
display. The frame counter is zero, and `GetPicture` delivers this first picture
flagged as allocated, not as dropped, while the mark is cleared. -/
theorem C25_counterexample :
    initAndRepeat.VPU_DEC_OUTPUT_REPEAT = true ∧ repeatSession.m_dropState = true ∧
    (Decode (exampleVpu { noFlags with VPU_DEC_OUTPUT_DIS := true }) false repeatSession
      true 100 none 0 0).2 = VC_PICTURE ∧
    firstPictureSession.m_dropState = true ∧ firstPictureSession.m_frameCounter = 0 ∧
    (GetPicture firstPictureSession emptyPicture).map
      (fun r => (r.2.iFlags, r.2.IMXBuffer, r.1.m_dropState))
      = some (DVP_FLAG_ALLOCATED, some 0, false) ∧
    DVP_FLAG_ALLOCATED ≠ DVP_FLAG_DROPPED := by
  decide

/-! ## The pool after a failed allocation -/

/-- C27, counterexample: the stream asks for a pool of eight frame buffers and the third
request for frame memory fails. `Decode` returns the decode-error status and leaves the
pool count at eight, while only the entries 0 and 1 of `m_outputBuffers` were assigned
a decode buffer; the entries 2 to 7 were never assigned. -/
theorem C27_counterexample :
    exampleSession.m_vpuFrameBufferNum = 0 ∧
    (Decode allocFailVpu false exampleSession true 100 none 0 0).2 = VC_ERROR ∧
    (Decode allocFailVpu false exampleSession true 100 none 0 0).1.m_vpuFrameBufferNum = 8 ∧
    (Decode allocFailVpu false exampleSession true 100 none 0 0).1.m_vpuHandle ≠ 0 ∧
    poolEntry (Decode allocFailVpu false exampleSession true 100 none 0 0).1 0 = some 0 ∧
    poolEntry (Decode allocFailVpu false exampleSession true 100 none 0 0).1 1 = some 1 ∧
    (∀ i, i < 8 → 2 ≤ i →
      poolEntry (Decode allocFailVpu false exampleSession true 100 none 0 0).1 i = none) := by
  decide

/-! ## The display context: what leaves the queue alone -/

theorem sameQueue_refl (c : CIMXContext) : sameQueue c c := ⟨rfl, rfl, rfl⟩

theorem sameQueue_trans {a b c : CIMXContext} (h1 : sameQueue a b) (h2 : sameQueue b c) :
    sameQueue a c :=
  ⟨h2.1.trans h1.1, h2.2.1.trans h1.2.1, h2.2.2.trans h1.2.2⟩

theorem sameQueue_logDisplay (c : CIMXContext) (x : DisplayCall) :
    sameQueue c (logDisplay c x) := ⟨rfl, rfl, rfl⟩

theorem sameQueue_Clear (c : CIMXContext) (page : Int) : sameQueue c (Clear c page) := by
  unfold Clear
  split_ifs <;> exact ⟨rfl, rfl, rfl⟩

theorem sameQueue_MemMap (e : Surroundings) (c : CIMXContext) (f : Option fb_fix_screeninfo) :
    sameQueue c (MemMap e c f) := by
  unfold MemMap
  split_ifs
  · exact ⟨rfl, rfl, rfl⟩
  · cases f with
    | none => exact ⟨rfl, rfl, rfl⟩
    | some f =>
      simp only
      refine sameQueue_trans ?_ (sameQueue_Clear _ _)
      exact ⟨rfl, rfl, rfl⟩

theorem sameQueue_OpenDevices (e : Surroundings) (c : CIMXContext) :
    sameQueue c (OpenDevices e c).1 := ⟨rfl, rfl, rfl⟩

theorem sameQueue_CloseDevices (c : CIMXContext) : sameQueue c (CloseDevices c) := by
  unfold CloseDevices
  simp only
  split_ifs <;> exact ⟨rfl, rfl, rfl⟩

theorem sameQueue_GetFBInfo (e : Surroundings) (c : CIMXContext) (f : DeviceFile) :
    sameQueue c (GetFBInfo e c f).1 := by
  unfold GetFBInfo
  simp only
  split_ifs <;> exact ⟨rfl, rfl, rfl⟩

theorem sameQueue_Blank (e : Surroundings) (c : CIMXContext) : sameQueue c (Blank e c).1 := by
  unfold Blank
  split_ifs <;> exact ⟨rfl, rfl, rfl⟩

theorem sameQueue_Unblank (e : Surroundings) (c : CIMXContext) :
    sameQueue c (Unblank e c).1 := by
  unfold Unblank
  split_ifs <;> exact ⟨rfl, rfl, rfl⟩

theorem sameQueue_StopThread (c : CIMXContext) (b : Bool) : sameQueue c (StopThread c b) := by
  unfold StopThread
  simp only
  split_ifs <;> exact ⟨rfl, rfl, rfl⟩

theorem sameQueue_Create (c : CIMXContext) : sameQueue c (Create c) := ⟨rfl, rfl, rfl⟩

theorem sameQueue_Stop (e : Surroundings) (c : CIMXContext) (b : Bool) :
    sameQueue c (Stop e c b) := by
  unfold Stop
  simp only
  have h3 : sameQueue c (Blank e (logDisplay (StopThread c false) DisplayCall.signal)).1 :=
    sameQueue_trans (sameQueue_trans (sameQueue_StopThread c false) (sameQueue_logDisplay _ _))
      (sameQueue_Blank e _)
  split_ifs
  · exact sameQueue_refl c
  · exact sameQueue_trans h3 (sameQueue_StopThread _ _)
  · exact h3

theorem sameQueue_TaskRestart (e : Surroundings) (c : CIMXContext) :
    sameQueue c (TaskRestart e c) := by
  unfold TaskRestart
  exact sameQueue_trans (sameQueue_trans (sameQueue_trans (sameQueue_Stop e c true)
    (sameQueue_MemMap e _ none)) (sameQueue_CloseDevices _)) (sameQueue_Create _)

theorem sameQueue_closeIpu (c : CIMXContext) : sameQueue c (closeIpu c) := by
  unfold closeIpu
  split_ifs <;> exact ⟨rfl, rfl, rfl⟩

theorem sameQueue_queryDevice (e : Surroundings) (c : CIMXContext) (a : Bool)
    (fbVar : fb_var_screeninfo) : sameQueue c (queryDevice e c a fbVar).1 := by
  unfold queryDevice
  simp only
  have h5 : sameQueue c (GetFBInfo e { c with
      m_fbWidth := if a = true then 1920 else toInt32 fbVar.xres,
      m_fbHeight := if a = true then 1080 else toInt32 fbVar.yres }
      DeviceFile.m_deviceName).1 :=
    sameQueue_trans ⟨rfl, rfl, rfl⟩ (sameQueue_GetFBInfo e _ _)
  generalize GetFBInfo e { c with
      m_fbWidth := if a = true then 1920 else toInt32 fbVar.xres,
      m_fbHeight := if a = true then 1080 else toInt32 fbVar.yres }
      DeviceFile.m_deviceName = g2 at h5 ⊢
  obtain ⟨g21, g22⟩ := g2
  cases g22 with
  | none => exact h5
  | some v => exact sameQueue_trans h5 ⟨rfl, rfl, rfl⟩

theorem sameQueue_queryScreen (e : Surroundings) (c : CIMXContext) (a : Bool) :
    sameQueue c (queryScreen e c a).1 := by
  unfold queryScreen
  simp only
  have h2 := sameQueue_trans (sameQueue_closeIpu c) (sameQueue_MemMap e _ none)
  generalize MemMap e (closeIpu c) none = c2 at h2 ⊢
  have h3 : sameQueue c (if c2.m_fbHandle = 0 then OpenDevices e c2 else (c2, true)).1 := by
    split_ifs
    · exact sameQueue_trans h2 (sameQueue_OpenDevices e c2)
    · exact h2
  generalize (if c2.m_fbHandle = 0 then OpenDevices e c2 else (c2, true)) = c3 at h3 ⊢
  by_cases hf : c3.2 = false
  · rw [if_pos hf]
    exact h3
  · rw [if_neg hf]
    have h4 := sameQueue_trans h3 (sameQueue_GetFBInfo e c3.1 DeviceFile.fb0)
    generalize GetFBInfo e c3.1 DeviceFile.fb0 = g at h4 ⊢
    obtain ⟨g1, g2⟩ := g
    cases g2 with
    | none => exact h4
    | some fbVar => exact sameQueue_trans h4 (sameQueue_queryDevice e g1 a fbVar)

theorem sameQueue_openIpu (e : Surroundings) (c : CIMXContext) :
    sameQueue c (openIpu e c) := by
  unfold openIpu
  split_ifs <;> exact ⟨rfl, rfl, rfl⟩

theorem sameQueue_programScreen (e : Surroundings) (c : CIMXContext) :
    sameQueue c (programScreen e c).1 := by
  unfold programScreen
  simp only
  have h6 := sameQueue_Blank e c
  generalize (Blank e c).1 = c6 at h6 ⊢
  by_cases h1 : e.ret c6.calls.length = -1
  · rw [if_pos h1]
    exact sameQueue_trans h6 ⟨rfl, rfl, rfl⟩
  · rw [if_neg h1]
    have h7 : sameQueue c (logDisplay (logDisplay c6
        (DisplayCall.FBIOPUT_VSCREENINFO c6.m_fbHandle c6.m_fbVar))
        (DisplayCall.FBIOGET_FSCREENINFO c6.m_fbHandle)) :=
      sameQueue_trans h6 ⟨rfl, rfl, rfl⟩
    split_ifs
    · exact h7
    · exact sameQueue_trans (sameQueue_trans (sameQueue_trans h7 (sameQueue_MemMap e _ _))
        (sameQueue_openIpu e _)) (sameQueue_Unblank e _)

theorem sameQueue_AdaptScreen (e : Surroundings) (c : CIMXContext) (a : Bool) :
    sameQueue c (AdaptScreen e c a).1 := by
  unfold AdaptScreen
  simp only
  have hq := sameQueue_queryScreen e c a
  generalize queryScreen e c a = q at hq ⊢
  have hp := sameQueue_trans hq (sameQueue_programScreen e q.1)
  generalize programScreen e q.1 = p at hp ⊢
  split_ifs
  · exact sameQueue_trans hq (sameQueue_TaskRestart e _)
  · exact sameQueue_trans hp (sameQueue_TaskRestart e _)
  · exact hp

theorem sameQueue_SetFieldData (e : Surroundings) (c : CIMXContext) (fieldFmt : Nat) (fps : ℚ) :
    sameQueue c (SetFieldData e c fieldFmt fps) := by
  unfold SetFieldData
  simp only
  split_ifs
  all_goals first
    | exact sameQueue_refl c
    | exact sameQueue_trans ⟨rfl, rfl, rfl⟩ (sameQueue_AdaptScreen e _ false)

theorem sameQueue_ShowPage (e : Surroundings) (c : CIMXContext) (page : Int) (shift : Bool) :
    sameQueue c (ShowPage e c page shift).1 := by
  unfold ShowPage
  simp only
  split_ifs <;> exact ⟨rfl, rfl, rfl⟩

theorem sameQueue_setBuffer (c : CIMXContext) (p : Option Nat) (b : CIMXBuffer) :
    sameQueue c (setBuffer c p b) := by
  cases p <;> exact ⟨rfl, rfl, rfl⟩

theorem sameQueue_TileTask (e : Surroundings) (c : CIMXContext) (ipu : IPUTask)
    (r : CIMXContext × IPUTask × Bool) (h : TileTask e c ipu = some r) : sameQueue c r.1 := by
  unfold TileTask at h
  simp only at h
  repeat' split at h
  all_goals cases h
  all_goals first
    | exact sameQueue_refl _
    | exact sameQueue_setBuffer (logDisplay c _) _ _
    | exact sameQueue_trans (sameQueue_setBuffer (logDisplay c _) _ _)
         (sameQueue_setBuffer (logDisplay (logDisplay (setBuffer (logDisplay c _) _ _) _) _) _ _)

theorem sameQueue_populateTask (e : Surroundings) (c : CIMXContext) (ipu : IPUTask)
    (r : CIMXContext × IPUTask × Bool) (h : populateTask e c ipu = some r) :
    sameQueue c r.1 := by
  unfold populateTask at h
  simp only at h
  repeat' split at h
  all_goals cases h
  all_goals first
    | exact sameQueue_refl _
    | exact sameQueue_Clear _ _

theorem sameQueue_ipuCheckLoop (e : Surroundings) (fuel : Nat) :
    ∀ (c : CIMXContext) (ipu : IPUTask) (r : CIMXContext × IPUTask × Option Bool),
      ipuCheckLoop e fuel c ipu = some r → sameQueue c r.1 := by
  induction fuel with
  | zero =>
    intro c ipu r h
    simp [ipuCheckLoop] at h
  | succ n ih =>
    intro c ipu r h
    unfold ipuCheckLoop at h
    simp only at h
    split at h
    all_goals first
      | (cases h; exact sameQueue_refl _)
      | exact sameQueue_trans (sameQueue_logDisplay c _) (ih _ _ _ h)

theorem sameQueue_runTask (e : Surroundings) (fuel : Nat) (c : CIMXContext) (ipu : IPUTask)
    (r : CIMXContext × IPUTask × Bool) (h : runTask e fuel c ipu = some r) :
    sameQueue c r.1 := by
  unfold runTask at h
  simp only at h
  split at h
  · split at h
    · cases h
    · rename_i hl
      cases h
      exact sameQueue_ipuCheckLoop e fuel c ipu _ hl
    · rename_i hl
      have hq := sameQueue_ipuCheckLoop e fuel c ipu _ hl
      split at h
      all_goals cases h
      all_goals exact sameQueue_trans hq (sameQueue_logDisplay _ _)
  · cases h
    split
    all_goals exact ⟨rfl, rfl, rfl⟩

theorem sameQueue_DoTask (e : Surroundings) (fuel : Nat) (c : CIMXContext) (ipu : IPUTask)
    (r : CIMXContext × IPUTask × Bool) (h : DoTask e fuel c ipu = some r) :
    sameQueue c r.1 := by
  unfold DoTask at h
  split at h
  · cases h
  · rename_i c1 ipu1 sw hp
    have h1 := sameQueue_populateTask e c ipu _ hp
    split at h
    · cases h
      exact h1
    · split at h
      · cases h
      · rename_i c2 ipu2 ht
        cases h
        exact sameQueue_trans h1 (sameQueue_TileTask e c1 ipu1 _ ht)
      · rename_i c2 ipu2 ht
        exact sameQueue_trans (sameQueue_trans h1 (sameQueue_TileTask e c1 ipu1 _ ht))
          (sameQueue_runTask e fuel c2 ipu2 r h)

theorem sameQueue_blitEntry (e : Surroundings) (c : CIMXContext) (page : Int) :
    sameQueue c (blitEntry e c page) := by
  unfold blitEntry
  split_ifs <;> exact ⟨rfl, rfl, rfl⟩

theorem sameQueue_constructTask (e : Surroundings) (fuel : Nat) (c : CIMXContext)
    (source_p source : Option Nat) (fieldFmt : Nat) (page : Int) (dest : Option CRect)
    (r : CIMXContext × IPUTask × Bool)
    (h : constructTask e fuel c source_p source fieldFmt page dest = some r) :
    sameQueue c r.1 := by
  unfold constructTask at h
  split at h
  · cases h
  · exact sameQueue_trans (sameQueue_SetFieldData e c fieldFmt _)
      (sameQueue_DoTask e fuel _ _ r h)

/-- What a call of `Blit` that returns does to the queue: nothing, or one task is appended
to the queue and to the record of the pushed tasks. -/
theorem Blit_queue (e : Surroundings) (fuel : Nat) (c : CIMXContext)
    (source_p source : Option Nat) (fieldFmt : Nat) (page : Int) (dest : Option CRect)
    (c2 : CIMXContext) (h : Blit e fuel c source_p source fieldFmt page dest = some c2) :
    sameQueue c c2 ∨
    ∃ t, c2.m_input = c.m_input ++ [t] ∧ c2.pushed = c.pushed ++ [t]
      ∧ c2.flipped = c.flipped := by
  unfold Blit at h
  split at h
  · cases h
    exact Or.inl (sameQueue_blitEntry e c page)
  · split at h
    · cases h
    · rename_i c3 ipu3 hc
      cases h
      exact Or.inl (sameQueue_trans (sameQueue_blitEntry e c page)
        (sameQueue_constructTask e fuel _ _ _ _ _ _ _ hc))
    · rename_i c3 ipu3 hc
      have hq := sameQueue_trans (sameQueue_blitEntry e c page)
        (sameQueue_constructTask e fuel _ _ _ _ _ _ _ hc)
      split at h
      · cases h
        refine Or.inr ⟨ipu3, ?_, ?_, ?_⟩
        · show c3.m_input ++ [ipu3] = c.m_input ++ [ipu3]
          rw [hq.1]
        · show c3.pushed ++ [ipu3] = c.pushed ++ [ipu3]
          rw [hq.2.1]
        · exact hq.2.2
      · cases h
        exact Or.inl hq

/-- What a pass of the display thread does to the queue: nothing, or the task at the head
is taken from the queue and appended to the record of the flipped tasks. -/
theorem processPass_queue (e : Surroundings) (c : CIMXContext) :
    sameQueue c (processPass e c) ∨
    ∃ t rest, c.m_input = t :: rest ∧ (processPass e c).m_input = rest
      ∧ (processPass e c).pushed = c.pushed ∧ (processPass e c).flipped = c.flipped ++ [t] := by
  unfold processPass
  split
  · exact Or.inl (sameQueue_refl c)
  · split
    · exact Or.inl (sameQueue_refl c)
    · rename_i ipu rest hq
      have hm : c.m_input = ipu :: rest := by
        unfold queuePop at hq
        split at hq
        · cases hq
        · rename_i t r ht
          cases hq
          exact ht
      have hs := sameQueue_ShowPage e { c with m_input := rest } ipu.page
        (checkIPUStrideOffset e.IPU_DEINTERLACE_RATE_FRAME1 e.RENDER_FLAG_TOP
          e.RENDER_FLAG_BOT ipu.input_deinterlace)
      refine Or.inr ⟨ipu, rest, hm, hs.1, hs.2.1, ?_⟩
      show _ ++ [ipu] = c.flipped ++ [ipu]
      rw [hs.2.2]

/-- The invariant of the queue: the tasks flipped so far followed by the tasks that wait
in the queue are the tasks pushed so far. -/
theorem displayStep_queue (e : Surroundings) (fuel : Nat) (c : CIMXContext) (s : DisplayStep)
    (c2 : CIMXContext) (h : displayStep e fuel c s = some c2)
    (hinv : c.flipped ++ c.m_input = c.pushed) :
    c2.flipped ++ c2.m_input = c2.pushed ∧ c.flipped <+: c2.flipped
      ∧ c.pushed <+: c2.pushed := by
  cases s with
  | blit source_p source fieldFmt page dest =>
    rcases Blit_queue e fuel c source_p source fieldFmt page dest c2 h with hq | ⟨t, h1, h2, h3⟩
    · rw [hq.1, hq.2.1, hq.2.2]
      exact ⟨hinv, List.prefix_refl _, List.prefix_refl _⟩
    · rw [h1, h2, h3, ← List.append_assoc, hinv]
      exact ⟨rfl, List.prefix_refl _, List.prefix_append _ _⟩
  | pass =>
    have h2 : c2 = processPass e c := by
      have : displayStep e fuel c DisplayStep.pass = some (processPass e c) := rfl
      rw [this] at h
      exact (Option.some.inj h).symm
    subst h2
    rcases processPass_queue e c with hq | ⟨t, rest, h1, h2, h3, h4⟩
    · rw [hq.1, hq.2.1, hq.2.2]
      exact ⟨hinv, List.prefix_refl _, List.prefix_refl _⟩
    · rw [h2, h3, h4, List.append_assoc]
      rw [h1] at hinv
      exact ⟨hinv, List.prefix_append _ _, List.prefix_refl _⟩

/-! ## Construction of a task -/

theorem populateTask_crops (e : Surroundings) (c : CIMXContext) (ipu : IPUTask)
    (r : CIMXContext × IPUTask × Bool) (h : populateTask e c ipu = some r) :
    r.2.1.input_crop = ipu.input_crop ∧ r.2.1.output_crop = ipu.output_crop
      ∧ r.2.1.current = ipu.current := by
  unfold populateTask at h
  simp only at h
  repeat' split at h
  all_goals cases h
  all_goals exact ⟨rfl, rfl, rfl⟩

theorem Blit_never_returns_early (e : Surroundings) (page : Int) :
    ¬ (page ≠ e.RENDER_TASK_AUTOPAGE ∧ page ≠ e.RENDER_TASK_CAPTURE
      ∧ page < 0 ∧ page ≥ (m_fbPages : Int)) := by
  rintro ⟨_, _, h1, h2⟩
  have : (m_fbPages : Int) = 3 := rfl
  omega

theorem DoTask_degenerate (e : Surroundings) (fuel : Nat) (c : CIMXContext) (ipu : IPUTask)
    (r : CIMXContext × IPUTask × Bool) (h : populateTask e c ipu = some r)
    (hd : degenerateCrop ipu) : DoTask e fuel c ipu = some (r.1, r.2.1, false) := by
  have hc := populateTask_crops e c ipu r h
  have hd2 : degenerateCrop r.2.1 := by
    unfold degenerateCrop at hd ⊢
    rw [hc.1, hc.2.1]
    exact hd
  obtain ⟨c1, ipu1, sw⟩ := r
  unfold DoTask
  rw [h]
  simp only
  rw [if_pos hd2]

theorem TileTask_alloc_fails (e : Surroundings) (c : CIMXContext) (ipu : IPUTask)
    (cur : CIMXBuffer) (hcur : bufferAt c ipu.current = some cur)
    (ht : cur.iFormat = _4CC 'T' 'N' 'V' 'F' ∨ cur.iFormat = _4CC 'T' 'N' 'V' 'P')
    (hb : ¬ bandMode c ipu) (ha : e.g2dBuf c.calls.length = none) :
    ∃ c2 ipu2, TileTask e c ipu = some (c2, ipu2, false) ∧ sameQueue c c2 := by
  unfold TileTask
  rw [hcur]
  simp only
  have h1 : ¬ (cur.iFormat ≠ _4CC 'T' 'N' 'V' 'F' ∧ cur.iFormat ≠ _4CC 'T' 'N' 'V' 'P') := by
    rintro ⟨h1, h2⟩
    rcases ht with ht | ht
    · exact h1 ht
    · exact h2 ht
  rw [if_neg h1, if_neg hb, ha]
  exact ⟨_, _, rfl, ⟨rfl, rfl, rfl⟩⟩

theorem DoTask_alloc_fails (e : Surroundings) (fuel : Nat) (c : CIMXContext) (ipu : IPUTask)
    (r : CIMXContext × IPUTask × Bool) (cur : CIMXBuffer)
    (h : populateTask e c ipu = some r) (hd : ¬ degenerateCrop ipu)
    (hcur : bufferAt r.1 ipu.current = some cur)
    (ht : cur.iFormat = _4CC 'T' 'N' 'V' 'F' ∨ cur.iFormat = _4CC 'T' 'N' 'V' 'P')
    (hb : ¬ bandMode r.1 r.2.1) (ha : e.g2dBuf r.1.calls.length = none) :
    ∃ c2 ipu2, DoTask e fuel c ipu = some (c2, ipu2, false) := by
  have hc := populateTask_crops e c ipu r h
  have hd2 : ¬ degenerateCrop r.2.1 := by
    unfold degenerateCrop at hd ⊢
    rw [hc.1, hc.2.1]
    exact hd
  rw [← hc.2.2] at hcur
  obtain ⟨c2, ipu2, h2, _⟩ := TileTask_alloc_fails e r.1 r.2.1 cur hcur ht hb ha
  obtain ⟨c1, ipu1, sw⟩ := r
  refine ⟨c2, ipu2, ?_⟩
  unfold DoTask
  rw [h]
  simp only
  rw [if_neg hd2]
  simp only at h2
  rw [h2]

/-! ## Reconfiguration of the output -/

theorem SetFieldData_unchanged (e : Surroundings) (c : CIMXContext) (fieldFmt : Nat)
    (fps : ℚ) (hrun : c.m_bStop = false ∧ c.running = true)
    (hcfg : c.m_bFbIsConfigured = true)
    (hch : ¬ outputChanged e c (maskFieldFmt c fieldFmt) fps) :
    SetFieldData e c fieldFmt fps = { c with m_currentFieldFmt := maskFieldFmt c fieldFmt } := by
  have hns : ¬ (c.m_bStop = true ∨ c.running = false) := by
    rw [hrun.1, hrun.2]
    simp
  unfold SetFieldData
  rw [if_neg hns]
  simp only
  rw [if_neg hch]
  simp only
  rw [if_pos hcfg]

/-- C22: for a running display context that is not stopped, `SetFieldData` with a
configured device and no change of the deinterlace-active state, of the double-rate state
and of the frame rate only stores the field format: no device is called, `m_fbVar` stays
as it is and the configured flag stays set. In every other case the result is the one of
`AdaptScreen`, called after the frame rate is stored and the configured flag is
cleared. -/
theorem C22_reconfigure_only_on_change (e : Surroundings) (c : CIMXContext) (fieldFmt : Nat)
    (fps : ℚ) (hrun : c.m_bStop = false ∧ c.running = true) :
    (c.m_bFbIsConfigured = true → ¬ outputChanged e c (maskFieldFmt c fieldFmt) fps →
      SetFieldData e c fieldFmt fps = { c with m_currentFieldFmt := maskFieldFmt c fieldFmt }
      ∧ (SetFieldData e c fieldFmt fps).calls = c.calls
      ∧ (SetFieldData e c fieldFmt fps).m_fbVar = c.m_fbVar
      ∧ (SetFieldData e c fieldFmt fps).m_bFbIsConfigured = true) ∧
    (c.m_bFbIsConfigured = false ∨ outputChanged e c (maskFieldFmt c fieldFmt) fps →
      SetFieldData e c fieldFmt fps
        = (AdaptScreen e { c with m_currentFieldFmt := maskFieldFmt c fieldFmt,
                                  m_fps := fps,
                                  m_bFbIsConfigured := false } false).1) := by
  have hns : ¬ (c.m_bStop = true ∨ c.running = false) := by
    rw [hrun.1, hrun.2]
    simp
  constructor
  · intro hcfg hch
    rw [SetFieldData_unchanged e c fieldFmt fps hrun hcfg hch]
    exact ⟨rfl, rfl, rfl, hcfg⟩
  · intro h
    unfold SetFieldData
    rw [if_neg hns]
    simp only
    by_cases hch : outputChanged e c (maskFieldFmt c fieldFmt) fps
    · rw [if_pos hch]
      simp only
      rw [if_neg (by simp)]
    · rw [if_neg hch]
      simp only
      have hcfg : c.m_bFbIsConfigured = false := by
        rcases h with h | h
        · exact h
        · exact absurd h hch
      rw [if_neg (by rw [hcfg]; simp)]

/-- C22, witness: on the running example at 25 frames per second with a progressive field
format, a submission of the same field format and frame rate calls no device and leaves
the configured flag set. -/
theorem C22_reconfigure_only_on_change_witness :
    (SetFieldData quietDevices runningDisplay 0 25).calls = runningDisplay.calls
      ∧ (SetFieldData quietDevices runningDisplay 0 25).m_fbVar = runningDisplay.m_fbVar
      ∧ (SetFieldData quietDevices runningDisplay 0 25).m_bFbIsConfigured = true :=
  ((C22_reconfigure_only_on_change quietDevices runningDisplay 0 25 ⟨rfl, rfl⟩).1 rfl
    (by norm_num [outputChanged, maskFieldFmt, runningDisplay, quietDevices])).2

/-! ## The pan offset inside the virtual framebuffer -/

theorem fbVar_Clear (c : CIMXContext) (page : Int) : (Clear c page).m_fbVar = c.m_fbVar := by
  unfold Clear
  split_ifs <;> rfl

theorem fbVar_MemMap (e : Surroundings) (c : CIMXContext) (f : Option fb_fix_screeninfo) :
    (MemMap e c f).m_fbVar = c.m_fbVar := by
  unfold MemMap
  split_ifs
  · rfl
  · cases f with
    | none => rfl
    | some f =>
      simp only
      rw [fbVar_Clear]
      rfl

theorem fbVar_Blank (e : Surroundings) (c : CIMXContext) :
    (Blank e c).1.m_fbVar = c.m_fbVar := by
  unfold Blank
  split_ifs <;> rfl

theorem fbVar_Unblank (e : Surroundings) (c : CIMXContext) :
    (Unblank e c).1.m_fbVar = c.m_fbVar := by
  unfold Unblank
  split_ifs <;> rfl

theorem fbVar_openIpu (e : Surroundings) (c : CIMXContext) :
    (openIpu e c).m_fbVar = c.m_fbVar := by
  unfold openIpu
  split_ifs <;> rfl

theorem fbVar_programScreen (e : Surroundings) (c : CIMXContext)
    (h : (programScreen e c).2 = true) : (programScreen e c).1.m_fbVar = c.m_fbVar := by
  unfold programScreen at h ⊢
  simp only at h ⊢
  by_cases h1 : e.ret (Blank e c).1.calls.length = -1
  · rw [if_pos h1] at h
    cases h
  · rw [if_neg h1] at h ⊢
    split_ifs at h ⊢
    rw [fbVar_Unblank, fbVar_openIpu, fbVar_MemMap]
    exact fbVar_Blank e c

theorem adaptedVar_virtual (c : CIMXContext) (a : Bool) (bpp : Nat) (v : fb_var_screeninfo) :
    virtualProgrammed (adaptedVar c a bpp v) := rfl

theorem queryDevice_virtual (e : Surroundings) (c : CIMXContext) (a : Bool)
    (fbVar : fb_var_screeninfo) (h : (queryDevice e c a fbVar).2 = true) :
    virtualProgrammed (queryDevice e c a fbVar).1.m_fbVar := by
  unfold queryDevice at h ⊢
  simp only at h ⊢
  generalize GetFBInfo e { c with
      m_fbWidth := if a = true then 1920 else toInt32 fbVar.xres,
      m_fbHeight := if a = true then 1080 else toInt32 fbVar.yres }
      DeviceFile.m_deviceName = g2 at h ⊢
  obtain ⟨g21, g22⟩ := g2
  cases g22 with
  | none => cases h
  | some v => exact adaptedVar_virtual g21 a fbVar.bits_per_pixel v

theorem queryScreen_virtual (e : Surroundings) (c : CIMXContext) (a : Bool)
    (h : (queryScreen e c a).2 = true) : virtualProgrammed (queryScreen e c a).1.m_fbVar := by
  unfold queryScreen at h ⊢
  simp only at h ⊢
  generalize (if (MemMap e (closeIpu c) none).m_fbHandle = 0 then
    OpenDevices e (MemMap e (closeIpu c) none) else (MemMap e (closeIpu c) none, true)) = c3
    at h ⊢
  by_cases hf : c3.2 = false
  · rw [if_pos hf] at h
    cases h
  · rw [if_neg hf] at h ⊢
    generalize GetFBInfo e c3.1 DeviceFile.fb0 = g at h ⊢
    obtain ⟨g1, g2⟩ := g
    cases g2 with
    | none => cases h
    | some fbVar => exact queryDevice_virtual e g1 a fbVar h

theorem AdaptScreen_virtual (e : Surroundings) (c : CIMXContext) (a : Bool)
    (h : (AdaptScreen e c a).2 = true) : virtualProgrammed (AdaptScreen e c a).1.m_fbVar := by
  unfold AdaptScreen at h ⊢
  simp only at h ⊢
  by_cases hq : (queryScreen e c a).2 = false
  · rw [if_pos hq] at h
    cases h
  · rw [if_neg hq] at h ⊢
    by_cases hp : (programScreen e (queryScreen e c a).1).2 = false
    · rw [if_pos hp] at h
      cases h
    · rw [if_neg hp] at h ⊢
      have hq2 : (queryScreen e c a).2 = true := by
        cases hb : (queryScreen e c a).2
        · exact absurd hb hq
        · rfl
      have hp2 : (programScreen e (queryScreen e c a).1).2 = true := by
        cases hb : (programScreen e (queryScreen e c a).1).2
        · exact absurd hb hp
        · rfl
      show virtualProgrammed (programScreen e (queryScreen e c a).1).1.m_fbVar
      rw [fbVar_programScreen e _ hp2]
      exact queryScreen_virtual e c a hq2

theorem panOffset_eq (yres : Nat) (page : Int) (shift : Bool)
    (hy : (yres + 1) * m_fbPages < 2 ^ 32) (hp : 0 ≤ page ∧ page < (m_fbPages : Int)) :
    panOffset yres page shift = (yres + 1) * page.toNat + (if shift then 0 else 1) := by
  have h3 : m_fbPages = 3 := rfl
  rw [h3] at hy
  have hp3 : page < 3 := hp.2
  obtain ⟨n, rfl⟩ := Int.eq_ofNat_of_zero_le hp.1
  have hn : n < 3 := by omega
  have ht : toUnsigned (n : Int) = n := by
    unfold toUnsigned
    have : ((n : Int) % 2 ^ 32).toNat = n := by omega
    exact this
  unfold panOffset
  rw [ht, Int.toNat_ofNat]
  have hs : (if shift then 0 else 1 : Nat) ≤ 1 := by
    cases shift <;> simp
  have hm : (yres + 1) * n ≤ (yres + 1) * 2 := Nat.mul_le_mul_left _ (by omega)
  rw [u32_of_lt (yres + 1) (by omega), u32_of_lt ((yres + 1) * n) (by omega),
    u32_of_lt _ (by omega)]

theorem ShowPage_fbVar (e : Surroundings) (c : CIMXContext) (page : Int) (shift : Bool)
    (hopen : c.m_fbHandle ≠ 0 ∧ c.m_bFbIsConfigured = true) :
    (ShowPage e c page shift).1.m_fbVar
      = { c.m_fbVar with activate := FB_ACTIVATE_VBL,
                         yoffset := panOffset c.m_fbVar.yres page shift } := by
  unfold ShowPage
  have h : ¬ (c.m_fbHandle = 0 ∨ c.m_bFbIsConfigured = false) := by
    rw [hopen.2]
    simp [hopen.1]
  rw [if_neg h]
  simp only
  split_ifs <;> rfl

/-- C29: on a context with an open and configured framebuffer whose virtual height is the
one that `AdaptScreen` programs, `(yres + 1) * m_fbPages` without overflow of the 32-bit
product, `ShowPage` for a page from 0 to `m_fbPages - 1` and either shift sets the offset
`(yres + 1) * page + (shift ? 0 : 1)`, leaves the height and the virtual height as they
are, and the window of `yres` lines from the offset ends inside the virtual height and
not after the offset of any later page. A successful `AdaptScreen` leaves a virtual height
of this form. -/
theorem C29_pan_window_inside_virtual (e : Surroundings) (c : CIMXContext) (page : Int)
    (shift : Bool) (hopen : c.m_fbHandle ≠ 0 ∧ c.m_bFbIsConfigured = true)
    (hv : virtualProgrammed c.m_fbVar)
    (hy : (c.m_fbVar.yres + 1) * m_fbPages < 2 ^ 32)
    (hp : 0 ≤ page ∧ page < (m_fbPages : Int)) :
    (∀ c0 a, (AdaptScreen e c0 a).2 = true →
      virtualProgrammed (AdaptScreen e c0 a).1.m_fbVar) ∧
    (ShowPage e c page shift).1.m_fbVar.yoffset
      = (c.m_fbVar.yres + 1) * page.toNat + (if shift then 0 else 1) ∧
    (ShowPage e c page shift).1.m_fbVar.yres = c.m_fbVar.yres ∧
    (ShowPage e c page shift).1.m_fbVar.yres_virtual = (c.m_fbVar.yres + 1) * m_fbPages ∧
    (ShowPage e c page shift).1.m_fbVar.yoffset + (ShowPage e c page shift).1.m_fbVar.yres
      ≤ (ShowPage e c page shift).1.m_fbVar.yres_virtual ∧
    (∀ (page2 : Int) (shift2 : Bool), page < page2 → page2 < (m_fbPages : Int) →
      (ShowPage e c page shift).1.m_fbVar.yoffset + (ShowPage e c page shift).1.m_fbVar.yres
        ≤ (ShowPage e c page2 shift2).1.m_fbVar.yoffset) := by
  have h3 : m_fbPages = 3 := rfl
  have hyv : c.m_fbVar.yres_virtual = (c.m_fbVar.yres + 1) * m_fbPages := by
    rw [hv]
    rw [h3] at hy ⊢
    rw [u32_of_lt (c.m_fbVar.yres + 1) (by omega), u32_of_lt _ hy]
  have ho : (ShowPage e c page shift).1.m_fbVar.yoffset
      = (c.m_fbVar.yres + 1) * page.toNat + (if shift then 0 else 1) := by
    rw [ShowPage_fbVar e c page shift hopen]
    exact panOffset_eq _ page shift hy hp
  have hr : (ShowPage e c page shift).1.m_fbVar.yres = c.m_fbVar.yres := by
    rw [ShowPage_fbVar e c page shift hopen]
  have hw : (ShowPage e c page shift).1.m_fbVar.yres_virtual
      = (c.m_fbVar.yres + 1) * m_fbPages := by
    rw [ShowPage_fbVar e c page shift hopen]
    exact hyv
  have hs : (if shift then 0 else 1 : Nat) ≤ 1 := by
    cases shift <;> simp
  have hp3 : page < 3 := hp.2
  refine ⟨fun c0 a h => AdaptScreen_virtual e c0 a h, ho, hr, hw, ?_, ?_⟩
  · rw [ho, hr, hw, h3]
    have hn : page.toNat ≤ 2 := by omega
    have hm : (c.m_fbVar.yres + 1) * page.toNat ≤ (c.m_fbVar.yres + 1) * 2 :=
      Nat.mul_le_mul_left _ hn
    omega
  · intro page2 shift2 h1 h2
    have h23 : page2 < 3 := h2
    have ho2 : (ShowPage e c page2 shift2).1.m_fbVar.yoffset
        = (c.m_fbVar.yres + 1) * page2.toNat + (if shift2 then 0 else 1) := by
      rw [ShowPage_fbVar e c page2 shift2 hopen]
      exact panOffset_eq _ page2 shift2 hy ⟨by omega, h2⟩
    rw [ho, hr, ho2]
    have hn : page.toNat + 1 ≤ page2.toNat := by omega
    have hm : (c.m_fbVar.yres + 1) * (page.toNat + 1) ≤ (c.m_fbVar.yres + 1) * page2.toNat :=
      Nat.mul_le_mul_left _ hn
    rw [Nat.mul_add, Nat.mul_one] at hm
    omega

/-- C29, witness: on the configured example of 1080 lines with a virtual height of 3243,
the window of page 2 without shift starts at 2163 and ends at the virtual height. -/
theorem C29_pan_window_inside_virtual_witness :
    (ShowPage quietDevices runningDisplay 2 false).1.m_fbVar.yoffset = 2163 ∧
    (ShowPage quietDevices runningDisplay 2 false).1.m_fbVar.yoffset
        + (ShowPage quietDevices runningDisplay 2 false).1.m_fbVar.yres
      ≤ (ShowPage quietDevices runningDisplay 2 false).1.m_fbVar.yres_virtual :=
  have h := C29_pan_window_inside_virtual quietDevices runningDisplay 2 false
    ⟨by decide, rfl⟩ rfl (by decide) ⟨by decide, by decide⟩
  ⟨h.2.1, h.2.2.2.2.1⟩

/-! ## The order of the page flips and the discarded tasks -/

theorem displayRun_queue (e : Surroundings) (fuel : Nat) (steps : List DisplayStep) :
    ∀ (c c2 : CIMXContext), c.flipped ++ c.m_input = c.pushed →
      displayRun e fuel c steps = some c2 →
      c2.flipped ++ c2.m_input = c2.pushed ∧ c.flipped <+: c2.flipped
        ∧ c.pushed <+: c2.pushed := by
  induction steps with
  | nil =>
    intro c c2 hinv h
    cases h
    exact ⟨hinv, List.prefix_refl _, List.prefix_refl _⟩
  | cons s rest ih =>
    intro c c2 hinv h
    unfold displayRun at h
    cases h1 : displayStep e fuel c s with
    | none =>
      rw [h1] at h
      cases h
    | some c1 =>
      rw [h1] at h
      have hs := displayStep_queue e fuel c s c1 h1 hinv
      have hr := ih c1 c2 hs.1 h
      exact ⟨hr.1, List.IsPrefix.trans hs.2.1 hr.2.1, List.IsPrefix.trans hs.2.2 hr.2.2⟩

/-- C23: along every schedule of calls of `Blit` and passes of the display thread that
starts with the flipped tasks followed by the waiting tasks being the pushed tasks (as in
a new context, where all three are empty), this stays so; the tasks flipped and pushed
before stay at their places; and the `k`-th task whose page is shown is the `k`-th task
that was pushed. So the pages are shown in the order of the pushes, and no pushed task is
shown twice. -/
theorem C23_flipped_in_submission_order (e : Surroundings) (fuel : Nat)
    (steps : List DisplayStep) (c c2 : CIMXContext)
    (hinv : c.flipped ++ c.m_input = c.pushed)
    (hrun : displayRun e fuel c steps = some c2) :
    c2.flipped ++ c2.m_input = c2.pushed ∧ c.flipped <+: c2.flipped
      ∧ c.pushed <+: c2.pushed ∧ c2.flipped.length ≤ c2.pushed.length
      ∧ ∀ k, k < c2.flipped.length → c2.flipped[k]? = c2.pushed[k]? := by
  have h := displayRun_queue e fuel steps c c2 hinv hrun
  refine ⟨h.1, h.2.1, h.2.2, ?_, ?_⟩
  · rw [← h.1, List.length_append]
    exact Nat.le_add_right _ _
  · intro k hk
    rw [← h.1, List.getElem?_append_left hk]

/-- C24: a call of `Blit` whose `DoTask` returns `false` returns with the queue and the
record of the pushed tasks as they were. `DoTask` returns `false` whenever the input crop
or the output crop of the task has a width or a height that is not positive, and whenever
the buffer for the conversion of a tiled source, outside the band mode, cannot be
allocated; in both cases provided that the population of the task dereferences no null
pointer. -/
theorem C24_failed_task_discarded (e : Surroundings) (fuel : Nat) (c : CIMXContext)
    (source_p source : Option Nat) (fieldFmt : Nat) (page : Int) (dest : Option CRect) :
    (∀ c3 ipu3,
      constructTask e fuel (blitEntry e c page) source_p source fieldFmt (blitPage e c page)
          dest = some (c3, ipu3, false) →
      Blit e fuel c source_p source fieldFmt page dest = some c3
        ∧ c3.m_input = c.m_input ∧ c3.pushed = c.pushed) ∧
    (∀ c1 ipu r, populateTask e c1 ipu = some r → degenerateCrop ipu →
      DoTask e fuel c1 ipu = some (r.1, r.2.1, false)) ∧
    (∀ c1 ipu r cur, populateTask e c1 ipu = some r → ¬ degenerateCrop ipu →
      bufferAt r.1 ipu.current = some cur →
      (cur.iFormat = _4CC 'T' 'N' 'V' 'F' ∨ cur.iFormat = _4CC 'T' 'N' 'V' 'P') →
      ¬ bandMode r.1 r.2.1 → e.g2dBuf r.1.calls.length = none →
      ∃ c2 ipu2, DoTask e fuel c1 ipu = some (c2, ipu2, false)) := by
  refine ⟨?_, ?_, ?_⟩
  · intro c3 ipu3 h
    have hq := sameQueue_trans (sameQueue_blitEntry e c page)
      (sameQueue_constructTask e fuel _ _ _ _ _ _ _ h)
    refine ⟨?_, hq.1, hq.2.1⟩
    unfold Blit
    rw [if_neg (Blit_never_returns_early e page), h]
  · intro c1 ipu r h hd
    exact DoTask_degenerate e fuel c1 ipu r h hd
  · intro c1 ipu r cur h hd hcur ht hb ha
    exact DoTask_alloc_fails e fuel c1 ipu r cur h hd hcur ht hb ha

theorem playDisplay_rects :
    integerRects id playDisplay none
      = ({ x1 := 0, y1 := 0, x2 := 1280, y2 := 720 }, { x1 := 0, y1 := 0, x2 := 1920, y2 := 1080 }) := by
  norm_num [integerRects, clampedRects, destinationRect, playDisplay, projectRects,
    CRect.Width, CRect.Height, alignRect, floatToInt]
  decide

theorem playDisplay_task :
    PrepareTask id VS_INTERLACEMETHOD_AUTO playDisplay none (some 0) none = playTask := by
  unfold PrepareTask
  simp only [playDisplay_rects]
  rfl

theorem playDisplay_DoTask :
    ∃ c3 ipu3, DoTask quietDevices 0 playDisplay { playTask with page := 0 }
        = some (c3, ipu3, true) ∧ ipu3.output_width = 1920 ∧ ipu3.page = 0
        ∧ c3.m_bStop = false :=
  ⟨_, _, rfl, rfl, rfl, rfl⟩

theorem playDisplay_Blit :
    ∃ c3 t, Blit quietDevices 0 playDisplay none (some 0) 0 0 none = some c3
      ∧ c3.m_input = [t] ∧ c3.pushed = [t] ∧ c3.flipped = [] ∧ t.page = 0
      ∧ c3.m_bStop = false := by
  obtain ⟨c3, ipu3, h, hw, hp, hstop⟩ := playDisplay_DoTask
  have hc : constructTask quietDevices 0 (blitEntry quietDevices playDisplay 0) none (some 0) 0
      (blitPage quietDevices playDisplay 0) none = some (c3, ipu3, true) := by
    have hb : blitEntry quietDevices playDisplay 0 = playDisplay := rfl
    have hg : blitPage quietDevices playDisplay 0 = 0 := rfl
    rw [hb, hg]
    unfold constructTask
    have hs : bufferAt playDisplay (some 0) = some playBuffer := rfl
    rw [hs]
    simp only
    have hf : SetFieldData quietDevices playDisplay 0 playBuffer.m_fps = playDisplay :=
      SetFieldData_unchanged quietDevices playDisplay 0 playBuffer.m_fps ⟨rfl, rfl⟩ rfl
        (by norm_num [outputChanged, maskFieldFmt, playDisplay, playBuffer, quietDevices])
    rw [hf]
    have ht : PrepareTask quietDevices.rnd quietDevices.m_InterlaceMethod playDisplay none
        (some 0) none = playTask := playDisplay_task
    rw [ht]
    exact h
  have hq := sameQueue_trans (sameQueue_blitEntry quietDevices playDisplay 0)
    (sameQueue_constructTask quietDevices 0 _ _ _ _ _ _ _ hc)
  refine ⟨{ c3 with m_input := queuePush c3.m_input ipu3, pushed := c3.pushed ++ [ipu3] },
    ipu3, ?_, ?_, ?_, hq.2.2, hp, hstop⟩
  · unfold Blit
    rw [if_neg (Blit_never_returns_early quietDevices 0), hc]
    simp only
    rw [if_pos (by rw [hw]; decide)]
  · show c3.m_input ++ [ipu3] = [ipu3]
    rw [hq.1]
    rfl
  · show c3.pushed ++ [ipu3] = [ipu3]
    rw [hq.2.1]
    rfl

/-- C23, witness: on the example, a call of `Blit` pushes a task and a pass of the display
thread then shows its page: the one task flipped is the one task pushed, and the queue is
empty. -/
theorem C23_flipped_in_submission_order_witness :
    ∃ c2, displayRun quietDevices 0 playDisplay
        [DisplayStep.blit none (some 0) 0 0 none, DisplayStep.pass] = some c2
      ∧ c2.flipped.length = 1 ∧ c2.m_input = [] ∧ c2.flipped[0]? = c2.pushed[0]? := by
  obtain ⟨c3, t, hb, hm, hp, hf, _, hstop⟩ := playDisplay_Blit
  have hrun : displayRun quietDevices 0 playDisplay
      [DisplayStep.blit none (some 0) 0 0 none, DisplayStep.pass]
      = some (processPass quietDevices c3) := by
    show (Blit quietDevices 0 playDisplay none (some 0) 0 0 none).bind
      (fun c1 => displayRun quietDevices 0 c1 [DisplayStep.pass]) = _
    rw [hb]
    rfl
  have hpass : (processPass quietDevices c3).flipped = [t]
      ∧ (processPass quietDevices c3).m_input = [] := by
    rcases processPass_queue quietDevices c3 with hq | ⟨t2, rest, h1, h2, _, h4⟩
    · exfalso
      have h5 := hq.1
      unfold processPass at h5
      rw [if_neg (by rw [hstop]; simp), hm] at h5
      have h6 := (sameQueue_ShowPage quietDevices { c3 with m_input := [] } t.page
        (checkIPUStrideOffset quietDevices.IPU_DEINTERLACE_RATE_FRAME1
          quietDevices.RENDER_FLAG_TOP quietDevices.RENDER_FLAG_BOT t.input_deinterlace)).1
      exact absurd (h5.symm.trans h6) (by simp)
    · rw [hm] at h1
      cases h1
      rw [h4, hf, h2]
      exact ⟨rfl, rfl⟩
  have h := C23_flipped_in_submission_order quietDevices 0 _ playDisplay _ rfl hrun
  refine ⟨_, hrun, ?_, hpass.2, h.2.2.2.2 0 ?_⟩
  · rw [hpass.1]
    rfl
  · rw [hpass.1]
    exact Nat.zero_lt_one

theorem idleDisplay_rects :
    integerRects id idleDisplay none
      = ({ x1 := 0, y1 := 0, x2 := 0, y2 := 0 }, { x1 := 0, y1 := 0, x2 := 0, y2 := 0 }) := by
  norm_num [integerRects, clampedRects, destinationRect, idleDisplay, projectRects,
    CRect.Width, CRect.Height, alignRect, floatToInt]
  decide

theorem idleDisplay_task :
    PrepareTask id VS_INTERLACEMETHOD_AUTO idleDisplay none (some 0) none = idleTask := by
  unfold PrepareTask
  simp only [idleDisplay_rects]
  rfl

theorem tiledDisplay_task :
    PrepareTask id VS_INTERLACEMETHOD_AUTO tiledDisplay none (some 0) none = playTask := by
  have h : integerRects id tiledDisplay none = integerRects id playDisplay none := rfl
  unfold PrepareTask
  simp only [h, playDisplay_rects]
  rfl

/-- C24, witness: on the example without extent of the rectangles, `DoTask` returns `false`
for the degenerate crop, and `Blit` returns with the queue as it was. On the example with
a tiled source, where no buffer of the 2D engine can be allocated, `DoTask` returns
`false`. -/
theorem C24_failed_task_discarded_witness :
    (∃ c3, Blit quietDevices 0 idleDisplay none (some 0) 0 0 none = some c3
      ∧ c3.m_input = idleDisplay.m_input ∧ c3.pushed = idleDisplay.pushed) ∧
    (∃ c2 ipu2, DoTask quietDevices 0 tiledDisplay { playTask with page := 0 }
      = some (c2, ipu2, false)) := by
  have hC := C24_failed_task_discarded quietDevices 0 idleDisplay none (some 0) 0 0 none
  constructor
  · obtain ⟨r, hr⟩ : ∃ r, populateTask quietDevices idleDisplay { idleTask with page := 0 }
        = some r := ⟨_, rfl⟩
    have hd := hC.2.1 idleDisplay { idleTask with page := 0 } r hr (Or.inl (le_refl 0))
    have hc : constructTask quietDevices 0 (blitEntry quietDevices idleDisplay 0) none
        (some 0) 0 (blitPage quietDevices idleDisplay 0) none = some (r.1, r.2.1, false) := by
      have hb : blitEntry quietDevices idleDisplay 0 = idleDisplay := rfl
      have hg : blitPage quietDevices idleDisplay 0 = 0 := rfl
      rw [hb, hg]
      unfold constructTask
      have hs : bufferAt idleDisplay (some 0) = some playBuffer := rfl
      rw [hs]
      simp only
      have hf : SetFieldData quietDevices idleDisplay 0 playBuffer.m_fps = idleDisplay := rfl
      rw [hf]
      have ht : PrepareTask quietDevices.rnd quietDevices.m_InterlaceMethod idleDisplay none
          (some 0) none = idleTask := idleDisplay_task
      rw [ht]
      exact hd
    exact ⟨r.1, hC.1 r.1 r.2.1 hc⟩
  · obtain ⟨r, hr, hcur, hb⟩ : ∃ r, populateTask quietDevices tiledDisplay
          { playTask with page := 0 } = some r
        ∧ bufferAt r.1 (some 0) = some tiledBuffer ∧ r.1.m_CaptureDone = false
        ∧ r.1.calls.length = 0 :=
      ⟨_, rfl, rfl, rfl, rfl⟩
    exact hC.2.2 tiledDisplay { playTask with page := 0 } r tiledBuffer hr (by decide) hcur
      (Or.inl rfl) (fun h => absurd h.2.2.2.2 (by rw [hb.1]; decide)) rfl

/-! ## Dispose and the entries of the pool -/

theorem poolEntry_set_ne (s : CDVDVideoCodecIMX) (w : World) (i j : Nat) (hij : i ≠ j) :
    poolEntry { s with world := w,
                       m_outputBuffers := s.m_outputBuffers.map (fun a => a.set i none) } j
      = poolEntry s j := by
  unfold poolEntry
  cases s.m_outputBuffers with
  | none => rfl
  | some a =>
    simp only [Option.map_some', Option.getD_some]
    exact getD_set_ne _ _ _ _ _ hij

/-- The loop of `Dispose` sets `fault` only at an entry that is not assigned. -/
theorem disposeLoop_fault (o : Vpu) (k : Nat) :
    ∀ (i : Nat) (s : CDVDVideoCodecIMX),
      (∀ j, i ≤ j → j < i + k → poolEntry s j ≠ none) →
      (disposeLoop o k i s).fault = s.fault := by
  induction k with
  | zero => intro i s _; rfl
  | succ k ih =>
    intro i s h
    unfold disposeLoop
    cases hp : poolEntry s i with
    | none => exact absurd hp (h i (le_refl i) (by omega))
    | some b =>
      simp only
      rw [ih (i + 1)]
      · rfl
      · intro j h1 h2
        have e := poolEntry_set_ne s (setHeap (releaseFramebufferOf o s b).1
          (SAFE_RELEASE (releaseFramebufferOf o s b).1.world.heap (some b))).world i j (by omega)
        have e2 : poolEntry { setHeap (releaseFramebufferOf o s b).1
            (SAFE_RELEASE (releaseFramebufferOf o s b).1.world.heap (some b)) with
            m_outputBuffers := (setHeap (releaseFramebufferOf o s b).1
              (SAFE_RELEASE (releaseFramebufferOf o s b).1.world.heap (some b))).m_outputBuffers.map
                (fun a => a.set i none) } j = poolEntry s j := e
        rw [e2]
        exact h j (by omega) (by omega)

/-- The loop of `Dispose` sets `fault` when it meets an entry that is not assigned. -/
theorem disposeLoop_fault_at (o : Vpu) (k : Nat) :
    ∀ (i : Nat) (s : CDVDVideoCodecIMX) (j : Nat), i ≤ j → j < i + k → poolEntry s j = none →
      (disposeLoop o k i s).fault = true := by
  induction k with
  | zero => intro i s j h1 h2; omega
  | succ k ih =>
    intro i s j h1 h2 hj
    have mono : ∀ (k i : Nat) (s : CDVDVideoCodecIMX), s.fault = true →
        (disposeLoop o k i s).fault = true := by
      intro k
      induction k with
      | zero => intro i s h; exact h
      | succ k ihk =>
        intro i s h
        unfold disposeLoop
        cases poolEntry s i with
        | none => exact ihk (i + 1) { s with fault := true } rfl
        | some b => exact ihk (i + 1) _ h
    unfold disposeLoop
    cases hp : poolEntry s i with
    | none => exact mono k (i + 1) { s with fault := true } rfl
    | some b =>
      simp only
      have hne : i ≠ j := by
        rintro rfl
        rw [hp] at hj
        cases hj
      refine ih (i + 1) _ j (by omega) (by omega) ?_
      have e := poolEntry_set_ne s (setHeap (releaseFramebufferOf o s b).1
        (SAFE_RELEASE (releaseFramebufferOf o s b).1.world.heap (some b))).world i j hne
      exact e.trans hj

theorem Dispose_fault (o : Vpu) (s : CDVDVideoCodecIMX) :
    (Dispose o s).fault
      = (disposeLoop o s.m_vpuFrameBufferNum 0 (releaseCurrentBuffer (releaseLastBuffer s))).fault := by
  have hf := fun t => VpuFreeBuffers_fields o t
  have hfault : ∀ t, (VpuFreeBuffers o t).1.fault = t.fault := fun t => by rw [hf]
  unfold Dispose
  simp only
  split_ifs <;> simp only [logCall, hfault] <;> rfl

/-- C17, for the session states in which every entry of `m_outputBuffers` below the pool
count is assigned: `Dispose` calls no method through an unassigned entry, and whatever
codes the hardware release calls return, afterwards the hardware handle is zero, the
pool count is zero, the slot array and the buffer array are gone, and the memory
allocator tracks no virtual and no physical block; the handle of an open session was
passed to `VPU_DecClose`; a second `Dispose`, whatever the hardware answers then,
changes nothing and calls no hardware function. -/
theorem C17_dispose_releases_everything (o : Vpu) (s : CDVDVideoCodecIMX) (hpool : poolAssigned s) :
    (Dispose o s).fault = s.fault ∧
    (Dispose o s).m_vpuHandle = 0 ∧ (Dispose o s).m_vpuFrameBufferNum = 0 ∧
    (Dispose o s).m_vpuFrameBuffers = none ∧ (Dispose o s).m_outputBuffers = none ∧
    (Dispose o s).m_decMemInfo.virtMem = none ∧ (Dispose o s).m_decMemInfo.phyMem = none ∧
    (s.m_vpuHandle ≠ 0 → VpuCall.DecClose s.m_vpuHandle ∈ (Dispose o s).world.calls) ∧
    ∀ o2, Dispose o2 (Dispose o s) = Dispose o s := by
  obtain ⟨h1, h2, h3, h4, h5, h6, h7, h8, h9, h10⟩ := Dispose_spec o s
  refine ⟨?_, h1, h2, h3, h4, h5, h6, Dispose_closes o s,
    fun o2 => Dispose_fixed o2 _ h1 h2 h3 h4 h5 h6 h7 h8 h9 h10⟩
  have e := disposeLoop_fault o s.m_vpuFrameBufferNum 0 (releaseCurrentBuffer (releaseLastBuffer s))
    (fun j _ hj => hpool j (by simpa using hj))
  rw [Dispose_fault, e]
  rfl

/-- C17, witness: the session with a pool of eight assigned buffers, and hardware whose
every call succeeds. -/
theorem C17_dispose_releases_everything_witness :
    poolAssigned pooledSession ∧
    (Dispose (exampleVpu noFlags) pooledSession).fault = pooledSession.fault ∧
    (Dispose (exampleVpu noFlags) pooledSession).m_vpuHandle = 0 ∧
    (Dispose (exampleVpu noFlags) pooledSession).m_vpuFrameBufferNum = 0 ∧
    (Dispose (exampleVpu noFlags) pooledSession).m_vpuFrameBuffers = none ∧
    (Dispose (exampleVpu noFlags) pooledSession).m_outputBuffers = none ∧
    (Dispose (exampleVpu noFlags) pooledSession).m_decMemInfo.virtMem = none ∧
    (Dispose (exampleVpu noFlags) pooledSession).m_decMemInfo.phyMem = none ∧
    (pooledSession.m_vpuHandle ≠ 0 →
      VpuCall.DecClose pooledSession.m_vpuHandle
        ∈ (Dispose (exampleVpu noFlags) pooledSession).world.calls) ∧
    ∀ o2, Dispose o2 (Dispose (exampleVpu noFlags) pooledSession)
      = Dispose (exampleVpu noFlags) pooledSession :=
  ⟨by decide, C17_dispose_releases_everything (exampleVpu noFlags) pooledSession (by decide)⟩

/-- C17, counterexample: in the session that a failed allocation of the pool leaves, the
pool count is eight and the entries 0 and 1 are assigned, but entry 2 is not. No
unassigned pointer was dereferenced so far. `Dispose` on this session, with hardware
whose every call succeeds, calls `ReleaseFramebuffer` through the unassigned entry. -/
theorem C17_counterexample :
    failedAllocSession.fault = false ∧
    failedAllocSession.m_vpuFrameBufferNum = 8 ∧
    poolEntry failedAllocSession 0 = some 0 ∧
    poolEntry failedAllocSession 1 = some 1 ∧
    poolEntry failedAllocSession 2 = none ∧
    (Dispose (exampleVpu noFlags) failedAllocSession).fault = true := by
  decide

/-! ## One ready buffer for each call of `Decode` -/

theorem decodeLoop_oneDisplay (o : Vpu) (i420 : Bool) (dts pts : Int) (fuel : Nat)
    (s : CDVDVideoCodecIMX) (nSize : Int) (retries retStatus : Nat)
    (r : CDVDVideoCodecIMX × Nat × Bool)
    (h : decodeLoop o i420 dts pts fuel s nSize retries retStatus = some r)
    (hs : s.m_currentBuffer = none) (hr : retStatus = 0 ∨ retStatus = VC_FLUSHED) :
    displayResponses o r.1 ≤ displayResponses o s + 1 ∧
    (displayResponses o r.1 = displayResponses o s → r.1.m_currentBuffer = none) ∧
    (displayResponses o r.1 = displayResponses o s + 1 →
      ∃ s1 nSize1 retStatus1,
        displayResponses o s1 = displayResponses o s ∧
        s1.m_currentBuffer = none ∧ retStatus1 &&& VC_PICTURE = 0 ∧
        (o.decRet s1.world.calls.length).VPU_DEC_OUTPUT_DIS = true ∧
        r = decodePass o i420 dts pts s1 nSize1 retStatus1) := by
  refine decodeLoop_rule o i420 dts pts
    (fun s retStatus r => s.m_currentBuffer = none → (retStatus = 0 ∨ retStatus = VC_FLUSHED) →
      displayResponses o r.1 ≤ displayResponses o s + 1 ∧
      (displayResponses o r.1 = displayResponses o s → r.1.m_currentBuffer = none) ∧
      (displayResponses o r.1 = displayResponses o s + 1 →
        ∃ s1 nSize1 retStatus1,
          displayResponses o s1 = displayResponses o s ∧
          s1.m_currentBuffer = none ∧ retStatus1 &&& VC_PICTURE = 0 ∧
          (o.decRet s1.world.calls.length).VPU_DEC_OUTPUT_DIS = true ∧
          r = decodePass o i420 dts pts s1 nSize1 retStatus1))
    ?_ ?_ fuel s nSize retries retStatus r h hs hr
  · intro s nSize retStatus hs hr
    have hcount := displayResponses_decodePass o i420 dts pts s nSize retStatus
    have hheld := (decodePass_held o i420 dts pts s nSize retStatus hs hr).2
    have hbit : retStatus &&& VC_PICTURE = 0 := by
      rcases hr with h | h <;> rw [h] <;> rfl
    cases hdis : (o.decRet s.world.calls.length).VPU_DEC_OUTPUT_DIS with
    | false =>
      rw [hdis] at hcount
      simp only [Bool.false_eq_true, if_false, add_zero] at hcount
      refine ⟨by omega, fun _ => (hheld hdis).1, fun h => ?_⟩
      omega
    | true =>
      rw [hdis] at hcount
      simp only [if_true] at hcount
      refine ⟨by omega, fun h => ?_, fun _ => ⟨s, nSize, retStatus, rfl, hs, hbit, hdis, rfl⟩⟩
      omega
  · intro s nSize retStatus r _ hdone ih hs hr
    have hdis : (o.decRet s.world.calls.length).VPU_DEC_OUTPUT_DIS = false := by
      simp only [loopDone, Bool.or_eq_false_iff] at hdone
      exact hdone.2
    have hcount := displayResponses_decodePass o i420 dts pts s nSize retStatus
    rw [hdis] at hcount
    simp only [Bool.false_eq_true, if_false, add_zero] at hcount
    obtain ⟨h1, h2⟩ := (decodePass_held o i420 dts pts s nSize retStatus hs hr).2 hdis
    have := ih h1 h2
    rw [hcount] at this
    exact this

/-- C11: every `Decode` call produces at most one ready buffer. For every sequence of
hardware responses, one call handles at most one response that carries the
frame-displayable flag. If it handles none, there is no current buffer at the end of
the call. If it handles one, that response is the one of the last pass of the decode
loop: the pass starts without a current buffer and with a status in which the
picture-ready bit is clear, so the test of the frame-displayable branch for a second
picture in the same call fails, and the call ends with what this pass leaves; the
buffer the branch makes current in it is the one the call reports. -/
theorem C11_one_ready_buffer_per_call (o : Vpu) (i420 : Bool) (s : CDVDVideoCodecIMX)
    (pData : Bool) (iSize : Int) (converted : Option Int) (dts pts : Int) :
    displayResponses o (Decode o i420 s pData iSize converted dts pts).1
      ≤ displayResponses o s + 1 ∧
    (displayResponses o (Decode o i420 s pData iSize converted dts pts).1
        = displayResponses o s →
      (Decode o i420 s pData iSize converted dts pts).1.m_currentBuffer = none) ∧
    (displayResponses o (Decode o i420 s pData iSize converted dts pts).1
        = displayResponses o s + 1 →
      ∃ s1 nSize retStatus,
        displayResponses o s1 = displayResponses o s ∧
        s1.m_currentBuffer = none ∧ retStatus &&& VC_PICTURE = 0 ∧
        (o.decRet s1.world.calls.length).VPU_DEC_OUTPUT_DIS = true ∧
        Decode o i420 s pData iSize converted dts pts
          = finishDecode pts (decodePass o i420 dts pts s1 nSize retStatus)) := by
  have hb : displayResponses o (beginDecode o s) = displayResponses o s :=
    displayResponses_quiet o _ _ (prefix_beginDecode o s) (decodeCalls_beginDecode o s)
  have hrec : displayResponses o
      (recycleLoop o (beginDecode o s).m_vpuFrameBufferNum 0 (beginDecode o s))
      = displayResponses o s := by
    rw [displayResponses_quiet o _ _ (prefix_recycleLoop o _ 0 (beginDecode o s))
      (decodeCalls_recycleLoop o _ 0 (beginDecode o s)), hb]
  have hscan : (recycleLoop o (beginDecode o s).m_vpuFrameBufferNum 0
      (beginDecode o s)).m_currentBuffer = none := by
    rw [cur_recycleLoop]; exact cur_beginDecode o s
  have hfin : ∀ x, displayResponses o (finishDecode pts x).1 = displayResponses o x.1 := by
    intro x
    unfold finishDecode
    simp only
    split_ifs <;> rfl
  have hcur : ∀ x, (finishDecode pts x).1.m_currentBuffer = x.1.m_currentBuffer := by
    intro x
    unfold finishDecode
    simp only
    split_ifs <;> rfl
  rcases Decode_run o i420 s pData iSize converted dts pts with ⟨_, hD⟩ | ⟨_, r, hr, hD⟩
  · rw [hD, hb]
    refine ⟨by omega, fun _ => cur_beginDecode o s, fun h => ?_⟩
    omega
  · rw [hD, hfin, hcur]
    rcases hr with rfl | ⟨nSize, hr⟩
    · rw [hrec]
      refine ⟨by omega, fun _ => hscan, fun h => ?_⟩
      omega
    · obtain ⟨h1, h2, h3⟩ := decodeLoop_oneDisplay o i420 dts pts _ _ _ _ _ r hr hscan (Or.inl rfl)
      rw [hrec] at h1 h2 h3
      refine ⟨h1, h2, fun h => ?_⟩
      obtain ⟨s1, n1, rs1, e1, e2, e3, e4, e5⟩ := h3 h
      exact ⟨s1, n1, rs1, e1, e2, e3, e4, by rw [e5]⟩

/-! ## The pool after a change of resolution -/

/-- The blocks of the pool that the branch for initialization and change of resolution
allocates: slot `j` is laid out in the block that the allocator returns for the request
at position `j` after the fetch of the stream parameters, and the decode buffers of the
pool are appended to the heap as new objects. -/
theorem handleInit_pool (o : Vpu) (i420 : Bool) (t : CDVDVideoCodecIMX)
    (decRet : VpuDecBufRetCode) (hflag : decRet.VPU_DEC_RESOLUTION_CHANGED = true)
    (hok : (handleInit o i420 t decRet).2 = true) :
    ∃ l0 F2, planeSizes i420 (o.initInfo t.world.calls.length) = some l0 ∧
      (handleInit o i420 t decRet).1.m_vpuFrameBuffers = some F2 ∧
      (∀ j, j < (o.initInfo t.world.calls.length).nMinFrameBufferCount + m_extraVpuBuffers →
        F2.getD j default = fillFrameBuffer i420 (alignSizes l0)
          { o.memDesc (t.world.calls.length + 1 + j) with
            nSize := totalSize (alignSizes l0) }) ∧
      (handleInit o i420 t decRet).1.world.heap
        = t.world.heap ++ List.replicate
          ((o.initInfo t.world.calls.length).nMinFrameBufferCount + m_extraVpuBuffers)
          { CDVDVideoCodecIMXBuffer.new with m_iRefs := 1 } := by
  unfold handleInit at hok ⊢
  simp only [hflag, or_true, if_true] at hok ⊢
  by_cases hinfo : o.ret t.world.calls.length = VPU_DEC_RET_SUCCESS
  · simp only [hinfo, if_true] at hok ⊢
    cases hrun : VpuAllocFrameBuffers o i420
        { logCall t (VpuCall.DecGetInitialInfo t.m_vpuHandle) with
          m_initInfo := o.initInfo t.world.calls.length } with
    | mk s3 ok =>
      rw [hrun] at hok
      simp only at hok ⊢
      cases ok with
      | false => simp at hok
      | true =>
        simp only [if_true] at hok ⊢
        obtain ⟨l0, F2, B2, hl, h1, h2, h3, h4, h5, h6, h7⟩ :=
          VpuAllocFrameBuffers_spec o i420 _ s3 hrun
        have hl2 : planeSizes i420 (o.initInfo t.world.calls.length) = some l0 := hl
        have hrun2 := hrun
        unfold VpuAllocFrameBuffers at hrun2
        simp only [hl2] at hrun2
        obtain ⟨F3, g1, _, _, g4⟩ := allocFrameLoop_block o i420 (alignSizes l0) _ 0 _ s3 _
          hrun2 rfl (by simp)
        rw [h1] at g1
        cases g1
        refine ⟨l0, F2, hl2, ?_, ?_, ?_⟩
        · split_ifs <;> exact h1
        · intro j hj
          have e := g4 j (Nat.zero_le j) (by omega)
          simp only [logCall, List.length_append, List.length_singleton, Nat.sub_zero] at e
          exact e
        · have e : s3.world.heap = t.world.heap ++ List.replicate
              ((o.initInfo t.world.calls.length).nMinFrameBufferCount + m_extraVpuBuffers)
              { CDVDVideoCodecIMXBuffer.new with m_iRefs := 1 } := h5
          split_ifs <;> exact e
  · simp [hinfo] at hok

/-- C9 (as amended): when a decoder response inside `Decode` carries the
resolution-changed flag with the return code `VPU_DEC_RET_WRONG_CALL_SEQUENCE`, and the
fetch of the stream parameters, the allocation and the registration succeed, then in
that pass of the decode loop: every memory block the allocator tracked is freed and none
is tracked any more; a new pool is allocated whose size is the `nMinFrameBufferCount` of
the stream parameters fetched in this pass plus 6; its decode buffers are new objects,
appended to the heap, none of which existed before, and pool entry `j` points to the
`j`-th of them; slot `j` is laid out, for the sizes of the fetched stream parameters, in
the block the allocator returns for the `j`-th memory request of this pass; this
happens exactly once (one fetch of the stream parameters, one memory request per slot,
one registration) and before the one-frame-consumed and frame-displayable flags of the
same response are handled, which add no call of the tear-down or allocation of the
pool. -/
theorem C9_resolution_change_reallocates_pool (o : Vpu) (i420 : Bool) (s : CDVDVideoCodecIMX)
    (nSize : Int) (retStatus : Nat) (dts pts : Int)
    (hflag : (o.decRet s.world.calls.length).VPU_DEC_RESOLUTION_CHANGED = true)
    (hseq : o.ret s.world.calls.length = VPU_DEC_RET_WRONG_CALL_SEQUENCE)
    (hok : (handleInit o i420 (decodeCall o s nSize).1 (decodeCall o s nSize).2.1).2 = true) :
    (decodeCall o s nSize).1.m_decMemInfo.phyMem = none ∧
    (decodeCall o s nSize).1.m_decMemInfo.virtMem = none ∧
    (∀ m phyMem, s.m_decMemInfo.phyMem = some phyMem → m ∈ phyMem.take s.m_decMemInfo.nPhyNum →
      VpuCall.DecFreeMem m ∈ (decodeCall o s nSize).1.world.calls) ∧
    m_extraVpuBuffers = 6 ∧
    ∃ l0 F2 B2,
      planeSizes i420 (o.initInfo (decodeCall o s nSize).1.world.calls.length) = some l0 ∧
      (handleInit o i420 (decodeCall o s nSize).1 (decodeCall o s nSize).2.1).1.m_vpuFrameBuffers
        = some F2 ∧
      (handleInit o i420 (decodeCall o s nSize).1 (decodeCall o s nSize).2.1).1.m_outputBuffers
        = some B2 ∧
      (handleInit o i420 (decodeCall o s nSize).1 (decodeCall o s nSize).2.1).1.m_vpuFrameBufferNum
        = (o.initInfo (decodeCall o s nSize).1.world.calls.length).nMinFrameBufferCount
          + m_extraVpuBuffers ∧
      F2.length = (o.initInfo (decodeCall o s nSize).1.world.calls.length).nMinFrameBufferCount
        + m_extraVpuBuffers ∧
      B2.length = (o.initInfo (decodeCall o s nSize).1.world.calls.length).nMinFrameBufferCount
        + m_extraVpuBuffers ∧
      (handleInit o i420 (decodeCall o s nSize).1 (decodeCall o s nSize).2.1).1.world.heap
        = s.world.heap ++ List.replicate
          ((o.initInfo (decodeCall o s nSize).1.world.calls.length).nMinFrameBufferCount
            + m_extraVpuBuffers)
          { CDVDVideoCodecIMXBuffer.new with m_iRefs := 1 } ∧
      (∀ j, j < (o.initInfo (decodeCall o s nSize).1.world.calls.length).nMinFrameBufferCount
          + m_extraVpuBuffers →
        F2.getD j default = fillFrameBuffer i420 (alignSizes l0)
          { o.memDesc ((decodeCall o s nSize).1.world.calls.length + 1 + j) with
            nSize := totalSize (alignSizes l0) } ∧
        B2.getD j none = some (s.world.heap.length + j)) ∧
      (handleInit o i420 (decodeCall o s nSize).1 (decodeCall o s nSize).2.1).1.world.calls
        = (decodeCall o s nSize).1.world.calls ++ [VpuCall.DecGetInitialInfo s.m_vpuHandle]
          ++ List.replicate
            ((o.initInfo (decodeCall o s nSize).1.world.calls.length).nMinFrameBufferCount
              + m_extraVpuBuffers)
            (VpuCall.DecGetMem (totalSize (alignSizes l0)))
          ++ [VpuCall.DecRegisterFrameBuffer s.m_vpuHandle F2
            ((o.initInfo (decodeCall o s nSize).1.world.calls.length).nMinFrameBufferCount
              + m_extraVpuBuffers)] ∧
      quietExt
        (handleInit o i420 (decodeCall o s nSize).1 (decodeCall o s nSize).2.1).1.world.calls
        (handleOutput o (handleConsumed o
          (handleInit o i420 (decodeCall o s nSize).1 (decodeCall o s nSize).2.1).1
          (decodeCall o s nSize).2.1 pts) (decodeCall o s nSize).2.1 retStatus dts pts).1.world.calls := by
  obtain ⟨t, ht, hheap, hmem, hhandle, _⟩ := decodeCall_resolutionChanged o s nSize hflag hseq
  obtain ⟨f1, f2, f3, f4, f5⟩ := VpuFreeBuffers_spec o t
  rw [ht] at hok ⊢
  simp only at hok ⊢
  refine ⟨f1, f2, ?_, rfl, ?_⟩
  · intro m phyMem hp hm
    rw [← hmem] at hp hm
    exact f3 m phyMem hp hm
  · obtain ⟨l0, F2, B2, g1, g2, g3, g4, g5, g6, g7, g8⟩ :=
      handleInit_spec o i420 (VpuFreeBuffers o t).1 _ hflag hok
    obtain ⟨l1, F3, k1, k2, k3, k4⟩ := handleInit_pool o i420 (VpuFreeBuffers o t).1 _ hflag hok
    rw [g1] at k1
    cases k1
    rw [g2] at k2
    cases k2
    refine ⟨l0, F2, B2, g1, g2, g3, g4, g5, g6, ?_, ?_, ?_, ?_⟩
    · rw [k4, f4, hheap]
    · intro j hj
      refine ⟨k3 j hj, ?_⟩
      have := (g7 j hj).2
      rw [f4, hheap] at this
      exact this
    · rw [g8, f5, hhandle]
    · exact quietExt_trans _ _ _ (quietExt_handleConsumed o _ _ pts)
        (quietExt_handleOutput o _ _ retStatus dts pts)

/-- C9, witness: the second `Decode` on `pooledSession` meets a change of resolution;
afterwards the allocator tracks none of the old blocks, and the pool has the two buffers
the stream asks for and six more. -/
theorem C9_resolution_change_reallocates_pool_witness :
    (resolutionChangeVpu.decRet pooledSession.world.calls.length).VPU_DEC_RESOLUTION_CHANGED
      = true ∧
    resolutionChangeVpu.ret pooledSession.world.calls.length = VPU_DEC_RET_WRONG_CALL_SEQUENCE ∧
    (handleInit resolutionChangeVpu false (decodeCall resolutionChangeVpu pooledSession 100).1
      (decodeCall resolutionChangeVpu pooledSession 100).2.1).2 = true ∧
    (decodeCall resolutionChangeVpu pooledSession 100).1.m_decMemInfo.phyMem = none ∧
    (decodeCall resolutionChangeVpu pooledSession 100).1.m_decMemInfo.virtMem = none ∧
    m_extraVpuBuffers = 6 :=
  (fun t => ⟨by decide, by decide, by decide, t.1, t.2.1, t.2.2.2.1⟩)
    (C9_resolution_change_reallocates_pool resolutionChangeVpu false pooledSession 100 0 0 0
      (by decide) (by decide) (by decide))

/-! ## Sequences of `Lock` and `Release` on a buffer with a chain of previous buffers -/

theorem chainAcyclic_of_noPrevious (h : Heap) (self : Nat)
    (hp : (read h self).m_previousBuffer = none) : chainAcyclic h self := by
  unfold chainAcyclic releaseFuel
  simp [chain, hp]

/-- After `Release` the chain of previous buffers of the buffer still runs into no
cycle. -/
theorem Release_chainAcyclic (h : Heap) (self : Nat) (hb : self < h.length)
    (hac : chainAcyclic h self) : chainAcyclic (Release h self).1 self := by
  by_cases hc : (read h self).m_iRefs - 1 = 2
      ∨ ((read h self).m_iRefs - 1 = 1 ∧ (read h self).m_frameBuffer ≠ none)
  · apply chainAcyclic_of_noPrevious
    rw [Release_self h self hb hac]
    simp only [if_pos hc]
  · have hprev : ∀ y, (read (Release h self).1 y).m_previousBuffer
        = (read h y).m_previousBuffer := by
      intro y
      rw [Release_unfold]
      simp only [read_write_same _ _ _ hb, write_write]
      have h2 : ¬ ((read h self).m_iRefs - 1 = 2) := fun e => hc (Or.inl e)
      rw [if_neg h2]
      by_cases h1 : (read h self).m_iRefs - 1 = 1
      · have hf : ¬ ((read h self).m_frameBuffer ≠ none) := fun e => hc (Or.inr ⟨h1, e⟩)
        rw [if_pos h1, if_neg hf]
        exact read_write_proj (fun b => b.m_previousBuffer) h self y _ rfl
      · rw [if_neg h1]
        by_cases h0 : (read h self).m_iRefs - 1 = 0
        · rw [if_pos h0]
          exact read_write_proj (fun b => b.m_previousBuffer) h self y _ rfl
        · rw [if_neg h0]
          exact read_write_proj (fun b => b.m_previousBuffer) h self y _ rfl
    exact chainAcyclic_congr h _ self (Release_length h self) hprev hac

/-- What `Lock` and `Release` do to the buffer they are called on, when the chain of
previous buffers does not run into a cycle. -/
theorem applyOp_self (h : Heap) (self : Nat) (op : BufferOp) (hb : self < h.length)
    (hac : chainAcyclic h self) :
    (applyOp h self op).length = h.length ∧
    chainAcyclic (applyOp h self op) self ∧
    (read (applyOp h self op) self).m_iRefs
      = (read h self).m_iRefs + (if op = BufferOp.lock then 1 else -1) ∧
    (read (applyOp h self op) self).destroyed
      = (read h self).destroyed
        + (if op = BufferOp.release ∧ (read h self).m_iRefs - 1 = 0 then 1 else 0) := by
  cases op with
  | lock =>
    refine ⟨by simp [applyOp, Lock, length_write], ?_, ?_, ?_⟩
    · exact chainAcyclic_congr h _ self (length_write _ _ _)
        (fun y => prev_write_refs h self y _) hac
    · simp [applyOp, Lock, read_write_same, hb]
    · simp [applyOp, Lock, read_write_same, hb]
  | release =>
    refine ⟨Release_length h self, Release_chainAcyclic h self hb hac, ?_, ?_⟩
    · simp only [applyOp, Release_self h self hb hac]
      simp
      omega
    · simp only [applyOp, Release_self h self hb hac]
      by_cases h0 : (read h self).m_iRefs - 1 = 0 <;> simp [h0]

theorem runOps_self (h : Heap) (self : Nat) (ops : List BufferOp) (hb : self < h.length)
    (hac : chainAcyclic h self) :
    (runOps h self ops).length = h.length ∧
    chainAcyclic (runOps h self ops) self ∧
    (read (runOps h self ops) self).m_iRefs
      = (read h self).m_iRefs + countLock ops - countRelease ops := by
  induction ops using List.reverseRecOn with
  | nil => simp [runOps, hac, countLock, countRelease]
  | append_singleton l op ih =>
    obtain ⟨h1, h2, h3⟩ := ih
    obtain ⟨a1, a2, a3, _⟩ := applyOp_self (runOps h self l) self op (by omega) h2
    rw [runOps_append]
    refine ⟨by omega, a2, ?_⟩
    rw [a3, h3]
    cases op <;> simp [countLock, countRelease, List.count_append] <;> omega

end IMX
